import Mathlib

/-!
# nDPId flow engine: shallow embedding of `nDPId.c`

The definitions below follow `src/nDPId.c`.  Machine integers are `Nat` / `Int`
with explicit wrap-around.  Conventions of the embedding:

* `uintN_t` values are `Nat`, reduced `% 2^N` where the C code can wrap;
* `int thread_index` is an `Int`; conversion of an out-of-range value to `int`
  and signed wrap are modelled as two's complement (`to_int`), `%` on `int`
  truncates towards zero (`Int.tmod`);
* the union `ip_tuple` is kept in its `v6` view (four 64-bit words); the `v4`
  view overlays the first word (little-endian host): `v4.src` is the low and
  `v4.dst` the high 32 bits of `v6.src[0]`;
* the flow trees (`ndpi_tsearch`, `ndpi_tfind`, `ndpi_tdelete`, `ndpi_twalk`
  of the nDPI library) are unbalanced binary search trees holding the flow
  records by value; a write through the pointer `flow_to_process` is a
  replacement of the record at the node the lookup stopped at;
* what the packet bytes decode to, and what the nDPI library and the
  allocator answer while one packet is processed, are inputs of the step
  function (`packet_view`, `ndpi_results`).
-/

namespace NDPId

/-! ## Constants (lines 22-28) -/

def MAX_FLOW_ROOTS_PER_THREAD : Nat := 2048
def MAX_IDLE_FLOWS_PER_THREAD : Nat := 64
def TICK_RESOLUTION : Nat := 1000
def MAX_READER_THREADS : Nat := 4
def IDLE_SCAN_PERIOD : Nat := 10000
def MAX_IDLE_TIME : Nat := 300000
def INITIAL_THREAD_HASH : Int := 0x03dd018b

def ETH_P_IP : Nat := 0x0800
def ETH_P_IPV6 : Nat := 0x86DD
def ETH_P_ARP : Nat := 0x0806
def DLT_NULL : Nat := 0
def DLT_EN10MB : Nat := 1
def IPPROTO_TCP : Nat := 6
def IPPROTO_UDP : Nat := 17
def NDPI_PROTOCOL_UNKNOWN : Nat := 0

/-- Size of `struct ndpi_ethhdr`. -/
def sizeof_ethhdr : Nat := 14
/-- Size of `struct ndpi_iphdr`. -/
def sizeof_iphdr : Nat := 20
/-- Size of `struct ndpi_ipv6hdr`. -/
def sizeof_ipv6hdr : Nat := 40
/-- Size of `struct ndpi_tcphdr`. -/
def sizeof_tcphdr : Nat := 20
/-- Size of `struct ndpi_udphdr`. -/
def sizeof_udphdr : Nat := 8

def U16 : Nat := 2 ^ 16
def U32 : Nat := 2 ^ 32
def U64 : Nat := 2 ^ 64

/-- Value of an integer after conversion to (or wrap-around in) a 32-bit `int`. -/
def to_int (x : Int) : Int := (x + 2 ^ 31) % 2 ^ 32 - 2 ^ 31

/-! ## Data model (lines 30-111) -/

inductive nDPId_l3_type where
  | L3_IP
  | L3_IP6
  deriving DecidableEq, Repr

structure ndpi_proto where
  master_protocol : Nat
  app_protocol : Nat
  category : Nat
  deriving DecidableEq, Repr

/-- The record `struct nDPId_flow_info`.  `v6_src0 .. v6_dst1` are the four
64-bit words of the union `ip_tuple`; `num_processed_pkts` is the field of the
DPI-owned `ndpi_flow` that the packet path reads. -/
structure nDPId_flow_info where
  flow_id : Nat
  packets_processed : Nat
  first_seen : Nat
  last_seen : Nat
  hashval : Nat
  l3_type : nDPId_l3_type
  v6_src0 : Nat
  v6_src1 : Nat
  v6_dst0 : Nat
  v6_dst1 : Nat
  min_l4_data_len : Nat
  max_l4_data_len : Nat
  total_l4_data_len : Nat
  src_port : Nat
  dst_port : Nat
  is_midstream_flow : Nat
  flow_fin_ack_seen : Nat
  flow_ack_seen : Nat
  detection_completed : Nat
  l4_protocol : Nat
  detected_l7_protocol : ndpi_proto
  guessed_protocol : ndpi_proto
  num_processed_pkts : Nat
  deriving DecidableEq, Repr

/-- The `v4.src` member of the union: low 32 bits of the first word. -/
def nDPId_flow_info.v4_src (f : nDPId_flow_info) : Nat := f.v6_src0 % U32

/-- The `v4.dst` member of the union: high 32 bits of the first word. -/
def nDPId_flow_info.v4_dst (f : nDPId_flow_info) : Nat := f.v6_src0 / U32 % U32

/-- The zero-initialised local `struct nDPId_flow_info flow = {}` (line 674). -/
def flow_zero : nDPId_flow_info :=
  { flow_id := 0, packets_processed := 0, first_seen := 0, last_seen := 0, hashval := 0,
    l3_type := .L3_IP, v6_src0 := 0, v6_src1 := 0, v6_dst0 := 0, v6_dst1 := 0,
    min_l4_data_len := 0, max_l4_data_len := 0, total_l4_data_len := 0,
    src_port := 0, dst_port := 0, is_midstream_flow := 0, flow_fin_ack_seen := 0,
    flow_ack_seen := 0, detection_completed := 0, l4_protocol := 0,
    detected_l7_protocol := ⟨0, 0, 0⟩, guessed_protocol := ⟨0, 0, 0⟩,
    num_processed_pkts := 0 }

inductive flow_event where
  | FLOW_NEW
  | FLOW_END
  | FLOW_IDLE
  | FLOW_GUESSED
  | FLOW_DETECTED
  | FLOW_NOT_DETECTED
  deriving DecidableEq, Repr

/-! ## Comparators (lines 344-445) -/

/-- Source `ip_tuples_equal` (lines 344-359). -/
def ip_tuples_equal (A B : nDPId_flow_info) : Bool :=
  if A.l3_type = .L3_IP ∧ B.l3_type = .L3_IP6 then
    decide (A.v4_src = B.v4_src ∧ A.v4_dst = B.v4_dst)
  else if A.l3_type = .L3_IP6 ∧ B.l3_type = .L3_IP6 then
    decide (A.v6_src0 = B.v6_src0 ∧ A.v6_src1 = B.v6_src1 ∧
            A.v6_dst0 = B.v6_dst0 ∧ A.v6_dst1 = B.v6_dst1)
  else false

/-- The port comparison that ends `ip_tuples_compare` (lines 386-391). -/
def ports_compare (A B : nDPId_flow_info) : Int :=
  if A.src_port < B.src_port ∨ A.dst_port < B.dst_port then -1
  else if A.src_port > B.src_port ∨ A.dst_port > B.dst_port then 1
  else 0

/-- Source `ip_tuples_compare` (lines 361-392). -/
def ip_tuples_compare (A B : nDPId_flow_info) : Int :=
  if A.l3_type = .L3_IP ∧ B.l3_type = .L3_IP6 then
    if A.v4_src < B.v4_src ∨ A.v4_dst < B.v4_dst then -1
    else if A.v4_src > B.v4_src ∨ A.v4_dst > B.v4_dst then 1
    else ports_compare A B
  else if A.l3_type = .L3_IP6 ∧ B.l3_type = .L3_IP6 then
    if (A.v6_src0 < B.v6_src0 ∧ A.v6_src1 < B.v6_src1) ∨
       (A.v6_dst0 < B.v6_dst0 ∧ A.v6_dst1 < B.v6_dst1) then -1
    else if (A.v6_src0 > B.v6_src0 ∧ A.v6_src1 > B.v6_src1) ∨
            (A.v6_dst0 > B.v6_dst0 ∧ A.v6_dst1 > B.v6_dst1) then 1
    else ports_compare A B
  else ports_compare A B

/-- Source `ndpi_workflow_node_cmp` (lines 421-445). -/
def ndpi_workflow_node_cmp (A B : nDPId_flow_info) : Int :=
  if A.hashval < B.hashval then -1
  else if A.hashval > B.hashval then 1
  else if A.l4_protocol < B.l4_protocol then -1
  else if A.l4_protocol > B.l4_protocol then 1
  else if ip_tuples_equal A B ∧ A.src_port = B.src_port ∧ A.dst_port = B.dst_port then 0
  else ip_tuples_compare A B

/-! ## Shard index (lines 697, 824-827, 850-862, 908-910) -/

/-- The value `thread_index = min_addr + ip->protocol` of the IPv4 branch
(lines 826-827): the sum is formed in `uint32_t` and converted to `int`. -/
def thread_index_v4 (saddr daddr protocol : Nat) : Int :=
  let min_addr := if saddr > daddr then daddr else saddr
  to_int (((min_addr + protocol) % U32 : Nat) : Int)

/-- The value `thread_index = min_addr[0] + min_addr[1] + ip6_un1_nxt` of the
IPv6 branch (lines 854-862): both elements of `min_addr` receive word 0 of the
chosen address; the sum is formed in `uint64_t` and converted to `int`. -/
def thread_index_v6 (src0 src1 dst0 dst1 nxt : Nat) : Int :=
  let min_addr0 := if src0 > dst0 ∧ src1 > dst1 then dst0 else src0
  let min_addr1 := if src0 > dst0 ∧ src1 > dst1 then dst0 else src0
  to_int (((min_addr0 + min_addr1 + nxt) % U64 : Nat) : Int)

/-- Lines 909-910: add the larger port, then `thread_index %= reader_thread_count`. -/
def thread_index_final (thread_index : Int) (src_port dst_port : Nat)
    (reader_thread_count : Int) : Int :=
  Int.tmod
    (to_int (thread_index + ((if src_port < dst_port then dst_port else src_port : Nat) : Int)))
    reader_thread_count

/-! ## Flow trees (nDPI library `ndpi_tsearch`, `ndpi_tfind`, `ndpi_tdelete`, `ndpi_twalk`) -/

/-- A tree slot of `ndpi_flows_active`: `null` is the NULL root, a node owns one flow record. -/
inductive ndpi_node where
  | null
  | node (key : nDPId_flow_info) (left right : ndpi_node)
  deriving DecidableEq, Repr

/-- The records of a tree. -/
def ndpi_node.keys : ndpi_node → List nDPId_flow_info
  | .null => []
  | .node k l r => k :: (l.keys ++ r.keys)

/-- Library `ndpi_tfind(key, rootp, compar)`: descend with `compar(key, node)`,
stop at the first node that compares equal. -/
def ndpi_tfind (compar : nDPId_flow_info → nDPId_flow_info → Int) (key : nDPId_flow_info) :
    ndpi_node → Option nDPId_flow_info
  | .null => none
  | .node k l r =>
    if compar key k = 0 then some k
    else if compar key k < 0 then ndpi_tfind compar key l
    else ndpi_tfind compar key r

/-- Library `ndpi_tsearch(key, rootp, compar)`: like `ndpi_tfind`, but a new leaf
holding `key` is linked where the descent ends (when the node allocation
`malloc_ok` succeeds).  Returns the new tree and the record returned (NULL is `none`). -/
def ndpi_tsearch (compar : nDPId_flow_info → nDPId_flow_info → Int) (malloc_ok : Bool)
    (key : nDPId_flow_info) : ndpi_node → ndpi_node × Option nDPId_flow_info
  | .null => if malloc_ok then (.node key .null .null, some key) else (.null, none)
  | .node k l r =>
    if compar key k = 0 then (.node k l r, some k)
    else if compar key k < 0 then
      ((.node k (ndpi_tsearch compar malloc_ok key l).1 r), (ndpi_tsearch compar malloc_ok key l).2)
    else
      ((.node k l (ndpi_tsearch compar malloc_ok key r).1), (ndpi_tsearch compar malloc_ok key r).2)

/-- A write through the pointer a lookup with `key` returned: the record of the
node where the descent stops is replaced by its image under `f`. -/
def ndpi_node.store (compar : nDPId_flow_info → nDPId_flow_info → Int) (key : nDPId_flow_info)
    (f : nDPId_flow_info → nDPId_flow_info) : ndpi_node → ndpi_node
  | .null => .null
  | .node k l r =>
    if compar key k = 0 then .node (f k) l r
    else if compar key k < 0 then .node k (ndpi_node.store compar key f l) r
    else .node k l (ndpi_node.store compar key f r)

/-- Leftmost record of a non-empty tree. -/
def ndpi_node.leftmost : ndpi_node → Option nDPId_flow_info
  | .null => none
  | .node k .null _ => some k
  | .node _ (.node lk ll lr) _ => ndpi_node.leftmost (.node lk ll lr)

/-- The tree without its leftmost node (the right child of that node takes its place). -/
def ndpi_node.drop_leftmost : ndpi_node → ndpi_node
  | .null => .null
  | .node _ .null r => r
  | .node k (.node lk ll lr) r => .node k (ndpi_node.drop_leftmost (.node lk ll lr)) r

/-- Steps D1-D4 of `ndpi_tdelete` at the node to unlink: the subtree that replaces it. -/
def ndpi_node.unlink : ndpi_node → ndpi_node
  | .null => .null
  | .node _ .null r => r
  | .node _ (.node lk ll lr) .null => .node lk ll lr
  | .node _ (.node lk ll lr) (.node rk rl rr) =>
    match ndpi_node.leftmost (.node rk rl rr) with
    | some q => .node q (.node lk ll lr) (ndpi_node.drop_leftmost (.node rk rl rr))
    | none => .node lk ll lr

/-- Library `ndpi_tdelete(key, rootp, compar)`: descend with `compar(key, node)`
and unlink the first node that compares equal; a miss leaves the tree as it is. -/
def ndpi_tdelete (compar : nDPId_flow_info → nDPId_flow_info → Int) (key : nDPId_flow_info) :
    ndpi_node → ndpi_node
  | .null => .null
  | .node k l r =>
    if compar key k = 0 then ndpi_node.unlink (.node k l r)
    else if compar key k < 0 then .node k (ndpi_tdelete compar key l) r
    else .node k l (ndpi_tdelete compar key r)

inductive ndpi_VISIT where
  | ndpi_preorder
  | ndpi_postorder
  | ndpi_endorder
  | ndpi_leaf
  deriving DecidableEq, Repr

/-- Library `ndpi_twalk`: the sequence of `action(node, which)` calls. -/
def ndpi_twalk : ndpi_node → List (nDPId_flow_info × ndpi_VISIT)
  | .null => []
  | .node k .null .null => [(k, .ndpi_leaf)]
  | .node k l r =>
    (k, .ndpi_preorder) :: (ndpi_twalk l ++ (k, .ndpi_postorder) :: (ndpi_twalk r ++
      [(k, .ndpi_endorder)]))

/-! ## Worker state (lines 72-116) -/

/-- One `jsonize_flow_event` call: the discriminator, the numeric fields
`jsonize_flow` serialises (lines 537-545) and the record they were taken from
(from which `flow2json` derives the address, port and protocol fields). -/
structure json_event where
  event : flow_event
  flow_id : Nat
  flow_l4_data_len : Nat
  flow_min_l4_data_len : Nat
  flow_max_l4_data_len : Nat
  flow_avg_l4_data_len : Nat
  packet_id : Nat
  midstream : Nat
  flow : nDPId_flow_info
  deriving DecidableEq, Repr

/-- The record `struct nDPId_workflow`.  `pcap_datalink` is the link type of the
capture handle.  `ndpi_flows_idle` holds the entries `0 .. cur_idle_flows - 1`
of the staging array, the last written first. -/
structure nDPId_workflow where
  pcap_datalink : Nat
  packets_captured : Nat
  packets_processed : Nat
  total_l4_data_len : Nat
  detected_flow_protocols : Nat
  last_idle_scan_time : Nat
  last_time : Nat
  ndpi_flows_active : Nat → ndpi_node
  max_active_flows : Nat
  cur_active_flows : Nat
  total_active_flows : Nat
  ndpi_flows_idle : List nDPId_flow_info
  max_idle_flows : Nat
  total_idle_flows : Nat

/-- The counter `cur_idle_flows`: number of staged entries. -/
def nDPId_workflow.cur_idle_flows (w : nDPId_workflow) : Nat := w.ndpi_flows_idle.length

/-- A reader thread together with the globals it uses, as this thread finds
them: `reader_thread_count` and the `flow_id` counter; `json_events` is the
sequence of events handed to the serializer, oldest first.  `flow_id` is the one
process-global `static uint32_t flow_id` of line 116, which all
`MAX_READER_THREADS` processing threads advance with a plain `flow_id++`
(line 1006); the field holds the value the variable has when this thread gets
to it.  A store of another thread to the variable is the step
`other_thread_store`; `run_pcap_loop` is a run during which no other thread
stores to it, `run_pcap_loop_shared` a run with such stores. -/
structure nDPId_reader_thread where
  workflow : nDPId_workflow
  array_index : Int
  reader_thread_count : Int
  flow_id : Nat
  json_events : List json_event

/-- Source `init_workflow` (lines 131-186) on success, for a capture handle of
link type `datalink`: everything zero (`ndpi_calloc`), the two capacities set. -/
def init_workflow (datalink : Nat) : nDPId_workflow :=
  { pcap_datalink := datalink, packets_captured := 0, packets_processed := 0,
    total_l4_data_len := 0, detected_flow_protocols := 0, last_idle_scan_time := 0,
    last_time := 0, ndpi_flows_active := fun _ => .null,
    max_active_flows := MAX_FLOW_ROOTS_PER_THREAD, cur_active_flows := 0,
    total_active_flows := 0, ndpi_flows_idle := [],
    max_idle_flows := MAX_IDLE_FLOWS_PER_THREAD, total_idle_flows := 0 }

/-- Reader thread `array_index` at start-up (lines 113-116 and `init_workflow`):
the static initialiser leaves the process-global `flow_id` at 0. -/
def init_reader_thread (datalink : Nat) (array_index : Int) : nDPId_reader_thread :=
  { workflow := init_workflow datalink, array_index := array_index,
    reader_thread_count := MAX_READER_THREADS, flow_id := 0, json_events := [] }

/-- Assignment `a[i] = t` on the array of tree roots. -/
def set_root (a : Nat → ndpi_node) (i : Nat) (t : ndpi_node) : Nat → ndpi_node :=
  fun j => if j = i then t else a j

/-! ## Event serialisation (lines 531-545, 596-665) -/

/-- Source `jsonize_flow` (lines 531-545): the serialised numeric fields. -/
def jsonize_flow (workflow : nDPId_workflow) (flow : nDPId_flow_info) (event : flow_event) :
    json_event :=
  { event := event,
    flow_id := flow.flow_id,
    flow_l4_data_len := flow.total_l4_data_len,
    flow_min_l4_data_len := flow.min_l4_data_len,
    flow_max_l4_data_len := flow.max_l4_data_len,
    flow_avg_l4_data_len :=
      if flow.packets_processed > 0 then flow.total_l4_data_len / flow.packets_processed else 0,
    packet_id := workflow.packets_captured % U32,
    midstream := flow.is_midstream_flow,
    flow := flow }

/-- Source `jsonize_flow_event` (lines 596-665): the event is serialised from the
record as it is now and handed to the sink. -/
def jsonize_flow_event (reader_thread : nDPId_reader_thread) (flow : nDPId_flow_info)
    (event : flow_event) : nDPId_reader_thread :=
  { reader_thread with
    json_events := reader_thread.json_events ++ [jsonize_flow reader_thread.workflow flow event] }

/-! ## Idle scanner (lines 394-419, 447-475) -/

/-- Source `ndpi_idle_scan_walker` (lines 394-419), one callback of the walk. -/
def ndpi_idle_scan_walker (workflow : nDPId_workflow) (visit : nDPId_flow_info × ndpi_VISIT) :
    nDPId_workflow :=
  if workflow.cur_idle_flows = MAX_IDLE_FLOWS_PER_THREAD then workflow
  else if visit.2 = .ndpi_preorder ∨ visit.2 = .ndpi_leaf then
    if (visit.1.flow_fin_ack_seen = 1 ∧ visit.1.flow_ack_seen = 1) ∨
        (visit.1.last_seen + MAX_IDLE_TIME) % U64 < workflow.last_time then
      { workflow with
        ndpi_flows_idle := visit.1 :: workflow.ndpi_flows_idle,
        total_idle_flows := (workflow.total_idle_flows + 1) % U64 }
    else workflow
  else workflow

/-- The loop `while (workflow->cur_idle_flows > 0)` of `check_for_idle_flows`
(lines 455-470) over the staged entries. -/
def drain_idle_flows (idle_scan_index : Nat) :
    List nDPId_flow_info → nDPId_reader_thread → nDPId_reader_thread
  | [], reader_thread => reader_thread
  | f :: rest, reader_thread =>
    let rt := jsonize_flow_event reader_thread f .FLOW_IDLE
    drain_idle_flows idle_scan_index rest
      { rt with
        workflow :=
          { rt.workflow with
            ndpi_flows_idle := rest,
            ndpi_flows_active :=
              set_root rt.workflow.ndpi_flows_active idle_scan_index
                (ndpi_tdelete ndpi_workflow_node_cmp f
                  (rt.workflow.ndpi_flows_active idle_scan_index)),
            cur_active_flows := (rt.workflow.cur_active_flows + U64 - 1) % U64 } }

/-- One iteration of the `for` loop of `check_for_idle_flows` (lines 452-471):
walk the tree of slot `idle_scan_index`, then drain the staging array. -/
def idle_scan_slot (reader_thread : nDPId_reader_thread) (idle_scan_index : Nat) :
    nDPId_reader_thread :=
  let workflow :=
    (ndpi_twalk (reader_thread.workflow.ndpi_flows_active idle_scan_index)).foldl
      ndpi_idle_scan_walker reader_thread.workflow
  drain_idle_flows idle_scan_index workflow.ndpi_flows_idle
    { reader_thread with workflow := workflow }

/-- Source `check_for_idle_flows` (lines 447-475). -/
def check_for_idle_flows (reader_thread : nDPId_reader_thread) : nDPId_reader_thread :=
  if (reader_thread.workflow.last_idle_scan_time + IDLE_SCAN_PERIOD) % U64 <
      reader_thread.workflow.last_time then
    let rt := (List.range reader_thread.workflow.max_active_flows).foldl idle_scan_slot
      reader_thread
    { rt with workflow := { rt.workflow with last_idle_scan_time := rt.workflow.last_time } }
  else reader_thread

/-! ## Packet path (lines 668-1168) -/

/-- The record `struct pcap_pkthdr`. -/
structure pcap_pkthdr where
  tv_sec : Int
  tv_usec : Int
  caplen : Nat
  len : Nat
  deriving DecidableEq, Repr

/-- What the header structs the code lays over the packet bytes read from them:
the loopback family word, the Ethernet type, the IPv4 / IPv6 header fields and
the TCP / UDP header fields at `l4_ptr` (ports after `ntohs`). -/
structure packet_view where
  null_family : Nat
  h_proto : Nat
  ip_version : Nat
  ip_protocol : Nat
  ip_saddr : Nat
  ip_daddr : Nat
  ip6_nxt : Nat
  ip6_src0 : Nat
  ip6_src1 : Nat
  ip6_dst0 : Nat
  ip6_dst1 : Nat
  tcp_syn : Nat
  tcp_fin : Nat
  tcp_ack : Nat
  tcp_source : Nat
  tcp_dest : Nat
  udp_source : Nat
  udp_dest : Nat
  deriving DecidableEq, Repr

/-- Answers of the nDPI library and of the allocator while one packet is processed.
`detection_get_l4`: `none` for a non-zero return, else `(l4_ptr - packet, l4_len,
l4_protocol)`.  `flow_hash`: `none` for a non-zero return of
`ndpi_flowv4_flow_hash` / `ndpi_flowv6_flow_hash`, else the value left in `hashval`.
The booleans say whether the allocation succeeds.  `giveup`, `protocol_was_guessed`:
result of `ndpi_detection_giveup`.  `process_packet`, `num_processed_pkts_after`:
result of `ndpi_detection_process_packet` and the flow's packet counter after it.
`is_protocol_detected`: result of `ndpi_is_protocol_detected` on that result. -/
structure ndpi_results where
  detection_get_l4 : Option (Nat × Nat × Nat)
  flow_hash : Option Nat
  malloc_flow_info : Bool
  flow_malloc : Bool
  calloc_src : Bool
  calloc_dst : Bool
  tsearch_malloc : Bool
  giveup : ndpi_proto
  protocol_was_guessed : Nat
  process_packet : ndpi_proto
  num_processed_pkts_after : Nat
  is_protocol_detected : Bool
  deriving DecidableEq, Repr

/-- Line 709: `time_ms`, computed in `uint64_t`. -/
def packet_time_ms (header : pcap_pkthdr) : Nat :=
  ((header.tv_sec * (TICK_RESOLUTION : Int) +
      Int.tdiv header.tv_usec ((1000000 / TICK_RESOLUTION : Nat) : Int)) % (U64 : Int)).toNat

/-- Lines 714-772: the link layer.  `none` is a dropped packet, otherwise
`(type, ip_offset)`. -/
def process_datalink (datalink : Nat) (header : pcap_pkthdr) (packet : packet_view) :
    Option (Nat × Nat) :=
  if datalink = DLT_NULL then
    some (if packet.null_family = 2 then ETH_P_IP else ETH_P_IPV6, 4)
  else if datalink = DLT_EN10MB then
    if header.len < sizeof_ethhdr then none
    else if packet.h_proto % U16 = ETH_P_IP then
      if header.len < sizeof_ethhdr + sizeof_iphdr then none
      else some (ETH_P_IP, sizeof_ethhdr)
    else if packet.h_proto % U16 = ETH_P_IPV6 then
      if header.len < sizeof_ethhdr + sizeof_ipv6hdr then none
      else some (ETH_P_IPV6, sizeof_ethhdr)
    else none
  else none

/-- Line 788: `ip_size = header->len - ip_offset`, stored in a `uint16_t`. -/
def ip_size_of (header : pcap_pkthdr) (ip_offset : Nat) : Nat :=
  (header.len % U32 + U32 - ip_offset) % U32 % U16

/-- Size of `ip6->ip6_hdr` (`struct ndpi_ip6_hdrctl`). -/
def sizeof_ip6_hdr : Nat := 8

/-- What the parser hands on: the local `flow`, `thread_index` as left by the
layer-3 branch, `l4_ptr - packet` and `l4_len`. -/
structure l3_result where
  flow : nDPId_flow_info
  thread_index : Int
  l4_offset : Nat
  l4_len : Nat
  deriving DecidableEq, Repr

/-- Lines 774-870: layer 3.  `none` is a dropped packet. -/
def process_layer3 (type ip_size : Nat) (packet : packet_view) (lib : ndpi_results) :
    Option l3_result :=
  if type ≠ ETH_P_IP ∧ type ≠ ETH_P_IPV6 then none
  else if type = ETH_P_IP ∧ packet.ip_version = 4 then
    if ip_size < sizeof_iphdr then none
    else
      match lib.detection_get_l4 with
      | none => none
      | some (l4_offset, l4_len, l4_protocol) =>
        some
          { flow :=
              { flow_zero with
                l3_type := .L3_IP,
                l4_protocol := l4_protocol % 256,
                v6_src0 := packet.ip_saddr % U32 + (packet.ip_daddr % U32) * U32 },
            thread_index :=
              thread_index_v4 (packet.ip_saddr % U32) (packet.ip_daddr % U32)
                (packet.ip_protocol % 256),
            l4_offset := l4_offset,
            l4_len := l4_len % U16 }
  else if type = ETH_P_IPV6 then
    if ip_size < sizeof_ip6_hdr then none
    else
      match lib.detection_get_l4 with
      | none => none
      | some (l4_offset, l4_len, l4_protocol) =>
        some
          { flow :=
              { flow_zero with
                l3_type := .L3_IP6,
                l4_protocol := l4_protocol % 256,
                v6_src0 := packet.ip6_src0 % U64,
                v6_src1 := packet.ip6_src1 % U64,
                v6_dst0 := packet.ip6_dst0 % U64,
                v6_dst1 := packet.ip6_dst1 % U64 },
            thread_index :=
              thread_index_v6 (packet.ip6_src0 % U64) (packet.ip6_src1 % U64)
                (packet.ip6_dst0 % U64) (packet.ip6_dst1 % U64) (packet.ip6_nxt % 256),
            l4_offset := l4_offset,
            l4_len := l4_len % U16 }
  else none

/-- Lines 872-906: layer 4.  `none` is a dropped packet, otherwise `flow` with
ports and TCP flags filled in. -/
def process_layer4 (header : pcap_pkthdr) (packet : packet_view) (l3 : l3_result) :
    Option nDPId_flow_info :=
  if l3.flow.l4_protocol = IPPROTO_TCP then
    if header.len < l3.l4_offset + sizeof_tcphdr then none
    else
      some
        { l3.flow with
          is_midstream_flow := if packet.tcp_syn % 2 = 0 then 1 else 0,
          flow_fin_ack_seen := if packet.tcp_fin % 2 = 1 ∧ packet.tcp_ack % 2 = 1 then 1 else 0,
          flow_ack_seen := packet.tcp_ack % 2,
          src_port := packet.tcp_source % U16,
          dst_port := packet.tcp_dest % U16 }
  else if l3.flow.l4_protocol = IPPROTO_UDP then
    if header.len < l3.l4_offset + sizeof_udphdr then none
    else
      some
        { l3.flow with
          src_port := packet.udp_source % U16,
          dst_port := packet.udp_dest % U16 }
  else some l3.flow

/-- Lines 921-951: `flow.hashval`, with the additive fallback when the library's
hash primitive fails, then `hashval += l4_protocol + src_port + dst_port`. -/
def flow_hashval (flow : nDPId_flow_info) (lib : ndpi_results) : Nat :=
  let h :=
    match lib.flow_hash with
    | some h => h % U64
    | none =>
      match flow.l3_type with
      | .L3_IP => (flow.v4_src + flow.v4_dst) % U32
      | .L3_IP6 => ((flow.v6_src0 + flow.v6_src1) % U64 + (flow.v6_dst0 + flow.v6_dst1) % U64) % U64
  (h + (flow.l4_protocol + flow.src_port + flow.dst_port)) % U64

/-- Lines 957-967: `flow` with source and destination exchanged through the `v6`
view of the union, ports exchanged. -/
def swap_src_dst (flow : nDPId_flow_info) : nDPId_flow_info :=
  { flow with
    v6_src0 := flow.v6_dst0, v6_src1 := flow.v6_dst1,
    v6_dst0 := flow.v6_src0, v6_dst1 := flow.v6_src1,
    src_port := flow.dst_port, dst_port := flow.src_port }

/-- Lines 953-980: the direct probe, then the probe with source and destination
exchanged.  `none` when both miss, otherwise the key of the probe that hit, the
record found and `direction_changed`. -/
def flow_lookup (flow : nDPId_flow_info) (root : ndpi_node) :
    Option (nDPId_flow_info × nDPId_flow_info × Nat) :=
  match ndpi_tfind ndpi_workflow_node_cmp flow root with
  | some found => some (flow, found, 0)
  | none =>
    match ndpi_tfind ndpi_workflow_node_cmp (swap_src_dst flow) root with
    | some found => some (swap_src_dst flow, found, 1)
    | none => none

/-- Lines 1068-1076: counters, timestamps and `flow_ack_seen`. -/
def flow_update_counters (flow_to_process flow : nDPId_flow_info) (time_ms l4_len : Nat) :
    nDPId_flow_info :=
  { flow_to_process with
    packets_processed := (flow_to_process.packets_processed + 1) % U64,
    total_l4_data_len := (flow_to_process.total_l4_data_len + l4_len) % U64,
    first_seen := if flow_to_process.first_seen = 0 then time_ms else flow_to_process.first_seen,
    last_seen := time_ms,
    flow_ack_seen := flow.flow_ack_seen }

/-- Lines 1089-1094: `max_l4_data_len` and `min_l4_data_len`. -/
def flow_update_lengths (f : nDPId_flow_info) (l4_len : Nat) : nDPId_flow_info :=
  { f with
    max_l4_data_len := if l4_len > f.max_l4_data_len then l4_len else f.max_l4_data_len,
    min_l4_data_len := if l4_len < f.min_l4_data_len then l4_len else f.min_l4_data_len }

/-- Lines 1098-1139: the branch `num_processed_pkts == 0xFE`.  Returns the record
and the event emitted (with the record as serialised). -/
def flow_last_chance (f : nDPId_flow_info) (lib : ndpi_results) :
    nDPId_flow_info × List (flow_event × nDPId_flow_info) :=
  if f.detection_completed ≠ 0 then (f, [(.FLOW_DETECTED, f)])
  else if lib.protocol_was_guessed ≠ 0 then
    ({ f with guessed_protocol := lib.giveup },
      [(.FLOW_GUESSED, { f with guessed_protocol := lib.giveup })])
  else
    ({ f with guessed_protocol := lib.giveup },
      [(.FLOW_NOT_DETECTED, { f with guessed_protocol := lib.giveup })])

/-- Lines 1141-1167: the DPI call and the detection transition.  Returns the
record, the event emitted and the increment of `detected_flow_protocols`. -/
def flow_dpi_process (f : nDPId_flow_info) (lib : ndpi_results) :
    nDPId_flow_info × List (flow_event × nDPId_flow_info) × Nat :=
  if lib.is_protocol_detected = true ∧ f.detection_completed = 0 ∧
      (lib.process_packet.master_protocol ≠ NDPI_PROTOCOL_UNKNOWN ∨
        lib.process_packet.app_protocol ≠ NDPI_PROTOCOL_UNKNOWN) then
    ({ f with
        detected_l7_protocol := lib.process_packet,
        num_processed_pkts := lib.num_processed_pkts_after,
        detection_completed := 1 },
      [(.FLOW_DETECTED,
        { f with
          detected_l7_protocol := lib.process_packet,
          num_processed_pkts := lib.num_processed_pkts_after,
          detection_completed := 1 })], 1)
  else
    ({ f with
        detected_l7_protocol := lib.process_packet,
        num_processed_pkts := lib.num_processed_pkts_after }, [], 0)

/-- Lines 1068-1167: the per-packet update of the record `flow_to_process`.
Returns the record afterwards, the events emitted (with the record as it was
when each was serialised) and the increment of `detected_flow_protocols`. -/
def flow_packet_update (flow_to_process flow : nDPId_flow_info) (time_ms l4_len : Nat)
    (lib : ndpi_results) : nDPId_flow_info × List (flow_event × nDPId_flow_info) × Nat :=
  if flow.flow_fin_ack_seen ≠ 0 ∧
      (flow_update_counters flow_to_process flow time_ms l4_len).flow_fin_ack_seen = 0 then
    ({ flow_update_counters flow_to_process flow time_ms l4_len with flow_fin_ack_seen := 1 },
      [(.FLOW_END,
        { flow_update_counters flow_to_process flow time_ms l4_len with flow_fin_ack_seen := 1 })],
      0)
  else if (flow_update_lengths (flow_update_counters flow_to_process flow time_ms l4_len)
      l4_len).num_processed_pkts = 0xFF then
    (flow_update_lengths (flow_update_counters flow_to_process flow time_ms l4_len) l4_len, [], 0)
  else if (flow_update_lengths (flow_update_counters flow_to_process flow time_ms l4_len)
      l4_len).num_processed_pkts = 0xFE then
    ((flow_dpi_process (flow_last_chance (flow_update_lengths
        (flow_update_counters flow_to_process flow time_ms l4_len) l4_len) lib).1 lib).1,
      (flow_last_chance (flow_update_lengths
        (flow_update_counters flow_to_process flow time_ms l4_len) l4_len) lib).2 ++
      (flow_dpi_process (flow_last_chance (flow_update_lengths
        (flow_update_counters flow_to_process flow time_ms l4_len) l4_len) lib).1 lib).2.1,
      (flow_dpi_process (flow_last_chance (flow_update_lengths
        (flow_update_counters flow_to_process flow time_ms l4_len) l4_len) lib).1 lib).2.2)
  else
    flow_dpi_process (flow_update_lengths
      (flow_update_counters flow_to_process flow time_ms l4_len) l4_len) lib

/-- The events of one per-packet update handed to `jsonize_flow_event` in order. -/
def emit_events (reader_thread : nDPId_reader_thread) :
    List (flow_event × nDPId_flow_info) → nDPId_reader_thread
  | [] => reader_thread
  | e :: rest => emit_events (jsonize_flow_event reader_thread e.2 e.1) rest

/-- Lines 1068-1167 on the worker: the record reached through `flow_to_process`
(the node a descent with `key` stops at in slot `hashed_index`) is updated in
place, the events are emitted and `detected_flow_protocols` is advanced.  For a
record that was just created the descent with the packet's key ends at the new
leaf, because the insertion followed the same comparisons
(`ndpi_node_store_tsearch`). -/
def process_flow (reader_thread : nDPId_reader_thread) (hashed_index : Nat)
    (key flow_to_process flow : nDPId_flow_info) (time_ms l4_len : Nat) (lib : ndpi_results) :
    nDPId_reader_thread :=
  let upd := flow_packet_update flow_to_process flow time_ms l4_len lib
  let rt := emit_events reader_thread upd.2.1
  { rt with
    workflow :=
      { rt.workflow with
        detected_flow_protocols := (rt.workflow.detected_flow_protocols + upd.2.2) % U64,
        ndpi_flows_active :=
          set_root rt.workflow.ndpi_flows_active hashed_index
            (ndpi_node.store ndpi_workflow_node_cmp key (fun _ => upd.1)
              (rt.workflow.ndpi_flows_active hashed_index)) } }

/-- Lines 982-1055: the branch `tree_result == NULL`, up to the `FLOW_NEW` event.
`none` is a return from `ndpi_process_packet` with the state given, otherwise the
state and the new record `flow_to_process`. -/
def create_flow (reader_thread : nDPId_reader_thread) (hashed_index : Nat)
    (flow : nDPId_flow_info) (lib : ndpi_results) :
    nDPId_reader_thread × Option nDPId_flow_info :=
  if reader_thread.workflow.cur_active_flows = reader_thread.workflow.max_active_flows then
    (reader_thread, none)
  else if lib.malloc_flow_info = false then (reader_thread, none)
  else
    let flow_to_process : nDPId_flow_info := { flow with flow_id := reader_thread.flow_id }
    let rt : nDPId_reader_thread :=
      { reader_thread with
        flow_id := (reader_thread.flow_id + 1) % U32,
        workflow :=
          { reader_thread.workflow with
            cur_active_flows := (reader_thread.workflow.cur_active_flows + 1) % U64,
            total_active_flows := (reader_thread.workflow.total_active_flows + 1) % U64 } }
    if lib.flow_malloc = false then (rt, none)
    else if lib.calloc_src = false then (rt, none)
    else if lib.calloc_dst = false then (rt, none)
    else
      let ins := ndpi_tsearch ndpi_workflow_node_cmp lib.tsearch_malloc flow_to_process
        (rt.workflow.ndpi_flows_active hashed_index)
      match ins.2 with
      | none => (rt, none)
      | some _ =>
        (jsonize_flow_event
          { rt with
            workflow :=
              { rt.workflow with
                ndpi_flows_active := set_root rt.workflow.ndpi_flows_active hashed_index ins.1 } }
          flow_to_process .FLOW_NEW,
         some flow_to_process)

/-- Lines 714-906: the link / layer-3 / layer-4 parser.  `none` is a dropped
packet, otherwise the layer-3 result and the local `flow` as it stands at line 907. -/
def parse_packet (datalink : Nat) (header : pcap_pkthdr) (packet : packet_view)
    (lib : ndpi_results) : Option (l3_result × nDPId_flow_info) :=
  match process_datalink datalink header packet with
  | none => none
  | some (type, ip_offset) =>
    match process_layer3 type (ip_size_of header ip_offset) packet lib with
    | none => none
    | some l3 =>
      match process_layer4 header packet l3 with
      | none => none
      | some flow => some (l3, flow)

/-- The local `flow` after line 951: the parsed tuple with its `hashval`. -/
def keyed_flow (flow : nDPId_flow_info) (lib : ndpi_results) : nDPId_flow_info :=
  { flow with hashval := flow_hashval flow lib }

/-- Lines 908-1168: everything after the parser, for the parsed `flow`. -/
def dispatch_flow (reader_thread : nDPId_reader_thread) (l3 : l3_result)
    (flow0 : nDPId_flow_info) (time_ms : Nat) (lib : ndpi_results) : nDPId_reader_thread :=
  if thread_index_final l3.thread_index flow0.src_port flow0.dst_port
      reader_thread.reader_thread_count ≠ reader_thread.array_index then reader_thread
  else
    let rt : nDPId_reader_thread :=
      { reader_thread with
        workflow :=
          { reader_thread.workflow with
            packets_processed := (reader_thread.workflow.packets_processed + 1) % U64,
            total_l4_data_len := (reader_thread.workflow.total_l4_data_len + l3.l4_len) % U64 } }
    let flow : nDPId_flow_info := keyed_flow flow0 lib
    let hashed_index := flow.hashval % rt.workflow.max_active_flows
    match flow_lookup flow (rt.workflow.ndpi_flows_active hashed_index) with
    | none =>
      match create_flow rt hashed_index flow lib with
      | (rt1, none) => rt1
      | (rt1, some flow_to_process) =>
        process_flow rt1 hashed_index flow flow_to_process flow time_ms l3.l4_len lib
    | some (key, flow_to_process, _) =>
      process_flow rt hashed_index key flow_to_process flow time_ms l3.l4_len lib

/-- Source `ndpi_process_packet` (lines 668-1168). -/
def ndpi_process_packet (reader_thread : nDPId_reader_thread) (header : pcap_pkthdr)
    (packet : packet_view) (lib : ndpi_results) : nDPId_reader_thread :=
  let rt := check_for_idle_flows
    { reader_thread with
      workflow :=
        { reader_thread.workflow with
          packets_captured := (reader_thread.workflow.packets_captured + 1) % U64,
          last_time := packet_time_ms header } }
  match parse_packet rt.workflow.pcap_datalink header packet lib with
  | none => rt
  | some (l3, flow) => dispatch_flow rt l3 flow (packet_time_ms header) lib

/-- The pcap loop (lines 1170-1182): the packets delivered in order. -/
def run_pcap_loop (reader_thread : nDPId_reader_thread) :
    List (pcap_pkthdr × packet_view × ndpi_results) → nDPId_reader_thread
  | [] => reader_thread
  | p :: rest => run_pcap_loop (ndpi_process_packet reader_thread p.1 p.2.1 p.2.2) rest

/-! ## Sample inputs -/

/-- Capture header with timestamp `sec` seconds and `len` bytes, fully captured. -/
def sample_header (sec : Int) (len : Nat) : pcap_pkthdr :=
  { tv_sec := sec, tv_usec := 0, caplen := len, len := len }

/-- An Ethernet IPv4 packet of protocol `proto`; the port fields are read by the
TCP and the UDP branch alike, no TCP flag is set. -/
def sample_ip4 (proto saddr daddr sport dport : Nat) : packet_view :=
  { null_family := 0, h_proto := ETH_P_IP, ip_version := 4, ip_protocol := proto,
    ip_saddr := saddr, ip_daddr := daddr, ip6_nxt := 0,
    ip6_src0 := 0, ip6_src1 := 0, ip6_dst0 := 0, ip6_dst1 := 0,
    tcp_syn := 0, tcp_fin := 0, tcp_ack := 0, tcp_source := sport, tcp_dest := dport,
    udp_source := sport, udp_dest := dport }

/-- An Ethernet IPv6 packet with next header `proto`. -/
def sample_ip6 (proto src0 src1 dst0 dst1 sport dport : Nat) : packet_view :=
  { null_family := 0, h_proto := ETH_P_IPV6, ip_version := 6, ip_protocol := 0,
    ip_saddr := 0, ip_daddr := 0, ip6_nxt := proto,
    ip6_src0 := src0, ip6_src1 := src1, ip6_dst0 := dst0, ip6_dst1 := dst1,
    tcp_syn := 0, tcp_fin := 0, tcp_ack := 0, tcp_source := sport, tcp_dest := dport,
    udp_source := sport, udp_dest := dport }

/-- Library answers for a packet whose layer-4 header starts at `l4_offset` with
`l4_len` payload bytes of protocol `proto`: the hash primitive fails (additive
fallback), every allocation succeeds, the DPI engine detects nothing. -/
def sample_lib (l4_offset l4_len proto : Nat) : ndpi_results :=
  { detection_get_l4 := some (l4_offset, l4_len, proto), flow_hash := none,
    malloc_flow_info := true, flow_malloc := true, calloc_src := true, calloc_dst := true,
    tsearch_malloc := true, giveup := ⟨0, 0, 0⟩, protocol_was_guessed := 0,
    process_packet := ⟨0, 0, 0⟩, num_processed_pkts_after := 1, is_protocol_detected := false }

/-- The key `flow` (after line 951) of a sample UDP/IPv4 packet. -/
def sample_key4 (saddr daddr sport dport : Nat) : nDPId_flow_info :=
  { flow_zero with
    l3_type := .L3_IP, l4_protocol := IPPROTO_UDP,
    v6_src0 := saddr + daddr * U32, src_port := sport, dst_port := dport,
    hashval := saddr + daddr + IPPROTO_UDP + sport + dport }

/-- The shard index `thread_index` after line 910 for a packet the parser
accepts (`none` for a dropped packet), with `reader_thread_count` workers. -/
def packet_shard (datalink : Nat) (header : pcap_pkthdr) (packet : packet_view)
    (lib : ndpi_results) (reader_thread_count : Int) : Option Int :=
  (parse_packet datalink header packet lib).map fun x =>
    thread_index_final x.1.thread_index x.2.src_port x.2.dst_port reader_thread_count

/-- Two records carry identical addresses: the `v4` members for IPv4 records,
all four words for IPv6 records. -/
def same_addresses (A B : nDPId_flow_info) : Prop :=
  match A.l3_type with
  | .L3_IP => A.v4_src = B.v4_src ∧ A.v4_dst = B.v4_dst
  | .L3_IP6 =>
    A.v6_src0 = B.v6_src0 ∧ A.v6_src1 = B.v6_src1 ∧ A.v6_dst0 = B.v6_dst0 ∧ A.v6_dst1 = B.v6_dst1

/-- Frame of the idle scanner between two worker states: `last_time` is kept,
each tree slot only loses records, and every event added is a `FLOW_IDLE`. -/
def scan_frame (rt rt2 : nDPId_reader_thread) : Prop :=
  rt2.workflow.last_time = rt.workflow.last_time ∧
  (∀ i, ∀ x ∈ (rt2.workflow.ndpi_flows_active i).keys, x ∈ (rt.workflow.ndpi_flows_active i).keys) ∧
  (∀ e ∈ rt2.json_events, e ∈ rt.json_events ∨ e.event = .FLOW_IDLE)

/-- Two records agree on every field the comparator reads. -/
def same_tuple (A B : nDPId_flow_info) : Prop :=
  A.hashval = B.hashval ∧ A.l4_protocol = B.l4_protocol ∧
  A.l3_type = B.l3_type ∧ A.v6_src0 = B.v6_src0 ∧ A.v6_src1 = B.v6_src1 ∧
  A.v6_dst0 = B.v6_dst0 ∧ A.v6_dst1 = B.v6_dst1 ∧
  A.src_port = B.src_port ∧ A.dst_port = B.dst_port

/-- Two records agree on `flow_id` and on every field the comparator reads. -/
def same_key (A B : nDPId_flow_info) : Prop :=
  A.flow_id = B.flow_id ∧ same_tuple A B

/-- The timestamps of a record as the per-packet update leaves them at time `t`,
for a record that had `first_seen = fs` before. -/
def seen_at (t fs : Nat) (f : nDPId_flow_info) : Prop :=
  f.last_seen = t ∧ f.first_seen = if fs = 0 then t else fs

/-- The local `flow` still has the counters and timestamps of `flow = {}`. -/
def fresh_flow (f : nDPId_flow_info) : Prop :=
  f.first_seen = 0 ∧ f.last_seen = 0 ∧ f.packets_processed = 0 ∧ f.total_l4_data_len = 0

/-- Every flow record in the worker's trees has `first_seen ≤ last_seen ≤ last_time`. -/
def timestamps_ordered (rt : nDPId_reader_thread) : Prop :=
  ∀ i, ∀ f ∈ (rt.workflow.ndpi_flows_active i).keys,
    f.first_seen ≤ f.last_seen ∧ f.last_seen ≤ rt.workflow.last_time

/-- The packets have non-decreasing timestamps `time_ms`, none older than `t`. -/
def nondecreasing_times : Nat → List (pcap_pkthdr × packet_view × ndpi_results) → Prop
  | _, [] => True
  | t, p :: rest => t ≤ packet_time_ms p.1 ∧ nondecreasing_times (packet_time_ms p.1) rest

/-- Every `FLOW_NEW` event handed to the serializer so far reports
`flow_l4_data_len = 0` and `flow_avg_l4_data_len = 0`. -/
def new_events_report_zero (rt : nDPId_reader_thread) : Prop :=
  ∀ e ∈ rt.json_events, e.event = .FLOW_NEW →
    e.flow_l4_data_len = 0 ∧ e.flow_avg_l4_data_len = 0

/-- The record of the sample flow `2 -> 12`, ports `10 -> 20`, after two packets of
40 payload bytes seen at `first_seen` and `last_seen`. -/
def sample_record (first_seen last_seen : Nat) : nDPId_flow_info :=
  { sample_key4 2 12 10 20 with
    packets_processed := 2, first_seen := first_seen, last_seen := last_seen,
    max_l4_data_len := 40, total_l4_data_len := 80, num_processed_pkts := 1 }

/-- The local `flow` at line 907 for a sample UDP/IPv4 packet (no `hashval` yet). -/
def sample_flow4 (saddr daddr sport dport : Nat) : nDPId_flow_info :=
  { flow_zero with
    l3_type := .L3_IP, l4_protocol := IPPROTO_UDP,
    v6_src0 := saddr + daddr * U32, src_port := sport, dst_port := dport }

/-- The layer-3 result for a sample UDP/IPv4 packet with 40 payload bytes. -/
def sample_l3 (saddr daddr : Nat) : l3_result :=
  { flow := { flow_zero with
      l3_type := .L3_IP, l4_protocol := IPPROTO_UDP, v6_src0 := saddr + daddr * U32 },
    thread_index := thread_index_v4 saddr daddr IPPROTO_UDP,
    l4_offset := 34, l4_len := 40 }

/-- An Ethernet TCP/IPv4 packet with the given `syn`, `fin`, `ack` bits. -/
def sample_tcp4 (syn fin ack saddr daddr sport dport : Nat) : packet_view :=
  { null_family := 0, h_proto := ETH_P_IP, ip_version := 4, ip_protocol := IPPROTO_TCP,
    ip_saddr := saddr, ip_daddr := daddr, ip6_nxt := 0,
    ip6_src0 := 0, ip6_src1 := 0, ip6_dst0 := 0, ip6_dst1 := 0,
    tcp_syn := syn, tcp_fin := fin, tcp_ack := ack, tcp_source := sport, tcp_dest := dport,
    udp_source := 0, udp_dest := 0 }

/-- The record `flow_to_process` after the packets `pkts` (each given by its parsed
`flow`, `time_ms`, `l4_len` and the library answers) have resolved to it, one
per-packet update (lines 1068-1167) after the other, and the events emitted. -/
def flow_history (r : nDPId_flow_info) :
    List (nDPId_flow_info × Nat × Nat × ndpi_results) →
      nDPId_flow_info × List (flow_event × nDPId_flow_info)
  | [] => (r, [])
  | p :: rest =>
    ((flow_history (flow_packet_update r p.1 p.2.1 p.2.2.1 p.2.2.2).1 rest).1,
      (flow_packet_update r p.1 p.2.1 p.2.2.1 p.2.2.2).2.1 ++
        (flow_history (flow_packet_update r p.1 p.2.1 p.2.2.1 p.2.2.2).1 rest).2)

/-- Every flow record in the worker's trees has `min_l4_data_len = 0`. -/
def min_len_zero (rt : nDPId_reader_thread) : Prop :=
  ∀ i, ∀ f ∈ (rt.workflow.ndpi_flows_active i).keys, f.min_l4_data_len = 0

/-- Library answers like `sample_lib`, but the DPI engine returns `proto` from its
process-packet primitive and `detected` from `ndpi_is_protocol_detected`. -/
def sample_lib_dpi (l4_offset l4_len l4_proto : Nat) (proto : ndpi_proto) (detected : Bool) :
    ndpi_results :=
  { detection_get_l4 := some (l4_offset, l4_len, l4_proto), flow_hash := none,
    malloc_flow_info := true, flow_malloc := true, calloc_src := true, calloc_dst := true,
    tsearch_malloc := true, giveup := ⟨0, 0, 0⟩, protocol_was_guessed := 0,
    process_packet := proto, num_processed_pkts_after := 1, is_protocol_detected := detected }

/-- The record's `detected_l7_protocol` has a field that is not UNKNOWN whenever its
`detection_completed` is 1. -/
def detected_known (r : nDPId_flow_info) : Prop :=
  r.detection_completed = 1 →
    r.detected_l7_protocol.master_protocol ≠ NDPI_PROTOCOL_UNKNOWN ∨
      r.detected_l7_protocol.app_protocol ≠ NDPI_PROTOCOL_UNKNOWN

/-- Sign of the lexicographic comparison of two lists of numbers of equal length:
`-1`, `0` or `1`. -/
def lex_sign : List Nat → List Nat → Int
  | a :: as, b :: bs => if a < b then -1 else if a > b then 1 else lex_sign as bs
  | _, _ => 0

/-- The 4-tuple `(src_addr, dst_addr, src_port, dst_port)` of a record as the list
of its components: the two `v4` members for IPv4, the two 64-bit words of each
address for IPv6, then the ports. -/
def tuple_components (f : nDPId_flow_info) : List Nat :=
  match f.l3_type with
  | .L3_IP => [f.v4_src, f.v4_dst, f.src_port, f.dst_port]
  | .L3_IP6 => [f.v6_src0, f.v6_src1, f.v6_dst0, f.v6_dst1, f.src_port, f.dst_port]

/-- Step 4 of the comparator in the words of the specification: the sign of the
lexicographic comparison of `(src_addr, dst_addr, src_port, dst_port)`. -/
def spec_tuple_lex_compare (A B : nDPId_flow_info) : Int :=
  lex_sign (tuple_components A) (tuple_components B)

/-- The fields of the worker that no packet changes: link type, capacities,
`array_index` and `reader_thread_count` are the same in both states. -/
def same_config (rt rt2 : nDPId_reader_thread) : Prop :=
  rt2.workflow.pcap_datalink = rt.workflow.pcap_datalink ∧
  rt2.workflow.max_active_flows = rt.workflow.max_active_flows ∧
  rt2.workflow.max_idle_flows = rt.workflow.max_idle_flows ∧
  rt2.array_index = rt.array_index ∧
  rt2.reader_thread_count = rt.reader_thread_count

/-- Frame of the packet path (lines 908-1168) for a packet hashed to slot `idx`:
the configuration, the staging array and `last_idle_scan_time` are kept and every
other tree slot is untouched. -/
def packet_path_frame (idx : Nat) (rt rt2 : nDPId_reader_thread) : Prop :=
  same_config rt rt2 ∧
  rt2.workflow.ndpi_flows_idle = rt.workflow.ndpi_flows_idle ∧
  rt2.workflow.last_idle_scan_time = rt.workflow.last_idle_scan_time ∧
  rt2.workflow.total_idle_flows = rt.workflow.total_idle_flows ∧
  ∀ i, i ≠ idx → rt2.workflow.ndpi_flows_active i = rt.workflow.ndpi_flows_active i

/-- The walker's test (lines 410-411) for a record at worker time `last_time`. -/
def idle_test (last_time : Nat) (f : nDPId_flow_info) : Prop :=
  (f.flow_fin_ack_seen = 1 ∧ f.flow_ack_seen = 1) ∨ (f.last_seen + MAX_IDLE_TIME) % U64 < last_time

/-- The tree slots other than `j` are empty, nothing is staged and `j` is a valid
slot index. -/
def lives_in (j : Nat) (rt : nDPId_reader_thread) : Prop :=
  (∀ i, i ≠ j → rt.workflow.ndpi_flows_active i = .null) ∧
  rt.workflow.ndpi_flows_idle = [] ∧ j < rt.workflow.max_active_flows

/-- Source `check_for_idle_flows` with the `for` loop cut down to slot `j`. -/
def check_for_idle_flows_at (j : Nat) (reader_thread : nDPId_reader_thread) :
    nDPId_reader_thread :=
  if (reader_thread.workflow.last_idle_scan_time + IDLE_SCAN_PERIOD) % U64 <
      reader_thread.workflow.last_time then
    { idle_scan_slot reader_thread j with
      workflow :=
        { (idle_scan_slot reader_thread j).workflow with
          last_idle_scan_time := (idle_scan_slot reader_thread j).workflow.last_time } }
  else reader_thread

/-- Lines 708-710: `packets_captured++` and `last_time = time_ms`, the state in
which `check_for_idle_flows` is called. -/
def clock_packet (reader_thread : nDPId_reader_thread) (header : pcap_pkthdr) :
    nDPId_reader_thread :=
  { reader_thread with
    workflow :=
      { reader_thread.workflow with
        packets_captured := (reader_thread.workflow.packets_captured + 1) % U64,
        last_time := packet_time_ms header } }

/-- Source `ndpi_process_packet` with the sweep cut down to slot `j`
(`check_for_idle_flows_at`). -/
def ndpi_process_packet_at (j : Nat) (reader_thread : nDPId_reader_thread)
    (header : pcap_pkthdr) (packet : packet_view) (lib : ndpi_results) : nDPId_reader_thread :=
  match parse_packet (check_for_idle_flows_at j (clock_packet reader_thread
      header)).workflow.pcap_datalink header packet lib with
  | none => check_for_idle_flows_at j (clock_packet reader_thread header)
  | some (l3, flow) =>
    dispatch_flow (check_for_idle_flows_at j (clock_packet reader_thread header)) l3 flow
      (packet_time_ms header) lib

/-- The pcap loop over `ndpi_process_packet_at`. -/
def run_pcap_loop_at (j : Nat) (reader_thread : nDPId_reader_thread) :
    List (pcap_pkthdr × packet_view × ndpi_results) → nDPId_reader_thread
  | [] => reader_thread
  | p :: rest =>
    run_pcap_loop_at j (ndpi_process_packet_at j reader_thread p.1 p.2.1 p.2.2) rest

/-- The packet is dropped by the parser, belongs to another shard, or is hashed to
tree slot `j`, for a worker with the configuration of `rt`. -/
def packet_for_slot (j : Nat) (rt : nDPId_reader_thread)
    (p : pcap_pkthdr × packet_view × ndpi_results) : Bool :=
  match parse_packet rt.workflow.pcap_datalink p.1 p.2.1 p.2.2 with
  | none => true
  | some (l3, flow) =>
    decide (thread_index_final l3.thread_index flow.src_port flow.dst_port
        rt.reader_thread_count ≠ rt.array_index) ||
      decide ((keyed_flow flow p.2.2).hashval % rt.workflow.max_active_flows = j)

/-- An Ethernet UDP/IPv4 capture header with timestamp `tv_sec` seconds and
`tv_usec` microseconds, 82 bytes, fully captured. -/
def sample_header_at (tv_sec tv_usec : Int) : pcap_pkthdr :=
  { tv_sec := tv_sec, tv_usec := tv_usec, caplen := 82, len := 82 }

/-- The packets of the run that makes `ndpi_tdelete` miss a staged record: four
UDP/IPv4 flows of shard 2 with the same fallback `hashval` 117 (ports `(5,5)`,
`(1,1)`, `(5,9)`, `(8,5)`), a second packet of the `(1,1)` flow at 301 s, and two
packets of another shard at 1000 s and 1011 s that only trigger the sweep. -/
def sample_miss_run : List (pcap_pkthdr × packet_view × ndpi_results) :=
  [(sample_header 0 82, sample_ip4 17 40 50 5 5, sample_lib 34 40 17),
   (sample_header 1 82, sample_ip4 17 48 50 1 1, sample_lib 34 40 17),
   (sample_header 2 82, sample_ip4 17 36 50 5 9, sample_lib 34 40 17),
   (sample_header 3 82, sample_ip4 17 37 50 8 5, sample_lib 34 40 17),
   (sample_header 301 82, sample_ip4 17 48 50 1 1, sample_lib 34 40 17),
   (sample_header 1000 82, sample_ip4 17 2 12 10 20, sample_lib 34 40 17),
   (sample_header 1011 82, sample_ip4 17 2 12 10 20, sample_lib 34 40 17)]

/-- The `flow_id` values announced by the `FLOW_NEW` events of the log, oldest
first: one entry per record inserted into a tree. -/
def new_flow_ids (rt : nDPId_reader_thread) : List Nat :=
  (rt.json_events.filter fun e => decide (e.event = .FLOW_NEW)).map fun e => e.flow_id

/-- The event is one of the two events of the give-up milestone. -/
def is_giveup_event (e : flow_event) : Bool :=
  decide (e = .FLOW_GUESSED ∨ e = .FLOW_NOT_DETECTED)

/-- A record whose DPI state has counted `num_processed_pkts` packets, otherwise
the record of the sample flow `2:10 -> 12:20` after its first packet. -/
def sample_record_dpi (num_processed_pkts : Nat) : nDPId_flow_info :=
  { sample_key4 2 12 10 20 with
    packets_processed := 1, first_seen := 1000, last_seen := 1000,
    max_l4_data_len := 40, total_l4_data_len := 40, num_processed_pkts := num_processed_pkts }

/-- Library answers like `sample_lib`, with the result `giveup` and the flag
`protocol_was_guessed` of the give-up primitive. -/
def sample_lib_giveup (giveup : ndpi_proto) (protocol_was_guessed : Nat) : ndpi_results :=
  { detection_get_l4 := some (34, 40, 17), flow_hash := none,
    malloc_flow_info := true, flow_malloc := true, calloc_src := true, calloc_dst := true,
    tsearch_malloc := true, giveup := giveup, protocol_was_guessed := protocol_was_guessed,
    process_packet := ⟨0, 0, 0⟩, num_processed_pkts_after := 0xFF, is_protocol_detected := false }

/-- Number of `FLOW_IDLE` events in the log. -/
def idle_event_count (rt : nDPId_reader_thread) : Nat :=
  (rt.json_events.filter fun e => decide (e.event = .FLOW_IDLE)).length

/-- The records the walker looks at: those of the `ndpi_preorder` and `ndpi_leaf`
callbacks, in the order of the walk. -/
def walk_candidates (vs : List (nDPId_flow_info × ndpi_VISIT)) : List nDPId_flow_info :=
  (vs.filter fun v => decide (v.2 = .ndpi_preorder ∨ v.2 = .ndpi_leaf)).map fun v => v.1

/-- The worker when the `for` loop of `check_for_idle_flows`, called for a packet
with capture header `header`, reaches slot `idx`. -/
def sweep_state (rt : nDPId_reader_thread) (header : pcap_pkthdr) (idx : Nat) :
    nDPId_reader_thread :=
  (List.range idx).foldl idle_scan_slot (clock_packet rt header)

/-- The workflow after the first `n` callbacks of the walk of slot `idx` in that
sweep. -/
def walk_state (rt : nDPId_reader_thread) (header : pcap_pkthdr) (idx n : Nat) :
    nDPId_workflow :=
  ((ndpi_twalk ((sweep_state rt header idx).workflow.ndpi_flows_active idx)).take n).foldl
    ndpi_idle_scan_walker (sweep_state rt header idx).workflow

/-- The `i`-th packet of the burst: the UDP/IPv4 packet `2:10 -> (12 + i):20` at
0 s. -/
def burst_packet (i : Nat) : pcap_pkthdr × packet_view × ndpi_results :=
  (sample_header 0 82, sample_ip4 17 2 (12 + i) 10 20, sample_lib 34 40 17)

/-- The packets `i`, `i + 1`, ..., `i + m - 1` of the burst. -/
def burst_run : Nat → Nat → List (pcap_pkthdr × packet_view × ndpi_results)
  | _, 0 => []
  | i, m + 1 => burst_packet i :: burst_run (i + 1) m

/-- The record that the `i`-th packet of the burst creates. -/
def burst_record (i : Nat) : nDPId_flow_info :=
  { sample_flow4 2 (12 + i) 10 20 with
    hashval := 61 + i, flow_id := i, packets_processed := 1,
    max_l4_data_len := 40, total_l4_data_len := 40, num_processed_pkts := 1 }

/-- The part of the worker state after the first `j` packets of the burst that the
next packet and the next sweep depend on: slot `61 + i` holds the record of
packet `i`, every other slot is empty. -/
def burst_state (j : Nat) (rt : nDPId_reader_thread) : Prop :=
  rt.workflow.pcap_datalink = DLT_EN10MB ∧
  rt.workflow.last_idle_scan_time = 0 ∧
  (∀ s, rt.workflow.ndpi_flows_active s =
    if 61 ≤ s ∧ s < 61 + j then .node (burst_record (s - 61)) .null .null else .null) ∧
  rt.workflow.ndpi_flows_idle = [] ∧
  rt.workflow.max_active_flows = 2048 ∧
  rt.workflow.cur_active_flows = j ∧
  rt.array_index = 3 ∧ rt.reader_thread_count = 4 ∧
  rt.flow_id = j

/-- Every record stored in tree slot `i` has `hashval % max_active_flows = i`. -/
def slots_hashed (rt : nDPId_reader_thread) : Prop :=
  ∀ i, ∀ f ∈ (rt.workflow.ndpi_flows_active i).keys,
    f.hashval % rt.workflow.max_active_flows = i

/-- The worker after lines 914-915, `packets_processed++` and
`total_l4_data_len += l4_len`. -/
def count_packet (reader_thread : nDPId_reader_thread) (l4_len : Nat) : nDPId_reader_thread :=
  { reader_thread with
    workflow :=
      { reader_thread.workflow with
        packets_processed := (reader_thread.workflow.packets_processed + 1) % U64,
        total_l4_data_len := (reader_thread.workflow.total_l4_data_len + l4_len) % U64 } }

/-- Number of records of a tree whose `detection_completed` is still 0. -/
def undetected_in (t : ndpi_node) : Nat :=
  t.keys.countP fun f => decide (f.detection_completed = 0)

/-- Number of records in the worker's trees whose `detection_completed` is still 0. -/
def undetected_flows (rt : nDPId_reader_thread) : Nat :=
  ((List.range rt.workflow.max_active_flows).map fun i =>
    undetected_in (rt.workflow.ndpi_flows_active i)).sum

/-- 1 for a record whose `detection_completed` is still 0, else 0. -/
def undetected (f : nDPId_flow_info) : Nat := if f.detection_completed = 0 then 1 else 0

/-- Frame of the idle scanner for the detection counters: `total_active_flows` and
`detected_flow_protocols` are kept and no slot gains an undetected record. -/
def detect_frame (rt rt2 : nDPId_reader_thread) : Prop :=
  rt2.workflow.total_active_flows = rt.workflow.total_active_flows ∧
  rt2.workflow.detected_flow_protocols = rt.workflow.detected_flow_protocols ∧
  ∀ i, undetected_in (rt2.workflow.ndpi_flows_active i) ≤
    undetected_in (rt.workflow.ndpi_flows_active i)

/-- The invariant behind the bound on `detected_flow_protocols`, for a worker whose
`total_active_flows` has been advanced at most `n` times: the detections counted
and the records that can still be detected are together no more than the records
created. -/
def detection_bounded (n : Nat) (rt : nDPId_reader_thread) : Prop :=
  rt.workflow.ndpi_flows_idle = [] ∧ 0 < rt.workflow.max_active_flows ∧
  rt.workflow.total_active_flows ≤ n ∧
  rt.workflow.detected_flow_protocols + undetected_flows rt ≤ rt.workflow.total_active_flows

/-- A packet of the sample flow `2:10 -> 12:20` stamped `tv_sec = -1`,
`tv_usec = 999000` (`time_ms = 2^64 - 1`), for which the DPI engine detects
nothing. -/
def churn_first_packet : pcap_pkthdr × packet_view × ndpi_results :=
  (sample_header_at (-1) 999000, sample_ip4 17 2 12 10 20, sample_lib 34 40 17)

/-- The same packet, for which the DPI engine reports the detected protocol
`(0, 5, 0)`. -/
def churn_packet : pcap_pkthdr × packet_view × ndpi_results :=
  (sample_header_at (-1) 999000, sample_ip4 17 2 12 10 20,
    sample_lib_dpi 34 40 17 ⟨0, 5, 0⟩ true)

/-- The part of the worker state after `churn_first_packet` and `n - 1` packets
`churn_packet` that the next packet depends on. -/
def churn_state (n : Nat) (rt : nDPId_reader_thread) : Prop :=
  rt.workflow.pcap_datalink = DLT_EN10MB ∧
  rt.workflow.last_idle_scan_time = U64 - 1 ∧
  (∃ r, rt.workflow.ndpi_flows_active 61 = .node r .null .null ∧ r.last_seen = U64 - 1) ∧
  rt.workflow.ndpi_flows_idle = [] ∧
  rt.workflow.max_active_flows = 2048 ∧
  rt.workflow.cur_active_flows = 1 ∧
  rt.array_index = 3 ∧ rt.reader_thread_count = 4 ∧
  rt.workflow.total_active_flows = n % U64 ∧
  rt.workflow.detected_flow_protocols = (n - 1) % U64

/-! ## Resolution of a packet (lines 668-1066) -/

/-- What lines 908-1066 of `ndpi_process_packet` hand to the per-packet update of
lines 1068-1167: the worker at line 1068, the tree slot, the key of the probe that
reached the record, the record `flow_to_process`, the local `flow`, `l4_len`, and
whether the record was created for this packet (lines 982-1055) or found by the
lookup (lines 953-980). -/
structure flow_resolution where
  reader_thread : nDPId_reader_thread
  hashed_index : Nat
  key : nDPId_flow_info
  flow_to_process : nDPId_flow_info
  flow : nDPId_flow_info
  l4_len : Nat
  created : Bool

/-- Lines 908-1066 for the parsed `flow`: `dispatch_flow` up to the per-packet
update.  `none` is a return before line 1068 (another shard, or the creation of
the record ends early). -/
def resolve_flow (reader_thread : nDPId_reader_thread) (l3 : l3_result)
    (flow0 : nDPId_flow_info) (lib : ndpi_results) : Option flow_resolution :=
  if thread_index_final l3.thread_index flow0.src_port flow0.dst_port
      reader_thread.reader_thread_count ≠ reader_thread.array_index then none
  else
    let rt : nDPId_reader_thread :=
      { reader_thread with
        workflow :=
          { reader_thread.workflow with
            packets_processed := (reader_thread.workflow.packets_processed + 1) % U64,
            total_l4_data_len := (reader_thread.workflow.total_l4_data_len + l3.l4_len) % U64 } }
    let flow : nDPId_flow_info := keyed_flow flow0 lib
    let hashed_index := flow.hashval % rt.workflow.max_active_flows
    match flow_lookup flow (rt.workflow.ndpi_flows_active hashed_index) with
    | none =>
      match create_flow rt hashed_index flow lib with
      | (_, none) => none
      | (rt1, some flow_to_process) =>
        some
          { reader_thread := rt1, hashed_index := hashed_index, key := flow,
            flow_to_process := flow_to_process, flow := flow, l4_len := l3.l4_len,
            created := true }
    | some (key, flow_to_process, _) =>
      some
        { reader_thread := rt, hashed_index := hashed_index, key := key,
          flow_to_process := flow_to_process, flow := flow, l4_len := l3.l4_len,
          created := false }

/-- Lines 668-1066: `ndpi_process_packet` up to the per-packet update.  `none` is a
return before line 1068. -/
def resolve_packet (reader_thread : nDPId_reader_thread) (header : pcap_pkthdr)
    (packet : packet_view) (lib : ndpi_results) : Option flow_resolution :=
  match parse_packet (check_for_idle_flows (clock_packet reader_thread
      header)).workflow.pcap_datalink header packet lib with
  | none => none
  | some (l3, flow) =>
    resolve_flow (check_for_idle_flows (clock_packet reader_thread header)) l3 flow lib

/-! ## Properties of a run and further sample inputs -/

/-- Library answers like `sample_lib 34 40 17`, with the flow's DPI packet counter
left at `n` by the process-packet primitive. -/
def sample_lib_counted (n : Nat) : ndpi_results :=
  { detection_get_l4 := some (34, 40, 17), flow_hash := none,
    malloc_flow_info := true, flow_malloc := true, calloc_src := true, calloc_dst := true,
    tsearch_malloc := true, giveup := ⟨0, 0, 0⟩, protocol_was_guessed := 0,
    process_packet := ⟨0, 0, 0⟩, num_processed_pkts_after := n, is_protocol_detected := false }

/-- The run before the milestone packet of the sample: worker 3 has processed one
packet of the flow `2:10 -> 12:20` at 1 s, after which the flow's DPI packet
counter is `n`. -/
def sample_counted_run (n : Nat) : nDPId_reader_thread :=
  run_pcap_loop (init_reader_thread DLT_EN10MB 3)
    [(sample_header 1 82, sample_ip4 17 2 12 10 20, sample_lib_counted n)]

/-- What the next packet of that flow, at 2 s, hands to the per-packet update: the
record the first packet left, found by the direct probe in slot 61. -/
def sample_counted_resolution (n : Nat) : flow_resolution :=
  { reader_thread :=
      count_packet (check_for_idle_flows (clock_packet (sample_counted_run n)
        (sample_header 2 82))) 40,
    hashed_index := 61, key := sample_key4 2 12 10 20,
    flow_to_process := sample_record_dpi n, flow := sample_key4 2 12 10 20, l4_len := 40,
    created := false }

/-- A property of every packet of a run, each packet taken with the worker state
it meets. -/
def along_run (P : nDPId_reader_thread → pcap_pkthdr × packet_view × ndpi_results → Prop) :
    nDPId_reader_thread → List (pcap_pkthdr × packet_view × ndpi_results) → Prop
  | _, [] => True
  | rt, p :: rest => P rt p ∧ along_run P (ndpi_process_packet rt p.1 p.2.1 p.2.2) rest

/-- If the packet `p`, processed in state `rt`, gets to the DPI call of line 1141
(past the FIN test of lines 1079-1087 and the `0xFF` test of line 1096) with a
record whose `detection_completed` is already 1, then the result the
process-packet primitive returns for it has a field that is not UNKNOWN. -/
def dpi_keeps_completed (rt : nDPId_reader_thread)
    (p : pcap_pkthdr × packet_view × ndpi_results) : Prop :=
  ∀ x, resolve_packet rt p.1 p.2.1 p.2.2 = some x →
    x.flow_to_process.detection_completed = 1 →
    ¬ (x.flow.flow_fin_ack_seen ≠ 0 ∧ x.flow_to_process.flow_fin_ack_seen = 0) →
    x.flow_to_process.num_processed_pkts ≠ 0xFF →
    p.2.2.process_packet.master_protocol ≠ NDPI_PROTOCOL_UNKNOWN ∨
      p.2.2.process_packet.app_protocol ≠ NDPI_PROTOCOL_UNKNOWN

/-- Every flow record in the worker's trees satisfies `detected_known`. -/
def records_detected_known (rt : nDPId_reader_thread) : Prop :=
  ∀ i, ∀ r ∈ (rt.workflow.ndpi_flows_active i).keys, detected_known r

/-- The record of the sample flow `2:10 -> 12:20` after two packets at 1 s and 2 s
for which the DPI engine returned `(7, 0)` as detected and then `(7, 5)`. -/
def sample_record_detected : nDPId_flow_info :=
  { sample_record 1000 2000 with detection_completed := 1, detected_l7_protocol := ⟨7, 5, 0⟩ }

/-! ## The process-global `flow_id` (line 116) -/

/-- A tree slot in which every node carries, next to its flow record, the L4
payload lengths `l4_len` of the packets that resolved to the record since it was
created, oldest first. -/
inductive traced_node where
  | null
  | node (key : nDPId_flow_info) (lens : List Nat) (left right : traced_node)
  deriving DecidableEq, Repr

/-- The tree of flow records of a traced tree. -/
def traced_node.erase : traced_node → ndpi_node
  | .null => .null
  | .node k _ l r => .node k l.erase r.erase

/-- The records of a traced tree, each with its trace. -/
def traced_node.entries : traced_node → List (nDPId_flow_info × List Nat)
  | .null => []
  | .node k h l r => (k, h) :: (l.entries ++ r.entries)

/-- Library `ndpi_tsearch` on a traced tree: the new leaf starts with the empty
trace. -/
def traced_tsearch (compar : nDPId_flow_info → nDPId_flow_info → Int) (malloc_ok : Bool)
    (key : nDPId_flow_info) : traced_node → traced_node
  | .null => if malloc_ok then .node key [] .null .null else .null
  | .node k h l r =>
    if compar key k = 0 then .node k h l r
    else if compar key k < 0 then .node k h (traced_tsearch compar malloc_ok key l) r
    else .node k h l (traced_tsearch compar malloc_ok key r)

/-- The write of one per-packet update through the pointer a lookup with `key`
returned (`ndpi_node.store`), on a traced tree: the record of the node where the
descent stops becomes `r` and the packet's `l4_len` is appended to its trace. -/
def traced_node.store (compar : nDPId_flow_info → nDPId_flow_info → Int)
    (key r : nDPId_flow_info) (l4_len : Nat) : traced_node → traced_node
  | .null => .null
  | .node k h l rr =>
    if compar key k = 0 then .node r (h ++ [l4_len]) l rr
    else if compar key k < 0 then .node k h (traced_node.store compar key r l4_len l) rr
    else .node k h l (traced_node.store compar key r l4_len rr)

/-- Leftmost node of a non-empty traced tree. -/
def traced_node.leftmost : traced_node → Option (nDPId_flow_info × List Nat)
  | .null => none
  | .node k h .null _ => some (k, h)
  | .node _ _ (.node lk lh ll lr) _ => traced_node.leftmost (.node lk lh ll lr)

/-- The traced tree without its leftmost node. -/
def traced_node.drop_leftmost : traced_node → traced_node
  | .null => .null
  | .node _ _ .null r => r
  | .node k h (.node lk lh ll lr) r =>
    .node k h (traced_node.drop_leftmost (.node lk lh ll lr)) r

/-- Steps D1-D4 of `ndpi_tdelete` on a traced tree (`ndpi_node.unlink`): a node
that moves takes its trace along. -/
def traced_node.unlink : traced_node → traced_node
  | .null => .null
  | .node _ _ .null r => r
  | .node _ _ (.node lk lh ll lr) .null => .node lk lh ll lr
  | .node _ _ (.node lk lh ll lr) (.node rk rh rl rr) =>
    match traced_node.leftmost (.node rk rh rl rr) with
    | some q => .node q.1 q.2 (.node lk lh ll lr) (traced_node.drop_leftmost (.node rk rh rl rr))
    | none => .node lk lh ll lr

/-- Library `ndpi_tdelete` on a traced tree. -/
def traced_tdelete (compar : nDPId_flow_info → nDPId_flow_info → Int) (key : nDPId_flow_info) :
    traced_node → traced_node
  | .null => .null
  | .node k h l r =>
    if compar key k = 0 then traced_node.unlink (.node k h l r)
    else if compar key k < 0 then .node k h (traced_tdelete compar key l) r
    else .node k h l (traced_tdelete compar key r)

/-! ## Worker with traced trees

The traced trees follow the worker: every function below takes the worker state
in which the source function runs and does to the traced trees what the source
function does to the trees of that state. -/

/-- Assignment `a[i] = t` on the array of traced tree roots. -/
def traced_set_root (a : Nat → traced_node) (i : Nat) (t : traced_node) : Nat → traced_node :=
  fun j => if j = i then t else a j

/-- The drain loop of `check_for_idle_flows` (`drain_idle_flows`) on the traced
trees: the `ndpi_tdelete` of each staged record from slot `idle_scan_index`. -/
def traced_drain (idle_scan_index : Nat) :
    List nDPId_flow_info → (Nat → traced_node) → (Nat → traced_node)
  | [], traces => traces
  | f :: rest, traces =>
    traced_drain idle_scan_index rest
      (traced_set_root traces idle_scan_index
        (traced_tdelete ndpi_workflow_node_cmp f (traces idle_scan_index)))

/-- One iteration of the `for` loop of `check_for_idle_flows` on the worker
(`idle_scan_slot`) and on its traced trees: the records the walk of the worker's
slot stages are deleted from the traced slot. -/
def traced_scan_slot (s : nDPId_reader_thread × (Nat → traced_node)) (idle_scan_index : Nat) :
    nDPId_reader_thread × (Nat → traced_node) :=
  (idle_scan_slot s.1 idle_scan_index,
    traced_drain idle_scan_index
      ((ndpi_twalk (s.1.workflow.ndpi_flows_active idle_scan_index)).foldl
        ndpi_idle_scan_walker s.1.workflow).ndpi_flows_idle s.2)

/-- The traced trees after `check_for_idle_flows`, called in state
`reader_thread`. -/
def traced_check_for_idle_flows (reader_thread : nDPId_reader_thread)
    (traces : Nat → traced_node) : Nat → traced_node :=
  if (reader_thread.workflow.last_idle_scan_time + IDLE_SCAN_PERIOD) % U64 <
      reader_thread.workflow.last_time then
    ((List.range reader_thread.workflow.max_active_flows).foldl traced_scan_slot
      (reader_thread, traces)).2
  else traces

/-- The traced trees after `ndpi_process_packet`, called in state `reader_thread`:
the sweep deletes what it evicts; a packet that gets to the per-packet update
(`resolve_packet`) has its `l4_len` appended to the trace of the record it
resolved to, which is a new leaf with the empty trace when the record was
created for this packet. -/
def traced_process_packet (reader_thread : nDPId_reader_thread) (traces : Nat → traced_node)
    (header : pcap_pkthdr) (packet : packet_view) (lib : ndpi_results) : Nat → traced_node :=
  let swept := traced_check_for_idle_flows (clock_packet reader_thread header) traces
  match resolve_packet reader_thread header packet lib with
  | none => swept
  | some x =>
    let linked :=
      if x.created then
        traced_set_root swept x.hashed_index
          (traced_tsearch ndpi_workflow_node_cmp lib.tsearch_malloc x.flow_to_process
            (swept x.hashed_index))
      else swept
    traced_set_root linked x.hashed_index
      (traced_node.store ndpi_workflow_node_cmp x.key
        (flow_packet_update x.flow_to_process x.flow (packet_time_ms header) x.l4_len lib).1
        x.l4_len (linked x.hashed_index))

/-- The traced trees after the pcap loop over the packets, started in state
`reader_thread` with the traced trees `traces`. -/
def traced_run (reader_thread : nDPId_reader_thread) (traces : Nat → traced_node) :
    List (pcap_pkthdr × packet_view × ndpi_results) → Nat → traced_node
  | [] => traces
  | p :: rest =>
    traced_run (ndpi_process_packet reader_thread p.1 p.2.1 p.2.2)
      (traced_process_packet reader_thread traces p.1 p.2.1 p.2.2) rest

/-- The counters of a record agree with its trace: `total_l4_data_len` is the sum
of the traced lengths and `packets_processed` their number, both modulo
`2 ^ 64`. -/
def counters_match (e : nDPId_flow_info × List Nat) : Prop :=
  e.1.total_l4_data_len = e.2.sum % U64 ∧ e.1.packets_processed = e.2.length % U64

/-- The traced trees `traces` are the trees of the worker `rt` with a trace at
every record, and every record's counters agree with its trace. -/
def traces_of (rt : nDPId_reader_thread) (traces : Nat → traced_node) : Prop :=
  (∀ i, (traces i).erase = rt.workflow.ndpi_flows_active i) ∧
  ∀ i, ∀ e ∈ (traces i).entries, counters_match e

/-- The packet of the long run of one flow: the sample UDP/IPv4 packet
`2:10 -> 12:20` with 40 payload bytes, stamped 0 s. -/
def repeat_packet : pcap_pkthdr × packet_view × ndpi_results :=
  (sample_header 0 82, sample_ip4 17 2 12 10 20, sample_lib 34 40 17)

/-- The record of that flow after `n` packets `repeat_packet`. -/
def repeat_record (n : Nat) : nDPId_flow_info :=
  { sample_key4 2 12 10 20 with
    packets_processed := n % U64, total_l4_data_len := (40 * n) % U64,
    max_l4_data_len := 40, num_processed_pkts := 1 }

/-- The part of the worker state and of the traced trees after `n` packets
`repeat_packet` that the next packet depends on. -/
def repeat_state (n : Nat) (rt : nDPId_reader_thread) (traces : Nat → traced_node) : Prop :=
  rt.workflow.pcap_datalink = DLT_EN10MB ∧
  rt.workflow.last_idle_scan_time = 0 ∧
  rt.workflow.ndpi_flows_active 61 = .node (repeat_record n) .null .null ∧
  rt.workflow.max_active_flows = 2048 ∧
  rt.array_index = 3 ∧ rt.reader_thread_count = 4 ∧
  traces 61 = .node (repeat_record n) (List.replicate n 40) .null .null

/-- The two packets of the witness run: one UDP/IPv4 flow of shard 3, 10 and then
20 payload bytes. -/
def sample_two_lengths : List (pcap_pkthdr × packet_view × ndpi_results) :=
  [(sample_header 1 82, sample_ip4 17 2 12 10 20, sample_lib 34 10 17),
   (sample_header 2 82, sample_ip4 17 2 12 10 20, sample_lib 34 20 17)]

/-- The record of slot 61 after the packets `sample_two_lengths`. -/
def sample_record_lengths : nDPId_flow_info :=
  { sample_key4 2 12 10 20 with
    packets_processed := 2, first_seen := 1000, last_seen := 2000,
    max_l4_data_len := 20, total_l4_data_len := 30, num_processed_pkts := 1 }

/-! ## Theorems -/

/-! ### Flow trees -/

theorem ndpi_tfind_mem (compar : nDPId_flow_info → nDPId_flow_info → Int) (key r : nDPId_flow_info)
    (t : ndpi_node) (h : ndpi_tfind compar key t = some r) : r ∈ t.keys := by
  induction t with
  | null => simp [ndpi_tfind] at h
  | node k l rt ihl ihr =>
    simp only [ndpi_tfind] at h
    simp only [ndpi_node.keys, List.mem_cons, List.mem_append]
    split_ifs at h with h0 h1
    · exact Or.inl (Option.some.inj h).symm
    · exact Or.inr (Or.inl (ihl h))
    · exact Or.inr (Or.inr (ihr h))

theorem ndpi_tsearch_keys (compar : nDPId_flow_info → nDPId_flow_info → Int) (b : Bool)
    (key : nDPId_flow_info) (t : ndpi_node) :
    ∀ x ∈ (ndpi_tsearch compar b key t).1.keys, x = key ∨ x ∈ t.keys := by
  induction t with
  | null =>
    intro x hx
    cases b <;> simp [ndpi_tsearch, ndpi_node.keys] at hx ⊢
    exact hx
  | node k l r ihl ihr =>
    intro x hx
    simp only [ndpi_tsearch] at hx
    split_ifs at hx with h0 h1
    · exact Or.inr hx
    · simp only [ndpi_node.keys, List.mem_cons, List.mem_append] at hx ⊢
      rcases hx with hx | hx | hx
      · exact Or.inr (Or.inl hx)
      · rcases ihl x hx with h | h
        · exact Or.inl h
        · exact Or.inr (Or.inr (Or.inl h))
      · exact Or.inr (Or.inr (Or.inr hx))
    · simp only [ndpi_node.keys, List.mem_cons, List.mem_append] at hx ⊢
      rcases hx with hx | hx | hx
      · exact Or.inr (Or.inl hx)
      · exact Or.inr (Or.inr (Or.inl hx))
      · rcases ihr x hx with h | h
        · exact Or.inl h
        · exact Or.inr (Or.inr (Or.inr h))

theorem ndpi_node_store_keys (compar : nDPId_flow_info → nDPId_flow_info → Int)
    (key r : nDPId_flow_info) (t : ndpi_node) :
    ∀ x ∈ (ndpi_node.store compar key (fun _ => r) t).keys, x = r ∨ x ∈ t.keys := by
  induction t with
  | null => intro x hx; simp [ndpi_node.store, ndpi_node.keys] at hx
  | node k l rt ihl ihr =>
    intro x hx
    simp only [ndpi_node.store] at hx
    split_ifs at hx with h0 h1
    · simp only [ndpi_node.keys, List.mem_cons, List.mem_append] at hx ⊢
      rcases hx with hx | hx | hx
      · exact Or.inl hx
      · exact Or.inr (Or.inr (Or.inl hx))
      · exact Or.inr (Or.inr (Or.inr hx))
    · simp only [ndpi_node.keys, List.mem_cons, List.mem_append] at hx ⊢
      rcases hx with hx | hx | hx
      · exact Or.inr (Or.inl hx)
      · rcases ihl x hx with h | h
        · exact Or.inl h
        · exact Or.inr (Or.inr (Or.inl h))
      · exact Or.inr (Or.inr (Or.inr hx))
    · simp only [ndpi_node.keys, List.mem_cons, List.mem_append] at hx ⊢
      rcases hx with hx | hx | hx
      · exact Or.inr (Or.inl hx)
      · exact Or.inr (Or.inr (Or.inl hx))
      · rcases ihr x hx with h | h
        · exact Or.inl h
        · exact Or.inr (Or.inr (Or.inr h))

theorem ndpi_node_leftmost_mem (t : ndpi_node) (q : nDPId_flow_info)
    (h : t.leftmost = some q) : q ∈ t.keys := by
  induction t with
  | null => simp [ndpi_node.leftmost] at h
  | node k l r ihl _ =>
    cases l with
    | null =>
      simp only [ndpi_node.leftmost, Option.some.injEq] at h
      simp [ndpi_node.keys, h]
    | node lk ll lr =>
      simp only [ndpi_node.leftmost] at h
      have := ihl h
      simp only [ndpi_node.keys, List.mem_cons, List.mem_append] at this ⊢
      tauto

theorem ndpi_node_drop_leftmost_keys (t : ndpi_node) :
    ∀ x ∈ t.drop_leftmost.keys, x ∈ t.keys := by
  induction t with
  | null => intro x hx; simp [ndpi_node.drop_leftmost, ndpi_node.keys] at hx
  | node k l r ihl _ =>
    intro x hx
    cases l with
    | null =>
      simp only [ndpi_node.drop_leftmost] at hx
      simp [ndpi_node.keys, hx]
    | node lk ll lr =>
      simp only [ndpi_node.drop_leftmost] at hx
      simp only [ndpi_node.keys, List.mem_cons, List.mem_append] at hx
      rcases hx with hx | hx | hx
      · simp [ndpi_node.keys, hx]
      · have := ihl x hx
        simp only [ndpi_node.keys, List.mem_cons, List.mem_append] at this ⊢
        tauto
      · simp [ndpi_node.keys, hx]

theorem ndpi_node_unlink_keys (t : ndpi_node) : ∀ x ∈ t.unlink.keys, x ∈ t.keys := by
  intro x hx
  match t with
  | .null => simp [ndpi_node.unlink, ndpi_node.keys] at hx
  | .node k .null r =>
    simp only [ndpi_node.unlink] at hx
    simp [ndpi_node.keys, hx]
  | .node k (.node lk ll lr) .null =>
    simp only [ndpi_node.unlink] at hx
    simp only [ndpi_node.keys, List.mem_cons, List.mem_append] at hx ⊢
    tauto
  | .node k (.node lk ll lr) (.node rk rl rr) =>
    simp only [ndpi_node.unlink] at hx
    cases hq : ndpi_node.leftmost (.node rk rl rr) with
    | none =>
      rw [hq] at hx
      simp only [ndpi_node.keys, List.mem_cons, List.mem_append] at hx ⊢
      tauto
    | some q =>
      rw [hq] at hx
      have h1 := ndpi_node_leftmost_mem _ _ hq
      have h2 := ndpi_node_drop_leftmost_keys (.node rk rl rr)
      simp only [ndpi_node.keys, List.mem_cons, List.mem_append] at hx h1 h2 ⊢
      rcases hx with hx | hx | hx
      · subst hx; tauto
      · tauto
      · have := h2 x hx
        tauto

theorem ndpi_tdelete_keys (compar : nDPId_flow_info → nDPId_flow_info → Int)
    (key : nDPId_flow_info) (t : ndpi_node) :
    ∀ x ∈ (ndpi_tdelete compar key t).keys, x ∈ t.keys := by
  induction t with
  | null => intro x hx; simp [ndpi_tdelete, ndpi_node.keys] at hx
  | node k l r ihl ihr =>
    intro x hx
    simp only [ndpi_tdelete] at hx
    split_ifs at hx with h0 h1
    · exact ndpi_node_unlink_keys _ x hx
    · simp only [ndpi_node.keys, List.mem_cons, List.mem_append] at hx ⊢
      rcases hx with hx | hx | hx
      · exact Or.inl hx
      · exact Or.inr (Or.inl (ihl x hx))
      · exact Or.inr (Or.inr hx)
    · simp only [ndpi_node.keys, List.mem_cons, List.mem_append] at hx ⊢
      rcases hx with hx | hx | hx
      · exact Or.inl hx
      · exact Or.inr (Or.inl hx)
      · exact Or.inr (Or.inr (ihr x hx))

theorem ndpi_tfind_congr (compar : nDPId_flow_info → nDPId_flow_info → Int)
    (K K2 : nDPId_flow_info) (t : ndpi_node)
    (h : ∀ x ∈ t.keys, compar K x = compar K2 x) :
    ndpi_tfind compar K t = ndpi_tfind compar K2 t := by
  induction t with
  | null => rfl
  | node k l r ihl ihr =>
    have hk : compar K k = compar K2 k := h k (by simp [ndpi_node.keys])
    have hl := ihl (fun x hx => h x (by simp [ndpi_node.keys, hx]))
    have hr := ihr (fun x hx => h x (by simp [ndpi_node.keys, hx]))
    simp only [ndpi_tfind, hk, hl, hr]

/-- A descent that agrees with the insertion descent ends at the new leaf. -/
theorem ndpi_tfind_tsearch_hit (compar : nDPId_flow_info → nDPId_flow_info → Int)
    (K R : nDPId_flow_info) (t : ndpi_node)
    (hagree : ∀ x ∈ t.keys, compar K x = compar R x)
    (hmiss : ndpi_tfind compar R t = none) (hzero : compar K R = 0) :
    ndpi_tfind compar K (ndpi_tsearch compar true R t).1 = some R := by
  induction t with
  | null => simp [ndpi_tsearch, ndpi_tfind, hzero]
  | node k l r ihl ihr =>
    have hk : compar K k = compar R k := hagree k (by simp [ndpi_node.keys])
    simp only [ndpi_tfind] at hmiss
    simp only [ndpi_tsearch]
    split_ifs at hmiss with h0 h1
    · simp only [h0, h1, if_false, if_true, ndpi_tfind, hk]
      exact ihl (fun x hx => hagree x (by simp [ndpi_node.keys, hx])) hmiss
    · simp only [h0, h1, if_false, ndpi_tfind, hk]
      exact ihr (fun x hx => hagree x (by simp [ndpi_node.keys, hx])) hmiss

/-- Writing `R2` through the pointer to a freshly inserted record `R` gives the
tree in which `R2` was inserted, when `key`, `R` and `R2` descend alike. -/
theorem ndpi_node_store_tsearch (compar : nDPId_flow_info → nDPId_flow_info → Int)
    (key R R2 : nDPId_flow_info) (t : ndpi_node)
    (h1 : ∀ x ∈ t.keys, compar key x = compar R x)
    (h2 : ∀ x ∈ t.keys, compar R2 x = compar R x)
    (hmiss : ndpi_tfind compar R t = none) (hzero : compar key R = 0) :
    ndpi_node.store compar key (fun _ => R2) (ndpi_tsearch compar true R t).1 =
      (ndpi_tsearch compar true R2 t).1 := by
  induction t with
  | null => simp [ndpi_tsearch, ndpi_node.store, hzero]
  | node k l r ihl ihr =>
    have hk1 : compar key k = compar R k := h1 k (by simp [ndpi_node.keys])
    have hk2 : compar R2 k = compar R k := h2 k (by simp [ndpi_node.keys])
    simp only [ndpi_tfind] at hmiss
    simp only [ndpi_tsearch, hk2]
    split_ifs at hmiss with h0 h3
    · simp only [h0, h3, if_false, if_true, ndpi_node.store, hk1]
      rw [ihl (fun x hx => h1 x (by simp [ndpi_node.keys, hx]))
        (fun x hx => h2 x (by simp [ndpi_node.keys, hx])) hmiss]
    · simp only [h0, h3, if_false, ndpi_node.store, hk1]
      rw [ihr (fun x hx => h1 x (by simp [ndpi_node.keys, hx]))
        (fun x hx => h2 x (by simp [ndpi_node.keys, hx])) hmiss]

theorem ndpi_tsearch_true_some (compar : nDPId_flow_info → nDPId_flow_info → Int)
    (R : nDPId_flow_info) (t : ndpi_node) :
    ∃ r, (ndpi_tsearch compar true R t).2 = some r := by
  induction t with
  | null => exact ⟨R, by simp [ndpi_tsearch]⟩
  | node k l r ihl ihr =>
    simp only [ndpi_tsearch]
    split_ifs
    · exact ⟨k, rfl⟩
    · exact ihl
    · exact ihr

/-! ### Idle scanner -/

theorem scan_frame_refl (rt : nDPId_reader_thread) : scan_frame rt rt :=
  ⟨rfl, fun _ _ hx => hx, fun _ he => Or.inl he⟩

theorem scan_frame_trans {a b c : nDPId_reader_thread} (h1 : scan_frame a b)
    (h2 : scan_frame b c) : scan_frame a c := by
  obtain ⟨t1, k1, e1⟩ := h1
  obtain ⟨t2, k2, e2⟩ := h2
  refine ⟨t2.trans t1, fun i x hx => k1 i x (k2 i x hx), fun e he => ?_⟩
  rcases e2 e he with h | h
  · exact e1 e h
  · exact Or.inr h

theorem ndpi_idle_scan_walker_frame (w : nDPId_workflow) (v : nDPId_flow_info × ndpi_VISIT) :
    (ndpi_idle_scan_walker w v).last_time = w.last_time ∧
      (ndpi_idle_scan_walker w v).ndpi_flows_active = w.ndpi_flows_active := by
  unfold ndpi_idle_scan_walker
  split_ifs <;> exact ⟨rfl, rfl⟩

theorem ndpi_twalk_fold_frame (vs : List (nDPId_flow_info × ndpi_VISIT)) (w : nDPId_workflow) :
    (vs.foldl ndpi_idle_scan_walker w).last_time = w.last_time ∧
      (vs.foldl ndpi_idle_scan_walker w).ndpi_flows_active = w.ndpi_flows_active := by
  induction vs generalizing w with
  | nil => exact ⟨rfl, rfl⟩
  | cons v rest ih =>
    simp only [List.foldl_cons]
    obtain ⟨h1, h2⟩ := ih (ndpi_idle_scan_walker w v)
    obtain ⟨h3, h4⟩ := ndpi_idle_scan_walker_frame w v
    exact ⟨h1.trans h3, h2.trans h4⟩

theorem drain_idle_flows_frame (idx : Nat) (staged : List nDPId_flow_info)
    (rt : nDPId_reader_thread) : scan_frame rt (drain_idle_flows idx staged rt) := by
  induction staged generalizing rt with
  | nil => exact scan_frame_refl rt
  | cons f rest ih =>
    simp only [drain_idle_flows]
    refine scan_frame_trans ?_ (ih _)
    refine ⟨rfl, fun i x hx => ?_, fun e he => ?_⟩
    · simp only [jsonize_flow_event, set_root] at hx
      split_ifs at hx with hi
      · subst hi
        exact ndpi_tdelete_keys _ _ _ x hx
      · exact hx
    · simp only [jsonize_flow_event, List.mem_append, List.mem_singleton] at he
      rcases he with he | he
      · exact Or.inl he
      · exact Or.inr (by rw [he]; rfl)

theorem idle_scan_slot_frame (rt : nDPId_reader_thread) (idx : Nat) :
    scan_frame rt (idle_scan_slot rt idx) := by
  unfold idle_scan_slot
  refine scan_frame_trans ?_ (drain_idle_flows_frame _ _ _)
  obtain ⟨h1, h2⟩ := ndpi_twalk_fold_frame (ndpi_twalk (rt.workflow.ndpi_flows_active idx)) rt.workflow
  refine ⟨h1, fun i x hx => ?_, fun e he => Or.inl he⟩
  simp only [h2] at hx
  exact hx

theorem idle_scan_fold_frame (idxs : List Nat) (rt : nDPId_reader_thread) :
    scan_frame rt (idxs.foldl idle_scan_slot rt) := by
  induction idxs generalizing rt with
  | nil => exact scan_frame_refl rt
  | cons i rest ih =>
    simp only [List.foldl_cons]
    exact scan_frame_trans (idle_scan_slot_frame rt i) (ih _)

theorem check_for_idle_flows_frame (rt : nDPId_reader_thread) :
    scan_frame rt (check_for_idle_flows rt) := by
  unfold check_for_idle_flows
  split_ifs
  · obtain ⟨h1, h2, h3⟩ := idle_scan_fold_frame (List.range rt.workflow.max_active_flows) rt
    exact ⟨h1, h2, h3⟩
  · exact scan_frame_refl rt

/-! ### Per-packet update -/

theorem same_key_refl (A : nDPId_flow_info) : same_key A A :=
  ⟨rfl, rfl, rfl, rfl, rfl, rfl, rfl, rfl, rfl, rfl⟩

theorem same_key_trans {A B C : nDPId_flow_info} (h1 : same_key A B) (h2 : same_key B C) :
    same_key A C := by
  obtain ⟨a0, a1, a2, a3, a4, a5, a6, a7, a8, a9⟩ := h1
  obtain ⟨b0, b1, b2, b3, b4, b5, b6, b7, b8, b9⟩ := h2
  exact ⟨a0.trans b0, a1.trans b1, a2.trans b2, a3.trans b3, a4.trans b4, a5.trans b5,
    a6.trans b6, a7.trans b7, a8.trans b8, a9.trans b9⟩

theorem flow_update_counters_spec (f flow : nDPId_flow_info) (t len : Nat) :
    same_key (flow_update_counters f flow t len) f ∧
      seen_at t f.first_seen (flow_update_counters f flow t len) :=
  ⟨same_key_refl _, rfl, rfl⟩

theorem flow_update_lengths_spec (f : nDPId_flow_info) (len : Nat) :
    same_key (flow_update_lengths f len) f ∧
      (flow_update_lengths f len).last_seen = f.last_seen ∧
      (flow_update_lengths f len).first_seen = f.first_seen :=
  ⟨same_key_refl _, rfl, rfl⟩

theorem flow_last_chance_spec (f : nDPId_flow_info) (lib : ndpi_results) :
    same_key (flow_last_chance f lib).1 f ∧
      (flow_last_chance f lib).1.last_seen = f.last_seen ∧
      (flow_last_chance f lib).1.first_seen = f.first_seen ∧
      ∀ e ∈ (flow_last_chance f lib).2, e.1 ≠ .FLOW_NEW := by
  unfold flow_last_chance
  split_ifs <;> refine ⟨same_key_refl _, rfl, rfl, ?_⟩ <;> simp

theorem flow_dpi_process_spec (f : nDPId_flow_info) (lib : ndpi_results) :
    same_key (flow_dpi_process f lib).1 f ∧
      (flow_dpi_process f lib).1.last_seen = f.last_seen ∧
      (flow_dpi_process f lib).1.first_seen = f.first_seen ∧
      ∀ e ∈ (flow_dpi_process f lib).2.1, e.1 ≠ .FLOW_NEW := by
  unfold flow_dpi_process
  split_ifs <;> refine ⟨same_key_refl _, rfl, rfl, ?_⟩ <;> simp

theorem flow_packet_update_spec (f flow : nDPId_flow_info) (t len : Nat) (lib : ndpi_results) :
    same_key (flow_packet_update f flow t len lib).1 f ∧
      seen_at t f.first_seen (flow_packet_update f flow t len lib).1 ∧
      ∀ e ∈ (flow_packet_update f flow t len lib).2.1, e.1 ≠ .FLOW_NEW := by
  have hc := flow_update_counters_spec f flow t len
  have hl := flow_update_lengths_spec (flow_update_counters f flow t len) len
  have hg := flow_last_chance_spec
    (flow_update_lengths (flow_update_counters f flow t len) len) lib
  have hd1 := flow_dpi_process_spec
    (flow_update_lengths (flow_update_counters f flow t len) len) lib
  have hd2 := flow_dpi_process_spec (flow_last_chance
    (flow_update_lengths (flow_update_counters f flow t len) len) lib).1 lib
  unfold flow_packet_update
  split_ifs
  · refine ⟨hc.1, ⟨hc.2.1, hc.2.2⟩, ?_⟩
    simp
  · refine ⟨same_key_trans hl.1 hc.1, ⟨hl.2.1.trans hc.2.1, hl.2.2.trans hc.2.2⟩, ?_⟩
    simp
  · refine ⟨same_key_trans hd2.1 (same_key_trans hg.1 (same_key_trans hl.1 hc.1)),
      ⟨hd2.2.1.trans (hg.2.1.trans (hl.2.1.trans hc.2.1)),
        hd2.2.2.1.trans (hg.2.2.1.trans (hl.2.2.trans hc.2.2))⟩, ?_⟩
    intro e he
    rcases List.mem_append.mp he with h | h
    · exact hg.2.2.2 e h
    · exact hd2.2.2.2 e h
  · exact ⟨same_key_trans hd1.1 (same_key_trans hl.1 hc.1),
      ⟨hd1.2.1.trans (hl.2.1.trans hc.2.1), hd1.2.2.1.trans (hl.2.2.trans hc.2.2)⟩,
      hd1.2.2.2⟩

theorem emit_events_workflow (es : List (flow_event × nDPId_flow_info)) (rt : nDPId_reader_thread) :
    (emit_events rt es).workflow = rt.workflow ∧ (emit_events rt es).flow_id = rt.flow_id ∧
      (emit_events rt es).array_index = rt.array_index ∧
      (emit_events rt es).reader_thread_count = rt.reader_thread_count := by
  induction es generalizing rt with
  | nil => exact ⟨rfl, rfl, rfl, rfl⟩
  | cons e rest ih =>
    simp only [emit_events]
    obtain ⟨h1, h2, h3, h4⟩ := ih (jsonize_flow_event rt e.2 e.1)
    exact ⟨h1, h2, h3, h4⟩

theorem emit_events_json_events (es : List (flow_event × nDPId_flow_info))
    (rt : nDPId_reader_thread) :
    (emit_events rt es).json_events =
      rt.json_events ++ es.map (fun e => jsonize_flow rt.workflow e.2 e.1) := by
  induction es generalizing rt with
  | nil => simp [emit_events]
  | cons e rest ih =>
    simp only [emit_events]
    rw [ih]
    simp [jsonize_flow_event]

/-! ### Packet path -/

theorem flow_lookup_mem (flow : nDPId_flow_info) (root : ndpi_node)
    (k r : nDPId_flow_info) (d : Nat) (h : flow_lookup flow root = some (k, r, d)) :
    r ∈ root.keys := by
  unfold flow_lookup at h
  cases h1 : ndpi_tfind ndpi_workflow_node_cmp flow root with
  | some found =>
    rw [h1] at h
    simp only [Option.some.injEq, Prod.mk.injEq] at h
    rw [← h.2.1]
    exact ndpi_tfind_mem _ _ _ _ h1
  | none =>
    rw [h1] at h
    cases h2 : ndpi_tfind ndpi_workflow_node_cmp (swap_src_dst flow) root with
    | some found =>
      rw [h2] at h
      simp only [Option.some.injEq, Prod.mk.injEq] at h
      rw [← h.2.1]
      exact ndpi_tfind_mem _ _ _ _ h2
    | none =>
      rw [h2] at h
      simp at h

theorem process_flow_frame (rt : nDPId_reader_thread) (idx : Nat)
    (key ftp flow : nDPId_flow_info) (t len : Nat) (lib : ndpi_results) :
    (process_flow rt idx key ftp flow t len lib).workflow.last_time = rt.workflow.last_time ∧
    (∀ i, ∀ x ∈ ((process_flow rt idx key ftp flow t len lib).workflow.ndpi_flows_active i).keys,
      x ∈ (rt.workflow.ndpi_flows_active i).keys ∨ x = (flow_packet_update ftp flow t len lib).1) ∧
    (∀ e ∈ (process_flow rt idx key ftp flow t len lib).json_events,
      e ∈ rt.json_events ∨ e.event ≠ .FLOW_NEW) := by
  obtain ⟨hw, -, -, -⟩ := emit_events_workflow (flow_packet_update ftp flow t len lib).2.1 rt
  have hev := emit_events_json_events (flow_packet_update ftp flow t len lib).2.1 rt
  refine ⟨?_, ?_, ?_⟩
  · simp only [process_flow, hw]
  · intro i x hx
    simp only [process_flow, hw, set_root] at hx
    split_ifs at hx with hi
    · subst hi
      rcases ndpi_node_store_keys _ _ _ _ x hx with h | h
      · exact Or.inr h
      · exact Or.inl h
    · exact Or.inl hx
  · intro e he
    simp only [process_flow] at he
    rw [hev] at he
    rcases List.mem_append.mp he with h | h
    · exact Or.inl h
    · right
      obtain ⟨a, ha, rfl⟩ := List.mem_map.mp h
      exact (flow_packet_update_spec ftp flow t len lib).2.2 a ha

theorem create_flow_frame (rt : nDPId_reader_thread) (idx : Nat) (flow : nDPId_flow_info)
    (lib : ndpi_results) :
    (create_flow rt idx flow lib).1.workflow.last_time = rt.workflow.last_time ∧
    (∀ i, ∀ x ∈ ((create_flow rt idx flow lib).1.workflow.ndpi_flows_active i).keys,
      x ∈ (rt.workflow.ndpi_flows_active i).keys ∨ x = { flow with flow_id := rt.flow_id }) ∧
    (∀ e ∈ (create_flow rt idx flow lib).1.json_events,
      e ∈ rt.json_events ∨
        ∃ w, e = jsonize_flow w { flow with flow_id := rt.flow_id } .FLOW_NEW) ∧
    (∀ ftp, (create_flow rt idx flow lib).2 = some ftp →
      ftp = { flow with flow_id := rt.flow_id }) := by
  unfold create_flow
  split_ifs with h1 h2 h3 h4 h5
  · exact ⟨rfl, fun _ _ hx => Or.inl hx, fun _ he => Or.inl he, fun _ h => by simp at h⟩
  · exact ⟨rfl, fun _ _ hx => Or.inl hx, fun _ he => Or.inl he, fun _ h => by simp at h⟩
  · exact ⟨rfl, fun _ _ hx => Or.inl hx, fun _ he => Or.inl he, fun _ h => by simp at h⟩
  · exact ⟨rfl, fun _ _ hx => Or.inl hx, fun _ he => Or.inl he, fun _ h => by simp at h⟩
  · exact ⟨rfl, fun _ _ hx => Or.inl hx, fun _ he => Or.inl he, fun _ h => by simp at h⟩
  · simp only []
    split
    · exact ⟨rfl, fun _ _ hx => Or.inl hx, fun _ he => Or.inl he, fun _ h => by simp at h⟩
    · refine ⟨rfl, fun i x hx => ?_, fun e he => ?_, fun ftp h => ?_⟩
      · simp only [jsonize_flow_event, set_root] at hx
        split_ifs at hx with hi
        · subst hi
          rcases ndpi_tsearch_keys _ _ _ _ x hx with h | h
          · exact Or.inr h
          · exact Or.inl h
        · exact Or.inl hx
      · simp only [jsonize_flow_event, List.mem_append, List.mem_singleton] at he
        rcases he with he | he
        · exact Or.inl he
        · exact Or.inr ⟨_, he⟩
      · simp only [Option.some.injEq] at h
        exact h.symm

theorem dispatch_flow_frame (rt : nDPId_reader_thread) (l3 : l3_result)
    (flow0 : nDPId_flow_info) (t : Nat) (lib : ndpi_results) :
    (dispatch_flow rt l3 flow0 t lib).workflow.last_time = rt.workflow.last_time ∧
    (∀ i, ∀ x ∈ ((dispatch_flow rt l3 flow0 t lib).workflow.ndpi_flows_active i).keys,
      x ∈ (rt.workflow.ndpi_flows_active i).keys ∨
      x = { keyed_flow flow0 lib with flow_id := rt.flow_id } ∨
      x = (flow_packet_update { keyed_flow flow0 lib with flow_id := rt.flow_id }
            (keyed_flow flow0 lib) t l3.l4_len lib).1 ∨
      ∃ j, ∃ y ∈ (rt.workflow.ndpi_flows_active j).keys,
        x = (flow_packet_update y (keyed_flow flow0 lib) t l3.l4_len lib).1) ∧
    (∀ e ∈ (dispatch_flow rt l3 flow0 t lib).json_events,
      e ∈ rt.json_events ∨ e.event ≠ .FLOW_NEW ∨
        ∃ w, e = jsonize_flow w { keyed_flow flow0 lib with flow_id := rt.flow_id } .FLOW_NEW) := by
  unfold dispatch_flow
  split_ifs with hs
  · exact ⟨rfl, fun _ _ hx => Or.inl hx, fun _ he => Or.inl he⟩
  · simp only []
    split
    · rename_i hl
      split
      · rename_i rt1 hc
        have hf := create_flow_frame
          { rt with
            workflow :=
              { rt.workflow with
                packets_processed := (rt.workflow.packets_processed + 1) % U64,
                total_l4_data_len := (rt.workflow.total_l4_data_len + l3.l4_len) % U64 } }
          ((keyed_flow flow0 lib).hashval % rt.workflow.max_active_flows) (keyed_flow flow0 lib) lib
        rw [hc] at hf
        obtain ⟨h1, h2, h3, -⟩ := hf
        refine ⟨h1, fun i x hx => ?_, fun e he => ?_⟩
        · rcases h2 i x hx with h | h
          · exact Or.inl h
          · exact Or.inr (Or.inl h)
        · rcases h3 e he with h | h
          · exact Or.inl h
          · exact Or.inr (Or.inr h)
      · rename_i rt1 ftp hc
        have hf := create_flow_frame
          { rt with
            workflow :=
              { rt.workflow with
                packets_processed := (rt.workflow.packets_processed + 1) % U64,
                total_l4_data_len := (rt.workflow.total_l4_data_len + l3.l4_len) % U64 } }
          ((keyed_flow flow0 lib).hashval % rt.workflow.max_active_flows) (keyed_flow flow0 lib) lib
        rw [hc] at hf
        obtain ⟨h1, h2, h3, h4⟩ := hf
        have hftp := h4 ftp rfl
        subst hftp
        obtain ⟨p1, p2, p3⟩ := process_flow_frame rt1
          ((keyed_flow flow0 lib).hashval % rt.workflow.max_active_flows) (keyed_flow flow0 lib)
          { keyed_flow flow0 lib with flow_id := rt.flow_id } (keyed_flow flow0 lib) t l3.l4_len lib
        refine ⟨p1.trans h1, fun i x hx => ?_, fun e he => ?_⟩
        · rcases p2 i x hx with h | h
          · rcases h2 i x h with h | h
            · exact Or.inl h
            · exact Or.inr (Or.inl h)
          · exact Or.inr (Or.inr (Or.inl h))
        · rcases p3 e he with h | h
          · rcases h3 e h with h | h
            · exact Or.inl h
            · exact Or.inr (Or.inr h)
          · exact Or.inr (Or.inl h)
    · rename_i key ftp d hl
      obtain ⟨p1, p2, p3⟩ := process_flow_frame
          { rt with
            workflow :=
              { rt.workflow with
                packets_processed := (rt.workflow.packets_processed + 1) % U64,
                total_l4_data_len := (rt.workflow.total_l4_data_len + l3.l4_len) % U64 } }
          ((keyed_flow flow0 lib).hashval % rt.workflow.max_active_flows) key ftp
          (keyed_flow flow0 lib) t l3.l4_len lib
      have hmem := flow_lookup_mem _ _ _ _ _ hl
      refine ⟨p1, fun i x hx => ?_, fun e he => ?_⟩
      · rcases p2 i x hx with h | h
        · exact Or.inl h
        · exact Or.inr (Or.inr (Or.inr ⟨_, ftp, hmem, h⟩))
      · rcases p3 e he with h | h
        · exact Or.inl h
        · exact Or.inr (Or.inl h)

theorem process_layer3_fresh (type ip_size : Nat) (packet : packet_view) (lib : ndpi_results)
    (l3 : l3_result) (h : process_layer3 type ip_size packet lib = some l3) :
    fresh_flow l3.flow := by
  unfold process_layer3 at h
  split_ifs at h
  · split at h
    · simp at h
    · simp only [Option.some.injEq] at h
      rw [← h]
      exact ⟨rfl, rfl, rfl, rfl⟩
  · split at h
    · simp at h
    · simp only [Option.some.injEq] at h
      rw [← h]
      exact ⟨rfl, rfl, rfl, rfl⟩

theorem process_layer4_fresh (header : pcap_pkthdr) (packet : packet_view) (l3 : l3_result)
    (flow : nDPId_flow_info) (h : process_layer4 header packet l3 = some flow)
    (hf : fresh_flow l3.flow) : fresh_flow flow := by
  unfold process_layer4 at h
  split_ifs at h <;> simp only [Option.some.injEq] at h <;> rw [← h] <;> exact hf

theorem parse_packet_fresh (datalink : Nat) (header : pcap_pkthdr) (packet : packet_view)
    (lib : ndpi_results) (l3 : l3_result) (flow : nDPId_flow_info)
    (h : parse_packet datalink header packet lib = some (l3, flow)) : fresh_flow flow := by
  unfold parse_packet at h
  split at h
  · simp at h
  · split at h
    · simp at h
    · rename_i l3a h3
      split at h
      · simp at h
      · rename_i flow1 h4
        simp only [Option.some.injEq, Prod.mk.injEq] at h
        rw [← h.2]
        exact process_layer4_fresh _ _ _ _ h4 (process_layer3_fresh _ _ _ _ _ h3)

theorem ndpi_process_packet_last_time (rt : nDPId_reader_thread) (header : pcap_pkthdr)
    (packet : packet_view) (lib : ndpi_results) :
    (ndpi_process_packet rt header packet lib).workflow.last_time = packet_time_ms header := by
  unfold ndpi_process_packet
  simp only []
  have hc := (check_for_idle_flows_frame
    { rt with
      workflow :=
        { rt.workflow with
          packets_captured := (rt.workflow.packets_captured + 1) % U64,
          last_time := packet_time_ms header } }).1
  split
  · exact hc
  · exact (dispatch_flow_frame _ _ _ _ _).1.trans hc

theorem ndpi_process_packet_timestamps (rt : nDPId_reader_thread) (header : pcap_pkthdr)
    (packet : packet_view) (lib : ndpi_results) (hinv : timestamps_ordered rt)
    (ht : rt.workflow.last_time ≤ packet_time_ms header) :
    timestamps_ordered (ndpi_process_packet rt header packet lib) := by
  intro i x hx
  rw [ndpi_process_packet_last_time]
  unfold ndpi_process_packet at hx
  simp only [] at hx
  obtain ⟨-, hk, -⟩ := check_for_idle_flows_frame
    { rt with
      workflow :=
        { rt.workflow with
          packets_captured := (rt.workflow.packets_captured + 1) % U64,
          last_time := packet_time_ms header } }
  have hold : ∀ j, ∀ y ∈ ((check_for_idle_flows
      { rt with
        workflow :=
          { rt.workflow with
            packets_captured := (rt.workflow.packets_captured + 1) % U64,
            last_time := packet_time_ms header } }).workflow.ndpi_flows_active j).keys,
      y.first_seen ≤ y.last_seen ∧ y.last_seen ≤ packet_time_ms header := by
    intro j y hy
    obtain ⟨a, b⟩ := hinv j y (hk j y hy)
    exact ⟨a, le_trans b ht⟩
  split at hx
  · exact hold i x hx
  · rename_i l3 flow hp
    obtain ⟨f1, f2, -, -⟩ := parse_packet_fresh _ _ _ _ _ _ hp
    rcases (dispatch_flow_frame _ _ _ _ _).2.1 i x hx with h | h | h | ⟨j, y, hy, h⟩
    · exact hold i x h
    · subst h
      simp only [keyed_flow, f1, f2]
      exact ⟨le_refl _, Nat.zero_le _⟩
    · have hs := (flow_packet_update_spec { keyed_flow flow lib with flow_id :=
        (check_for_idle_flows
          { rt with
            workflow :=
              { rt.workflow with
                packets_captured := (rt.workflow.packets_captured + 1) % U64,
                last_time := packet_time_ms header } }).flow_id }
        (keyed_flow flow lib) (packet_time_ms header) l3.l4_len lib).2.1
      rw [← h] at hs
      obtain ⟨s1, s2⟩ := hs
      simp only [keyed_flow, f1, if_true] at s2
      omega
    · have hs := (flow_packet_update_spec y (keyed_flow flow lib) (packet_time_ms header)
        l3.l4_len lib).2.1
      rw [← h] at hs
      obtain ⟨s1, s2⟩ := hs
      obtain ⟨a, b⟩ := hold j y hy
      rw [s1, s2]
      split_ifs <;> omega

theorem ndpi_process_packet_new_events (rt : nDPId_reader_thread) (header : pcap_pkthdr)
    (packet : packet_view) (lib : ndpi_results) (hinv : new_events_report_zero rt) :
    new_events_report_zero (ndpi_process_packet rt header packet lib) := by
  intro e he hnew
  unfold ndpi_process_packet at he
  simp only [] at he
  obtain ⟨-, -, hk⟩ := check_for_idle_flows_frame
    { rt with
      workflow :=
        { rt.workflow with
          packets_captured := (rt.workflow.packets_captured + 1) % U64,
          last_time := packet_time_ms header } }
  have hold : ∀ e2 ∈ (check_for_idle_flows
      { rt with
        workflow :=
          { rt.workflow with
            packets_captured := (rt.workflow.packets_captured + 1) % U64,
            last_time := packet_time_ms header } }).json_events, e2.event = .FLOW_NEW →
      e2.flow_l4_data_len = 0 ∧ e2.flow_avg_l4_data_len = 0 := by
    intro e2 he2 hn
    rcases hk e2 he2 with h | h
    · exact hinv e2 h hn
    · rw [hn] at h
      cases h
  split at he
  · exact hold e he hnew
  · rename_i l3 flow hp
    obtain ⟨-, -, f3, f4⟩ := parse_packet_fresh _ _ _ _ _ _ hp
    rcases (dispatch_flow_frame _ _ _ _ _).2.2 e he with h | h | ⟨w, h⟩
    · exact hold e h hnew
    · exact absurd hnew h
    · subst h
      simp [jsonize_flow, keyed_flow, f3, f4]

/-! ### Comparator and probes -/

theorem node_cmp_congr_left {A B : nDPId_flow_info} (h : same_tuple A B) (x : nDPId_flow_info) :
    ndpi_workflow_node_cmp A x = ndpi_workflow_node_cmp B x := by
  obtain ⟨h1, h2, h3, h4, h5, h6, h7, h8, h9⟩ := h
  simp only [ndpi_workflow_node_cmp, ip_tuples_equal, ip_tuples_compare, ports_compare,
    nDPId_flow_info.v4_src, nDPId_flow_info.v4_dst, h1, h2, h3, h4, h5, h6, h7, h8, h9]

theorem node_cmp_congr_right {A B : nDPId_flow_info} (h : same_tuple A B) (x : nDPId_flow_info) :
    ndpi_workflow_node_cmp x A = ndpi_workflow_node_cmp x B := by
  obtain ⟨h1, h2, h3, h4, h5, h6, h7, h8, h9⟩ := h
  simp only [ndpi_workflow_node_cmp, ip_tuples_equal, ip_tuples_compare, ports_compare,
    nDPId_flow_info.v4_src, nDPId_flow_info.v4_dst, h1, h2, h3, h4, h5, h6, h7, h8, h9]

theorem node_cmp_self (X : nDPId_flow_info) : ndpi_workflow_node_cmp X X = 0 := by
  cases hX : X.l3_type <;>
    simp [ndpi_workflow_node_cmp, ip_tuples_equal, ip_tuples_compare, ports_compare, hX]

theorem flow_lookup_none (flow : nDPId_flow_info) (root : ndpi_node)
    (h : flow_lookup flow root = none) :
    ndpi_tfind ndpi_workflow_node_cmp flow root = none ∧
      ndpi_tfind ndpi_workflow_node_cmp (swap_src_dst flow) root = none := by
  unfold flow_lookup at h
  cases h1 : ndpi_tfind ndpi_workflow_node_cmp flow root with
  | some found => rw [h1] at h; simp at h
  | none =>
    rw [h1] at h
    cases h2 : ndpi_tfind ndpi_workflow_node_cmp (swap_src_dst flow) root with
    | some found => rw [h2] at h; simp at h
    | none => exact ⟨rfl, rfl⟩

theorem process_flow_counters (rt : nDPId_reader_thread) (idx : Nat)
    (key ftp flow : nDPId_flow_info) (t len : Nat) (lib : ndpi_results) :
    (process_flow rt idx key ftp flow t len lib).workflow.total_active_flows =
        rt.workflow.total_active_flows ∧
      (process_flow rt idx key ftp flow t len lib).workflow.cur_active_flows =
        rt.workflow.cur_active_flows ∧
      (process_flow rt idx key ftp flow t len lib).workflow.max_active_flows =
        rt.workflow.max_active_flows ∧
      (process_flow rt idx key ftp flow t len lib).flow_id = rt.flow_id ∧
      (process_flow rt idx key ftp flow t len lib).workflow.ndpi_flows_active idx =
        ndpi_node.store ndpi_workflow_node_cmp key
          (fun _ => (flow_packet_update ftp flow t len lib).1)
          (rt.workflow.ndpi_flows_active idx) := by
  obtain ⟨hw, hid, -, -⟩ := emit_events_workflow (flow_packet_update ftp flow t len lib).2.1 rt
  simp only [process_flow, hw, hid, set_root, if_true, and_self]

theorem create_flow_success (rt : nDPId_reader_thread) (idx : Nat) (flow : nDPId_flow_info)
    (lib : ndpi_results)
    (hcap : rt.workflow.cur_active_flows ≠ rt.workflow.max_active_flows)
    (h1 : lib.malloc_flow_info = true) (h2 : lib.flow_malloc = true)
    (h3 : lib.calloc_src = true) (h4 : lib.calloc_dst = true) (h5 : lib.tsearch_malloc = true) :
    (create_flow rt idx flow lib).2 = some { flow with flow_id := rt.flow_id } ∧
      (create_flow rt idx flow lib).1.workflow.max_active_flows = rt.workflow.max_active_flows ∧
      (create_flow rt idx flow lib).1.workflow.ndpi_flows_active idx =
        (ndpi_tsearch ndpi_workflow_node_cmp true { flow with flow_id := rt.flow_id }
          (rt.workflow.ndpi_flows_active idx)).1 := by
  obtain ⟨r, hr⟩ := ndpi_tsearch_true_some ndpi_workflow_node_cmp
    { flow with flow_id := rt.flow_id } (rt.workflow.ndpi_flows_active idx)
  unfold create_flow
  simp only [hcap, h1, h2, h3, h4, h5, if_false, Bool.true_eq_false, hr, jsonize_flow_event,
    set_root, if_true, and_self]

/-- A packet of this shard whose lookup misses both probes, with room in the
table and every allocation succeeding: slot `hashval % max_active_flows` becomes
the tree with the new record, as the per-packet update leaves it, inserted. -/
theorem dispatch_flow_creates (rt : nDPId_reader_thread) (l3 : l3_result)
    (flow0 : nDPId_flow_info) (t : Nat) (lib : ndpi_results)
    (hshard : thread_index_final l3.thread_index flow0.src_port flow0.dst_port
      rt.reader_thread_count = rt.array_index)
    (hmiss : flow_lookup (keyed_flow flow0 lib)
      (rt.workflow.ndpi_flows_active
        ((keyed_flow flow0 lib).hashval % rt.workflow.max_active_flows)) = none)
    (hcap : rt.workflow.cur_active_flows ≠ rt.workflow.max_active_flows)
    (h1 : lib.malloc_flow_info = true) (h2 : lib.flow_malloc = true)
    (h3 : lib.calloc_src = true) (h4 : lib.calloc_dst = true) (h5 : lib.tsearch_malloc = true) :
    (dispatch_flow rt l3 flow0 t lib).workflow.max_active_flows = rt.workflow.max_active_flows ∧
    (dispatch_flow rt l3 flow0 t lib).workflow.ndpi_flows_active
        ((keyed_flow flow0 lib).hashval % rt.workflow.max_active_flows) =
      (ndpi_tsearch ndpi_workflow_node_cmp true
        (flow_packet_update { keyed_flow flow0 lib with flow_id := rt.flow_id }
          (keyed_flow flow0 lib) t l3.l4_len lib).1
        (rt.workflow.ndpi_flows_active
          ((keyed_flow flow0 lib).hashval % rt.workflow.max_active_flows))).1 := by
  obtain ⟨c1, c2, c3⟩ := create_flow_success
    { rt with
      workflow :=
        { rt.workflow with
          packets_processed := (rt.workflow.packets_processed + 1) % U64,
          total_l4_data_len := (rt.workflow.total_l4_data_len + l3.l4_len) % U64 } }
    ((keyed_flow flow0 lib).hashval % rt.workflow.max_active_flows) (keyed_flow flow0 lib) lib
    hcap h1 h2 h3 h4 h5
  obtain ⟨hm1, -⟩ := flow_lookup_none _ _ hmiss
  have hkey : same_tuple { keyed_flow flow0 lib with flow_id := rt.flow_id } (keyed_flow flow0 lib) :=
    ⟨rfl, rfl, rfl, rfl, rfl, rfl, rfl, rfl, rfl⟩
  have hupd := (flow_packet_update_spec { keyed_flow flow0 lib with flow_id := rt.flow_id }
    (keyed_flow flow0 lib) t l3.l4_len lib).1.2
  unfold dispatch_flow
  rw [if_neg (not_not.mpr hshard)]
  simp only [hmiss]
  split
  · rename_i rt1 hc
    rw [hc] at c1
    simp at c1
  · rename_i rt1 ftp hc
    rw [hc] at c1 c2 c3
    simp only [Option.some.injEq] at c1
    subst c1
    obtain ⟨-, -, p3, -, p5⟩ := process_flow_counters rt1
      ((keyed_flow flow0 lib).hashval % rt.workflow.max_active_flows) (keyed_flow flow0 lib)
      { keyed_flow flow0 lib with flow_id := rt.flow_id } (keyed_flow flow0 lib) t l3.l4_len lib
    refine ⟨p3.trans c2, ?_⟩
    rw [p5, c3]
    apply ndpi_node_store_tsearch
    · exact fun x _ => (node_cmp_congr_left hkey x).symm
    · exact fun x _ => node_cmp_congr_left hupd x
    · rw [ndpi_tfind_congr _ _ (keyed_flow flow0 lib) _ (fun x _ => node_cmp_congr_left hkey x)]
      exact hm1
    · rw [node_cmp_congr_right hkey]
      exact node_cmp_self _

/-! ### Shard dispatcher -/

/-- For IPv4 the shard index does not depend on the direction: exchanging source
and destination (addresses and ports) leaves `thread_index` unchanged. -/
theorem thread_index_v4_symmetric (saddr daddr protocol sport dport : Nat) (N : Int) :
    thread_index_final (thread_index_v4 daddr saddr protocol) dport sport N =
      thread_index_final (thread_index_v4 saddr daddr protocol) sport dport N := by
  have h1 : (if daddr > saddr then saddr else daddr) = (if saddr > daddr then daddr else saddr) := by
    split_ifs <;> omega
  have h2 : (if dport < sport then sport else dport) = (if sport < dport then dport else sport) := by
    split_ifs <;> omega
  simp only [thread_index_final, thread_index_v4, h1, h2]

/-- C1 (fails for IPv6): the UDP/IPv6 packet from address words `(4, 0)` port 1000 to
`(3, 1)` port 53 and the packet of the same flow in the reverse direction are both
accepted by the parser, the second carries the swapped tuple of the first, and with
4 workers the first gets shard index 1, the second shard index 3. -/
theorem C1_reversed_ipv6_packet_changes_shard :
    (parse_packet DLT_EN10MB (sample_header 0 102) (sample_ip6 17 3 1 4 0 53 1000)
        (sample_lib 54 40 17)).map Prod.snd =
      (parse_packet DLT_EN10MB (sample_header 0 102) (sample_ip6 17 4 0 3 1 1000 53)
        (sample_lib 54 40 17)).map (fun x => swap_src_dst x.2) ∧
    packet_shard DLT_EN10MB (sample_header 0 102) (sample_ip6 17 4 0 3 1 1000 53)
      (sample_lib 54 40 17) 4 = some 1 ∧
    packet_shard DLT_EN10MB (sample_header 0 102) (sample_ip6 17 3 1 4 0 53 1000)
      (sample_lib 54 40 17) 4 = some 3 := by
  decide

/-- C2 (fails): the UDP/IPv4 packet between the addresses `0x80000001` and
`0x80000002` (ports 1 and 1) is accepted by the parser and gets shard index `-1`
with 4 workers; each of the workers 0, 1, 2, 3 drops it at the shard check
(`packets_processed` stays 0, no event). -/
theorem C2_negative_shard_index_owned_by_no_worker :
    packet_shard DLT_EN10MB (sample_header 0 82) (sample_ip4 17 0x80000001 0x80000002 1 1)
      (sample_lib 34 40 17) 4 = some (-1) ∧
    (ndpi_process_packet (init_reader_thread DLT_EN10MB 0) (sample_header 0 82)
      (sample_ip4 17 0x80000001 0x80000002 1 1) (sample_lib 34 40 17)).workflow.packets_processed
        = 0 ∧
    (ndpi_process_packet (init_reader_thread DLT_EN10MB 1) (sample_header 0 82)
      (sample_ip4 17 0x80000001 0x80000002 1 1) (sample_lib 34 40 17)).workflow.packets_processed
        = 0 ∧
    (ndpi_process_packet (init_reader_thread DLT_EN10MB 2) (sample_header 0 82)
      (sample_ip4 17 0x80000001 0x80000002 1 1) (sample_lib 34 40 17)).workflow.packets_processed
        = 0 ∧
    (ndpi_process_packet (init_reader_thread DLT_EN10MB 3) (sample_header 0 82)
      (sample_ip4 17 0x80000001 0x80000002 1 1) (sample_lib 34 40 17)).workflow.packets_processed
        = 0 := by
  decide

/-! ### Comparator -/

/-- C5 (fails): the keys of the UDP/IPv4 packets `1:1 -> 1:5` and `1:2 -> 2:3`
(address:port) have the same `hashval` and protocol, and the comparator returns
`-1` for them in both orders. -/
theorem C5_node_cmp_negative_in_both_orders :
    (parse_packet DLT_EN10MB (sample_header 0 82) (sample_ip4 17 1 1 1 5)
        (sample_lib 34 40 17)).map (fun x => keyed_flow x.2 (sample_lib 34 40 17)) =
      some (sample_key4 1 1 1 5) ∧
    (parse_packet DLT_EN10MB (sample_header 0 82) (sample_ip4 17 1 2 2 3)
        (sample_lib 34 40 17)).map (fun x => keyed_flow x.2 (sample_lib 34 40 17)) =
      some (sample_key4 1 2 2 3) ∧
    ndpi_workflow_node_cmp (sample_key4 1 1 1 5) (sample_key4 1 2 2 3) = -1 ∧
    ndpi_workflow_node_cmp (sample_key4 1 2 2 3) (sample_key4 1 1 1 5) = -1 := by
  decide

/-- C6 (fails): for the keys `A`, `B`, `C` of the UDP/IPv4 packets with ports
`(2, 2)`, `(3, 0)`, `(1, 1)` and equal `hashval`, `cmp(A, B) = -1` and
`cmp(B, C) = -1` but `cmp(A, C) = 1`. -/
theorem C6_node_cmp_not_transitive :
    (parse_packet DLT_EN10MB (sample_header 0 82) (sample_ip4 17 1 1 2 2)
        (sample_lib 34 40 17)).map (fun x => keyed_flow x.2 (sample_lib 34 40 17)) =
      some (sample_key4 1 1 2 2) ∧
    (parse_packet DLT_EN10MB (sample_header 0 82) (sample_ip4 17 1 2 3 0)
        (sample_lib 34 40 17)).map (fun x => keyed_flow x.2 (sample_lib 34 40 17)) =
      some (sample_key4 1 2 3 0) ∧
    (parse_packet DLT_EN10MB (sample_header 0 82) (sample_ip4 17 2 2 1 1)
        (sample_lib 34 40 17)).map (fun x => keyed_flow x.2 (sample_lib 34 40 17)) =
      some (sample_key4 2 2 1 1) ∧
    ndpi_workflow_node_cmp (sample_key4 1 1 2 2) (sample_key4 1 2 3 0) = -1 ∧
    ndpi_workflow_node_cmp (sample_key4 1 2 3 0) (sample_key4 2 2 1 1) = -1 ∧
    ndpi_workflow_node_cmp (sample_key4 1 1 2 2) (sample_key4 2 2 1 1) = 1 := by
  decide

/-- C7: records with equal `hashval`, equal `l4_protocol`, the same `l3_type`,
identical addresses and identical ports compare equal, and every record compares
equal to itself. -/
theorem C7_node_cmp_zero_on_identical_tuples (A B : nDPId_flow_info)
    (hh : A.hashval = B.hashval) (hp : A.l4_protocol = B.l4_protocol)
    (ht : A.l3_type = B.l3_type) (ha : same_addresses A B)
    (hs : A.src_port = B.src_port) (hd : A.dst_port = B.dst_port) :
    ndpi_workflow_node_cmp A B = 0 ∧ ndpi_workflow_node_cmp A A = 0 := by
  have hrefl : ∀ X : nDPId_flow_info, ndpi_workflow_node_cmp X X = 0 := by
    intro X
    cases hX : X.l3_type <;>
      simp [ndpi_workflow_node_cmp, ip_tuples_equal, ip_tuples_compare, ports_compare, hX]
  refine ⟨?_, hrefl A⟩
  cases hA : A.l3_type
  · have hB : B.l3_type = .L3_IP := by rw [← ht, hA]
    simp [ndpi_workflow_node_cmp, ip_tuples_equal, ip_tuples_compare, ports_compare, hA, hB, hh,
      hp, hs, hd]
  · have hB : B.l3_type = .L3_IP6 := by rw [← ht, hA]
    simp only [same_addresses, hA] at ha
    obtain ⟨h0, h1, h2, h3⟩ := ha
    simp [ndpi_workflow_node_cmp, ip_tuples_equal, hA, hB, hh, hp, hs, hd, h0, h1, h2, h3]

/-- C7 at two IPv6 records that differ only in fields outside the key. -/
theorem C7_node_cmp_zero_witness :
    ndpi_workflow_node_cmp
        { flow_zero with l3_type := .L3_IP6, v6_src0 := 7, v6_dst1 := 9, src_port := 5, flow_id := 1 }
        { flow_zero with l3_type := .L3_IP6, v6_src0 := 7, v6_dst1 := 9, src_port := 5, flow_id := 2 }
        = 0 ∧
      ndpi_workflow_node_cmp
        { flow_zero with l3_type := .L3_IP6, v6_src0 := 7, v6_dst1 := 9, src_port := 5, flow_id := 1 }
        { flow_zero with l3_type := .L3_IP6, v6_src0 := 7, v6_dst1 := 9, src_port := 5, flow_id := 1 }
        = 0 :=
  C7_node_cmp_zero_on_identical_tuples _ _ rfl rfl rfl ⟨rfl, rfl, rfl, rfl⟩ rfl rfl

/-! ### Timestamps and events along a run -/

theorem run_pcap_loop_timestamps (pkts : List (pcap_pkthdr × packet_view × ndpi_results))
    (rt : nDPId_reader_thread) (hinv : timestamps_ordered rt)
    (h : nondecreasing_times rt.workflow.last_time pkts) :
    timestamps_ordered (run_pcap_loop rt pkts) := by
  induction pkts generalizing rt with
  | nil => exact hinv
  | cons p rest ih =>
    simp only [run_pcap_loop]
    obtain ⟨h1, h2⟩ := h
    apply ih _ (ndpi_process_packet_timestamps rt p.1 p.2.1 p.2.2 hinv h1)
    rw [ndpi_process_packet_last_time]
    exact h2

theorem run_pcap_loop_new_events (pkts : List (pcap_pkthdr × packet_view × ndpi_results))
    (rt : nDPId_reader_thread) (hinv : new_events_report_zero rt) :
    new_events_report_zero (run_pcap_loop rt pkts) := by
  induction pkts generalizing rt with
  | nil => exact hinv
  | cons p rest ih =>
    simp only [run_pcap_loop]
    exact ih _ (ndpi_process_packet_new_events rt p.1 p.2.1 p.2.2 hinv)

/-- C3 (fails): worker 3 first processes the UDP/IPv4 packet `2 -> 12`, ports
`10 -> 20`, which creates flow 0.  The packet `6 -> 8` with the same ports (same
shard, same fallback `hashval`) has a tuple that is neither that of flow 0 nor its
reverse, yet its direct probe resolves to flow 0; processing it creates no record
and is counted on flow 0. -/
theorem C3_lookup_resolves_to_record_of_another_tuple :
    packet_shard DLT_EN10MB (sample_header 0 82) (sample_ip4 17 2 12 10 20)
      (sample_lib 34 40 17) 4 = some 3 ∧
    packet_shard DLT_EN10MB (sample_header 0 82) (sample_ip4 17 6 8 10 20)
      (sample_lib 34 40 17) 4 = some 3 ∧
    (parse_packet DLT_EN10MB (sample_header 0 82) (sample_ip4 17 6 8 10 20)
        (sample_lib 34 40 17)).map (fun x => keyed_flow x.2 (sample_lib 34 40 17)) =
      some (sample_key4 6 8 10 20) ∧
    (flow_lookup (sample_key4 6 8 10 20)
        ((ndpi_process_packet (init_reader_thread DLT_EN10MB 3) (sample_header 0 82)
          (sample_ip4 17 2 12 10 20) (sample_lib 34 40 17)).workflow.ndpi_flows_active 61)).map
        (fun x => (x.2.1.flow_id, x.2.1.v4_src, x.2.1.v4_dst, x.2.2)) = some (0, 2, 12, 0) ∧
    ((run_pcap_loop (init_reader_thread DLT_EN10MB 3)
        [(sample_header 0 82, sample_ip4 17 2 12 10 20, sample_lib 34 40 17),
         (sample_header 0 82, sample_ip4 17 6 8 10 20, sample_lib 34 40 17)]).workflow.ndpi_flows_active
          61).keys.map (fun f => (f.flow_id, f.v4_src, f.v4_dst, f.packets_processed)) =
      [(0, 2, 12, 2)] ∧
    (run_pcap_loop (init_reader_thread DLT_EN10MB 3)
        [(sample_header 0 82, sample_ip4 17 2 12 10 20, sample_lib 34 40 17),
         (sample_header 0 82, sample_ip4 17 6 8 10 20, sample_lib 34 40 17)]).json_events.map
          (fun e => e.event) = [.FLOW_NEW] := by
  decide

/-- C8 fails as stated: worker 3 receives two packets of one UDP/IPv4 flow with
timestamps 5 s and 2 s; afterwards the record has `first_seen = 5000 > last_seen =
2000`.  When the second packet belongs to another shard instead, the record keeps
`last_seen = 5000` while `last_time = 2000`. -/
theorem C8_out_of_order_timestamps_break_order :
    ((run_pcap_loop (init_reader_thread DLT_EN10MB 3)
        [(sample_header 5 82, sample_ip4 17 2 12 10 20, sample_lib 34 40 17),
         (sample_header 2 82, sample_ip4 17 2 12 10 20, sample_lib 34 40 17)]).workflow.ndpi_flows_active
          61).keys.map (fun f => (f.first_seen, f.last_seen)) = [(5000, 2000)] ∧
    ((run_pcap_loop (init_reader_thread DLT_EN10MB 3)
        [(sample_header 5 82, sample_ip4 17 2 12 10 20, sample_lib 34 40 17),
         (sample_header 2 82, sample_ip4 17 1 4 1000 53, sample_lib 34 40 17)]).workflow.ndpi_flows_active
          61).keys.map (fun f => (f.first_seen, f.last_seen)) = [(5000, 5000)] ∧
    (run_pcap_loop (init_reader_thread DLT_EN10MB 3)
        [(sample_header 5 82, sample_ip4 17 2 12 10 20, sample_lib 34 40 17),
         (sample_header 2 82, sample_ip4 17 1 4 1000 53, sample_lib 34 40 17)]).workflow.last_time =
      2000 := by
  decide

/-- C8 (amended): from the initial state, after any sequence of packets whose
timestamps `time_ms` are non-decreasing, every flow record in the worker's trees
has `first_seen ≤ last_seen` and `last_seen ≤ last_time`. -/
theorem C8_timestamps_ordered_for_nondecreasing_times (datalink : Nat) (array_index : Int)
    (pkts : List (pcap_pkthdr × packet_view × ndpi_results))
    (h : nondecreasing_times 0 pkts) (i : Nat) (f : nDPId_flow_info)
    (hf : f ∈ ((run_pcap_loop (init_reader_thread datalink array_index)
      pkts).workflow.ndpi_flows_active i).keys) :
    f.first_seen ≤ f.last_seen ∧
      f.last_seen ≤ (run_pcap_loop (init_reader_thread datalink array_index) pkts).workflow.last_time := by
  have hinit : timestamps_ordered (init_reader_thread datalink array_index) := by
    intro j x hx
    simp [init_reader_thread, init_workflow, ndpi_node.keys] at hx
  exact run_pcap_loop_timestamps pkts _ hinit h i f hf

/-- C8 (amended) on two packets of one flow at 2 s and 5 s: the record of slot 61. -/
theorem C8_timestamps_ordered_witness :
    (sample_record 2000 5000).first_seen ≤ (sample_record 2000 5000).last_seen ∧
      (sample_record 2000 5000).last_seen ≤
        (run_pcap_loop (init_reader_thread DLT_EN10MB 3)
          [(sample_header 2 82, sample_ip4 17 2 12 10 20, sample_lib 34 40 17),
           (sample_header 5 82, sample_ip4 17 2 12 10 20, sample_lib 34 40 17)]).workflow.last_time :=
  C8_timestamps_ordered_for_nondecreasing_times DLT_EN10MB 3
    [(sample_header 2 82, sample_ip4 17 2 12 10 20, sample_lib 34 40 17),
     (sample_header 5 82, sample_ip4 17 2 12 10 20, sample_lib 34 40 17)]
    ⟨by decide, by decide, trivial⟩ 61 (sample_record 2000 5000) (by decide)

/-- C9 fails as stated: worker 3 receives a packet with timestamp 5 s and then
one with timestamp 2 s; `last_time` is 5000 after the first and 2000 after the
second. -/
theorem C9_last_time_follows_older_timestamp :
    (ndpi_process_packet (init_reader_thread DLT_EN10MB 3) (sample_header 5 82)
      (sample_ip4 17 2 12 10 20) (sample_lib 34 40 17)).workflow.last_time = 5000 ∧
    (ndpi_process_packet
      (ndpi_process_packet (init_reader_thread DLT_EN10MB 3) (sample_header 5 82)
        (sample_ip4 17 2 12 10 20) (sample_lib 34 40 17))
      (sample_header 2 82) (sample_ip4 17 2 12 10 20) (sample_lib 34 40 17)).workflow.last_time =
        2000 := by
  decide

/-- C9 (amended): `ndpi_process_packet` leaves `last_time` equal to the packet's
`time_ms`; hence for a packet whose timestamp is not older than the worker's
`last_time`, `last_time` afterwards is at least `last_time` before. -/
theorem C9_last_time_monotone_for_nondecreasing_times (rt : nDPId_reader_thread)
    (header : pcap_pkthdr) (packet : packet_view) (lib : ndpi_results)
    (h : rt.workflow.last_time ≤ packet_time_ms header) :
    (ndpi_process_packet rt header packet lib).workflow.last_time = packet_time_ms header ∧
      rt.workflow.last_time ≤ (ndpi_process_packet rt header packet lib).workflow.last_time := by
  rw [ndpi_process_packet_last_time]
  exact ⟨rfl, h⟩

/-- C9 (amended) on the state after a packet at 2 s, for a packet at 5 s. -/
theorem C9_last_time_monotone_witness :
    (ndpi_process_packet
      (ndpi_process_packet (init_reader_thread DLT_EN10MB 3) (sample_header 2 82)
        (sample_ip4 17 2 12 10 20) (sample_lib 34 40 17))
      (sample_header 5 82) (sample_ip4 17 2 12 10 20) (sample_lib 34 40 17)).workflow.last_time =
        packet_time_ms (sample_header 5 82) ∧
    (ndpi_process_packet (init_reader_thread DLT_EN10MB 3) (sample_header 2 82)
        (sample_ip4 17 2 12 10 20) (sample_lib 34 40 17)).workflow.last_time ≤
      (ndpi_process_packet
        (ndpi_process_packet (init_reader_thread DLT_EN10MB 3) (sample_header 2 82)
          (sample_ip4 17 2 12 10 20) (sample_lib 34 40 17))
        (sample_header 5 82) (sample_ip4 17 2 12 10 20) (sample_lib 34 40 17)).workflow.last_time :=
  C9_last_time_monotone_for_nondecreasing_times _ (sample_header 5 82)
    (sample_ip4 17 2 12 10 20) (sample_lib 34 40 17) (by decide)

/-- C10 fails as stated: a single UDP/IPv4 datagram `1:1000 -> 4:53` with 40
payload bytes makes worker 2 emit exactly one event, `FLOW_NEW`, and it reports
`flow_l4_data_len = 0` and `flow_avg_l4_data_len = 0`; the record in the tree has
the 40 bytes counted only afterwards. -/
theorem C10_new_event_of_40_byte_datagram_reports_zero :
    (ndpi_process_packet (init_reader_thread DLT_EN10MB 2) (sample_header 0 82)
      (sample_ip4 17 1 4 1000 53) (sample_lib 34 40 17)).json_events.map
        (fun e => (e.event, e.flow_l4_data_len, e.flow_avg_l4_data_len)) =
      [(.FLOW_NEW, 0, 0)] ∧
    ((ndpi_process_packet (init_reader_thread DLT_EN10MB 2) (sample_header 0 82)
      (sample_ip4 17 1 4 1000 53) (sample_lib 34 40 17)).workflow.ndpi_flows_active 1075).keys.map
        (fun f => (f.packets_processed, f.total_l4_data_len)) = [(1, 40)] := by
  decide

/-- C10 (amended): from the initial state, after any sequence of packets, every
`FLOW_NEW` event handed to the serializer reports `flow_l4_data_len = 0` and
`flow_avg_l4_data_len = 0`: the event is serialised before the packet that
created the record is counted. -/
theorem C10_new_event_reports_zero_lengths (datalink : Nat) (array_index : Int)
    (pkts : List (pcap_pkthdr × packet_view × ndpi_results)) (e : json_event)
    (he : e ∈ (run_pcap_loop (init_reader_thread datalink array_index) pkts).json_events)
    (hnew : e.event = .FLOW_NEW) :
    e.flow_l4_data_len = 0 ∧ e.flow_avg_l4_data_len = 0 := by
  have hinit : new_events_report_zero (init_reader_thread datalink array_index) := by
    intro x hx
    simp [init_reader_thread] at hx
  exact run_pcap_loop_new_events pkts _ hinit e he hnew

/-- C10 (amended) on the event of a single 40-byte datagram. -/
theorem C10_new_event_reports_zero_witness :
    (⟨.FLOW_NEW, 0, 0, 0, 0, 0, 1, 0, sample_key4 1 4 1000 53⟩ : json_event).flow_l4_data_len = 0 ∧
      (⟨.FLOW_NEW, 0, 0, 0, 0, 0, 1, 0, sample_key4 1 4 1000 53⟩ :
        json_event).flow_avg_l4_data_len = 0 :=
  C10_new_event_reports_zero_lengths DLT_EN10MB 2
    [(sample_header 0 82, sample_ip4 17 1 4 1000 53, sample_lib 34 40 17)]
    ⟨.FLOW_NEW, 0, 0, 0, 0, 0, 1, 0, sample_key4 1 4 1000 53⟩ (by decide) rfl

/-! ### Direction-reversed probe -/

theorem flow_packet_update_min (f flow : nDPId_flow_info) (t len : Nat) (lib : ndpi_results)
    (h : f.min_l4_data_len = 0) : (flow_packet_update f flow t len lib).1.min_l4_data_len = 0 := by
  have hl : (flow_update_lengths (flow_update_counters f flow t len) len).min_l4_data_len = 0 := by
    simp [flow_update_lengths, flow_update_counters, h]
  have hg : (flow_last_chance (flow_update_lengths (flow_update_counters f flow t len) len)
      lib).1.min_l4_data_len = 0 := by
    unfold flow_last_chance
    split_ifs <;> exact hl
  have hd : ∀ g : nDPId_flow_info, g.min_l4_data_len = 0 →
      (flow_dpi_process g lib).1.min_l4_data_len = 0 := by
    intro g hg0
    unfold flow_dpi_process
    split_ifs <;> exact hg0
  unfold flow_packet_update
  split_ifs
  · exact h
  · exact hl
  · exact hd _ hg
  · exact hd _ hl

theorem parse_packet_min (datalink : Nat) (header : pcap_pkthdr) (packet : packet_view)
    (lib : ndpi_results) (l3 : l3_result) (flow : nDPId_flow_info)
    (h : parse_packet datalink header packet lib = some (l3, flow)) :
    flow.min_l4_data_len = 0 := by
  unfold parse_packet at h
  split at h
  · simp at h
  · split at h
    · simp at h
    · rename_i l3a h3
      split at h
      · simp at h
      · rename_i flow1 h4
        simp only [Option.some.injEq, Prod.mk.injEq] at h
        rw [← h.2]
        have h3m : l3a.flow.min_l4_data_len = 0 := by
          unfold process_layer3 at h3
          split_ifs at h3
          · split at h3
            · simp at h3
            · simp only [Option.some.injEq] at h3
              rw [← h3]
              rfl
          · split at h3
            · simp at h3
            · simp only [Option.some.injEq] at h3
              rw [← h3]
              rfl
        unfold process_layer4 at h4
        split_ifs at h4 <;> simp only [Option.some.injEq] at h4 <;> rw [← h4] <;> exact h3m

theorem ndpi_process_packet_min (rt : nDPId_reader_thread) (header : pcap_pkthdr)
    (packet : packet_view) (lib : ndpi_results) (hinv : min_len_zero rt) :
    min_len_zero (ndpi_process_packet rt header packet lib) := by
  intro i x hx
  unfold ndpi_process_packet at hx
  simp only [] at hx
  obtain ⟨-, hk, -⟩ := check_for_idle_flows_frame
    { rt with
      workflow :=
        { rt.workflow with
          packets_captured := (rt.workflow.packets_captured + 1) % U64,
          last_time := packet_time_ms header } }
  have hold : ∀ j, ∀ y ∈ ((check_for_idle_flows
      { rt with
        workflow :=
          { rt.workflow with
            packets_captured := (rt.workflow.packets_captured + 1) % U64,
            last_time := packet_time_ms header } }).workflow.ndpi_flows_active j).keys,
      y.min_l4_data_len = 0 := fun j y hy => hinv j y (hk j y hy)
  split at hx
  · exact hold i x hx
  · rename_i l3 flow hp
    have hm := parse_packet_min _ _ _ _ _ _ hp
    rcases (dispatch_flow_frame _ _ _ _ _).2.1 i x hx with h | h | h | ⟨j, y, hy, h⟩
    · exact hold i x h
    · rw [h]
      exact hm
    · rw [h]
      exact flow_packet_update_min _ _ _ _ _ hm
    · rw [h]
      exact flow_packet_update_min _ _ _ _ _ (hold j y hy)

theorem run_pcap_loop_min (pkts : List (pcap_pkthdr × packet_view × ndpi_results))
    (rt : nDPId_reader_thread) (hinv : min_len_zero rt) :
    min_len_zero (run_pcap_loop rt pkts) := by
  induction pkts generalizing rt with
  | nil => exact hinv
  | cons p rest ih =>
    simp only [run_pcap_loop]
    exact ih _ (ndpi_process_packet_min rt p.1 p.2.1 p.2.2 hinv)

/-- In every state reached from the initial state, every flow record has
`min_l4_data_len = 0`: the record starts at 0 and `l4_len < 0` never holds. -/
theorem min_l4_data_len_stays_zero (datalink : Nat) (array_index : Int)
    (pkts : List (pcap_pkthdr × packet_view × ndpi_results)) :
    min_len_zero (run_pcap_loop (init_reader_thread datalink array_index) pkts) := by
  apply run_pcap_loop_min
  intro j x hx
  simp [init_reader_thread, init_workflow, ndpi_node.keys] at hx

/-- C11 (fails): worker 3 receives two UDP/IPv4 packets of one flow with L4 lengths
10 and 20; afterwards the record has `min_l4_data_len = 0` (not 10), while
`max_l4_data_len = 20` and `total_l4_data_len = 30`. -/
theorem C11_min_l4_data_len_is_zero_after_lengths_10_20 :
    ((run_pcap_loop (init_reader_thread DLT_EN10MB 3)
        [(sample_header 0 52, sample_ip4 17 2 12 10 20, sample_lib 34 10 17),
         (sample_header 1 62, sample_ip4 17 2 12 10 20, sample_lib 34 20 17)]).workflow.ndpi_flows_active
          61).keys.map
        (fun f => (f.packets_processed, f.min_l4_data_len, f.max_l4_data_len,
          f.total_l4_data_len)) = [(2, 0, 20, 30)] := by
  decide

/-- C18: from the initial state, after any sequence of packets, every flow record
in the worker's trees has `min_l4_data_len ≤ max_l4_data_len`. -/
theorem C18_min_le_max (datalink : Nat) (array_index : Int)
    (pkts : List (pcap_pkthdr × packet_view × ndpi_results)) (i : Nat) (f : nDPId_flow_info)
    (hf : f ∈ ((run_pcap_loop (init_reader_thread datalink array_index)
      pkts).workflow.ndpi_flows_active i).keys) :
    f.min_l4_data_len ≤ f.max_l4_data_len := by
  rw [min_l4_data_len_stays_zero datalink array_index pkts i f hf]
  exact Nat.zero_le _

/-- C18 on the record of slot 61 after two packets of one flow. -/
theorem C18_min_le_max_witness :
    (sample_record 2000 5000).min_l4_data_len ≤ (sample_record 2000 5000).max_l4_data_len :=
  C18_min_le_max DLT_EN10MB 3
    [(sample_header 2 82, sample_ip4 17 2 12 10 20, sample_lib 34 40 17),
     (sample_header 5 82, sample_ip4 17 2 12 10 20, sample_lib 34 40 17)]
    61 (sample_record 2000 5000) (by decide)

/-! ### Per-flow counters -/

theorem flow_packet_update_counters (f flow : nDPId_flow_info) (t len : Nat)
    (lib : ndpi_results) :
    (flow_packet_update f flow t len lib).1.packets_processed = (f.packets_processed + 1) % U64 ∧
      (flow_packet_update f flow t len lib).1.total_l4_data_len =
        (f.total_l4_data_len + len) % U64 := by
  have hg : ∀ g : nDPId_flow_info,
      (flow_last_chance g lib).1.packets_processed = g.packets_processed ∧
        (flow_last_chance g lib).1.total_l4_data_len = g.total_l4_data_len := by
    intro g
    unfold flow_last_chance
    split_ifs <;> exact ⟨rfl, rfl⟩
  have hd : ∀ g : nDPId_flow_info,
      (flow_dpi_process g lib).1.packets_processed = g.packets_processed ∧
        (flow_dpi_process g lib).1.total_l4_data_len = g.total_l4_data_len := by
    intro g
    unfold flow_dpi_process
    split_ifs <;> exact ⟨rfl, rfl⟩
  unfold flow_packet_update
  split_ifs
  · exact ⟨rfl, rfl⟩
  · exact ⟨rfl, rfl⟩
  · exact ⟨(hd _).1.trans (hg _).1, (hd _).2.trans (hg _).2⟩
  · exact hd _

theorem flow_history_counters (pkts : List (nDPId_flow_info × Nat × Nat × ndpi_results))
    (r : nDPId_flow_info) (hp : r.packets_processed < U64) (ht : r.total_l4_data_len < U64) :
    (flow_history r pkts).1.packets_processed = (r.packets_processed + pkts.length) % U64 ∧
      (flow_history r pkts).1.total_l4_data_len =
        (r.total_l4_data_len + (pkts.map (fun p => p.2.2.1)).sum) % U64 := by
  induction pkts generalizing r with
  | nil =>
    simp only [flow_history, List.length_nil, List.map_nil, List.sum_nil, Nat.add_zero]
    exact ⟨(Nat.mod_eq_of_lt hp).symm, (Nat.mod_eq_of_lt ht).symm⟩
  | cons p rest ih =>
    obtain ⟨h1, h2⟩ := flow_packet_update_counters r p.1 p.2.1 p.2.2.1 p.2.2.2
    have hU : 0 < U64 := by decide
    obtain ⟨i1, i2⟩ := ih (flow_packet_update r p.1 p.2.1 p.2.2.1 p.2.2.2).1
      (by rw [h1]; exact Nat.mod_lt _ hU) (by rw [h2]; exact Nat.mod_lt _ hU)
    simp only [flow_history, List.length_cons, List.map_cons, List.sum_cons]
    rw [i1, i2, h1, h2]
    constructor
    · rw [Nat.mod_add_mod]
      congr 1
      omega
    · rw [Nat.mod_add_mod]
      congr 1
      omega

/-! ### Detection flag -/

theorem flow_last_chance_detection (g : nDPId_flow_info) (lib : ndpi_results) :
    (flow_last_chance g lib).1.detection_completed = g.detection_completed ∧
      (flow_last_chance g lib).1.detected_l7_protocol = g.detected_l7_protocol := by
  unfold flow_last_chance
  split_ifs <;> exact ⟨rfl, rfl⟩

theorem flow_dpi_process_detected_known (g : nDPId_flow_info) (lib : ndpi_results)
    (h : g.detection_completed = 1 →
      lib.process_packet.master_protocol ≠ NDPI_PROTOCOL_UNKNOWN ∨
        lib.process_packet.app_protocol ≠ NDPI_PROTOCOL_UNKNOWN) :
    detected_known (flow_dpi_process g lib).1 := by
  unfold flow_dpi_process
  split_ifs with hc
  · exact fun _ => hc.2.2
  · exact fun hdc => h hdc

theorem flow_packet_update_detected_known (r flow : nDPId_flow_info) (t len : Nat)
    (lib : ndpi_results) (hinv : detected_known r)
    (h : r.detection_completed = 1 →
      lib.process_packet.master_protocol ≠ NDPI_PROTOCOL_UNKNOWN ∨
        lib.process_packet.app_protocol ≠ NDPI_PROTOCOL_UNKNOWN) :
    detected_known (flow_packet_update r flow t len lib).1 := by
  unfold flow_packet_update
  split_ifs
  · exact hinv
  · exact hinv
  · apply flow_dpi_process_detected_known
    rw [(flow_last_chance_detection _ lib).1]
    exact h
  · exact flow_dpi_process_detected_known _ lib h

/-- C17 fails as stated: worker 3 processes two packets of one UDP/IPv4 flow; for
the first the DPI engine returns protocol `(7, 0)` as detected, for the second it
returns `(UNKNOWN, UNKNOWN)`.  Afterwards the record has `detection_completed = 1`
and `detected_l7_protocol = (UNKNOWN, UNKNOWN)`. -/
theorem C17_later_unknown_result_overwrites_detected_protocol :
    ((run_pcap_loop (init_reader_thread DLT_EN10MB 3)
        [(sample_header 0 82, sample_ip4 17 2 12 10 20, sample_lib_dpi 34 40 17 ⟨7, 0, 0⟩ true),
         (sample_header 1 82, sample_ip4 17 2 12 10 20,
           sample_lib_dpi 34 40 17 ⟨0, 0, 0⟩ false)]).workflow.ndpi_flows_active 61).keys.map
        (fun f => (f.detection_completed, f.detected_l7_protocol.master_protocol,
          f.detected_l7_protocol.app_protocol)) = [(1, 0, 0)] ∧
    (run_pcap_loop (init_reader_thread DLT_EN10MB 3)
        [(sample_header 0 82, sample_ip4 17 2 12 10 20, sample_lib_dpi 34 40 17 ⟨7, 0, 0⟩ true),
         (sample_header 1 82, sample_ip4 17 2 12 10 20,
           sample_lib_dpi 34 40 17 ⟨0, 0, 0⟩ false)]).json_events.map (fun e => e.event) =
      [.FLOW_NEW, .FLOW_DETECTED] := by
  decide

/-! ### END events -/

theorem flow_packet_update_fin_seen (r flow : nDPId_flow_info) (t len : Nat)
    (lib : ndpi_results) (h : r.flow_fin_ack_seen = 1) :
    (flow_packet_update r flow t len lib).1.flow_fin_ack_seen = 1 ∧
      ∀ e ∈ (flow_packet_update r flow t len lib).2.1, e.1 ≠ .FLOW_END := by
  have hc : (flow_update_counters r flow t len).flow_fin_ack_seen = 1 := h
  have hg : ∀ g : nDPId_flow_info, g.flow_fin_ack_seen = 1 →
      (flow_last_chance g lib).1.flow_fin_ack_seen = 1 ∧
        ∀ e ∈ (flow_last_chance g lib).2, e.1 ≠ .FLOW_END := by
    intro g hg1
    unfold flow_last_chance
    split_ifs <;> refine ⟨hg1, ?_⟩ <;> simp
  have hd : ∀ g : nDPId_flow_info, g.flow_fin_ack_seen = 1 →
      (flow_dpi_process g lib).1.flow_fin_ack_seen = 1 ∧
        ∀ e ∈ (flow_dpi_process g lib).2.1, e.1 ≠ .FLOW_END := by
    intro g hg1
    unfold flow_dpi_process
    split_ifs <;> refine ⟨hg1, ?_⟩ <;> simp
  have hl : (flow_update_lengths (flow_update_counters r flow t len) len).flow_fin_ack_seen = 1 :=
    h
  unfold flow_packet_update
  split_ifs with h1 h2 h3
  · rw [hc] at h1
    exact absurd h1.2 (by decide)
  · exact ⟨hl, by simp⟩
  · refine ⟨(hd _ (hg _ hl).1).1, fun e he => ?_⟩
    rcases List.mem_append.mp he with h | h
    · exact (hg _ hl).2 e h
    · exact (hd _ (hg _ hl).1).2 e h
  · exact hd _ hl

/-- A record that starts with `flow_fin_ack_seen = 1` (a record created by a packet
carrying FIN and ACK) never gets an END event, whatever packets resolve to it. -/
theorem flow_history_no_end (pkts : List (nDPId_flow_info × Nat × Nat × ndpi_results))
    (r : nDPId_flow_info) (h : r.flow_fin_ack_seen = 1) :
    ∀ e ∈ (flow_history r pkts).2, e.1 ≠ .FLOW_END := by
  induction pkts generalizing r with
  | nil => intro e he; simp [flow_history] at he
  | cons p rest ih =>
    obtain ⟨h1, h2⟩ := flow_packet_update_fin_seen r p.1 p.2.1 p.2.2.1 p.2.2.2 h
    intro e he
    simp only [flow_history] at he
    rcases List.mem_append.mp he with hh | hh
    · exact h2 e hh
    · exact ih _ h1 e hh

/-- C12 (fails): worker 0 sees a TCP/IPv4 flow whose first packet `2:10 -> 12:20`
carries FIN and ACK, then a second FIN+ACK packet in the same direction and one in
the reverse direction.  All three resolve to flow 0, whose `flow_fin_ack_seen` is 1,
and the only event emitted is `FLOW_NEW`: no END event. -/
theorem C12_first_packet_fin_ack_gives_no_end_event :
    (run_pcap_loop (init_reader_thread DLT_EN10MB 0)
        [(sample_header 0 54, sample_tcp4 0 1 1 2 12 10 20, sample_lib 34 20 6),
         (sample_header 1 54, sample_tcp4 0 1 1 2 12 10 20, sample_lib 34 20 6),
         (sample_header 2 54, sample_tcp4 0 1 1 12 2 20 10, sample_lib 34 20 6)]).json_events.map
        (fun e => (e.event, e.flow_id)) = [(.FLOW_NEW, 0)] ∧
    ((run_pcap_loop (init_reader_thread DLT_EN10MB 0)
        [(sample_header 0 54, sample_tcp4 0 1 1 2 12 10 20, sample_lib 34 20 6),
         (sample_header 1 54, sample_tcp4 0 1 1 2 12 10 20, sample_lib 34 20 6),
         (sample_header 2 54, sample_tcp4 0 1 1 12 2 20 10,
           sample_lib 34 20 6)]).workflow.ndpi_flows_active 50).keys.map
        (fun f => (f.flow_id, f.l4_protocol, f.packets_processed, f.flow_fin_ack_seen)) =
      [(0, 6, 3, 1)] := by
  decide

/-! ### Parser lengths and tuple order -/

/-- The parser never reads `caplen`. -/
theorem parse_packet_ignores_caplen (datalink : Nat) (header : pcap_pkthdr) (caplen : Nat)
    (packet : packet_view) (lib : ndpi_results) :
    parse_packet datalink { header with caplen := caplen } packet lib =
      parse_packet datalink header packet lib := by
  simp only [parse_packet, process_datalink, ip_size_of, process_layer4]

/-- C19 (fails): an Ethernet UDP/IPv4 packet of 82 bytes of which only 14 bytes
were captured (`caplen = 14 < 14 + 20`) is accepted by the parser, and so is an
Ethernet UDP/IPv6 packet of 102 bytes with `caplen = 14 < 14 + 40`; worker 3
creates a flow for the first. -/
theorem C19_parser_accepts_truncated_capture :
    parse_packet DLT_EN10MB { tv_sec := 0, tv_usec := 0, caplen := 14, len := 82 }
        (sample_ip4 17 2 12 10 20) (sample_lib 34 40 17) =
      some (sample_l3 2 12, sample_flow4 2 12 10 20) ∧
    (parse_packet DLT_EN10MB { tv_sec := 0, tv_usec := 0, caplen := 14, len := 102 }
        (sample_ip6 17 4 0 3 1 1000 53) (sample_lib 54 40 17)).isSome = true ∧
    (ndpi_process_packet (init_reader_thread DLT_EN10MB 3)
        { tv_sec := 0, tv_usec := 0, caplen := 14, len := 82 }
        (sample_ip4 17 2 12 10 20) (sample_lib 34 40 17)).json_events.map
        (fun e => (e.event, e.flow_id)) = [(.FLOW_NEW, 0)] := by
  decide

/-- C20 (fails): `A` = key of the UDP/IPv4 packet `1:2 -> 2:3` and `B` = key of
`1:1 -> 1:5` have equal `hashval` and protocol; `A` is lexicographically larger
(destination address 2 > 1) but the comparator returns `-1`.  The keys of
`2:10 -> 12:20` and `6:10 -> 8:20` differ in both addresses (the first is
lexicographically smaller) but the comparator returns 0. -/
theorem C20_node_cmp_is_not_lexicographic :
    (sample_key4 1 2 2 3).hashval = (sample_key4 1 1 1 5).hashval ∧
    (sample_key4 1 2 2 3).l4_protocol = (sample_key4 1 1 1 5).l4_protocol ∧
    spec_tuple_lex_compare (sample_key4 1 2 2 3) (sample_key4 1 1 1 5) = 1 ∧
    ndpi_workflow_node_cmp (sample_key4 1 2 2 3) (sample_key4 1 1 1 5) = -1 ∧
    (sample_key4 2 12 10 20).hashval = (sample_key4 6 8 10 20).hashval ∧
    (sample_key4 2 12 10 20).l4_protocol = (sample_key4 6 8 10 20).l4_protocol ∧
    spec_tuple_lex_compare (sample_key4 2 12 10 20) (sample_key4 6 8 10 20) = -1 ∧
    ndpi_workflow_node_cmp (sample_key4 2 12 10 20) (sample_key4 6 8 10 20) = 0 := by
  decide

/-! ### Frames of the packet path and of the idle scanner -/

theorem same_config_refl (rt : nDPId_reader_thread) : same_config rt rt :=
  ⟨rfl, rfl, rfl, rfl, rfl⟩

theorem same_config_trans {a b c : nDPId_reader_thread} (h1 : same_config a b)
    (h2 : same_config b c) : same_config a c := by
  obtain ⟨a1, a2, a3, a4, a5⟩ := h1
  obtain ⟨b1, b2, b3, b4, b5⟩ := h2
  exact ⟨b1.trans a1, b2.trans a2, b3.trans a3, b4.trans a4, b5.trans a5⟩

theorem packet_path_frame_refl (idx : Nat) (rt : nDPId_reader_thread) :
    packet_path_frame idx rt rt :=
  ⟨same_config_refl rt, rfl, rfl, rfl, fun _ _ => rfl⟩

theorem packet_path_frame_trans {idx : Nat} {a b c : nDPId_reader_thread}
    (h1 : packet_path_frame idx a b) (h2 : packet_path_frame idx b c) :
    packet_path_frame idx a c := by
  obtain ⟨a1, a2, a3, a4, a5⟩ := h1
  obtain ⟨b1, b2, b3, b4, b5⟩ := h2
  exact ⟨same_config_trans a1 b1, b2.trans a2, b3.trans a3, b4.trans a4,
    fun i hi => (b5 i hi).trans (a5 i hi)⟩

theorem emit_events_eq (es : List (flow_event × nDPId_flow_info)) (rt : nDPId_reader_thread) :
    emit_events rt es =
      { rt with
        json_events := rt.json_events ++ es.map (fun e => jsonize_flow rt.workflow e.2 e.1) } := by
  induction es generalizing rt with
  | nil => simp [emit_events]
  | cons e rest ih =>
    simp only [emit_events]
    rw [ih]
    simp [jsonize_flow_event]

theorem process_flow_path_frame (rt : nDPId_reader_thread) (idx : Nat)
    (key ftp flow : nDPId_flow_info) (t len : Nat) (lib : ndpi_results) :
    packet_path_frame idx rt (process_flow rt idx key ftp flow t len lib) := by
  unfold process_flow
  simp only [emit_events_eq]
  refine ⟨⟨rfl, rfl, rfl, rfl, rfl⟩, rfl, rfl, rfl, fun i hi => ?_⟩
  simp only [set_root, if_neg hi]

theorem create_flow_path_frame (rt : nDPId_reader_thread) (idx : Nat) (flow : nDPId_flow_info)
    (lib : ndpi_results) : packet_path_frame idx rt (create_flow rt idx flow lib).1 := by
  unfold create_flow
  split_ifs
  · exact packet_path_frame_refl idx rt
  · exact packet_path_frame_refl idx rt
  · exact ⟨⟨rfl, rfl, rfl, rfl, rfl⟩, rfl, rfl, rfl, fun _ _ => rfl⟩
  · exact ⟨⟨rfl, rfl, rfl, rfl, rfl⟩, rfl, rfl, rfl, fun _ _ => rfl⟩
  · exact ⟨⟨rfl, rfl, rfl, rfl, rfl⟩, rfl, rfl, rfl, fun _ _ => rfl⟩
  · simp only []
    split
    · exact ⟨⟨rfl, rfl, rfl, rfl, rfl⟩, rfl, rfl, rfl, fun _ _ => rfl⟩
    · refine ⟨⟨rfl, rfl, rfl, rfl, rfl⟩, rfl, rfl, rfl, fun i hi => ?_⟩
      simp only [jsonize_flow_event, set_root, if_neg hi]

theorem dispatch_flow_path_frame (rt : nDPId_reader_thread) (l3 : l3_result)
    (flow0 : nDPId_flow_info) (t : Nat) (lib : ndpi_results) :
    packet_path_frame ((keyed_flow flow0 lib).hashval % rt.workflow.max_active_flows) rt
      (dispatch_flow rt l3 flow0 t lib) := by
  have h0 : packet_path_frame ((keyed_flow flow0 lib).hashval % rt.workflow.max_active_flows) rt
      { rt with
        workflow :=
          { rt.workflow with
            packets_processed := (rt.workflow.packets_processed + 1) % U64,
            total_l4_data_len := (rt.workflow.total_l4_data_len + l3.l4_len) % U64 } } :=
    ⟨⟨rfl, rfl, rfl, rfl, rfl⟩, rfl, rfl, rfl, fun _ _ => rfl⟩
  unfold dispatch_flow
  split_ifs
  · exact packet_path_frame_refl _ rt
  · simp only []
    split
    · have hc := create_flow_path_frame
        { rt with
          workflow :=
            { rt.workflow with
              packets_processed := (rt.workflow.packets_processed + 1) % U64,
              total_l4_data_len := (rt.workflow.total_l4_data_len + l3.l4_len) % U64 } }
        ((keyed_flow flow0 lib).hashval % rt.workflow.max_active_flows) (keyed_flow flow0 lib) lib
      split
      · rename_i rt1 hcr
        rw [hcr] at hc
        exact packet_path_frame_trans h0 hc
      · rename_i rt1 ftp hcr
        rw [hcr] at hc
        exact packet_path_frame_trans (packet_path_frame_trans h0 hc)
          (process_flow_path_frame _ _ _ _ _ _ _ _)
    · exact packet_path_frame_trans h0 (process_flow_path_frame _ _ _ _ _ _ _ _)

theorem ndpi_idle_scan_walker_test (w : nDPId_workflow) (v : nDPId_flow_info × ndpi_VISIT)
    (h : ∀ f ∈ w.ndpi_flows_idle, idle_test w.last_time f) :
    ∀ f ∈ (ndpi_idle_scan_walker w v).ndpi_flows_idle, idle_test w.last_time f := by
  unfold ndpi_idle_scan_walker
  split_ifs with h1 h2 h3
  · exact h
  · intro f hf
    simp only [List.mem_cons] at hf
    rcases hf with hf | hf
    · rw [hf]
      exact h3
    · exact h f hf
  · exact h
  · exact h

theorem ndpi_twalk_fold_test (vs : List (nDPId_flow_info × ndpi_VISIT)) (w : nDPId_workflow)
    (h : ∀ f ∈ w.ndpi_flows_idle, idle_test w.last_time f) :
    ∀ f ∈ (vs.foldl ndpi_idle_scan_walker w).ndpi_flows_idle, idle_test w.last_time f := by
  induction vs generalizing w with
  | nil => exact h
  | cons v rest ih =>
    simp only [List.foldl_cons]
    have h1 := ndpi_idle_scan_walker_test w v h
    have h2 := (ndpi_idle_scan_walker_frame w v).1
    have := ih (ndpi_idle_scan_walker w v) (by rw [h2]; exact h1)
    rw [h2] at this
    exact this

theorem ndpi_idle_scan_walker_config (w : nDPId_workflow) (v : nDPId_flow_info × ndpi_VISIT) :
    (ndpi_idle_scan_walker w v).pcap_datalink = w.pcap_datalink ∧
      (ndpi_idle_scan_walker w v).max_active_flows = w.max_active_flows ∧
      (ndpi_idle_scan_walker w v).max_idle_flows = w.max_idle_flows ∧
      (ndpi_idle_scan_walker w v).cur_active_flows = w.cur_active_flows ∧
      (ndpi_idle_scan_walker w v).last_idle_scan_time = w.last_idle_scan_time := by
  unfold ndpi_idle_scan_walker
  split_ifs <;> exact ⟨rfl, rfl, rfl, rfl, rfl⟩

theorem ndpi_twalk_fold_config (vs : List (nDPId_flow_info × ndpi_VISIT)) (w : nDPId_workflow) :
    (vs.foldl ndpi_idle_scan_walker w).pcap_datalink = w.pcap_datalink ∧
      (vs.foldl ndpi_idle_scan_walker w).max_active_flows = w.max_active_flows ∧
      (vs.foldl ndpi_idle_scan_walker w).max_idle_flows = w.max_idle_flows ∧
      (vs.foldl ndpi_idle_scan_walker w).cur_active_flows = w.cur_active_flows ∧
      (vs.foldl ndpi_idle_scan_walker w).last_idle_scan_time = w.last_idle_scan_time := by
  induction vs generalizing w with
  | nil => exact ⟨rfl, rfl, rfl, rfl, rfl⟩
  | cons v rest ih =>
    simp only [List.foldl_cons]
    obtain ⟨a1, a2, a3, a4, a5⟩ := ih (ndpi_idle_scan_walker w v)
    obtain ⟨b1, b2, b3, b4, b5⟩ := ndpi_idle_scan_walker_config w v
    exact ⟨a1.trans b1, a2.trans b2, a3.trans b3, a4.trans b4, a5.trans b5⟩

/-- The drain loop: configuration, clock and the other slots are kept, the staging
array ends empty, and the events added are the `FLOW_IDLE` events of the staged
records, last staged first. -/
theorem drain_idle_flows_spec (idx : Nat) (staged : List nDPId_flow_info)
    (rt : nDPId_reader_thread) (hs : rt.workflow.ndpi_flows_idle = staged) :
    same_config rt (drain_idle_flows idx staged rt) ∧
    (drain_idle_flows idx staged rt).workflow.ndpi_flows_idle = [] ∧
    (drain_idle_flows idx staged rt).workflow.last_idle_scan_time =
      rt.workflow.last_idle_scan_time ∧
    (drain_idle_flows idx staged rt).flow_id = rt.flow_id ∧
    (∀ i, i ≠ idx → (drain_idle_flows idx staged rt).workflow.ndpi_flows_active i =
      rt.workflow.ndpi_flows_active i) ∧
    ∃ new, (drain_idle_flows idx staged rt).json_events = rt.json_events ++ new ∧
      ∀ e ∈ new, e.event = .FLOW_IDLE ∧ e.flow ∈ staged := by
  induction staged generalizing rt with
  | nil =>
    exact ⟨same_config_refl rt, hs, rfl, rfl, fun _ _ => rfl, [], by simp [drain_idle_flows],
      by simp⟩
  | cons f rest ih =>
    simp only [drain_idle_flows]
    obtain ⟨c, s, l, fid, o, new, hn, hall⟩ := ih
      { jsonize_flow_event rt f .FLOW_IDLE with
        workflow :=
          { (jsonize_flow_event rt f .FLOW_IDLE).workflow with
            ndpi_flows_idle := rest,
            ndpi_flows_active :=
              set_root (jsonize_flow_event rt f .FLOW_IDLE).workflow.ndpi_flows_active idx
                (ndpi_tdelete ndpi_workflow_node_cmp f
                  ((jsonize_flow_event rt f .FLOW_IDLE).workflow.ndpi_flows_active idx)),
            cur_active_flows :=
              ((jsonize_flow_event rt f .FLOW_IDLE).workflow.cur_active_flows + U64 - 1) % U64 } }
      rfl
    refine ⟨same_config_trans ⟨rfl, rfl, rfl, rfl, rfl⟩ c, s, l, fid, fun i hi => ?_,
      jsonize_flow rt.workflow f .FLOW_IDLE :: new, ?_, ?_⟩
    · rw [o i hi]
      simp only [jsonize_flow_event, set_root, if_neg hi]
    · rw [hn]
      simp [jsonize_flow_event]
    · intro e he
      simp only [List.mem_cons] at he
      rcases he with he | he
      · rw [he]
        exact ⟨rfl, by simp [jsonize_flow]⟩
      · exact ⟨(hall e he).1, List.mem_cons_of_mem _ (hall e he).2⟩

/-- One slot of the sweep, entered with an empty staging array: what is kept, and
every event added is the `FLOW_IDLE` event of a record that passed the walker's
test at the worker's `last_time`. -/
theorem idle_scan_slot_spec (rt : nDPId_reader_thread) (idx : Nat)
    (hs : rt.workflow.ndpi_flows_idle = []) :
    same_config rt (idle_scan_slot rt idx) ∧
    (idle_scan_slot rt idx).workflow.ndpi_flows_idle = [] ∧
    (idle_scan_slot rt idx).workflow.last_idle_scan_time = rt.workflow.last_idle_scan_time ∧
    (idle_scan_slot rt idx).flow_id = rt.flow_id ∧
    (∀ i, i ≠ idx → (idle_scan_slot rt idx).workflow.ndpi_flows_active i =
      rt.workflow.ndpi_flows_active i) ∧
    ∃ new, (idle_scan_slot rt idx).json_events = rt.json_events ++ new ∧
      ∀ e ∈ new, e.event = .FLOW_IDLE ∧ idle_test rt.workflow.last_time e.flow := by
  unfold idle_scan_slot
  simp only []
  obtain ⟨c1, c2, c3, -, c5⟩ := ndpi_twalk_fold_config
    (ndpi_twalk (rt.workflow.ndpi_flows_active idx)) rt.workflow
  obtain ⟨-, f2⟩ := ndpi_twalk_fold_frame
    (ndpi_twalk (rt.workflow.ndpi_flows_active idx)) rt.workflow
  have ht := ndpi_twalk_fold_test (ndpi_twalk (rt.workflow.ndpi_flows_active idx)) rt.workflow
    (by rw [hs]; intro f hf; simp at hf)
  obtain ⟨d1, d2, d3, d4, d5, new, hn, hall⟩ := drain_idle_flows_spec idx
    ((ndpi_twalk (rt.workflow.ndpi_flows_active idx)).foldl ndpi_idle_scan_walker
      rt.workflow).ndpi_flows_idle
    { rt with
      workflow :=
        (ndpi_twalk (rt.workflow.ndpi_flows_active idx)).foldl ndpi_idle_scan_walker rt.workflow }
    rfl
  have hc : same_config rt
      { rt with
        workflow :=
          (ndpi_twalk (rt.workflow.ndpi_flows_active idx)).foldl ndpi_idle_scan_walker
            rt.workflow } := ⟨c1, c2, c3, rfl, rfl⟩
  refine ⟨same_config_trans hc d1, d2, d3.trans c5, d4, fun i hi => ?_,
    new, hn, fun e he => ⟨(hall e he).1, ht _ (hall e he).2⟩⟩
  rw [d5 i hi]
  simp only [f2]

theorem idle_scan_slot_null (rt : nDPId_reader_thread) (idx : Nat)
    (hn : rt.workflow.ndpi_flows_active idx = .null) (hs : rt.workflow.ndpi_flows_idle = []) :
    idle_scan_slot rt idx = rt := by
  unfold idle_scan_slot
  simp only [hn, ndpi_twalk, List.foldl_nil, hs, drain_idle_flows]

theorem idle_scan_fold_spec (idxs : List Nat) (rt : nDPId_reader_thread)
    (hs : rt.workflow.ndpi_flows_idle = []) :
    same_config rt (idxs.foldl idle_scan_slot rt) ∧
    (idxs.foldl idle_scan_slot rt).workflow.ndpi_flows_idle = [] ∧
    (idxs.foldl idle_scan_slot rt).workflow.last_idle_scan_time =
      rt.workflow.last_idle_scan_time ∧
    (idxs.foldl idle_scan_slot rt).flow_id = rt.flow_id ∧
    ∃ new, (idxs.foldl idle_scan_slot rt).json_events = rt.json_events ++ new ∧
      ∀ e ∈ new, e.event = .FLOW_IDLE ∧ idle_test rt.workflow.last_time e.flow := by
  induction idxs generalizing rt with
  | nil => exact ⟨same_config_refl rt, hs, rfl, rfl, [], by simp, by simp⟩
  | cons i rest ih =>
    simp only [List.foldl_cons]
    obtain ⟨a1, a2, a3, a4, -, n1, hn1, hall1⟩ := idle_scan_slot_spec rt i hs
    obtain ⟨b1, b2, b3, b4, n2, hn2, hall2⟩ := ih (idle_scan_slot rt i) a2
    have hlt := (idle_scan_slot_frame rt i).1
    refine ⟨same_config_trans a1 b1, b2, b3.trans a3, b4.trans a4, n1 ++ n2, ?_, ?_⟩
    · rw [hn2, hn1, List.append_assoc]
    · intro e he
      rcases List.mem_append.mp he with h | h
      · exact hall1 e h
      · have := hall2 e h
        rw [hlt] at this
        exact this

/-- The sweep, entered with an empty staging array: the configuration and `flow_id`
are kept, the staging array is empty again, and every event added is the
`FLOW_IDLE` event of a record that passed the walker's test at `last_time`. -/
theorem check_for_idle_flows_spec (rt : nDPId_reader_thread)
    (hs : rt.workflow.ndpi_flows_idle = []) :
    same_config rt (check_for_idle_flows rt) ∧
    (check_for_idle_flows rt).workflow.ndpi_flows_idle = [] ∧
    (check_for_idle_flows rt).flow_id = rt.flow_id ∧
    ∃ new, (check_for_idle_flows rt).json_events = rt.json_events ++ new ∧
      ∀ e ∈ new, e.event = .FLOW_IDLE ∧ idle_test rt.workflow.last_time e.flow := by
  unfold check_for_idle_flows
  split_ifs
  · obtain ⟨⟨a1, a2, a3, a4, a5⟩, b, -, c, new, hn, hall⟩ :=
      idle_scan_fold_spec (List.range rt.workflow.max_active_flows) rt hs
    exact ⟨⟨a1, a2, a3, a4, a5⟩, b, c, new, hn, hall⟩
  · exact ⟨same_config_refl rt, hs, rfl, [], by simp, by simp⟩

theorem idle_scan_fold_null (idxs : List Nat) (rt : nDPId_reader_thread)
    (hn : ∀ i ∈ idxs, rt.workflow.ndpi_flows_active i = .null)
    (hs : rt.workflow.ndpi_flows_idle = []) : idxs.foldl idle_scan_slot rt = rt := by
  induction idxs with
  | nil => rfl
  | cons i rest ih =>
    simp only [List.foldl_cons]
    rw [idle_scan_slot_null rt i (hn i (List.mem_cons_self _ _)) hs]
    exact ih (fun k hk => hn k (List.mem_cons_of_mem _ hk))

/-- When every slot but `j` is empty, the loop over the slots does what its
iteration for slot `j` does. -/
theorem idle_scan_fold_single (idxs : List Nat) (j : Nat) (rt : nDPId_reader_thread)
    (hnd : idxs.Nodup) (hn : ∀ i, i ≠ j → rt.workflow.ndpi_flows_active i = .null)
    (hs : rt.workflow.ndpi_flows_idle = []) :
    idxs.foldl idle_scan_slot rt = if j ∈ idxs then idle_scan_slot rt j else rt := by
  induction idxs generalizing rt with
  | nil => simp
  | cons i rest ih =>
    simp only [List.foldl_cons]
    obtain ⟨hi, hrest⟩ := List.nodup_cons.mp hnd
    by_cases hij : i = j
    · subst hij
      obtain ⟨-, s2, -, -, o, -⟩ := idle_scan_slot_spec rt i hs
      rw [idle_scan_fold_null rest (idle_scan_slot rt i) ?_ s2]
      · simp
      · intro k hk
        have hki : k ≠ i := fun h => hi (h ▸ hk)
        rw [o k hki]
        exact hn k hki
    · rw [idle_scan_slot_null rt i (hn i hij) hs, ih rt hrest hn hs]
      have : (j ∈ i :: rest) ↔ j ∈ rest := by
        simp only [List.mem_cons]
        constructor
        · rintro (h | h)
          · exact absurd h.symm hij
          · exact h
        · exact Or.inr
      simp only [this]

theorem check_for_idle_flows_eq_at (j : Nat) (rt : nDPId_reader_thread) (h : lives_in j rt) :
    check_for_idle_flows rt = check_for_idle_flows_at j rt := by
  obtain ⟨hn, hs, hj⟩ := h
  unfold check_for_idle_flows check_for_idle_flows_at
  split_ifs
  · simp only []
    rw [idle_scan_fold_single _ j rt (List.nodup_range _) hn hs,
      if_pos (List.mem_range.mpr hj)]
  · rfl

theorem check_for_idle_flows_lives_in (j : Nat) (rt : nDPId_reader_thread) (h : lives_in j rt) :
    lives_in j (check_for_idle_flows rt) := by
  obtain ⟨hn, hs, hj⟩ := h
  obtain ⟨⟨-, c2, -, -, -⟩, s, -, -⟩ := check_for_idle_flows_spec rt hs
  refine ⟨fun i hi => ?_, s, by rw [c2]; exact hj⟩
  cases hk : (check_for_idle_flows rt).workflow.ndpi_flows_active i with
  | null => rfl
  | node k l r =>
    have hmem : k ∈ ((check_for_idle_flows rt).workflow.ndpi_flows_active i).keys := by
      rw [hk]
      simp [ndpi_node.keys]
    have := (check_for_idle_flows_frame rt).2.1 i k hmem
    rw [hn i hi] at this
    simp [ndpi_node.keys] at this

theorem ndpi_process_packet_eq_clock (rt : nDPId_reader_thread) (header : pcap_pkthdr)
    (packet : packet_view) (lib : ndpi_results) :
    ndpi_process_packet rt header packet lib =
      match parse_packet (check_for_idle_flows (clock_packet rt header)).workflow.pcap_datalink
          header packet lib with
      | none => check_for_idle_flows (clock_packet rt header)
      | some (l3, flow) =>
        dispatch_flow (check_for_idle_flows (clock_packet rt header)) l3 flow
          (packet_time_ms header) lib := rfl

theorem ndpi_process_packet_config (rt : nDPId_reader_thread) (header : pcap_pkthdr)
    (packet : packet_view) (lib : ndpi_results) (hs : rt.workflow.ndpi_flows_idle = []) :
    same_config rt (ndpi_process_packet rt header packet lib) ∧
      (ndpi_process_packet rt header packet lib).workflow.ndpi_flows_idle = [] := by
  rw [ndpi_process_packet_eq_clock]
  obtain ⟨c, s, -, -⟩ := check_for_idle_flows_spec (clock_packet rt header) hs
  have c0 : same_config rt (clock_packet rt header) := ⟨rfl, rfl, rfl, rfl, rfl⟩
  split
  · exact ⟨same_config_trans c0 c, s⟩
  · obtain ⟨d, ds, -, -, -⟩ := dispatch_flow_path_frame
      (check_for_idle_flows (clock_packet rt header)) ‹_› ‹_› (packet_time_ms header) lib
    exact ⟨same_config_trans (same_config_trans c0 c) d, ds.trans s⟩

/-- In every state reached from the initial state the staging array is empty. -/
theorem run_pcap_loop_staged_empty (pkts : List (pcap_pkthdr × packet_view × ndpi_results))
    (rt : nDPId_reader_thread) (hs : rt.workflow.ndpi_flows_idle = []) :
    (run_pcap_loop rt pkts).workflow.ndpi_flows_idle = [] ∧
      same_config rt (run_pcap_loop rt pkts) := by
  induction pkts generalizing rt with
  | nil => exact ⟨hs, same_config_refl rt⟩
  | cons p rest ih =>
    simp only [run_pcap_loop]
    obtain ⟨c, s⟩ := ndpi_process_packet_config rt p.1 p.2.1 p.2.2 hs
    obtain ⟨a, b⟩ := ih _ s
    exact ⟨a, same_config_trans c b⟩

theorem packet_for_slot_config (j : Nat) (rt rt2 : nDPId_reader_thread)
    (p : pcap_pkthdr × packet_view × ndpi_results) (h : same_config rt rt2) :
    packet_for_slot j rt2 p = packet_for_slot j rt p := by
  obtain ⟨h1, h2, -, h4, h5⟩ := h
  simp only [packet_for_slot, h1, h2, h4, h5]

theorem ndpi_process_packet_eq_at (j : Nat) (rt : nDPId_reader_thread)
    (p : pcap_pkthdr × packet_view × ndpi_results) (h : lives_in j rt)
    (hp : packet_for_slot j rt p = true) :
    ndpi_process_packet rt p.1 p.2.1 p.2.2 = ndpi_process_packet_at j rt p.1 p.2.1 p.2.2 ∧
      lives_in j (ndpi_process_packet rt p.1 p.2.1 p.2.2) := by
  have h0 : lives_in j (clock_packet rt p.1) := h
  have hl := check_for_idle_flows_lives_in j _ h0
  have hc : same_config rt (check_for_idle_flows (clock_packet rt p.1)) :=
    same_config_trans (b := clock_packet rt p.1) ⟨rfl, rfl, rfl, rfl, rfl⟩
      (check_for_idle_flows_spec _ h0.2.1).1
  rw [← packet_for_slot_config j rt _ p hc] at hp
  rw [ndpi_process_packet_eq_clock]
  unfold ndpi_process_packet_at
  rw [← check_for_idle_flows_eq_at j _ h0]
  refine ⟨rfl, ?_⟩
  unfold packet_for_slot at hp
  split
  · exact hl
  · rename_i l3 flow hparse
    rw [hparse] at hp
    simp only [Bool.or_eq_true, decide_eq_true_eq] at hp
    obtain ⟨hn, hs, hj⟩ := hl
    rcases hp with hp | hp
    · unfold dispatch_flow
      rw [if_pos hp]
      exact ⟨hn, hs, hj⟩
    · obtain ⟨⟨-, d2, -, -, -⟩, ds, -, -, dother⟩ := dispatch_flow_path_frame
        (check_for_idle_flows (clock_packet rt p.1)) l3 flow (packet_time_ms p.1) p.2.2
      rw [hp] at dother
      exact ⟨fun i hi => (dother i hi).trans (hn i hi), ds.trans hs, by rw [d2]; exact hj⟩

/-- A run in which every packet is dropped, belongs to another shard, or is hashed
to slot `j`, started with every other slot empty: the sweeps only have slot `j` to
look at. -/
theorem run_pcap_loop_eq_at (j : Nat) (pkts : List (pcap_pkthdr × packet_view × ndpi_results))
    (rt : nDPId_reader_thread) (h : lives_in j rt)
    (hp : pkts.all (packet_for_slot j rt) = true) :
    run_pcap_loop rt pkts = run_pcap_loop_at j rt pkts := by
  induction pkts generalizing rt with
  | nil => rfl
  | cons p rest ih =>
    simp only [List.all_cons, Bool.and_eq_true] at hp
    obtain ⟨e, l⟩ := ndpi_process_packet_eq_at j rt p h hp.1
    simp only [run_pcap_loop, run_pcap_loop_at]
    rw [← e]
    apply ih _ l
    have hc := (ndpi_process_packet_config rt p.1 p.2.1 p.2.2 h.2.1).1
    rw [List.all_eq_true] at hp ⊢
    intro x hx
    rw [packet_for_slot_config j rt _ x hc]
    exact hp.2 x hx

theorem lives_in_init (j : Nat) (datalink : Nat) (array_index : Int)
    (hj : j < MAX_FLOW_ROOTS_PER_THREAD) : lives_in j (init_reader_thread datalink array_index) :=
  ⟨fun _ _ => rfl, rfl, hj⟩

/-! ### Idle eviction -/

/-- C13 fails as stated: worker 3 receives two packets of one UDP/IPv4 flow, both
with the timestamp `tv_sec = -1`, `tv_usec = 999000`, i.e. `time_ms = 2^64 - 1`.
The sweep of the second packet emits `FLOW_IDLE` for flow 0, whose FIN/ACK flags
are 0 and whose `last_seen` equals `last_time`: `last_seen + MAX_IDLE_TIME` wraps
to 299999, while `last_time - last_seen = 0`. -/
theorem C13_idle_event_without_idle_time :
    packet_time_ms (sample_header_at (-1) 999000) = 2 ^ 64 - 1 ∧
    (run_pcap_loop (init_reader_thread DLT_EN10MB 3)
        [(sample_header_at (-1) 999000, sample_ip4 17 2 12 10 20, sample_lib 34 40 17),
         (sample_header_at (-1) 999000, sample_ip4 17 2 12 10 20,
           sample_lib 34 40 17)]).json_events.map
        (fun e => (e.event, e.flow_id, e.flow.last_seen, e.flow.flow_fin_ack_seen,
          e.flow.flow_ack_seen)) =
      [(.FLOW_NEW, 0, 0, 0, 0), (.FLOW_IDLE, 0, 2 ^ 64 - 1, 0, 0), (.FLOW_NEW, 1, 0, 0, 0)] := by
  refine ⟨by decide, ?_⟩
  rw [run_pcap_loop_eq_at 61 _ _ (lives_in_init 61 _ _ (by decide)) (by decide)]
  decide

/-- C13 (amended): in the state a worker has reached from its initial state when
`check_for_idle_flows` is called for the next packet (lines 708-712), every event
the sweep adds is a `FLOW_IDLE` event of a record that has
`flow_fin_ack_seen = 1` and `flow_ack_seen = 1`, or
`last_seen + MAX_IDLE_TIME < last_time` in 64-bit arithmetic; when
`last_seen + MAX_IDLE_TIME` does not wrap, the latter gives
`last_time - last_seen ≥ MAX_IDLE_TIME`. -/
theorem C13_idle_event_passed_walker_test (datalink : Nat) (array_index : Int)
    (pkts : List (pcap_pkthdr × packet_view × ndpi_results)) (header : pcap_pkthdr) :
    ∃ new,
      (check_for_idle_flows (clock_packet
          (run_pcap_loop (init_reader_thread datalink array_index) pkts) header)).json_events =
        (run_pcap_loop (init_reader_thread datalink array_index) pkts).json_events ++ new ∧
      ∀ e ∈ new, e.event = .FLOW_IDLE ∧
        ((e.flow.flow_fin_ack_seen = 1 ∧ e.flow.flow_ack_seen = 1) ∨
          (e.flow.last_seen + MAX_IDLE_TIME) % U64 < packet_time_ms header) ∧
        (e.flow.last_seen + MAX_IDLE_TIME < U64 →
          (e.flow.flow_fin_ack_seen = 1 ∧ e.flow.flow_ack_seen = 1) ∨
            MAX_IDLE_TIME ≤ packet_time_ms header - e.flow.last_seen) := by
  obtain ⟨hs, -⟩ := run_pcap_loop_staged_empty pkts (init_reader_thread datalink array_index) rfl
  obtain ⟨-, -, -, new, hn, hall⟩ := check_for_idle_flows_spec
    (clock_packet (run_pcap_loop (init_reader_thread datalink array_index) pkts) header) hs
  refine ⟨new, hn, fun e he => ⟨(hall e he).1, (hall e he).2, fun hw => ?_⟩⟩
  rcases (hall e he).2 with h | h
  · exact Or.inl h
  · right
    rw [Nat.mod_eq_of_lt hw] at h
    have h2 : (clock_packet (run_pcap_loop (init_reader_thread datalink array_index) pkts)
        header).workflow.last_time = packet_time_ms header := rfl
    rw [h2] at h
    omega

/-! ### Capacity -/

/-- When the table is full and both probes miss, the packet path changes no tree,
no flow counter, not the `flow_id` counter and emits no event. -/
theorem dispatch_flow_at_capacity (rt : nDPId_reader_thread) (l3 : l3_result)
    (flow0 : nDPId_flow_info) (t : Nat) (lib : ndpi_results)
    (hcap : rt.workflow.cur_active_flows = rt.workflow.max_active_flows)
    (hmiss : flow_lookup (keyed_flow flow0 lib)
      (rt.workflow.ndpi_flows_active
        ((keyed_flow flow0 lib).hashval % rt.workflow.max_active_flows)) = none) :
    (dispatch_flow rt l3 flow0 t lib).workflow.ndpi_flows_active =
        rt.workflow.ndpi_flows_active ∧
      (dispatch_flow rt l3 flow0 t lib).workflow.cur_active_flows =
        rt.workflow.cur_active_flows ∧
      (dispatch_flow rt l3 flow0 t lib).workflow.total_active_flows =
        rt.workflow.total_active_flows ∧
      (dispatch_flow rt l3 flow0 t lib).flow_id = rt.flow_id ∧
      (dispatch_flow rt l3 flow0 t lib).json_events = rt.json_events := by
  unfold dispatch_flow
  split_ifs
  · exact ⟨rfl, rfl, rfl, rfl, rfl⟩
  · simp [hmiss, create_flow, hcap]

/-- C14 (fails in its last part): worker 2 processes `sample_miss_run`.  After the
sweep at 1000 s, `FLOW_IDLE` was emitted for the flows 0, 2, 1, 3, yet the record
of flow 2 is still in tree slot 117 (the descent of `ndpi_tdelete` missed it) and
`cur_active_flows` is 0.  The sweep at 1011 s stages that record again, emits
`FLOW_IDLE` for flow 2 a second time and decrements `cur_active_flows` to
`2^64 - 1`, above `max_active_flows = 2048`. -/
theorem C14_cur_active_flows_wraps_above_capacity :
    (run_pcap_loop (init_reader_thread DLT_EN10MB 2)
        (sample_miss_run.take 6)).json_events.map (fun e => (e.event, e.flow_id)) =
      [(.FLOW_NEW, 0), (.FLOW_NEW, 1), (.FLOW_NEW, 2), (.FLOW_NEW, 3), (.FLOW_IDLE, 0),
       (.FLOW_IDLE, 2), (.FLOW_IDLE, 1), (.FLOW_IDLE, 3)] ∧
    ((run_pcap_loop (init_reader_thread DLT_EN10MB 2)
        (sample_miss_run.take 6)).workflow.ndpi_flows_active 117).keys.map
        (fun f => f.flow_id) = [2] ∧
    (run_pcap_loop (init_reader_thread DLT_EN10MB 2)
        (sample_miss_run.take 6)).workflow.cur_active_flows = 0 ∧
    (run_pcap_loop (init_reader_thread DLT_EN10MB 2)
        sample_miss_run).json_events.map (fun e => (e.event, e.flow_id)) =
      [(.FLOW_NEW, 0), (.FLOW_NEW, 1), (.FLOW_NEW, 2), (.FLOW_NEW, 3), (.FLOW_IDLE, 0),
       (.FLOW_IDLE, 2), (.FLOW_IDLE, 1), (.FLOW_IDLE, 3), (.FLOW_IDLE, 2)] ∧
    (run_pcap_loop (init_reader_thread DLT_EN10MB 2)
        sample_miss_run).workflow.cur_active_flows = 2 ^ 64 - 1 ∧
    (run_pcap_loop (init_reader_thread DLT_EN10MB 2)
        sample_miss_run).workflow.max_active_flows = 2048 := by
  rw [run_pcap_loop_eq_at 117 _ _ (lives_in_init 117 _ _ (by decide)) (by decide),
    run_pcap_loop_eq_at 117 _ _ (lives_in_init 117 _ _ (by decide)) (by decide)]
  set_option maxRecDepth 8000 in decide

/-! ### Wrap-around of the `flow_id` counter -/

theorem wrap_shard : thread_index_final (sample_l3 2 12).thread_index 10 20 4 = 3 := by decide

theorem wrap_keyed :
    keyed_flow (sample_flow4 2 12 10 20) (sample_lib 34 40 17) = sample_key4 2 12 10 20 := by
  decide

theorem wrap_hashed : (sample_key4 2 12 10 20).hashval % 2048 = 61 := by decide

theorem new_flow_ids_append (rt rt2 : nDPId_reader_thread) (new : List json_event)
    (h : rt2.json_events = rt.json_events ++ new) :
    new_flow_ids rt2 = new_flow_ids rt ++
      (new.filter fun e => decide (e.event = .FLOW_NEW)).map fun e => e.flow_id := by
  simp only [new_flow_ids, h, List.filter_append, List.map_append]

theorem new_flow_ids_other (rt rt2 : nDPId_reader_thread) (new : List json_event)
    (h : rt2.json_events = rt.json_events ++ new) (hn : ∀ e ∈ new, e.event ≠ .FLOW_NEW) :
    new_flow_ids rt2 = new_flow_ids rt := by
  rw [new_flow_ids_append rt rt2 new h]
  have : (new.filter fun e => decide (e.event = .FLOW_NEW)) = [] := by
    rw [List.filter_eq_nil_iff]
    intro e he
    simpa using hn e he
  rw [this]
  simp

theorem process_flow_new_ids (rt : nDPId_reader_thread) (idx : Nat)
    (key ftp flow : nDPId_flow_info) (t len : Nat) (lib : ndpi_results) :
    new_flow_ids (process_flow rt idx key ftp flow t len lib) = new_flow_ids rt := by
  have hj : (process_flow rt idx key ftp flow t len lib).json_events = rt.json_events ++
      (flow_packet_update ftp flow t len lib).2.1.map
        (fun e => jsonize_flow rt.workflow e.2 e.1) := by
    unfold process_flow
    simp only [emit_events_eq]
  refine new_flow_ids_other _ _ _ hj ?_
  intro e he
  obtain ⟨x, hx, rfl⟩ := List.mem_map.mp he
  exact (flow_packet_update_spec ftp flow t len lib).2.2 x hx

/-- The branch `tree_result == NULL`: either the counter and the log are as
before, or the counter has advanced by one (modulo 2^32) and the log has at
most one more `FLOW_NEW` event, which carries the old counter value. -/
theorem create_flow_new_ids (rt : nDPId_reader_thread) (idx : Nat) (flow : nDPId_flow_info)
    (lib : ndpi_results) :
    ((create_flow rt idx flow lib).1.flow_id = rt.flow_id ∧
      new_flow_ids (create_flow rt idx flow lib).1 = new_flow_ids rt) ∨
    ((create_flow rt idx flow lib).1.flow_id = (rt.flow_id + 1) % U32 ∧
      (new_flow_ids (create_flow rt idx flow lib).1 = new_flow_ids rt ∨
        new_flow_ids (create_flow rt idx flow lib).1 = new_flow_ids rt ++ [rt.flow_id])) := by
  unfold create_flow
  split_ifs
  · exact Or.inl ⟨rfl, rfl⟩
  · exact Or.inl ⟨rfl, rfl⟩
  · exact Or.inr ⟨rfl, Or.inl rfl⟩
  · exact Or.inr ⟨rfl, Or.inl rfl⟩
  · exact Or.inr ⟨rfl, Or.inl rfl⟩
  · simp only []
    split
    · exact Or.inr ⟨rfl, Or.inl rfl⟩
    · refine Or.inr ⟨rfl, Or.inr ?_⟩
      simp [new_flow_ids, jsonize_flow_event, jsonize_flow]

theorem dispatch_flow_new_ids (rt : nDPId_reader_thread) (l3 : l3_result)
    (flow0 : nDPId_flow_info) (t : Nat) (lib : ndpi_results) :
    ((dispatch_flow rt l3 flow0 t lib).flow_id = rt.flow_id ∧
      new_flow_ids (dispatch_flow rt l3 flow0 t lib) = new_flow_ids rt) ∨
    ((dispatch_flow rt l3 flow0 t lib).flow_id = (rt.flow_id + 1) % U32 ∧
      (new_flow_ids (dispatch_flow rt l3 flow0 t lib) = new_flow_ids rt ∨
        new_flow_ids (dispatch_flow rt l3 flow0 t lib) = new_flow_ids rt ++ [rt.flow_id])) := by
  unfold dispatch_flow
  split_ifs
  · exact Or.inl ⟨rfl, rfl⟩
  · simp only []
    split
    · have hc := create_flow_new_ids
        { rt with
          workflow :=
            { rt.workflow with
              packets_processed := (rt.workflow.packets_processed + 1) % U64,
              total_l4_data_len := (rt.workflow.total_l4_data_len + l3.l4_len) % U64 } }
        ((keyed_flow flow0 lib).hashval % rt.workflow.max_active_flows) (keyed_flow flow0 lib) lib
      split
      · rename_i rt1 hcr
        rw [hcr] at hc
        exact hc
      · rename_i rt1 ftp hcr
        rw [hcr] at hc
        rw [process_flow_new_ids, (process_flow_counters _ _ _ _ _ _ _ _).2.2.2.1]
        exact hc
    · rw [process_flow_new_ids, (process_flow_counters _ _ _ _ _ _ _ _).2.2.2.1]
      exact Or.inl ⟨rfl, rfl⟩

theorem create_flow_success_eq (rt : nDPId_reader_thread) (idx : Nat) (flow : nDPId_flow_info)
    (lib : ndpi_results)
    (hcap : rt.workflow.cur_active_flows ≠ rt.workflow.max_active_flows)
    (h1 : lib.malloc_flow_info = true) (h2 : lib.flow_malloc = true)
    (h3 : lib.calloc_src = true) (h4 : lib.calloc_dst = true) (h5 : lib.tsearch_malloc = true) :
    create_flow rt idx flow lib =
      (jsonize_flow_event
        { rt with
          flow_id := (rt.flow_id + 1) % U32,
          workflow :=
            { rt.workflow with
              cur_active_flows := (rt.workflow.cur_active_flows + 1) % U64,
              total_active_flows := (rt.workflow.total_active_flows + 1) % U64,
              ndpi_flows_active := set_root rt.workflow.ndpi_flows_active idx
                (ndpi_tsearch ndpi_workflow_node_cmp true { flow with flow_id := rt.flow_id }
                  (rt.workflow.ndpi_flows_active idx)).1 } }
        { flow with flow_id := rt.flow_id } .FLOW_NEW,
       some { flow with flow_id := rt.flow_id }) := by
  obtain ⟨r, hr⟩ := ndpi_tsearch_true_some ndpi_workflow_node_cmp
    { flow with flow_id := rt.flow_id } (rt.workflow.ndpi_flows_active idx)
  unfold create_flow
  simp only [hcap, h1, h2, h3, h4, h5, if_false, Bool.true_eq_false, hr]

/-- A packet of this shard hashed to an empty slot, with room in the table and
every allocation succeeding: the slot holds the new record as the per-packet
update leaves it, both counters have advanced and the log has one more
`FLOW_NEW` event, carrying the old value of `flow_id`. -/
theorem dispatch_flow_creates_leaf (rt : nDPId_reader_thread) (l3 : l3_result)
    (flow0 : nDPId_flow_info) (t : Nat) (lib : ndpi_results) (idx : Nat) (r : nDPId_flow_info)
    (hshard : thread_index_final l3.thread_index flow0.src_port flow0.dst_port
      rt.reader_thread_count = rt.array_index)
    (hidx : (keyed_flow flow0 lib).hashval % rt.workflow.max_active_flows = idx)
    (hnull : rt.workflow.ndpi_flows_active idx = .null)
    (hcap : rt.workflow.cur_active_flows ≠ rt.workflow.max_active_flows)
    (h1 : lib.malloc_flow_info = true) (h2 : lib.flow_malloc = true)
    (h3 : lib.calloc_src = true) (h4 : lib.calloc_dst = true) (h5 : lib.tsearch_malloc = true)
    (hupd : (flow_packet_update { keyed_flow flow0 lib with flow_id := rt.flow_id }
      (keyed_flow flow0 lib) t l3.l4_len lib).1 = r) :
    (dispatch_flow rt l3 flow0 t lib).workflow.ndpi_flows_active idx = .node r .null .null ∧
    (dispatch_flow rt l3 flow0 t lib).workflow.cur_active_flows =
      (rt.workflow.cur_active_flows + 1) % U64 ∧
    (dispatch_flow rt l3 flow0 t lib).flow_id = (rt.flow_id + 1) % U32 ∧
    new_flow_ids (dispatch_flow rt l3 flow0 t lib) = new_flow_ids rt ++ [rt.flow_id] := by
  have hmiss : flow_lookup (keyed_flow flow0 lib)
      (rt.workflow.ndpi_flows_active
        ((keyed_flow flow0 lib).hashval % rt.workflow.max_active_flows)) = none := by
    rw [hidx, hnull]
    rfl
  have hslot := (dispatch_flow_creates rt l3 flow0 t lib hshard hmiss hcap h1 h2 h3 h4 h5).2
  rw [hidx, hnull, hupd] at hslot
  refine ⟨by rw [hslot]; rfl, ?_⟩
  have hc := create_flow_success_eq
    { rt with
      workflow :=
        { rt.workflow with
          packets_processed := (rt.workflow.packets_processed + 1) % U64,
          total_l4_data_len := (rt.workflow.total_l4_data_len + l3.l4_len) % U64 } }
    ((keyed_flow flow0 lib).hashval % rt.workflow.max_active_flows) (keyed_flow flow0 lib) lib
    hcap h1 h2 h3 h4 h5
  unfold dispatch_flow
  rw [if_neg (not_not.mpr hshard)]
  simp only [hmiss, hc]
  rw [process_flow_new_ids, (process_flow_counters _ _ _ _ _ _ _ _).2.2.2.1,
    (process_flow_counters _ _ _ _ _ _ _ _).2.1]
  refine ⟨rfl, rfl, ?_⟩
  simp [new_flow_ids, jsonize_flow_event, jsonize_flow]

theorem ndpi_process_packet_at_parsed (j : Nat) (rt : nDPId_reader_thread)
    (header : pcap_pkthdr) (packet : packet_view) (lib : ndpi_results) (l3 : l3_result)
    (flow : nDPId_flow_info)
    (hp : parse_packet (check_for_idle_flows_at j (clock_packet rt header)).workflow.pcap_datalink
      header packet lib = some (l3, flow)) :
    ndpi_process_packet_at j rt header packet lib =
      dispatch_flow (check_for_idle_flows_at j (clock_packet rt header)) l3 flow
        (packet_time_ms header) lib := by
  unfold ndpi_process_packet_at
  rw [hp]

theorem ndpi_process_packet_new_ids (rt : nDPId_reader_thread) (header : pcap_pkthdr)
    (packet : packet_view) (lib : ndpi_results) (hs : rt.workflow.ndpi_flows_idle = []) :
    ((ndpi_process_packet rt header packet lib).flow_id = rt.flow_id ∧
      new_flow_ids (ndpi_process_packet rt header packet lib) = new_flow_ids rt) ∨
    ((ndpi_process_packet rt header packet lib).flow_id = (rt.flow_id + 1) % U32 ∧
      (new_flow_ids (ndpi_process_packet rt header packet lib) = new_flow_ids rt ∨
        new_flow_ids (ndpi_process_packet rt header packet lib) =
          new_flow_ids rt ++ [rt.flow_id])) := by
  have hs0 : (clock_packet rt header).workflow.ndpi_flows_idle = [] := hs
  obtain ⟨-, -, hid, new, hn, hall⟩ := check_for_idle_flows_spec (clock_packet rt header) hs0
  have hids : new_flow_ids (check_for_idle_flows (clock_packet rt header)) = new_flow_ids rt := by
    refine new_flow_ids_other rt _ new hn ?_
    intro e he
    rw [(hall e he).1]
    decide
  have hid0 : (check_for_idle_flows (clock_packet rt header)).flow_id = rt.flow_id := hid
  rw [ndpi_process_packet_eq_clock]
  split
  · exact Or.inl ⟨hid0, hids⟩
  · have hd := dispatch_flow_new_ids (check_for_idle_flows (clock_packet rt header)) ‹_› ‹_›
      (packet_time_ms header) lib
    rw [hid0, hids] at hd
    exact hd

/-- Along a run in which the counter has been advanced `c` times before and at
most 2^32 times in all, the `flow_id` values of the `FLOW_NEW` events stay
pairwise different. -/
theorem run_pcap_loop_new_ids (pkts : List (pcap_pkthdr × packet_view × ndpi_results))
    (rt : nDPId_reader_thread) (c : Nat) (hs : rt.workflow.ndpi_flows_idle = [])
    (hid : rt.flow_id = c % U32) (hnd : (new_flow_ids rt).Nodup)
    (hlt : ∀ x ∈ new_flow_ids rt, x < c) (hb : c + pkts.length ≤ U32) :
    (new_flow_ids (run_pcap_loop rt pkts)).Nodup := by
  induction pkts generalizing rt c with
  | nil => exact hnd
  | cons p rest ih =>
    simp only [run_pcap_loop]
    simp only [List.length_cons] at hb
    have hs1 := (ndpi_process_packet_config rt p.1 p.2.1 p.2.2 hs).2
    have hc : c < U32 := by omega
    rcases ndpi_process_packet_new_ids rt p.1 p.2.1 p.2.2 hs with ⟨h1, h2⟩ | ⟨h1, h2 | h2⟩
    · exact ih _ c hs1 (h1.trans hid) (by rw [h2]; exact hnd) (by rw [h2]; exact hlt) (by omega)
    · refine ih _ (c + 1) hs1 ?_ (by rw [h2]; exact hnd) ?_ (by omega)
      · rw [h1, hid, Nat.mod_eq_of_lt hc]
      · rw [h2]
        exact fun x hx => Nat.lt_succ_of_lt (hlt x hx)
    · have hfid : rt.flow_id = c := by rw [hid, Nat.mod_eq_of_lt hc]
      refine ih _ (c + 1) hs1 ?_ ?_ ?_ (by omega)
      · rw [h1, hfid]
      · rw [h2, hfid]
        refine List.Nodup.append hnd (List.nodup_singleton c) ?_
        intro x hx hx2
        rw [List.mem_singleton] at hx2
        exact absurd (hlt x hx) (by omega)
      · rw [h2, hfid]
        intro x hx
        rcases List.mem_append.mp hx with h | h
        · exact Nat.lt_succ_of_lt (hlt x h)
        · rw [List.mem_singleton] at h
          omega

/-! ### Sweep trigger -/

theorem idle_scan_fold_last_time (idxs : List Nat) (rt : nDPId_reader_thread) :
    (idxs.foldl idle_scan_slot rt).workflow.last_time = rt.workflow.last_time :=
  (idle_scan_fold_frame idxs rt).1

/-- C21 fails as stated: a worker in its initial state (`last_idle_scan_time = 0`)
receives a packet stamped 10.000 s.  `check_for_idle_flows` is called with
`last_time - last_idle_scan_time = 10000` and does not sweep:
`last_idle_scan_time` is still 0 afterwards.  For a packet stamped 10.001 s the
sweep runs and `last_idle_scan_time` becomes 10001. -/
theorem C21_no_sweep_at_exactly_10000_ms :
    (clock_packet (init_reader_thread DLT_EN10MB 3) (sample_header 10 82)).workflow.last_time -
        (clock_packet (init_reader_thread DLT_EN10MB 3)
          (sample_header 10 82)).workflow.last_idle_scan_time = IDLE_SCAN_PERIOD ∧
    (check_for_idle_flows (clock_packet (init_reader_thread DLT_EN10MB 3)
        (sample_header 10 82))).workflow.last_idle_scan_time = 0 ∧
    (ndpi_process_packet (init_reader_thread DLT_EN10MB 3) (sample_header 10 82)
        (sample_ip4 17 2 12 10 20) (sample_lib 34 40 17)).workflow.last_idle_scan_time = 0 ∧
    (ndpi_process_packet (init_reader_thread DLT_EN10MB 3) (sample_header_at 10 1000)
        (sample_ip4 17 2 12 10 20) (sample_lib 34 40 17)).workflow.last_idle_scan_time =
      10001 := by
  refine ⟨by decide, by decide, by decide, ?_⟩
  rw [(ndpi_process_packet_eq_at 61 (init_reader_thread DLT_EN10MB 3)
    (sample_header_at 10 1000, sample_ip4 17 2 12 10 20, sample_lib 34 40 17)
    (lives_in_init 61 _ _ (by decide)) (by decide)).1]
  decide

/-- C21 (amended): when `last_idle_scan_time + IDLE_SCAN_PERIOD` does not wrap in
64 bits, `check_for_idle_flows` sweeps every tree slot and then sets
`last_idle_scan_time` to `last_time` if `last_time - last_idle_scan_time` is
greater than `IDLE_SCAN_PERIOD`, and leaves the worker as it is otherwise, also
when the difference is exactly `IDLE_SCAN_PERIOD`. -/
theorem C21_sweep_iff_difference_exceeds_period (rt : nDPId_reader_thread)
    (hnw : rt.workflow.last_idle_scan_time + IDLE_SCAN_PERIOD < U64) :
    ((IDLE_SCAN_PERIOD : Int) <
        (rt.workflow.last_time : Int) - (rt.workflow.last_idle_scan_time : Int) →
      check_for_idle_flows rt =
        { (List.range rt.workflow.max_active_flows).foldl idle_scan_slot rt with
          workflow :=
            { ((List.range rt.workflow.max_active_flows).foldl idle_scan_slot rt).workflow with
              last_idle_scan_time := rt.workflow.last_time } } ∧
      (check_for_idle_flows rt).workflow.last_idle_scan_time = rt.workflow.last_time) ∧
    ((rt.workflow.last_time : Int) - (rt.workflow.last_idle_scan_time : Int) ≤
        (IDLE_SCAN_PERIOD : Int) →
      check_for_idle_flows rt = rt) := by
  constructor
  · intro h
    have hc : (rt.workflow.last_idle_scan_time + IDLE_SCAN_PERIOD) % U64 <
        rt.workflow.last_time := by
      rw [Nat.mod_eq_of_lt hnw]
      omega
    unfold check_for_idle_flows
    rw [if_pos hc]
    simp only [idle_scan_fold_last_time, and_self]
  · intro h
    have hc : ¬ (rt.workflow.last_idle_scan_time + IDLE_SCAN_PERIOD) % U64 <
        rt.workflow.last_time := by
      rw [Nat.mod_eq_of_lt hnw]
      omega
    unfold check_for_idle_flows
    rw [if_neg hc]

/-- Witness for C21: the worker in its initial state is called with `last_time`
10.000 s (no sweep) and with 10.001 s (sweep). -/
theorem C21_sweep_trigger_witness :
    check_for_idle_flows (clock_packet (init_reader_thread DLT_EN10MB 3)
        (sample_header 10 82)) =
      clock_packet (init_reader_thread DLT_EN10MB 3) (sample_header 10 82) ∧
    (check_for_idle_flows (clock_packet (init_reader_thread DLT_EN10MB 3)
        (sample_header_at 10 1000))).workflow.last_idle_scan_time = 10001 :=
  ⟨(C21_sweep_iff_difference_exceeds_period
      (clock_packet (init_reader_thread DLT_EN10MB 3) (sample_header 10 82)) (by decide)).2
      (by decide),
    ((C21_sweep_iff_difference_exceeds_period
      (clock_packet (init_reader_thread DLT_EN10MB 3) (sample_header_at 10 1000))
      (by decide)).1 (by decide)).2⟩

/-! ### Give-up milestone -/

theorem flow_dpi_process_no_giveup_event (g : nDPId_flow_info) (lib : ndpi_results) :
    (flow_dpi_process g lib).2.1.filter (fun e => is_giveup_event e.1) = [] ∧
      (flow_dpi_process g lib).1.guessed_protocol = g.guessed_protocol := by
  unfold flow_dpi_process
  split_ifs
  · exact ⟨rfl, rfl⟩
  · exact ⟨rfl, rfl⟩

/-! ### Eviction by the sweep -/

/-- C25 (fails): worker 2 processes `sample_miss_run`.  When the packet at 1000 s
arrives, tree slot 117 holds the records of the flows 3, 1, 2 and
`cur_active_flows` is 3.  The sweep of that packet emits `FLOW_IDLE` for the
flows 2, 1, 3; afterwards the record of flow 2 is still in the tree (the descent
of `ndpi_tdelete` went left at the root and missed it) and `cur_active_flows` is
0 with one record left. -/
theorem C25_sweep_leaves_a_record_it_reported_idle :
    ((run_pcap_loop (init_reader_thread DLT_EN10MB 2)
        (sample_miss_run.take 5)).workflow.ndpi_flows_active 117).keys.map
        (fun f => f.flow_id) = [3, 1, 2] ∧
    (run_pcap_loop (init_reader_thread DLT_EN10MB 2)
        (sample_miss_run.take 5)).workflow.cur_active_flows = 3 ∧
    (run_pcap_loop (init_reader_thread DLT_EN10MB 2)
        (sample_miss_run.take 6)).json_events.map (fun e => (e.event, e.flow_id)) =
      (run_pcap_loop (init_reader_thread DLT_EN10MB 2)
        (sample_miss_run.take 5)).json_events.map (fun e => (e.event, e.flow_id)) ++
      [(.FLOW_IDLE, 2), (.FLOW_IDLE, 1), (.FLOW_IDLE, 3)] ∧
    ((run_pcap_loop (init_reader_thread DLT_EN10MB 2)
        (sample_miss_run.take 6)).workflow.ndpi_flows_active 117).keys.map
        (fun f => f.flow_id) = [2] ∧
    (run_pcap_loop (init_reader_thread DLT_EN10MB 2)
        (sample_miss_run.take 6)).workflow.cur_active_flows = 0 := by
  rw [run_pcap_loop_eq_at 117 _ _ (lives_in_init 117 _ _ (by decide)) (by decide),
    run_pcap_loop_eq_at 117 _ _ (lives_in_init 117 _ _ (by decide)) (by decide)]
  set_option maxRecDepth 8000 in decide

/-! ### Staging array -/

theorem ndpi_idle_scan_walker_staged (w : nDPId_workflow) (v : nDPId_flow_info × ndpi_VISIT) :
    (ndpi_idle_scan_walker w v).ndpi_flows_idle = w.ndpi_flows_idle ∨
    (w.cur_idle_flows ≠ MAX_IDLE_FLOWS_PER_THREAD ∧
      (v.2 = .ndpi_preorder ∨ v.2 = .ndpi_leaf) ∧
      (ndpi_idle_scan_walker w v).ndpi_flows_idle = v.1 :: w.ndpi_flows_idle) := by
  unfold ndpi_idle_scan_walker
  split_ifs with h1 h2 h3
  · exact Or.inl rfl
  · exact Or.inr ⟨h1, h2, rfl⟩
  · exact Or.inl rfl
  · exact Or.inl rfl

theorem ndpi_idle_scan_walker_bound (w : nDPId_workflow) (v : nDPId_flow_info × ndpi_VISIT)
    (h : w.cur_idle_flows ≤ MAX_IDLE_FLOWS_PER_THREAD) :
    (ndpi_idle_scan_walker w v).cur_idle_flows ≤ MAX_IDLE_FLOWS_PER_THREAD := by
  rcases ndpi_idle_scan_walker_staged w v with h1 | ⟨h1, -, h3⟩
  · simp only [nDPId_workflow.cur_idle_flows, h1]
    exact h
  · simp only [nDPId_workflow.cur_idle_flows, h3, List.length_cons]
    simp only [nDPId_workflow.cur_idle_flows] at h h1
    omega

theorem ndpi_twalk_fold_bound (vs : List (nDPId_flow_info × ndpi_VISIT)) (w : nDPId_workflow)
    (h : w.cur_idle_flows ≤ MAX_IDLE_FLOWS_PER_THREAD) :
    (vs.foldl ndpi_idle_scan_walker w).cur_idle_flows ≤ MAX_IDLE_FLOWS_PER_THREAD := by
  induction vs generalizing w with
  | nil => exact h
  | cons v rest ih =>
    simp only [List.foldl_cons]
    exact ih _ (ndpi_idle_scan_walker_bound w v h)

/-- The staging array after a walk: what was staged before, and on top of it a
selection of the records the walk looked at, each taken at most once, the last
one staged first. -/
theorem ndpi_twalk_fold_staged (vs : List (nDPId_flow_info × ndpi_VISIT)) (w : nDPId_workflow) :
    ∃ l : List nDPId_flow_info,
      (vs.foldl ndpi_idle_scan_walker w).ndpi_flows_idle = l.reverse ++ w.ndpi_flows_idle ∧
      l.Sublist (walk_candidates vs) := by
  induction vs generalizing w with
  | nil => exact ⟨[], rfl, List.Sublist.refl _⟩
  | cons v rest ih =>
    simp only [List.foldl_cons]
    obtain ⟨l, hl, hs⟩ := ih (ndpi_idle_scan_walker w v)
    rcases ndpi_idle_scan_walker_staged w v with h1 | ⟨-, h2, h3⟩
    · refine ⟨l, by rw [hl, h1], ?_⟩
      unfold walk_candidates at hs ⊢
      by_cases hv : v.2 = .ndpi_preorder ∨ v.2 = .ndpi_leaf
      · rw [List.filter_cons_of_pos (by simpa using hv), List.map_cons]
        exact List.Sublist.cons _ hs
      · rw [List.filter_cons_of_neg (by simpa using hv)]
        exact hs
    · refine ⟨v.1 :: l, by rw [hl, h3]; simp, ?_⟩
      unfold walk_candidates at hs ⊢
      rw [List.filter_cons_of_pos (by simpa using h2), List.map_cons]
      exact List.Sublist.cons₂ _ hs

theorem walk_candidates_append (a b : List (nDPId_flow_info × ndpi_VISIT)) :
    walk_candidates (a ++ b) = walk_candidates a ++ walk_candidates b := by
  simp [walk_candidates]

theorem walk_candidates_cons (k : nDPId_flow_info) (which : ndpi_VISIT)
    (vs : List (nDPId_flow_info × ndpi_VISIT)) :
    walk_candidates ((k, which) :: vs) =
      if which = .ndpi_preorder ∨ which = .ndpi_leaf then k :: walk_candidates vs
      else walk_candidates vs := by
  cases which <;> simp [walk_candidates]

/-- The walk makes one `ndpi_preorder` or `ndpi_leaf` callback per node. -/
theorem walk_candidates_twalk (t : ndpi_node) : walk_candidates (ndpi_twalk t) = t.keys := by
  induction t with
  | null => rfl
  | node k l r ihl ihr =>
    cases l with
    | null =>
      cases r with
      | null => rfl
      | node rk rl rr =>
        have hl : walk_candidates (ndpi_twalk .null) = [] := rfl
        simp only [ndpi_twalk, walk_candidates_cons, walk_candidates_append, ihr, hl]
        simp [ndpi_node.keys, walk_candidates]
    | node lk ll lr =>
      simp only [ndpi_twalk, walk_candidates_cons, walk_candidates_append, ihl, ihr]
      simp [ndpi_node.keys, walk_candidates]

theorem idle_event_count_append (rt rt2 : nDPId_reader_thread) (new : List json_event)
    (h : rt2.json_events = rt.json_events ++ new) (hn : ∀ e ∈ new, e.event = .FLOW_IDLE) :
    idle_event_count rt2 = idle_event_count rt + new.length := by
  unfold idle_event_count
  rw [h, List.filter_append, List.length_append]
  congr 1
  rw [List.filter_eq_self.mpr]
  intro e he
  simpa using hn e he

/-- The drain loop emits one `FLOW_IDLE` event per staged record. -/
theorem drain_idle_flows_count (idx : Nat) (staged : List nDPId_flow_info)
    (rt : nDPId_reader_thread) :
    idle_event_count (drain_idle_flows idx staged rt) = idle_event_count rt + staged.length := by
  induction staged generalizing rt with
  | nil => simp [drain_idle_flows]
  | cons f rest ih =>
    simp only [drain_idle_flows]
    rw [ih]
    have : idle_event_count
        { jsonize_flow_event rt f .FLOW_IDLE with
          workflow :=
            { (jsonize_flow_event rt f .FLOW_IDLE).workflow with
              ndpi_flows_idle := rest,
              ndpi_flows_active :=
                set_root (jsonize_flow_event rt f .FLOW_IDLE).workflow.ndpi_flows_active idx
                  (ndpi_tdelete ndpi_workflow_node_cmp f
                    ((jsonize_flow_event rt f .FLOW_IDLE).workflow.ndpi_flows_active idx)),
              cur_active_flows :=
                ((jsonize_flow_event rt f .FLOW_IDLE).workflow.cur_active_flows + U64 - 1) %
                  U64 } } = idle_event_count rt + 1 := by
      simp [idle_event_count, jsonize_flow_event, jsonize_flow]
    rw [this, List.length_cons]
    omega

/-- One slot of the sweep, entered with an empty staging array, emits as many
`FLOW_IDLE` events as the walk staged records, at most 64. -/
theorem idle_scan_slot_count (rt : nDPId_reader_thread) (idx : Nat)
    (hs : rt.workflow.ndpi_flows_idle = []) :
    idle_event_count (idle_scan_slot rt idx) =
      idle_event_count rt +
        ((ndpi_twalk (rt.workflow.ndpi_flows_active idx)).foldl ndpi_idle_scan_walker
          rt.workflow).cur_idle_flows ∧
    idle_event_count (idle_scan_slot rt idx) ≤ idle_event_count rt + MAX_IDLE_FLOWS_PER_THREAD := by
  have hb := ndpi_twalk_fold_bound (ndpi_twalk (rt.workflow.ndpi_flows_active idx)) rt.workflow
    (by simp [nDPId_workflow.cur_idle_flows, hs])
  have hc : idle_event_count (idle_scan_slot rt idx) =
      idle_event_count rt +
        ((ndpi_twalk (rt.workflow.ndpi_flows_active idx)).foldl ndpi_idle_scan_walker
          rt.workflow).cur_idle_flows := by
    unfold idle_scan_slot
    simp only []
    rw [drain_idle_flows_count]
    rfl
  exact ⟨hc, by rw [hc]; omega⟩

theorem idle_scan_fold_count (idxs : List Nat) (rt : nDPId_reader_thread)
    (hs : rt.workflow.ndpi_flows_idle = []) :
    idle_event_count (idxs.foldl idle_scan_slot rt) ≤
      idle_event_count rt + MAX_IDLE_FLOWS_PER_THREAD * idxs.length := by
  induction idxs generalizing rt with
  | nil => simp
  | cons i rest ih =>
    simp only [List.foldl_cons, List.length_cons]
    have h1 := (idle_scan_slot_count rt i hs).2
    have h2 := ih (idle_scan_slot rt i) (idle_scan_slot_spec rt i hs).2.1
    rw [Nat.mul_succ]
    omega

theorem sweep_state_spec (rt : nDPId_reader_thread) (header : pcap_pkthdr) (idx : Nat)
    (hs : rt.workflow.ndpi_flows_idle = []) :
    same_config rt (sweep_state rt header idx) ∧
      (sweep_state rt header idx).workflow.ndpi_flows_idle = [] := by
  have hs0 : (clock_packet rt header).workflow.ndpi_flows_idle = [] := hs
  obtain ⟨c, s, -⟩ := idle_scan_fold_spec (List.range idx) (clock_packet rt header) hs0
  exact ⟨same_config_trans (b := clock_packet rt header) ⟨rfl, rfl, rfl, rfl, rfl⟩ c, s⟩

theorem walk_candidates_take (vs : List (nDPId_flow_info × ndpi_VISIT)) (n : Nat) :
    (walk_candidates (vs.take n)).Sublist (walk_candidates vs) :=
  ((List.take_sublist n vs).filter _).map _

/-- C22 (amended): in the sweep that `check_for_idle_flows` runs for the next packet
of a worker that has processed any packets from its initial state, each tree slot
contributes at most `MAX_IDLE_FLOWS_PER_THREAD = 64` `FLOW_IDLE` events (the
staging array is drained after the walk of each slot), and the whole call at
most `64 * max_active_flows`. -/
theorem C22_sweep_evicts_at_most_64_per_slot (datalink : Nat) (array_index : Int)
    (pkts : List (pcap_pkthdr × packet_view × ndpi_results)) (header : pcap_pkthdr) :
    (∀ idx,
      idle_event_count (idle_scan_slot
          (sweep_state (run_pcap_loop (init_reader_thread datalink array_index) pkts) header idx)
          idx) ≤
        idle_event_count
          (sweep_state (run_pcap_loop (init_reader_thread datalink array_index) pkts) header idx) +
          MAX_IDLE_FLOWS_PER_THREAD) ∧
    idle_event_count (check_for_idle_flows (clock_packet
        (run_pcap_loop (init_reader_thread datalink array_index) pkts) header)) ≤
      idle_event_count (run_pcap_loop (init_reader_thread datalink array_index) pkts) +
        MAX_IDLE_FLOWS_PER_THREAD * MAX_FLOW_ROOTS_PER_THREAD := by
  obtain ⟨hs, ⟨-, hm, -, -, -⟩⟩ :=
    run_pcap_loop_staged_empty pkts (init_reader_thread datalink array_index) rfl
  have hm2 : (run_pcap_loop (init_reader_thread datalink array_index) pkts).workflow.max_active_flows
      = MAX_FLOW_ROOTS_PER_THREAD := hm
  constructor
  · intro idx
    exact (idle_scan_slot_count _ idx (sweep_state_spec _ header idx hs).2).2
  · have hs0 : (clock_packet (run_pcap_loop (init_reader_thread datalink array_index) pkts)
        header).workflow.ndpi_flows_idle = [] := hs
    have hc : idle_event_count (clock_packet
        (run_pcap_loop (init_reader_thread datalink array_index) pkts) header) =
        idle_event_count (run_pcap_loop (init_reader_thread datalink array_index) pkts) := rfl
    unfold check_for_idle_flows
    split_ifs
    · have h := idle_scan_fold_count
        (List.range (clock_packet (run_pcap_loop (init_reader_thread datalink array_index) pkts)
          header).workflow.max_active_flows) _ hs0
      rw [List.length_range, hc] at h
      have hm3 : (clock_packet (run_pcap_loop (init_reader_thread datalink array_index) pkts)
          header).workflow.max_active_flows = MAX_FLOW_ROOTS_PER_THREAD := hm2
      exact le_of_le_of_eq h (by rw [hm3])
    · rw [hc]
      exact Nat.le_add_right _ _

/-- C26: for a worker that has processed any packets from its initial state.  Its
staging array is empty and has `max_idle_flows = MAX_IDLE_FLOWS_PER_THREAD`
entries.  In the sweep for the next packet, after any number `n` of callbacks of
the walk of any slot `idx`: `cur_idle_flows` is at most
`MAX_IDLE_FLOWS_PER_THREAD`; a callback that writes the staging array writes the
visited record at index `cur_idle_flows`, which is below `max_idle_flows`; the
staged records, in the order they were staged, are a selection of the nodes of the
tree, each node taken at most once.  After the drain of the slot and when
`check_for_idle_flows` returns, `cur_idle_flows` is 0. -/
theorem C26_staging_array_stays_within_bounds (datalink : Nat) (array_index : Int)
    (pkts : List (pcap_pkthdr × packet_view × ndpi_results)) (header : pcap_pkthdr)
    (idx n : Nat) :
    (run_pcap_loop (init_reader_thread datalink array_index) pkts).workflow.cur_idle_flows = 0 ∧
    (run_pcap_loop (init_reader_thread datalink array_index) pkts).workflow.max_idle_flows =
      MAX_IDLE_FLOWS_PER_THREAD ∧
    (walk_state (run_pcap_loop (init_reader_thread datalink array_index) pkts) header idx
      n).cur_idle_flows ≤ MAX_IDLE_FLOWS_PER_THREAD ∧
    (∀ v,
      (ndpi_idle_scan_walker (walk_state (run_pcap_loop (init_reader_thread datalink array_index)
          pkts) header idx n) v).ndpi_flows_idle ≠
        (walk_state (run_pcap_loop (init_reader_thread datalink array_index) pkts) header idx
          n).ndpi_flows_idle →
      (walk_state (run_pcap_loop (init_reader_thread datalink array_index) pkts) header idx
          n).cur_idle_flows <
        (walk_state (run_pcap_loop (init_reader_thread datalink array_index) pkts) header idx
          n).max_idle_flows ∧
      (ndpi_idle_scan_walker (walk_state (run_pcap_loop (init_reader_thread datalink array_index)
          pkts) header idx n) v).ndpi_flows_idle =
        v.1 :: (walk_state (run_pcap_loop (init_reader_thread datalink array_index) pkts) header
          idx n).ndpi_flows_idle) ∧
    (walk_state (run_pcap_loop (init_reader_thread datalink array_index) pkts) header idx
      n).ndpi_flows_idle.reverse.Sublist
      ((sweep_state (run_pcap_loop (init_reader_thread datalink array_index) pkts) header
        idx).workflow.ndpi_flows_active idx).keys ∧
    (idle_scan_slot (sweep_state (run_pcap_loop (init_reader_thread datalink array_index) pkts)
      header idx) idx).workflow.cur_idle_flows = 0 ∧
    (check_for_idle_flows (clock_packet
      (run_pcap_loop (init_reader_thread datalink array_index) pkts)
      header)).workflow.cur_idle_flows = 0 := by
  obtain ⟨hs, ⟨-, -, hmi, -, -⟩⟩ :=
    run_pcap_loop_staged_empty pkts (init_reader_thread datalink array_index) rfl
  obtain ⟨⟨-, -, smi, -, -⟩, ss⟩ := sweep_state_spec
    (run_pcap_loop (init_reader_thread datalink array_index) pkts) header idx hs
  have hb : (walk_state (run_pcap_loop (init_reader_thread datalink array_index) pkts) header idx
      n).cur_idle_flows ≤ MAX_IDLE_FLOWS_PER_THREAD :=
    ndpi_twalk_fold_bound _ _ (by simp [nDPId_workflow.cur_idle_flows, ss])
  have hmax : (walk_state (run_pcap_loop (init_reader_thread datalink array_index) pkts) header
      idx n).max_idle_flows = MAX_IDLE_FLOWS_PER_THREAD :=
    ((ndpi_twalk_fold_config _ _).2.2.1.trans smi).trans hmi
  refine ⟨by simp [nDPId_workflow.cur_idle_flows, hs], hmi, hb, fun v hv => ?_, ?_, ?_, ?_⟩
  · rcases ndpi_idle_scan_walker_staged (walk_state (run_pcap_loop
      (init_reader_thread datalink array_index) pkts) header idx n) v with h1 | ⟨h1, -, h3⟩
    · exact absurd h1 hv
    · rw [hmax]
      exact ⟨lt_of_le_of_ne hb h1, h3⟩
  · obtain ⟨l, hl, hsub⟩ := ndpi_twalk_fold_staged
      ((ndpi_twalk ((sweep_state (run_pcap_loop (init_reader_thread datalink array_index) pkts)
        header idx).workflow.ndpi_flows_active idx)).take n)
      (sweep_state (run_pcap_loop (init_reader_thread datalink array_index) pkts) header
        idx).workflow
    have hw : (walk_state (run_pcap_loop (init_reader_thread datalink array_index) pkts) header
        idx n).ndpi_flows_idle = l.reverse := by
      unfold walk_state
      rw [hl, ss, List.append_nil]
    rw [hw, List.reverse_reverse, ← walk_candidates_twalk]
    exact hsub.trans (walk_candidates_take _ n)
  · have := (idle_scan_slot_spec _ idx ss).2.1
    simp [nDPId_workflow.cur_idle_flows, this]
  · have hs0 : (clock_packet (run_pcap_loop (init_reader_thread datalink array_index) pkts)
        header).workflow.ndpi_flows_idle = [] := hs
    have := (check_for_idle_flows_spec _ hs0).2.1
    simp [nDPId_workflow.cur_idle_flows, this]

/-! ### A sweep over many slots -/

theorem parse_packet_of_stages (datalink : Nat) (header : pcap_pkthdr) (packet : packet_view)
    (lib : ndpi_results) (type ip_offset : Nat) (l3 : l3_result) (flow : nDPId_flow_info)
    (h1 : process_datalink datalink header packet = some (type, ip_offset))
    (h3 : process_layer3 type (ip_size_of header ip_offset) packet lib = some l3)
    (h4 : process_layer4 header packet l3 = some flow) :
    parse_packet datalink header packet lib = some (l3, flow) := by
  unfold parse_packet
  rw [h1]
  simp only []
  rw [h3]
  simp only []
  rw [h4]

theorem burst_packet_layer3 (i : Nat) (hi : 12 + i < U32) :
    process_layer3 ETH_P_IP (ip_size_of (burst_packet i).1 sizeof_ethhdr) (burst_packet i).2.1
      (burst_packet i).2.2 = some (sample_l3 2 (12 + i)) := by
  have hs : ip_size_of (burst_packet i).1 sizeof_ethhdr = 68 := by
    simp only [ip_size_of, burst_packet, sample_header]
    decide
  rw [hs]
  simp only [process_layer3, burst_packet, sample_ip4, sample_lib]
  rw [Nat.mod_eq_of_lt hi]
  rfl

theorem burst_packet_parse (i : Nat) (hi : 12 + i < U32) :
    parse_packet DLT_EN10MB (burst_packet i).1 (burst_packet i).2.1 (burst_packet i).2.2 =
      some (sample_l3 2 (12 + i), sample_flow4 2 (12 + i) 10 20) :=
  parse_packet_of_stages DLT_EN10MB _ _ _ ETH_P_IP sizeof_ethhdr _ _ rfl
    (burst_packet_layer3 i hi) rfl

theorem burst_shard (i : Nat) :
    thread_index_final (sample_l3 2 (12 + i)).thread_index (sample_flow4 2 (12 + i) 10 20).src_port
      (sample_flow4 2 (12 + i) 10 20).dst_port 4 = 3 := by
  have h : (sample_l3 2 (12 + i)).thread_index = (sample_l3 2 12).thread_index := by
    simp only [sample_l3, thread_index_v4]
    rw [if_neg (by omega), if_neg (by omega)]
  rw [h]
  exact wrap_shard

theorem burst_hashval (i : Nat) (hi : 14 + i < U32) :
    flow_hashval (sample_flow4 2 (12 + i) 10 20) (sample_lib 34 40 17) = 61 + i := by
  have hU : U32 = 4294967296 := by decide
  have hU64 : U64 = 18446744073709551616 := by decide
  rw [hU] at hi
  simp only [flow_hashval, sample_lib, sample_flow4, nDPId_flow_info.v4_src,
    nDPId_flow_info.v4_dst, IPPROTO_UDP, hU, hU64]
  omega

theorem burst_keyed (i : Nat) (hi : 14 + i < U32) :
    keyed_flow (sample_flow4 2 (12 + i) 10 20) (sample_lib 34 40 17) =
      { sample_flow4 2 (12 + i) 10 20 with hashval := 61 + i } := by
  simp only [keyed_flow, burst_hashval i hi]

theorem burst_update (i : Nat) :
    (flow_packet_update { sample_flow4 2 (12 + i) 10 20 with hashval := 61 + i, flow_id := i }
      { sample_flow4 2 (12 + i) 10 20 with hashval := 61 + i } 0 40 (sample_lib 34 40 17)).1 =
      { sample_flow4 2 (12 + i) 10 20 with
        hashval := 61 + i, flow_id := i, packets_processed := 1,
        max_l4_data_len := 40, total_l4_data_len := 40, num_processed_pkts := 1 } := by
  rfl

/-- A packet that triggers no sweep and passes the parser goes to the packet path
with the clock advanced. -/
theorem ndpi_process_packet_no_sweep (rt : nDPId_reader_thread) (header : pcap_pkthdr)
    (packet : packet_view) (lib : ndpi_results) (l3 : l3_result) (flow : nDPId_flow_info)
    (hc : ¬ (rt.workflow.last_idle_scan_time + IDLE_SCAN_PERIOD) % U64 < packet_time_ms header)
    (hp : parse_packet rt.workflow.pcap_datalink header packet lib = some (l3, flow)) :
    ndpi_process_packet rt header packet lib =
      dispatch_flow (clock_packet rt header) l3 flow (packet_time_ms header) lib := by
  have hc0 : ¬ ((clock_packet rt header).workflow.last_idle_scan_time + IDLE_SCAN_PERIOD) % U64 <
      (clock_packet rt header).workflow.last_time := hc
  have h0 : check_for_idle_flows (clock_packet rt header) = clock_packet rt header := by
    unfold check_for_idle_flows
    rw [if_neg hc0]
  have hp0 : parse_packet (clock_packet rt header).workflow.pcap_datalink header packet lib =
      some (l3, flow) := hp
  rw [ndpi_process_packet_eq_clock, h0, hp0]

theorem burst_step (j : Nat) (rt : nDPId_reader_thread) (hj : j < 1900)
    (h : burst_state j rt) :
    burst_state (j + 1) (ndpi_process_packet rt (burst_packet j).1 (burst_packet j).2.1
      (burst_packet j).2.2) := by
  obtain ⟨h1, h2, h3, h4, h5, h6, h7, h8, h9⟩ := h
  have hU : U32 = 4294967296 := by decide
  have hU64 : U64 = 18446744073709551616 := by decide
  have hi : 14 + j < U32 := by rw [hU]; omega
  have hi2 : 12 + j < U32 := by rw [hU]; omega
  have ht : packet_time_ms (burst_packet j).1 = 0 := by
    show packet_time_ms (sample_header 0 82) = 0
    decide
  have hc : ¬ (rt.workflow.last_idle_scan_time + IDLE_SCAN_PERIOD) % U64 <
      packet_time_ms (burst_packet j).1 := by
    rw [ht]
    exact Nat.not_lt_zero _
  rw [ndpi_process_packet_no_sweep rt _ _ _ (sample_l3 2 (12 + j)) (sample_flow4 2 (12 + j) 10 20)
    hc (by rw [h1]; exact burst_packet_parse j hi2), ht]
  have hk : keyed_flow (sample_flow4 2 (12 + j) 10 20) (burst_packet j).2.2 =
      { sample_flow4 2 (12 + j) 10 20 with hashval := 61 + j } := burst_keyed j hi
  have hidx : (keyed_flow (sample_flow4 2 (12 + j) 10 20) (burst_packet j).2.2).hashval %
      (clock_packet rt (burst_packet j).1).workflow.max_active_flows = 61 + j := by
    rw [hk]
    show (61 + j) % rt.workflow.max_active_flows = 61 + j
    rw [h5]
    omega
  have hnull : (clock_packet rt (burst_packet j).1).workflow.ndpi_flows_active (61 + j) =
      .null := by
    show rt.workflow.ndpi_flows_active (61 + j) = .null
    rw [h3, if_neg (by omega)]
  obtain ⟨d1, d2, d3, -⟩ := dispatch_flow_creates_leaf
    (clock_packet rt (burst_packet j).1) (sample_l3 2 (12 + j)) (sample_flow4 2 (12 + j) 10 20) 0
    (burst_packet j).2.2 (61 + j) (burst_record j)
    (by
      show thread_index_final (sample_l3 2 (12 + j)).thread_index
        (sample_flow4 2 (12 + j) 10 20).src_port (sample_flow4 2 (12 + j) 10 20).dst_port
        rt.reader_thread_count = rt.array_index
      rw [h8, h7]
      exact burst_shard j)
    hidx hnull
    (by
      show rt.workflow.cur_active_flows ≠ rt.workflow.max_active_flows
      rw [h6, h5]
      omega)
    rfl rfl rfl rfl rfl
    (by
      rw [hk]
      show (flow_packet_update
        { sample_flow4 2 (12 + j) 10 20 with hashval := 61 + j, flow_id := rt.flow_id }
        { sample_flow4 2 (12 + j) 10 20 with hashval := 61 + j } 0 40 (sample_lib 34 40 17)).1 =
        burst_record j
      rw [h9]
      exact burst_update j)
  obtain ⟨⟨f1, f2, -, f4, f5⟩, f6, f7, -, f9⟩ := dispatch_flow_path_frame
    (clock_packet rt (burst_packet j).1) (sample_l3 2 (12 + j)) (sample_flow4 2 (12 + j) 10 20) 0
    (burst_packet j).2.2
  rw [hidx] at f9
  refine ⟨f1.trans h1, f7.trans h2, fun s => ?_, f6.trans h4, f2.trans h5, ?_, f4.trans h7,
    f5.trans h8, ?_⟩
  · by_cases hs : s = 61 + j
    · rw [hs, d1, if_pos (by omega), Nat.add_sub_cancel_left]
    · rw [f9 s hs]
      show rt.workflow.ndpi_flows_active s = _
      rw [h3]
      by_cases hin : 61 ≤ s ∧ s < 61 + j
      · rw [if_pos hin, if_pos (by omega)]
      · rw [if_neg hin, if_neg (by omega)]
  · rw [d2]
    show (rt.workflow.cur_active_flows + 1) % U64 = j + 1
    rw [h6, hU64]
    omega
  · rw [d3]
    show (rt.flow_id + 1) % U32 = j + 1
    rw [h9, hU]
    omega

theorem burst_run_state (m j : Nat) (rt : nDPId_reader_thread) (hj : j + m ≤ 1900)
    (h : burst_state j rt) : burst_state (j + m) (run_pcap_loop rt (burst_run j m)) := by
  induction m generalizing j rt with
  | zero => exact h
  | succ m ih =>
    simp only [burst_run, run_pcap_loop]
    have := ih (j + 1) _ (by omega) (burst_step j rt (by omega) h)
    rw [Nat.add_assoc, Nat.add_comm 1 m] at this
    exact this

theorem burst_state_init : burst_state 0 (init_reader_thread DLT_EN10MB 3) :=
  ⟨rfl, rfl, fun s => by rw [if_neg (by omega)]; rfl, rfl, rfl, rfl, rfl, rfl, rfl⟩

theorem idle_scan_slot_leaf_count (rt : nDPId_reader_thread) (idx : Nat) (r : nDPId_flow_info)
    (hs : rt.workflow.ndpi_flows_idle = [])
    (hl : rt.workflow.ndpi_flows_active idx = .node r .null .null)
    (ht : idle_test rt.workflow.last_time r) :
    idle_event_count (idle_scan_slot rt idx) = idle_event_count rt + 1 := by
  rw [(idle_scan_slot_count rt idx hs).1, hl]
  have hw : ndpi_idle_scan_walker rt.workflow (r, .ndpi_leaf) =
      { rt.workflow with
        ndpi_flows_idle := r :: rt.workflow.ndpi_flows_idle,
        total_idle_flows := (rt.workflow.total_idle_flows + 1) % U64 } := by
    unfold ndpi_idle_scan_walker
    have h1 : ¬ rt.workflow.cur_idle_flows = MAX_IDLE_FLOWS_PER_THREAD := by
      simp [nDPId_workflow.cur_idle_flows, hs, MAX_IDLE_FLOWS_PER_THREAD]
    have ht2 : ((r, ndpi_VISIT.ndpi_leaf).1.flow_fin_ack_seen = 1 ∧
        (r, ndpi_VISIT.ndpi_leaf).1.flow_ack_seen = 1) ∨
        ((r, ndpi_VISIT.ndpi_leaf).1.last_seen + MAX_IDLE_TIME) % U64 <
          rt.workflow.last_time := ht
    rw [if_neg h1, if_pos (Or.inr rfl), if_pos ht2]
  simp only [ndpi_twalk, List.foldl_cons, List.foldl_nil, hw, nDPId_workflow.cur_idle_flows, hs,
    List.length_singleton]

/-- A stretch of `n` slots from slot `s` on, each holding a single record that
passes the walker's test: the sweep emits one `FLOW_IDLE` event per slot. -/
theorem idle_scan_fold_leaves (n s : Nat) (rt : nDPId_reader_thread)
    (hs : rt.workflow.ndpi_flows_idle = [])
    (hl : ∀ i, s ≤ i → i < s + n →
      ∃ r, rt.workflow.ndpi_flows_active i = .node r .null .null ∧
        idle_test rt.workflow.last_time r) :
    idle_event_count ((List.range' s n).foldl idle_scan_slot rt) = idle_event_count rt + n ∧
    ((List.range' s n).foldl idle_scan_slot rt).workflow.ndpi_flows_idle = [] ∧
    ∀ i, s + n ≤ i →
      ((List.range' s n).foldl idle_scan_slot rt).workflow.ndpi_flows_active i =
        rt.workflow.ndpi_flows_active i := by
  induction n generalizing s rt with
  | zero => exact ⟨rfl, hs, fun _ _ => rfl⟩
  | succ n ih =>
    obtain ⟨r, hr, ht⟩ := hl s (Nat.le_refl s) (by omega)
    obtain ⟨-, a2, -, -, a5, -⟩ := idle_scan_slot_spec rt s hs
    have hlt := (idle_scan_slot_frame rt s).1
    obtain ⟨b1, b2, b3⟩ := ih (s + 1) (idle_scan_slot rt s) a2 (fun i h1 h2 => by
      obtain ⟨r2, hr2, ht2⟩ := hl i (by omega) (by omega)
      exact ⟨r2, by rw [a5 i (by omega)]; exact hr2, by rw [hlt]; exact ht2⟩)
    rw [List.range'_succ, List.foldl_cons]
    refine ⟨?_, b2, fun i hi => ?_⟩
    · rw [b1, idle_scan_slot_leaf_count rt s r hs hr ht]
      omega
    · rw [b3 i (by omega), a5 i (by omega)]

/-- The sweep for a packet stamped 301 s over the state the 65 packets of the burst
leave behind: 65 `FLOW_IDLE` events. -/
theorem burst_sweep (rt : nDPId_reader_thread) (header : pcap_pkthdr)
    (hb : burst_state 65 rt) (ht : packet_time_ms header = 301000) :
    idle_event_count (check_for_idle_flows (clock_packet rt header)) =
      idle_event_count rt + 65 := by
  obtain ⟨-, h2, h3, h4, h5, h6, -, -, -⟩ := hb
  have hs0 : (clock_packet rt header).workflow.ndpi_flows_idle = [] := h4
  have hlt : (clock_packet rt header).workflow.last_time = 301000 := ht
  have hc : ((clock_packet rt header).workflow.last_idle_scan_time + IDLE_SCAN_PERIOD) % U64 <
      (clock_packet rt header).workflow.last_time := by
    rw [hlt]
    show (rt.workflow.last_idle_scan_time + IDLE_SCAN_PERIOD) % U64 < 301000
    rw [h2]
    decide
  have hm : (clock_packet rt header).workflow.max_active_flows = 61 + (65 + 1922) :=
    Eq.trans (b := 2048) h5 (by decide)
  have hslot : ∀ s, (clock_packet rt header).workflow.ndpi_flows_active s =
      if 61 ≤ s ∧ s < 61 + 65 then .node (burst_record (s - 61)) .null .null
      else .null := h3
  have hsplit : List.range (61 + (65 + 1922)) =
      List.range' 0 61 ++ (List.range' 61 65 ++ List.range' 126 1922) := by
    rw [List.range_eq_range', List.range'_append_1 61 65 1922]
    exact (List.range'_append_1 0 61 (65 + 1922)).symm
  have hcount : idle_event_count (check_for_idle_flows (clock_packet rt header)) =
      idle_event_count ((List.range (61 + (65 + 1922))).foldl idle_scan_slot
        (clock_packet rt header)) := by
    have hupd : ∀ (x : nDPId_reader_thread) (w : nDPId_workflow),
        idle_event_count { x with workflow := w } = idle_event_count x := fun _ _ => rfl
    unfold check_for_idle_flows
    rw [if_pos hc]
    simp only []
    rw [hupd, hm]
  rw [hcount, hsplit, List.foldl_append, List.foldl_append]
  have e1 := idle_scan_fold_null (List.range' 0 61) _ (fun i hi => by
    rw [hslot i, if_neg]
    have := (List.mem_range'_1.mp hi).2
    omega) hs0
  rw [e1]
  obtain ⟨c1, c2, c3⟩ := idle_scan_fold_leaves 65 61 _ hs0 (fun i h1 h2 => by
    refine ⟨burst_record (i - 61), by rw [hslot i, if_pos ⟨h1, by omega⟩], Or.inr ?_⟩
    rw [hlt]
    show (0 + MAX_IDLE_TIME) % U64 < 301000
    decide)
  have e2 := idle_scan_fold_null (List.range' 126 1922) _ (fun i hi => by
    rw [c3 i (by have := (List.mem_range'_1.mp hi).1; omega), hslot i, if_neg]
    have := (List.mem_range'_1.mp hi).1
    omega) c2
  rw [e2, c1]
  rfl

/-- C22 fails as stated: worker 3 receives the 65 packets `burst_run 0 65`, one
packet each of 65 UDP/IPv4 flows `2:10 -> (12 + i):20` at 0 s, which create 65
records in the 65 tree slots `61 + i`.  The one call of `check_for_idle_flows` for
a packet stamped 301 s emits 65 `FLOW_IDLE` events, more than
`MAX_IDLE_FLOWS_PER_THREAD = 64`: the staging array is drained after each slot. -/
theorem C22_one_sweep_emits_65_idle_events :
    (run_pcap_loop (init_reader_thread DLT_EN10MB 3) (burst_run 0 65)).workflow.cur_active_flows
      = 65 ∧
    idle_event_count (check_for_idle_flows (clock_packet
        (run_pcap_loop (init_reader_thread DLT_EN10MB 3) (burst_run 0 65))
        (sample_header 301 82))) =
      idle_event_count (run_pcap_loop (init_reader_thread DLT_EN10MB 3) (burst_run 0 65)) + 65 ∧
    MAX_IDLE_FLOWS_PER_THREAD < 65 := by
  have hb := burst_run_state 65 0 _ (by omega) burst_state_init
  rw [Nat.zero_add] at hb
  exact ⟨hb.2.2.2.2.2.1, burst_sweep _ _ hb (by decide), by decide⟩

/-! ### Records and their tree slot -/

/-- The four ways through the packet path: not this shard; the lookup misses and
the creation ends early; the lookup misses and the new record is processed; the
lookup hits and the record found is processed. -/
theorem dispatch_flow_cases (rt : nDPId_reader_thread) (l3 : l3_result)
    (flow0 : nDPId_flow_info) (t : Nat) (lib : ndpi_results) :
    dispatch_flow rt l3 flow0 t lib = rt ∨
    (flow_lookup (keyed_flow flow0 lib) (rt.workflow.ndpi_flows_active
        ((keyed_flow flow0 lib).hashval % rt.workflow.max_active_flows)) = none ∧
      (create_flow (count_packet rt l3.l4_len)
        ((keyed_flow flow0 lib).hashval % rt.workflow.max_active_flows)
        (keyed_flow flow0 lib) lib).2 = none ∧
      dispatch_flow rt l3 flow0 t lib =
        (create_flow (count_packet rt l3.l4_len)
          ((keyed_flow flow0 lib).hashval % rt.workflow.max_active_flows)
          (keyed_flow flow0 lib) lib).1) ∨
    (flow_lookup (keyed_flow flow0 lib) (rt.workflow.ndpi_flows_active
        ((keyed_flow flow0 lib).hashval % rt.workflow.max_active_flows)) = none ∧
      (create_flow (count_packet rt l3.l4_len)
        ((keyed_flow flow0 lib).hashval % rt.workflow.max_active_flows)
        (keyed_flow flow0 lib) lib).2 = some { keyed_flow flow0 lib with flow_id := rt.flow_id } ∧
      dispatch_flow rt l3 flow0 t lib =
        process_flow
          (create_flow (count_packet rt l3.l4_len)
            ((keyed_flow flow0 lib).hashval % rt.workflow.max_active_flows)
            (keyed_flow flow0 lib) lib).1
          ((keyed_flow flow0 lib).hashval % rt.workflow.max_active_flows) (keyed_flow flow0 lib)
          { keyed_flow flow0 lib with flow_id := rt.flow_id } (keyed_flow flow0 lib) t l3.l4_len
          lib) ∨
    ∃ key ftp d,
      flow_lookup (keyed_flow flow0 lib) (rt.workflow.ndpi_flows_active
        ((keyed_flow flow0 lib).hashval % rt.workflow.max_active_flows)) = some (key, ftp, d) ∧
      dispatch_flow rt l3 flow0 t lib =
        process_flow (count_packet rt l3.l4_len)
          ((keyed_flow flow0 lib).hashval % rt.workflow.max_active_flows) key ftp
          (keyed_flow flow0 lib) t l3.l4_len lib := by
  unfold dispatch_flow
  split_ifs with hs
  · exact Or.inl rfl
  · simp only []
    split
    · rename_i hl
      have hf := (create_flow_frame (count_packet rt l3.l4_len)
        ((keyed_flow flow0 lib).hashval % rt.workflow.max_active_flows) (keyed_flow flow0 lib)
        lib).2.2.2
      split
      · rename_i rt1 hc
        have hc2 : create_flow (count_packet rt l3.l4_len)
            ((keyed_flow flow0 lib).hashval % rt.workflow.max_active_flows)
            (keyed_flow flow0 lib) lib = (rt1, none) := hc
        right
        left
        exact ⟨hl, by rw [hc2], by rw [hc2]⟩
      · rename_i rt1 ftp hc
        have hc2 : create_flow (count_packet rt l3.l4_len)
            ((keyed_flow flow0 lib).hashval % rt.workflow.max_active_flows)
            (keyed_flow flow0 lib) lib = (rt1, some ftp) := hc
        have hftp := hf ftp (by rw [hc2])
        have hftp2 : ftp = { keyed_flow flow0 lib with flow_id := rt.flow_id } := hftp
        right
        right
        left
        refine ⟨hl, by rw [hc2, hftp2], ?_⟩
        rw [hc2, hftp2]
    · rename_i key ftp d hl
      right
      right
      right
      exact ⟨key, ftp, d, hl, rfl⟩

theorem process_flow_slots_hashed (rt : nDPId_reader_thread) (idx : Nat)
    (key ftp flow : nDPId_flow_info) (t len : Nat) (lib : ndpi_results)
    (h : slots_hashed rt) (hf : ftp.hashval % rt.workflow.max_active_flows = idx) :
    slots_hashed (process_flow rt idx key ftp flow t len lib) := by
  obtain ⟨⟨-, hm, -, -, -⟩, -, -, -, ho⟩ := process_flow_path_frame rt idx key ftp flow t len lib
  intro i f hfm
  rw [hm]
  by_cases hi : i = idx
  · rcases (process_flow_frame rt idx key ftp flow t len lib).2.1 i f hfm with h1 | h1
    · exact h i f h1
    · rw [h1, (flow_packet_update_spec ftp flow t len lib).1.2.1, hf, hi]
  · rw [ho i hi] at hfm
    exact h i f hfm

theorem create_flow_slots_hashed (rt : nDPId_reader_thread) (idx : Nat)
    (flow : nDPId_flow_info) (lib : ndpi_results)
    (h : slots_hashed rt) (hf : flow.hashval % rt.workflow.max_active_flows = idx) :
    slots_hashed (create_flow rt idx flow lib).1 := by
  obtain ⟨⟨-, hm, -, -, -⟩, -, -, -, ho⟩ := create_flow_path_frame rt idx flow lib
  intro i f hfm
  rw [hm]
  by_cases hi : i = idx
  · rcases (create_flow_frame rt idx flow lib).2.1 i f hfm with h1 | h1
    · exact h i f h1
    · rw [h1, hi]
      exact hf
  · rw [ho i hi] at hfm
    exact h i f hfm

theorem dispatch_flow_slots_hashed (rt : nDPId_reader_thread) (l3 : l3_result)
    (flow0 : nDPId_flow_info) (t : Nat) (lib : ndpi_results) (h : slots_hashed rt) :
    slots_hashed (dispatch_flow rt l3 flow0 t lib) := by
  have h0 : slots_hashed (count_packet rt l3.l4_len) := h
  rcases dispatch_flow_cases rt l3 flow0 t lib with e | ⟨-, -, e⟩ | ⟨-, -, e⟩ | ⟨key, ftp, d, hl, e⟩
  · rw [e]
    exact h
  · rw [e]
    exact create_flow_slots_hashed _ _ _ _ h0 rfl
  · rw [e]
    refine process_flow_slots_hashed _ _ _ _ _ _ _ _
      (create_flow_slots_hashed _ _ _ _ h0 rfl) ?_
    rw [(create_flow_path_frame _ _ _ _).1.2.1]
    rfl
  · rw [e]
    exact process_flow_slots_hashed _ _ _ _ _ _ _ _ h0 (h _ ftp (flow_lookup_mem _ _ _ _ _ hl))

theorem scan_frame_slots_hashed (rt rt2 : nDPId_reader_thread) (hf : scan_frame rt rt2)
    (hm : rt2.workflow.max_active_flows = rt.workflow.max_active_flows) (h : slots_hashed rt) :
    slots_hashed rt2 := by
  intro i f hfm
  rw [hm]
  exact h i f (hf.2.1 i f hfm)

theorem ndpi_process_packet_slots_hashed (rt : nDPId_reader_thread) (header : pcap_pkthdr)
    (packet : packet_view) (lib : ndpi_results) (hs : rt.workflow.ndpi_flows_idle = [])
    (h : slots_hashed rt) : slots_hashed (ndpi_process_packet rt header packet lib) := by
  have hs0 : (clock_packet rt header).workflow.ndpi_flows_idle = [] := hs
  have h0 : slots_hashed (clock_packet rt header) := h
  have h1 := scan_frame_slots_hashed _ _ (check_for_idle_flows_frame (clock_packet rt header))
    (check_for_idle_flows_spec _ hs0).1.2.1 h0
  rw [ndpi_process_packet_eq_clock]
  split
  · exact h1
  · exact dispatch_flow_slots_hashed _ _ _ _ _ h1

theorem run_pcap_loop_slots_hashed (pkts : List (pcap_pkthdr × packet_view × ndpi_results))
    (rt : nDPId_reader_thread) (hs : rt.workflow.ndpi_flows_idle = []) (h : slots_hashed rt) :
    slots_hashed (run_pcap_loop rt pkts) := by
  induction pkts generalizing rt with
  | nil => exact h
  | cons p rest ih =>
    simp only [run_pcap_loop]
    exact ih _ (ndpi_process_packet_config rt p.1 p.2.1 p.2.2 hs).2
      (ndpi_process_packet_slots_hashed rt p.1 p.2.1 p.2.2 hs h)

/-- One slot of the sweep, entered with an empty staging array: every event added
is the `FLOW_IDLE` event of a record stored in that slot when the walk ran. -/
theorem idle_scan_slot_events_stored (rt : nDPId_reader_thread) (idx : Nat)
    (hs : rt.workflow.ndpi_flows_idle = []) :
    ∃ new, (idle_scan_slot rt idx).json_events = rt.json_events ++ new ∧
      ∀ e ∈ new, e.event = .FLOW_IDLE ∧ e.flow ∈ (rt.workflow.ndpi_flows_active idx).keys := by
  obtain ⟨l, hl, hsub⟩ := ndpi_twalk_fold_staged
    (ndpi_twalk (rt.workflow.ndpi_flows_active idx)) rt.workflow
  rw [hs, List.append_nil] at hl
  rw [walk_candidates_twalk] at hsub
  obtain ⟨-, -, -, -, -, new, hn, hall⟩ := drain_idle_flows_spec idx
    ((ndpi_twalk (rt.workflow.ndpi_flows_active idx)).foldl ndpi_idle_scan_walker
      rt.workflow).ndpi_flows_idle
    { rt with
      workflow :=
        (ndpi_twalk (rt.workflow.ndpi_flows_active idx)).foldl ndpi_idle_scan_walker rt.workflow }
    rfl
  refine ⟨new, hn, fun e he => ⟨(hall e he).1, ?_⟩⟩
  have := (hall e he).2
  rw [hl] at this
  exact hsub.subset (List.mem_reverse.mp this)

/-- For a worker that has processed any packets from its initial state.
Every record stored in tree slot `i` has `hashval % max_active_flows = i`, and a
record stored in slot `i` is stored in no other slot.  In the sweep for the next
packet, when the loop reaches slot `idx`: every `FLOW_IDLE` event of that
iteration is for a record that is stored in slot `idx` (and hashed to it) when the
walk stages it, and the drain of that iteration, which deletes the staged records
from slot `idx`, leaves every other slot as it is. -/
theorem records_stay_in_their_hashed_slot (datalink : Nat) (array_index : Int)
    (pkts : List (pcap_pkthdr × packet_view × ndpi_results)) (header : pcap_pkthdr) (idx : Nat) :
    (∀ i, ∀ f ∈ ((run_pcap_loop (init_reader_thread datalink array_index)
        pkts).workflow.ndpi_flows_active i).keys,
      f.hashval % (run_pcap_loop (init_reader_thread datalink array_index)
        pkts).workflow.max_active_flows = i) ∧
    (∀ i j f,
      f ∈ ((run_pcap_loop (init_reader_thread datalink array_index)
        pkts).workflow.ndpi_flows_active i).keys →
      f ∈ ((run_pcap_loop (init_reader_thread datalink array_index)
        pkts).workflow.ndpi_flows_active j).keys → i = j) ∧
    ∃ new,
      (idle_scan_slot (sweep_state (run_pcap_loop (init_reader_thread datalink array_index) pkts)
          header idx) idx).json_events =
        (sweep_state (run_pcap_loop (init_reader_thread datalink array_index) pkts)
          header idx).json_events ++ new ∧
      (∀ e ∈ new, e.event = .FLOW_IDLE ∧
        e.flow ∈ ((sweep_state (run_pcap_loop (init_reader_thread datalink array_index) pkts)
          header idx).workflow.ndpi_flows_active idx).keys ∧
        e.flow.hashval % (run_pcap_loop (init_reader_thread datalink array_index)
          pkts).workflow.max_active_flows = idx) ∧
      ∀ i, i ≠ idx →
        (idle_scan_slot (sweep_state (run_pcap_loop (init_reader_thread datalink array_index) pkts)
          header idx) idx).workflow.ndpi_flows_active i =
        (sweep_state (run_pcap_loop (init_reader_thread datalink array_index) pkts)
          header idx).workflow.ndpi_flows_active i := by
  obtain ⟨hs, -⟩ := run_pcap_loop_staged_empty pkts (init_reader_thread datalink array_index) rfl
  have hh : slots_hashed (run_pcap_loop (init_reader_thread datalink array_index) pkts) :=
    run_pcap_loop_slots_hashed pkts _ rfl (fun i f hf => by
      have : (init_reader_thread datalink array_index).workflow.ndpi_flows_active i = .null := rfl
      rw [this] at hf
      simp [ndpi_node.keys] at hf)
  obtain ⟨⟨-, sm, -, -, -⟩, ss⟩ := sweep_state_spec
    (run_pcap_loop (init_reader_thread datalink array_index) pkts) header idx hs
  have hsw : slots_hashed (sweep_state (run_pcap_loop (init_reader_thread datalink array_index)
      pkts) header idx) :=
    scan_frame_slots_hashed (clock_packet (run_pcap_loop (init_reader_thread datalink array_index)
      pkts) header) _ (idle_scan_fold_frame _ _) sm hh
  obtain ⟨new, hn, hall⟩ := idle_scan_slot_events_stored _ idx ss
  refine ⟨hh, fun i j f hi hj => (hh i f hi).symm.trans (hh j f hj), new, hn,
    fun e he => ⟨(hall e he).1, (hall e he).2, ?_⟩, (idle_scan_slot_spec _ idx ss).2.2.2.2.1⟩
  rw [← sm]
  exact hsw idx e.flow (hall e he).2

/-! ### Detection counter -/

theorem undetected_in_node (k : nDPId_flow_info) (l r : ndpi_node) :
    undetected_in (.node k l r) = undetected k + undetected_in l + undetected_in r := by
  unfold undetected_in undetected
  simp only [ndpi_node.keys, List.countP_cons, List.countP_append, decide_eq_true_eq]
  omega

theorem undetected_in_null : undetected_in .null = 0 := rfl

theorem undetected_le_one (f : nDPId_flow_info) : undetected f ≤ 1 := by
  unfold undetected
  split_ifs <;> omega

theorem ndpi_tsearch_undetected (compar : nDPId_flow_info → nDPId_flow_info → Int) (b : Bool)
    (key : nDPId_flow_info) (t : ndpi_node) :
    undetected_in (ndpi_tsearch compar b key t).1 ≤ undetected_in t + undetected key := by
  induction t with
  | null =>
    unfold ndpi_tsearch
    cases b
    · simp [undetected_in_null]
    · simp [undetected_in_node, undetected_in_null]
  | node k l r ihl ihr =>
    unfold ndpi_tsearch
    split_ifs
    · exact Nat.le_add_right _ _
    · simp only [undetected_in_node]
      omega
    · simp only [undetected_in_node]
      omega

/-- A write through the pointer a lookup returned replaces the record found. -/
theorem ndpi_node_store_undetected (compar : nDPId_flow_info → nDPId_flow_info → Int)
    (key ftp r : nDPId_flow_info) (t : ndpi_node) (h : ndpi_tfind compar key t = some ftp) :
    undetected_in (ndpi_node.store compar key (fun _ => r) t) + undetected ftp =
      undetected_in t + undetected r := by
  induction t with
  | null => simp [ndpi_tfind] at h
  | node k l rr ihl ihr =>
    unfold ndpi_tfind at h
    unfold ndpi_node.store
    split_ifs at h ⊢ with h1 h2
    · simp only [Option.some.injEq] at h
      subst h
      simp only [undetected_in_node]
      omega
    · have := ihl h
      simp only [undetected_in_node]
      omega
    · have := ihr h
      simp only [undetected_in_node]
      omega

theorem ndpi_node_leftmost_undetected (t : ndpi_node) (q : nDPId_flow_info)
    (h : t.leftmost = some q) :
    undetected_in t = undetected q + undetected_in t.drop_leftmost := by
  induction t with
  | null => simp [ndpi_node.leftmost] at h
  | node k l r ihl _ =>
    cases l with
    | null =>
      simp only [ndpi_node.leftmost, Option.some.injEq] at h
      subst h
      simp only [ndpi_node.drop_leftmost, undetected_in_node, undetected_in_null]
      omega
    | node lk ll lr =>
      simp only [ndpi_node.leftmost] at h
      have := ihl h
      simp only [ndpi_node.drop_leftmost, undetected_in_node] at this ⊢
      omega

theorem ndpi_node_unlink_undetected (t : ndpi_node) :
    undetected_in t.unlink ≤ undetected_in t := by
  cases t with
  | null => exact Nat.le_refl _
  | node k l r =>
    cases l with
    | null =>
      simp only [ndpi_node.unlink, undetected_in_node]
      omega
    | node lk ll lr =>
      cases r with
      | null =>
        simp only [ndpi_node.unlink, undetected_in_node]
        omega
      | node rk rl rr =>
        simp only [ndpi_node.unlink]
        split
        · rename_i q hq
          have := ndpi_node_leftmost_undetected _ q hq
          simp only [undetected_in_node] at this ⊢
          omega
        · simp only [undetected_in_node]
          omega

theorem ndpi_tdelete_undetected (compar : nDPId_flow_info → nDPId_flow_info → Int)
    (key : nDPId_flow_info) (t : ndpi_node) :
    undetected_in (ndpi_tdelete compar key t) ≤ undetected_in t := by
  induction t with
  | null => exact Nat.le_refl _
  | node k l r ihl ihr =>
    unfold ndpi_tdelete
    split_ifs
    · exact ndpi_node_unlink_undetected _
    · simp only [undetected_in_node]
      omega
    · simp only [undetected_in_node]
      omega

theorem sum_range_exchange (n idx : Nat) (f g : Nat → Nat) (hidx : idx < n)
    (h : ∀ i, i ≠ idx → g i = f i) :
    ((List.range n).map g).sum + f idx = ((List.range n).map f).sum + g idx := by
  induction n with
  | zero => omega
  | succ n ih =>
    rw [List.range_succ, List.map_append, List.map_append, List.sum_append, List.sum_append]
    simp only [List.map_cons, List.map_nil, List.sum_cons, List.sum_nil, Nat.add_zero]
    by_cases hn : idx = n
    · subst hn
      have : (List.range idx).map g = (List.range idx).map f := by
        apply List.map_congr_left
        intro i hi
        exact h i (by have := List.mem_range.mp hi; omega)
      rw [this]
      omega
    · have := ih (by omega)
      rw [h n (fun hh => hn hh.symm)]
      omega

theorem sum_range_mono (n : Nat) (f g : Nat → Nat) (h : ∀ i, g i ≤ f i) :
    ((List.range n).map g).sum ≤ ((List.range n).map f).sum := by
  induction n with
  | zero => exact Nat.le_refl _
  | succ n ih =>
    rw [List.range_succ, List.map_append, List.map_append, List.sum_append, List.sum_append]
    simp only [List.map_cons, List.map_nil, List.sum_cons, List.sum_nil, Nat.add_zero]
    have := h n
    omega

theorem detect_frame_refl (rt : nDPId_reader_thread) : detect_frame rt rt :=
  ⟨rfl, rfl, fun _ => Nat.le_refl _⟩

theorem detect_frame_trans {a b c : nDPId_reader_thread} (h1 : detect_frame a b)
    (h2 : detect_frame b c) : detect_frame a c :=
  ⟨h2.1.trans h1.1, h2.2.1.trans h1.2.1, fun i => Nat.le_trans (h2.2.2 i) (h1.2.2 i)⟩

theorem ndpi_twalk_fold_counters (vs : List (nDPId_flow_info × ndpi_VISIT)) (w : nDPId_workflow) :
    (vs.foldl ndpi_idle_scan_walker w).total_active_flows = w.total_active_flows ∧
      (vs.foldl ndpi_idle_scan_walker w).detected_flow_protocols = w.detected_flow_protocols := by
  induction vs generalizing w with
  | nil => exact ⟨rfl, rfl⟩
  | cons v rest ih =>
    simp only [List.foldl_cons]
    obtain ⟨a1, a2⟩ := ih (ndpi_idle_scan_walker w v)
    have b : (ndpi_idle_scan_walker w v).total_active_flows = w.total_active_flows ∧
        (ndpi_idle_scan_walker w v).detected_flow_protocols = w.detected_flow_protocols := by
      unfold ndpi_idle_scan_walker
      split_ifs <;> exact ⟨rfl, rfl⟩
    exact ⟨a1.trans b.1, a2.trans b.2⟩

theorem drain_idle_flows_detect_frame (idx : Nat) (staged : List nDPId_flow_info)
    (rt : nDPId_reader_thread) : detect_frame rt (drain_idle_flows idx staged rt) := by
  induction staged generalizing rt with
  | nil => exact detect_frame_refl rt
  | cons f rest ih =>
    simp only [drain_idle_flows]
    refine detect_frame_trans ?_ (ih _)
    refine ⟨rfl, rfl, fun i => ?_⟩
    simp only [jsonize_flow_event, set_root]
    split_ifs with hi
    · subst hi
      exact ndpi_tdelete_undetected _ _ _
    · exact Nat.le_refl _

theorem idle_scan_slot_detect_frame (rt : nDPId_reader_thread) (idx : Nat) :
    detect_frame rt (idle_scan_slot rt idx) := by
  unfold idle_scan_slot
  refine detect_frame_trans ?_ (drain_idle_flows_detect_frame _ _ _)
  obtain ⟨h1, h2⟩ := ndpi_twalk_fold_counters
    (ndpi_twalk (rt.workflow.ndpi_flows_active idx)) rt.workflow
  obtain ⟨-, h3⟩ := ndpi_twalk_fold_frame
    (ndpi_twalk (rt.workflow.ndpi_flows_active idx)) rt.workflow
  refine ⟨h1, h2, fun i => ?_⟩
  simp only [h3]
  exact Nat.le_refl _

theorem idle_scan_fold_detect_frame (idxs : List Nat) (rt : nDPId_reader_thread) :
    detect_frame rt (idxs.foldl idle_scan_slot rt) := by
  induction idxs generalizing rt with
  | nil => exact detect_frame_refl rt
  | cons i rest ih =>
    simp only [List.foldl_cons]
    exact detect_frame_trans (idle_scan_slot_detect_frame rt i) (ih _)

theorem check_for_idle_flows_detect_frame (rt : nDPId_reader_thread) :
    detect_frame rt (check_for_idle_flows rt) := by
  unfold check_for_idle_flows
  split_ifs
  · obtain ⟨h1, h2, h3⟩ := idle_scan_fold_detect_frame (List.range rt.workflow.max_active_flows) rt
    exact ⟨h1, h2, h3⟩
  · exact detect_frame_refl rt

theorem flow_dpi_process_detection (g : nDPId_flow_info) (lib : ndpi_results) :
    ((flow_dpi_process g lib).1.detection_completed = g.detection_completed ∧
      (flow_dpi_process g lib).2.2 = 0) ∨
    (g.detection_completed = 0 ∧ (flow_dpi_process g lib).1.detection_completed = 1 ∧
      (flow_dpi_process g lib).2.2 = 1) := by
  unfold flow_dpi_process
  split_ifs with h
  · exact Or.inr ⟨h.2.1, rfl, rfl⟩
  · exact Or.inl ⟨rfl, rfl⟩

/-- The per-packet update leaves `detection_completed` as it is and counts nothing,
or takes it from 0 to 1 and counts one detection. -/
theorem flow_packet_update_detection (f flow : nDPId_flow_info) (t len : Nat)
    (lib : ndpi_results) :
    ((flow_packet_update f flow t len lib).1.detection_completed = f.detection_completed ∧
      (flow_packet_update f flow t len lib).2.2 = 0) ∨
    (f.detection_completed = 0 ∧ (flow_packet_update f flow t len lib).1.detection_completed = 1 ∧
      (flow_packet_update f flow t len lib).2.2 = 1) := by
  have hd1 := flow_dpi_process_detection
    (flow_update_lengths (flow_update_counters f flow t len) len) lib
  have hd2 := flow_dpi_process_detection (flow_last_chance
    (flow_update_lengths (flow_update_counters f flow t len) len) lib).1 lib
  have hg := (flow_last_chance_detection
    (flow_update_lengths (flow_update_counters f flow t len) len) lib).1
  have h0 : (flow_update_lengths (flow_update_counters f flow t len) len).detection_completed =
      f.detection_completed := rfl
  unfold flow_packet_update
  split_ifs
  · exact Or.inl ⟨rfl, rfl⟩
  · exact Or.inl ⟨rfl, rfl⟩
  · rw [hg, h0] at hd2
    exact hd2
  · rw [h0] at hd1
    exact hd1

theorem flow_packet_update_undetected (f flow : nDPId_flow_info) (t len : Nat)
    (lib : ndpi_results) :
    (flow_packet_update f flow t len lib).2.2 +
      undetected (flow_packet_update f flow t len lib).1 ≤ undetected f := by
  unfold undetected
  rcases flow_packet_update_detection f flow t len lib with ⟨h1, h2⟩ | ⟨h1, h2, h3⟩
  · rw [h1, h2]
    omega
  · rw [h1, h2, h3]
    simp

theorem flow_lookup_tfind (flow : nDPId_flow_info) (root : ndpi_node)
    (k r : nDPId_flow_info) (d : Nat) (h : flow_lookup flow root = some (k, r, d)) :
    ndpi_tfind ndpi_workflow_node_cmp k root = some r := by
  unfold flow_lookup at h
  split at h
  · rename_i found hf
    simp only [Option.some.injEq, Prod.mk.injEq] at h
    obtain ⟨rfl, rfl, -⟩ := h
    exact hf
  · split at h
    · rename_i found hf
      simp only [Option.some.injEq, Prod.mk.injEq] at h
      obtain ⟨rfl, rfl, -⟩ := h
      exact hf
    · simp at h

theorem process_flow_detected (rt : nDPId_reader_thread) (idx : Nat)
    (key ftp flow : nDPId_flow_info) (t len : Nat) (lib : ndpi_results) :
    (process_flow rt idx key ftp flow t len lib).workflow.detected_flow_protocols =
      (rt.workflow.detected_flow_protocols + (flow_packet_update ftp flow t len lib).2.2) %
        U64 := by
  obtain ⟨hw, -, -, -⟩ := emit_events_workflow (flow_packet_update ftp flow t len lib).2.1 rt
  simp only [process_flow, hw]

theorem ndpi_tsearch_false_miss (compar : nDPId_flow_info → nDPId_flow_info → Int)
    (key : nDPId_flow_info) (t : ndpi_node) (h : ndpi_tfind compar key t = none) :
    (ndpi_tsearch compar false key t).2 = none := by
  induction t with
  | null => simp [ndpi_tsearch]
  | node k l r ihl ihr =>
    unfold ndpi_tfind at h
    unfold ndpi_tsearch
    split_ifs at h ⊢ with h1 h2
    · exact ihl h
    · exact ihr h

/-- What the branch `tree_result == NULL` does to the counters and the trees: it
ends early with the trees untouched and `total_active_flows` as it was or advanced
by one, or it advances `total_active_flows` and links the new record into slot
`idx`. -/
theorem create_flow_outcome (rt : nDPId_reader_thread) (idx : Nat) (flow : nDPId_flow_info)
    (lib : ndpi_results) :
    (create_flow rt idx flow lib).1.workflow.detected_flow_protocols =
      rt.workflow.detected_flow_protocols ∧
    (((create_flow rt idx flow lib).2 = none ∧
        (create_flow rt idx flow lib).1.workflow.ndpi_flows_active =
          rt.workflow.ndpi_flows_active ∧
        ((create_flow rt idx flow lib).1.workflow.total_active_flows =
            rt.workflow.total_active_flows ∨
          (create_flow rt idx flow lib).1.workflow.total_active_flows =
            (rt.workflow.total_active_flows + 1) % U64)) ∨
      ((create_flow rt idx flow lib).2 = some { flow with flow_id := rt.flow_id } ∧
        (create_flow rt idx flow lib).1.workflow.total_active_flows =
          (rt.workflow.total_active_flows + 1) % U64 ∧
        (ndpi_tsearch ndpi_workflow_node_cmp lib.tsearch_malloc { flow with flow_id := rt.flow_id }
          (rt.workflow.ndpi_flows_active idx)).2 ≠ none ∧
        (create_flow rt idx flow lib).1.workflow.ndpi_flows_active idx =
          (ndpi_tsearch ndpi_workflow_node_cmp lib.tsearch_malloc
            { flow with flow_id := rt.flow_id } (rt.workflow.ndpi_flows_active idx)).1)) := by
  unfold create_flow
  split_ifs
  · exact ⟨rfl, Or.inl ⟨rfl, rfl, Or.inl rfl⟩⟩
  · exact ⟨rfl, Or.inl ⟨rfl, rfl, Or.inl rfl⟩⟩
  · exact ⟨rfl, Or.inl ⟨rfl, rfl, Or.inr rfl⟩⟩
  · exact ⟨rfl, Or.inl ⟨rfl, rfl, Or.inr rfl⟩⟩
  · exact ⟨rfl, Or.inl ⟨rfl, rfl, Or.inr rfl⟩⟩
  · simp only []
    split
    · exact ⟨rfl, Or.inl ⟨rfl, rfl, Or.inr rfl⟩⟩
    · rename_i x hx
      refine ⟨rfl, Or.inr ⟨rfl, rfl, ?_, ?_⟩⟩
      · intro hn
        rw [hn] at hx
        simp at hx
      · simp only [jsonize_flow_event, set_root, if_true]

/-- What the packet path does to the detection counters, with `idx` the slot the
packet is hashed to: `total_active_flows` advances by `c`, at most 1,
`detected_flow_protocols` by `inc`, and the number of undetected records of slot
`idx` changes by no more than `c - inc`. -/
theorem dispatch_flow_detection_count (rt : nDPId_reader_thread) (l3 : l3_result)
    (flow0 : nDPId_flow_info) (t : Nat) (lib : ndpi_results) :
    ∃ c inc : Nat, c ≤ 1 ∧
      ((c = 0 ∧ (dispatch_flow rt l3 flow0 t lib).workflow.total_active_flows =
          rt.workflow.total_active_flows) ∨
        (c = 1 ∧ (dispatch_flow rt l3 flow0 t lib).workflow.total_active_flows =
          (rt.workflow.total_active_flows + 1) % U64)) ∧
      ((inc = 0 ∧ (dispatch_flow rt l3 flow0 t lib).workflow.detected_flow_protocols =
          rt.workflow.detected_flow_protocols) ∨
        (dispatch_flow rt l3 flow0 t lib).workflow.detected_flow_protocols =
          (rt.workflow.detected_flow_protocols + inc) % U64) ∧
      undetected_in ((dispatch_flow rt l3 flow0 t lib).workflow.ndpi_flows_active
          ((keyed_flow flow0 lib).hashval % rt.workflow.max_active_flows)) + inc ≤
        undetected_in (rt.workflow.ndpi_flows_active
          ((keyed_flow flow0 lib).hashval % rt.workflow.max_active_flows)) + c := by
  obtain ⟨o1, o2⟩ := create_flow_outcome (count_packet rt l3.l4_len)
    ((keyed_flow flow0 lib).hashval % rt.workflow.max_active_flows) (keyed_flow flow0 lib) lib
  have hT0 : (count_packet rt l3.l4_len).workflow.total_active_flows =
      rt.workflow.total_active_flows := rfl
  have hD0 : (count_packet rt l3.l4_len).workflow.detected_flow_protocols =
      rt.workflow.detected_flow_protocols := rfl
  have hA0 : (count_packet rt l3.l4_len).workflow.ndpi_flows_active =
      rt.workflow.ndpi_flows_active := rfl
  have hF0 : (count_packet rt l3.l4_len).flow_id = rt.flow_id := rfl
  rw [hD0] at o1
  rw [hT0, hA0, hF0] at o2
  rcases dispatch_flow_cases rt l3 flow0 t lib with e | ⟨-, hn, e⟩ | ⟨hl, hsome, e⟩ |
    ⟨key, ftp, d, hl, e⟩
  · rw [e]
    exact ⟨0, 0, by omega, Or.inl ⟨rfl, rfl⟩, Or.inl ⟨rfl, rfl⟩, Nat.le_refl _⟩
  · rw [e]
    rcases o2 with ⟨-, ha, hT | hT⟩ | ⟨hs, -⟩
    · exact ⟨0, 0, by omega, Or.inl ⟨rfl, hT⟩, Or.inl ⟨rfl, o1⟩, by rw [ha]⟩
    · exact ⟨1, 0, by omega, Or.inr ⟨rfl, hT⟩, Or.inl ⟨rfl, o1⟩, by rw [ha]; omega⟩
    · rw [hn] at hs
      simp at hs
  · rw [e]
    rcases o2 with ⟨hnone, -⟩ | ⟨-, hT, hins, hslot⟩
    · rw [hsome] at hnone
      simp at hnone
    · obtain ⟨p1, -, -, -, p5⟩ := process_flow_counters
        (create_flow (count_packet rt l3.l4_len)
          ((keyed_flow flow0 lib).hashval % rt.workflow.max_active_flows)
          (keyed_flow flow0 lib) lib).1
        ((keyed_flow flow0 lib).hashval % rt.workflow.max_active_flows) (keyed_flow flow0 lib)
        { keyed_flow flow0 lib with flow_id := rt.flow_id } (keyed_flow flow0 lib) t l3.l4_len
        lib
      have pD := process_flow_detected
        (create_flow (count_packet rt l3.l4_len)
          ((keyed_flow flow0 lib).hashval % rt.workflow.max_active_flows)
          (keyed_flow flow0 lib) lib).1
        ((keyed_flow flow0 lib).hashval % rt.workflow.max_active_flows) (keyed_flow flow0 lib)
        { keyed_flow flow0 lib with flow_id := rt.flow_id } (keyed_flow flow0 lib) t l3.l4_len
        lib
      have hkey : same_tuple { keyed_flow flow0 lib with flow_id := rt.flow_id }
          (keyed_flow flow0 lib) := ⟨rfl, rfl, rfl, rfl, rfl, rfl, rfl, rfl, rfl⟩
      obtain ⟨hm1, -⟩ := flow_lookup_none _ _ hl
      have hmiss : ndpi_tfind ndpi_workflow_node_cmp
          { keyed_flow flow0 lib with flow_id := rt.flow_id }
          (rt.workflow.ndpi_flows_active
            ((keyed_flow flow0 lib).hashval % rt.workflow.max_active_flows)) = none := by
        rw [ndpi_tfind_congr _ _ (keyed_flow flow0 lib) _
          (fun x _ => node_cmp_congr_left hkey x)]
        exact hm1
      have hb : lib.tsearch_malloc = true := by
        cases hbb : lib.tsearch_malloc with
        | true => rfl
        | false =>
          rw [hbb] at hins
          exact absurd (ndpi_tsearch_false_miss _ _ _ hmiss) hins
      rw [hb] at hslot
      have hfind : ndpi_tfind ndpi_workflow_node_cmp (keyed_flow flow0 lib)
          ((create_flow (count_packet rt l3.l4_len)
            ((keyed_flow flow0 lib).hashval % rt.workflow.max_active_flows)
            (keyed_flow flow0 lib) lib).1.workflow.ndpi_flows_active
            ((keyed_flow flow0 lib).hashval % rt.workflow.max_active_flows)) =
          some { keyed_flow flow0 lib with flow_id := rt.flow_id } := by
        rw [hslot]
        apply ndpi_tfind_tsearch_hit
        · exact fun x _ => (node_cmp_congr_left hkey x).symm
        · exact hmiss
        · rw [node_cmp_congr_right hkey]
          exact node_cmp_self _
      have hst := ndpi_node_store_undetected ndpi_workflow_node_cmp (keyed_flow flow0 lib)
        { keyed_flow flow0 lib with flow_id := rt.flow_id }
        (flow_packet_update { keyed_flow flow0 lib with flow_id := rt.flow_id }
          (keyed_flow flow0 lib) t l3.l4_len lib).1 _ hfind
      have hts := ndpi_tsearch_undetected ndpi_workflow_node_cmp true
        { keyed_flow flow0 lib with flow_id := rt.flow_id }
        (rt.workflow.ndpi_flows_active
          ((keyed_flow flow0 lib).hashval % rt.workflow.max_active_flows))
      rw [← hslot] at hts
      have hup := flow_packet_update_undetected
        { keyed_flow flow0 lib with flow_id := rt.flow_id } (keyed_flow flow0 lib) t l3.l4_len lib
      have h1 := undetected_le_one { keyed_flow flow0 lib with flow_id := rt.flow_id }
      refine ⟨1, (flow_packet_update { keyed_flow flow0 lib with flow_id := rt.flow_id }
        (keyed_flow flow0 lib) t l3.l4_len lib).2.2, by omega, Or.inr ⟨rfl, p1.trans hT⟩,
        Or.inr (by rw [pD, o1]), ?_⟩
      rw [p5]
      omega
  · rw [e]
    obtain ⟨p1, -, -, -, p5⟩ := process_flow_counters (count_packet rt l3.l4_len)
      ((keyed_flow flow0 lib).hashval % rt.workflow.max_active_flows) key ftp
      (keyed_flow flow0 lib) t l3.l4_len lib
    have pD := process_flow_detected (count_packet rt l3.l4_len)
      ((keyed_flow flow0 lib).hashval % rt.workflow.max_active_flows) key ftp
      (keyed_flow flow0 lib) t l3.l4_len lib
    have hst := ndpi_node_store_undetected ndpi_workflow_node_cmp key ftp
      (flow_packet_update ftp (keyed_flow flow0 lib) t l3.l4_len lib).1 _
      (flow_lookup_tfind _ _ _ _ _ hl)
    have hup := flow_packet_update_undetected ftp (keyed_flow flow0 lib) t l3.l4_len lib
    refine ⟨0, (flow_packet_update ftp (keyed_flow flow0 lib) t l3.l4_len lib).2.2, by omega,
      Or.inl ⟨rfl, p1⟩, Or.inr pD, ?_⟩
    rw [p5]
    have hA : (count_packet rt l3.l4_len).workflow.ndpi_flows_active
        ((keyed_flow flow0 lib).hashval % rt.workflow.max_active_flows) =
        rt.workflow.ndpi_flows_active
          ((keyed_flow flow0 lib).hashval % rt.workflow.max_active_flows) := rfl
    rw [hA]
    omega

theorem ndpi_process_packet_detection_bounded (n : Nat) (rt : nDPId_reader_thread)
    (header : pcap_pkthdr) (packet : packet_view) (lib : ndpi_results) (hn : n + 1 < U64)
    (h : detection_bounded n rt) :
    detection_bounded (n + 1) (ndpi_process_packet rt header packet lib) := by
  obtain ⟨hs, hmax, hT, hinv⟩ := h
  have hs0 : (clock_packet rt header).workflow.ndpi_flows_idle = [] := hs
  obtain ⟨⟨-, cm, -, -, -⟩, cs, -, -⟩ := check_for_idle_flows_spec (clock_packet rt header) hs0
  obtain ⟨fT, fD, fU⟩ := check_for_idle_flows_detect_frame (clock_packet rt header)
  have cm2 : (check_for_idle_flows (clock_packet rt header)).workflow.max_active_flows =
      rt.workflow.max_active_flows := cm
  have fT2 : (check_for_idle_flows (clock_packet rt header)).workflow.total_active_flows =
      rt.workflow.total_active_flows := fT
  have fD2 : (check_for_idle_flows (clock_packet rt header)).workflow.detected_flow_protocols =
      rt.workflow.detected_flow_protocols := fD
  have hU1 : undetected_flows (check_for_idle_flows (clock_packet rt header)) ≤
      undetected_flows rt := by
    unfold undetected_flows
    rw [cm2]
    exact sum_range_mono _ _ _ fU
  rw [ndpi_process_packet_eq_clock]
  split
  · exact ⟨cs, by rw [cm2]; exact hmax, by rw [fT2]; omega, by rw [fT2, fD2]; omega⟩
  · rename_i l3 flow hp
    obtain ⟨c, inc, hc, hTT, hDD, hUU⟩ := dispatch_flow_detection_count
      (check_for_idle_flows (clock_packet rt header)) l3 flow (packet_time_ms header) lib
    obtain ⟨⟨-, dm, -, -, -⟩, ds, -, -, dother⟩ := dispatch_flow_path_frame
      (check_for_idle_flows (clock_packet rt header)) l3 flow (packet_time_ms header) lib
    rw [cm2] at hUU dother
    have hidx : (keyed_flow flow lib).hashval % rt.workflow.max_active_flows <
        rt.workflow.max_active_flows := Nat.mod_lt _ hmax
    have hex := sum_range_exchange rt.workflow.max_active_flows _
      (fun i => undetected_in ((check_for_idle_flows
        (clock_packet rt header)).workflow.ndpi_flows_active i))
      (fun i => undetected_in ((dispatch_flow (check_for_idle_flows (clock_packet rt header)) l3
        flow (packet_time_ms header) lib).workflow.ndpi_flows_active i))
      hidx (fun i hi => by simp only [dother i hi])
    have hU2 : undetected_flows (dispatch_flow (check_for_idle_flows (clock_packet rt header)) l3
        flow (packet_time_ms header) lib) + inc ≤
        undetected_flows (check_for_idle_flows (clock_packet rt header)) + c := by
      unfold undetected_flows
      rw [dm, cm2]
      simp only [] at hex
      omega
    rw [fT2] at hTT
    rw [fD2] at hDD
    refine ⟨ds.trans cs, by rw [dm, cm2]; exact hmax, ?_, ?_⟩
    · rcases hTT with ⟨-, hTT⟩ | ⟨-, hTT⟩
      · rw [hTT]
        omega
      · rw [hTT, Nat.mod_eq_of_lt (by omega)]
        omega
    · have hTeq : (dispatch_flow (check_for_idle_flows (clock_packet rt header)) l3 flow
          (packet_time_ms header) lib).workflow.total_active_flows =
          rt.workflow.total_active_flows + c := by
        rcases hTT with ⟨hc0, hTT⟩ | ⟨hc1, hTT⟩
        · rw [hTT, hc0]
          rfl
        · rw [hTT, hc1, Nat.mod_eq_of_lt (by omega)]
      have hDeq : (dispatch_flow (check_for_idle_flows (clock_packet rt header)) l3 flow
          (packet_time_ms header) lib).workflow.detected_flow_protocols =
          rt.workflow.detected_flow_protocols + inc := by
        rcases hDD with ⟨hi0, hDD⟩ | hDD
        · rw [hDD, hi0]
          rfl
        · rw [hDD, Nat.mod_eq_of_lt (by omega)]
      rw [hTeq, hDeq]
      omega

theorem run_pcap_loop_detection_bounded (pkts : List (pcap_pkthdr × packet_view × ndpi_results))
    (n : Nat) (rt : nDPId_reader_thread) (hn : n + pkts.length < U64)
    (h : detection_bounded n rt) :
    detection_bounded (n + pkts.length) (run_pcap_loop rt pkts) := by
  induction pkts generalizing n rt with
  | nil => exact h
  | cons p rest ih =>
    simp only [List.length_cons] at hn ⊢
    simp only [run_pcap_loop]
    have := ih (n + 1) _ (by omega)
      (ndpi_process_packet_detection_bounded n rt p.1 p.2.1 p.2.2 (by omega) h)
    rw [Nat.add_assoc, Nat.add_comm 1 rest.length] at this
    exact this

theorem detection_bounded_init (datalink : Nat) (array_index : Int) :
    detection_bounded 0 (init_reader_thread datalink array_index) := by
  refine ⟨rfl, (by decide : 0 < MAX_FLOW_ROOTS_PER_THREAD), Nat.le_refl _, ?_⟩
  have hU : undetected_flows (init_reader_thread datalink array_index) = 0 := by
    unfold undetected_flows
    apply List.sum_eq_zero
    intro x hx
    obtain ⟨i, -, rfl⟩ := List.mem_map.mp hx
    rfl
  rw [hU]
  exact Nat.le_refl _

/-- The sweep cut down to slot `idx`, when it runs and the slot holds a single
record that passes the walker's test: the record is evicted. -/
theorem check_for_idle_flows_at_leaf (rt : nDPId_reader_thread) (idx : Nat)
    (r : nDPId_flow_info) (hs : rt.workflow.ndpi_flows_idle = [])
    (hl : rt.workflow.ndpi_flows_active idx = .node r .null .null)
    (hc : (rt.workflow.last_idle_scan_time + IDLE_SCAN_PERIOD) % U64 < rt.workflow.last_time)
    (ht : idle_test rt.workflow.last_time r) :
    check_for_idle_flows_at idx rt =
      { rt with
        json_events := rt.json_events ++
          [jsonize_flow { rt.workflow with
            ndpi_flows_idle := [r],
            total_idle_flows := (rt.workflow.total_idle_flows + 1) % U64 } r .FLOW_IDLE],
        workflow :=
          { rt.workflow with
            ndpi_flows_idle := [],
            total_idle_flows := (rt.workflow.total_idle_flows + 1) % U64,
            ndpi_flows_active := set_root rt.workflow.ndpi_flows_active idx .null,
            cur_active_flows := (rt.workflow.cur_active_flows + U64 - 1) % U64,
            last_idle_scan_time := rt.workflow.last_time } } := by
  have hw : ndpi_idle_scan_walker rt.workflow (r, .ndpi_leaf) =
      { rt.workflow with
        ndpi_flows_idle := [r],
        total_idle_flows := (rt.workflow.total_idle_flows + 1) % U64 } := by
    unfold ndpi_idle_scan_walker
    have h1 : ¬ rt.workflow.cur_idle_flows = MAX_IDLE_FLOWS_PER_THREAD := by
      simp [nDPId_workflow.cur_idle_flows, hs, MAX_IDLE_FLOWS_PER_THREAD]
    have ht2 : ((r, ndpi_VISIT.ndpi_leaf).1.flow_fin_ack_seen = 1 ∧
        (r, ndpi_VISIT.ndpi_leaf).1.flow_ack_seen = 1) ∨
        ((r, ndpi_VISIT.ndpi_leaf).1.last_seen + MAX_IDLE_TIME) % U64 <
          rt.workflow.last_time := ht
    rw [if_neg h1, if_pos (Or.inr rfl), if_pos ht2, hs]
  have hslot : idle_scan_slot rt idx =
      { rt with
        json_events := rt.json_events ++
          [jsonize_flow { rt.workflow with
            ndpi_flows_idle := [r],
            total_idle_flows := (rt.workflow.total_idle_flows + 1) % U64 } r .FLOW_IDLE],
        workflow :=
          { rt.workflow with
            ndpi_flows_idle := [],
            total_idle_flows := (rt.workflow.total_idle_flows + 1) % U64,
            ndpi_flows_active := set_root rt.workflow.ndpi_flows_active idx .null,
            cur_active_flows := (rt.workflow.cur_active_flows + U64 - 1) % U64 } } := by
    unfold idle_scan_slot
    simp only [hl, ndpi_twalk, List.foldl_cons, List.foldl_nil, hw, drain_idle_flows,
      jsonize_flow_event, ndpi_tdelete, node_cmp_self, if_true, ndpi_node.unlink]
  unfold check_for_idle_flows_at
  rw [if_pos hc, hslot]

/-- The counters of a packet that creates a record (hypotheses of
`dispatch_flow_creates_leaf`): `total_active_flows` advances by one,
`detected_flow_protocols` by what the first update of the record counts. -/
theorem dispatch_flow_creates_counts (rt : nDPId_reader_thread) (l3 : l3_result)
    (flow0 : nDPId_flow_info) (t : Nat) (lib : ndpi_results) (idx : Nat)
    (hshard : thread_index_final l3.thread_index flow0.src_port flow0.dst_port
      rt.reader_thread_count = rt.array_index)
    (hidx : (keyed_flow flow0 lib).hashval % rt.workflow.max_active_flows = idx)
    (hnull : rt.workflow.ndpi_flows_active idx = .null)
    (hcap : rt.workflow.cur_active_flows ≠ rt.workflow.max_active_flows)
    (h1 : lib.malloc_flow_info = true) (h2 : lib.flow_malloc = true)
    (h3 : lib.calloc_src = true) (h4 : lib.calloc_dst = true) (h5 : lib.tsearch_malloc = true) :
    (dispatch_flow rt l3 flow0 t lib).workflow.total_active_flows =
      (rt.workflow.total_active_flows + 1) % U64 ∧
    (dispatch_flow rt l3 flow0 t lib).workflow.detected_flow_protocols =
      (rt.workflow.detected_flow_protocols +
        (flow_packet_update { keyed_flow flow0 lib with flow_id := rt.flow_id }
          (keyed_flow flow0 lib) t l3.l4_len lib).2.2) % U64 := by
  have hmiss : flow_lookup (keyed_flow flow0 lib)
      (rt.workflow.ndpi_flows_active
        ((keyed_flow flow0 lib).hashval % rt.workflow.max_active_flows)) = none := by
    rw [hidx, hnull]
    rfl
  have hc := create_flow_success_eq
    { rt with
      workflow :=
        { rt.workflow with
          packets_processed := (rt.workflow.packets_processed + 1) % U64,
          total_l4_data_len := (rt.workflow.total_l4_data_len + l3.l4_len) % U64 } }
    ((keyed_flow flow0 lib).hashval % rt.workflow.max_active_flows) (keyed_flow flow0 lib) lib
    hcap h1 h2 h3 h4 h5
  unfold dispatch_flow
  rw [if_neg (not_not.mpr hshard)]
  simp only [hmiss, hc]
  rw [process_flow_detected, (process_flow_counters _ _ _ _ _ _ _ _).1]
  exact ⟨rfl, rfl⟩

theorem churn_update (fid : Nat) :
    (flow_packet_update { sample_key4 2 12 10 20 with flow_id := fid } (sample_key4 2 12 10 20)
      (U64 - 1) 40 (sample_lib_dpi 34 40 17 ⟨0, 5, 0⟩ true)).2.2 = 1 ∧
    (flow_packet_update { sample_key4 2 12 10 20 with flow_id := fid } (sample_key4 2 12 10 20)
      (U64 - 1) 40 (sample_lib_dpi 34 40 17 ⟨0, 5, 0⟩ true)).1.last_seen = U64 - 1 :=
  ⟨rfl, rfl⟩

theorem churn_packet_facts :
    packet_time_ms churn_packet.1 = U64 - 1 ∧
    parse_packet DLT_EN10MB churn_packet.1 churn_packet.2.1 churn_packet.2.2 =
      some (sample_l3 2 12, sample_flow4 2 12 10 20) ∧
    keyed_flow (sample_flow4 2 12 10 20) churn_packet.2.2 = sample_key4 2 12 10 20 := by
  decide

/-- One packet `churn_packet`: the sweep evicts the record of the packet before
(`last_seen + MAX_IDLE_TIME` wraps), the packet creates the next record and the
DPI engine detects its protocol at once. -/
theorem churn_step (n : Nat) (rt : nDPId_reader_thread) (hn : 1 ≤ n) (h : churn_state n rt) :
    churn_state (n + 1) (ndpi_process_packet_at 61 rt churn_packet.1 churn_packet.2.1
      churn_packet.2.2) := by
  obtain ⟨h1, h2, ⟨r, hr, hrs⟩, h4, h5, h6, h7, h8, h9, h10⟩ := h
  obtain ⟨htime, hparse, hk⟩ := churn_packet_facts
  have hlt : (clock_packet rt churn_packet.1).workflow.last_time = U64 - 1 := htime
  have hsweep := check_for_idle_flows_at_leaf (clock_packet rt churn_packet.1) 61 r h4 hr
    (by
      rw [hlt]
      show (rt.workflow.last_idle_scan_time + IDLE_SCAN_PERIOD) % U64 < U64 - 1
      rw [h2]
      decide)
    (by
      rw [hlt]
      refine Or.inr ?_
      rw [hrs]
      decide)
  have s1 : (check_for_idle_flows_at 61 (clock_packet rt churn_packet.1)).workflow.pcap_datalink =
      DLT_EN10MB := by rw [hsweep]; exact h1
  have s2 : (check_for_idle_flows_at 61
      (clock_packet rt churn_packet.1)).workflow.last_idle_scan_time = U64 - 1 := by
    rw [hsweep]; exact hlt
  have s3 : (check_for_idle_flows_at 61
      (clock_packet rt churn_packet.1)).workflow.ndpi_flows_active 61 = .null := by
    rw [hsweep]; simp [set_root]
  have s4 : (check_for_idle_flows_at 61
      (clock_packet rt churn_packet.1)).workflow.ndpi_flows_idle = [] := by rw [hsweep]
  have s5 : (check_for_idle_flows_at 61
      (clock_packet rt churn_packet.1)).workflow.max_active_flows = 2048 := by
    rw [hsweep]; exact h5
  have s6 : (check_for_idle_flows_at 61
      (clock_packet rt churn_packet.1)).workflow.cur_active_flows = 0 := by
    rw [hsweep]
    show (rt.workflow.cur_active_flows + U64 - 1) % U64 = 0
    rw [h6]
    decide
  have s7 : (check_for_idle_flows_at 61 (clock_packet rt churn_packet.1)).array_index = 3 := by
    rw [hsweep]; exact h7
  have s8 : (check_for_idle_flows_at 61
      (clock_packet rt churn_packet.1)).reader_thread_count = 4 := by rw [hsweep]; exact h8
  have s9 : (check_for_idle_flows_at 61
      (clock_packet rt churn_packet.1)).workflow.total_active_flows = n % U64 := by
    rw [hsweep]; exact h9
  have s10 : (check_for_idle_flows_at 61
      (clock_packet rt churn_packet.1)).workflow.detected_flow_protocols = (n - 1) % U64 := by
    rw [hsweep]; exact h10
  rw [ndpi_process_packet_at_parsed 61 rt _ _ _ (sample_l3 2 12) (sample_flow4 2 12 10 20)
    (by rw [s1]; exact hparse), htime]
  have hshard : thread_index_final (sample_l3 2 12).thread_index
      (sample_flow4 2 12 10 20).src_port (sample_flow4 2 12 10 20).dst_port
      (check_for_idle_flows_at 61 (clock_packet rt churn_packet.1)).reader_thread_count =
      (check_for_idle_flows_at 61 (clock_packet rt churn_packet.1)).array_index := by
    rw [s8, s7]
    exact wrap_shard
  have hidx : (keyed_flow (sample_flow4 2 12 10 20) churn_packet.2.2).hashval %
      (check_for_idle_flows_at 61 (clock_packet rt churn_packet.1)).workflow.max_active_flows =
      61 := by
    rw [s5, hk]
    exact wrap_hashed
  have hcap : (check_for_idle_flows_at 61
      (clock_packet rt churn_packet.1)).workflow.cur_active_flows ≠
      (check_for_idle_flows_at 61
        (clock_packet rt churn_packet.1)).workflow.max_active_flows := by
    rw [s6, s5]
    decide
  obtain ⟨d1, d2, -, -⟩ := dispatch_flow_creates_leaf
    (check_for_idle_flows_at 61 (clock_packet rt churn_packet.1))
    (sample_l3 2 12) (sample_flow4 2 12 10 20) (U64 - 1) churn_packet.2.2 61 _
    hshard hidx s3 hcap rfl rfl rfl rfl rfl rfl
  obtain ⟨e1, e2⟩ := dispatch_flow_creates_counts
    (check_for_idle_flows_at 61 (clock_packet rt churn_packet.1))
    (sample_l3 2 12) (sample_flow4 2 12 10 20) (U64 - 1) churn_packet.2.2 61
    hshard hidx s3 hcap rfl rfl rfl rfl rfl
  obtain ⟨⟨f1, f2, -, f4, f5⟩, f6, f7, -, -⟩ := dispatch_flow_path_frame
    (check_for_idle_flows_at 61 (clock_packet rt churn_packet.1))
    (sample_l3 2 12) (sample_flow4 2 12 10 20) (U64 - 1) churn_packet.2.2
  rw [hk] at d1 e2
  have hu := churn_update (check_for_idle_flows_at 61 (clock_packet rt churn_packet.1)).flow_id
  have hU : U64 = 18446744073709551616 := by decide
  refine ⟨f1.trans s1, f7.trans s2, ⟨_, d1, hu.2⟩, f6.trans s4, f2.trans s5, ?_, f4.trans s7,
    f5.trans s8, ?_, ?_⟩
  · rw [d2, s6]
    decide
  · rw [e1, s9, hU]
    omega
  · rw [e2, s10]
    have hu1 : (flow_packet_update
        { sample_key4 2 12 10 20 with
          flow_id := (check_for_idle_flows_at 61 (clock_packet rt churn_packet.1)).flow_id }
        (sample_key4 2 12 10 20) (U64 - 1) (sample_l3 2 12).l4_len churn_packet.2.2).2.2 = 1 :=
      hu.1
    rw [hu1, hU]
    omega

theorem run_pcap_loop_at_cons (j : Nat) (rt : nDPId_reader_thread)
    (p : pcap_pkthdr × packet_view × ndpi_results)
    (rest : List (pcap_pkthdr × packet_view × ndpi_results)) :
    run_pcap_loop_at j rt (p :: rest) =
      run_pcap_loop_at j (ndpi_process_packet_at j rt p.1 p.2.1 p.2.2) rest := rfl

theorem churn_run_state (m n : Nat) (rt : nDPId_reader_thread) (hn : 1 ≤ n)
    (h : churn_state n rt) :
    churn_state (n + m) (run_pcap_loop_at 61 rt (List.replicate m churn_packet)) := by
  induction m generalizing n rt with
  | zero => exact h
  | succ m ih =>
    rw [List.replicate_succ]
    simp only [run_pcap_loop_at]
    have := ih (n + 1) _ (by omega) (churn_step n rt hn h)
    rw [Nat.add_assoc, Nat.add_comm 1 m] at this
    exact this

theorem churn_first_state :
    churn_state 1 (ndpi_process_packet_at 61 (init_reader_thread DLT_EN10MB 3)
      churn_first_packet.1 churn_first_packet.2.1 churn_first_packet.2.2) := by
  refine ⟨by decide, by decide,
    ⟨{ sample_key4 2 12 10 20 with
        packets_processed := 1, first_seen := U64 - 1, last_seen := U64 - 1,
        max_l4_data_len := 40, total_l4_data_len := 40, num_processed_pkts := 1 },
      by decide, rfl⟩,
    by decide, by decide, by decide, by decide, by decide, by decide, by decide⟩

/-- C27 fails as stated: worker 3 receives `2^64` packets of the UDP/IPv4 flow
`2:10 -> 12:20`, all stamped `tv_sec = -1`, `tv_usec = 999000`
(`time_ms = 2^64 - 1`).  Every packet after the first evicts the record of the
packet before and creates a new record; for the first packet the DPI engine
detects nothing, for each of the `2^64 - 1` others it detects the protocol at
once.  `total_active_flows` has been advanced `2^64` times and is 0,
`detected_flow_protocols` is `2^64 - 1`. -/
theorem C27_detected_flow_protocols_exceeds_total_active_flows :
    (run_pcap_loop (init_reader_thread DLT_EN10MB 3)
      (churn_first_packet :: List.replicate (U64 - 1) churn_packet)).workflow.total_active_flows
      = 0 ∧
    (run_pcap_loop (init_reader_thread DLT_EN10MB 3)
      (churn_first_packet ::
        List.replicate (U64 - 1) churn_packet)).workflow.detected_flow_protocols = U64 - 1 := by
  have hp : (churn_first_packet :: List.replicate (U64 - 1) churn_packet).all
      (packet_for_slot 61 (init_reader_thread DLT_EN10MB 3)) = true := by
    rw [List.all_eq_true]
    intro x hx
    rcases List.mem_cons.mp hx with h | h
    · rw [h]
      decide
    · rw [(List.mem_replicate.mp h).2]
      decide
  rw [run_pcap_loop_eq_at 61 _ _ (lives_in_init 61 _ _ (by decide)) hp]
  rw [run_pcap_loop_at_cons]
  obtain ⟨-, -, -, -, -, -, -, -, hT, hD⟩ := churn_run_state (U64 - 1) 1 _ (Nat.le_refl 1)
    churn_first_state
  rw [hT, hD]
  decide

/-- C27 (amended): the per-packet update of a record leaves `detection_completed`
as it is and counts no detection, or takes it from 0 to 1 and counts one; and
after a run of fewer than 2^64 packets from the initial state the worker's
`detected_flow_protocols` is at most its `total_active_flows`. -/
theorem C27_detections_bounded_by_flows_created (datalink : Nat) (array_index : Int)
    (pkts : List (pcap_pkthdr × packet_view × ndpi_results)) (hlen : pkts.length < U64) :
    (∀ (f flow : nDPId_flow_info) (t len : Nat) (lib : ndpi_results),
      ((flow_packet_update f flow t len lib).1.detection_completed = f.detection_completed ∧
        (flow_packet_update f flow t len lib).2.2 = 0) ∨
      (f.detection_completed = 0 ∧
        (flow_packet_update f flow t len lib).1.detection_completed = 1 ∧
        (flow_packet_update f flow t len lib).2.2 = 1)) ∧
    (run_pcap_loop (init_reader_thread datalink array_index)
        pkts).workflow.detected_flow_protocols ≤
      (run_pcap_loop (init_reader_thread datalink array_index)
        pkts).workflow.total_active_flows := by
  refine ⟨flow_packet_update_detection, ?_⟩
  obtain ⟨-, -, -, h⟩ := run_pcap_loop_detection_bounded pkts 0 _
    (by rw [Nat.zero_add]; exact hlen) (detection_bounded_init datalink array_index)
  omega

/-- Witness for C27: worker 3 receives two packets of the sample flow; the DPI
engine detects the protocol at the second.  One record was created, one detection
counted. -/
theorem C27_detections_bounded_witness :
    (run_pcap_loop (init_reader_thread DLT_EN10MB 3)
      [(sample_header 0 82, sample_ip4 17 2 12 10 20, sample_lib 34 40 17),
       (sample_header 1 82, sample_ip4 17 2 12 10 20,
         sample_lib_dpi 34 40 17 ⟨0, 5, 0⟩ true)]).workflow.total_active_flows = 1 ∧
    (run_pcap_loop (init_reader_thread DLT_EN10MB 3)
      [(sample_header 0 82, sample_ip4 17 2 12 10 20, sample_lib 34 40 17),
       (sample_header 1 82, sample_ip4 17 2 12 10 20,
         sample_lib_dpi 34 40 17 ⟨0, 5, 0⟩ true)]).workflow.detected_flow_protocols ≤
    (run_pcap_loop (init_reader_thread DLT_EN10MB 3)
      [(sample_header 0 82, sample_ip4 17 2 12 10 20, sample_lib 34 40 17),
       (sample_header 1 82, sample_ip4 17 2 12 10 20,
         sample_lib_dpi 34 40 17 ⟨0, 5, 0⟩ true)]).workflow.total_active_flows :=
  ⟨by decide,
    (C27_detections_bounded_by_flows_created DLT_EN10MB 3
      [(sample_header 0 82, sample_ip4 17 2 12 10 20, sample_lib 34 40 17),
       (sample_header 1 82, sample_ip4 17 2 12 10 20,
         sample_lib_dpi 34 40 17 ⟨0, 5, 0⟩ true)] (by decide)).2⟩

/-- C24 (fails in its last part): worker 2 processes `sample_miss_run`.  When the
packet at 1000 s arrives, the records of the flows 3, 1, 2 are stored in tree slot
117, the slot their `hashval` selects.  The sweep of that packet stages the three
records and drains flow 2 first: `ndpi_tdelete` for that record, applied to slot
117 where it is stored, returns the tree as it is.  The sweep emits `FLOW_IDLE`
for flow 2, and the record is still stored in slot 117 afterwards. -/
theorem C24_staged_record_is_not_deleted_from_its_slot :
    ((run_pcap_loop (init_reader_thread DLT_EN10MB 2)
        (sample_miss_run.take 5)).workflow.ndpi_flows_active 117).keys.map
        (fun f => (f.flow_id, f.hashval % 2048)) = [(3, 117), (1, 117), (2, 117)] ∧
    (((run_pcap_loop (init_reader_thread DLT_EN10MB 2)
        (sample_miss_run.take 5)).workflow.ndpi_flows_active 117).keys.filter
        (fun f => decide (f.flow_id = 2))).map
        (fun f => decide (ndpi_tdelete ndpi_workflow_node_cmp f
          ((run_pcap_loop (init_reader_thread DLT_EN10MB 2)
            (sample_miss_run.take 5)).workflow.ndpi_flows_active 117) =
          (run_pcap_loop (init_reader_thread DLT_EN10MB 2)
            (sample_miss_run.take 5)).workflow.ndpi_flows_active 117)) = [true] ∧
    ((run_pcap_loop (init_reader_thread DLT_EN10MB 2)
        (sample_miss_run.take 6)).json_events.drop
        (run_pcap_loop (init_reader_thread DLT_EN10MB 2)
          (sample_miss_run.take 5)).json_events.length).map (fun e => (e.event, e.flow_id)) =
      [(.FLOW_IDLE, 2), (.FLOW_IDLE, 1), (.FLOW_IDLE, 3)] ∧
    ((run_pcap_loop (init_reader_thread DLT_EN10MB 2)
        (sample_miss_run.take 6)).workflow.ndpi_flows_active 117).keys.map
        (fun f => (f.flow_id, f.hashval % 2048)) = [(2, 117)] := by
  rw [run_pcap_loop_eq_at 117 _ _ (lives_in_init 117 _ _ (by decide)) (by decide),
    run_pcap_loop_eq_at 117 _ _ (lives_in_init 117 _ _ (by decide)) (by decide)]
  set_option maxRecDepth 8000 in decide

/-! ### Resolution of a packet to its flow record -/

theorem create_flow_json_none (rt : nDPId_reader_thread) (idx : Nat) (flow : nDPId_flow_info)
    (lib : ndpi_results) (h : (create_flow rt idx flow lib).2 = none) :
    (create_flow rt idx flow lib).1.json_events = rt.json_events := by
  unfold create_flow at h ⊢
  split_ifs at h ⊢
  · rfl
  · rfl
  · rfl
  · rfl
  · rfl
  · simp only [] at h ⊢
    split
    · rfl
    · rename_i hx
      rw [hx] at h
      simp at h

theorem dispatch_flow_resolved (rt : nDPId_reader_thread) (l3 : l3_result)
    (flow0 : nDPId_flow_info) (t : Nat) (lib : ndpi_results) (x : flow_resolution)
    (h : resolve_flow rt l3 flow0 lib = some x) :
    dispatch_flow rt l3 flow0 t lib =
      process_flow x.reader_thread x.hashed_index x.key x.flow_to_process x.flow t x.l4_len
        lib := by
  unfold resolve_flow at h
  unfold dispatch_flow
  split_ifs at h ⊢ with hs
  simp only [] at h ⊢
  split at h
  · rename_i hl
    split at h
    · simp at h
    · rename_i rt1 ftp hc
      simp only [Option.some.injEq] at h
      subst h
      rfl
  · rename_i key ftp d hl
    simp only [Option.some.injEq] at h
    subst h
    rfl


theorem resolve_flow_spec (rt : nDPId_reader_thread) (l3 : l3_result)
    (flow0 : nDPId_flow_info) (lib : ndpi_results) (x : flow_resolution)
    (h : resolve_flow rt l3 flow0 lib = some x) :
    thread_index_final l3.thread_index flow0.src_port flow0.dst_port rt.reader_thread_count =
      rt.array_index ∧
    x.hashed_index = (keyed_flow flow0 lib).hashval % rt.workflow.max_active_flows ∧
    x.flow = keyed_flow flow0 lib ∧ x.l4_len = l3.l4_len ∧
    ((x.created = false ∧ x.reader_thread = count_packet rt l3.l4_len ∧
        ∃ d, flow_lookup (keyed_flow flow0 lib) (rt.workflow.ndpi_flows_active
          ((keyed_flow flow0 lib).hashval % rt.workflow.max_active_flows)) =
            some (x.key, x.flow_to_process, d)) ∨
      (x.created = true ∧ x.key = keyed_flow flow0 lib ∧
        x.flow_to_process = { keyed_flow flow0 lib with flow_id := rt.flow_id } ∧
        flow_lookup (keyed_flow flow0 lib) (rt.workflow.ndpi_flows_active
          ((keyed_flow flow0 lib).hashval % rt.workflow.max_active_flows)) = none ∧
        create_flow (count_packet rt l3.l4_len)
          ((keyed_flow flow0 lib).hashval % rt.workflow.max_active_flows)
          (keyed_flow flow0 lib) lib = (x.reader_thread, some x.flow_to_process))) := by
  unfold resolve_flow at h
  split_ifs at h with hs
  simp only [] at h
  refine ⟨not_not.mp hs, ?_⟩
  split at h
  · rename_i hl
    split at h
    · simp at h
    · rename_i rt1 ftp hc
      simp only [Option.some.injEq] at h
      subst h
      have hc2 : create_flow (count_packet rt l3.l4_len)
          ((keyed_flow flow0 lib).hashval % rt.workflow.max_active_flows)
          (keyed_flow flow0 lib) lib = (rt1, some ftp) := hc
      have hf := (create_flow_frame (count_packet rt l3.l4_len)
        ((keyed_flow flow0 lib).hashval % rt.workflow.max_active_flows) (keyed_flow flow0 lib)
        lib).2.2.2 ftp (by rw [hc2])
      exact ⟨rfl, rfl, rfl, Or.inr ⟨rfl, rfl, hf, hl, hc2⟩⟩
  · rename_i key ftp d hl
    simp only [Option.some.injEq] at h
    subst h
    exact ⟨rfl, rfl, rfl, Or.inl ⟨rfl, rfl, d, hl⟩⟩

theorem resolve_flow_none (rt : nDPId_reader_thread) (l3 : l3_result)
    (flow0 : nDPId_flow_info) (t : Nat) (lib : ndpi_results)
    (h : resolve_flow rt l3 flow0 lib = none) :
    (dispatch_flow rt l3 flow0 t lib).workflow.ndpi_flows_active =
        rt.workflow.ndpi_flows_active ∧
      (dispatch_flow rt l3 flow0 t lib).json_events = rt.json_events := by
  unfold resolve_flow at h
  unfold dispatch_flow
  split_ifs at h ⊢ with hs
  · exact ⟨rfl, rfl⟩
  · simp only [] at h ⊢
    split at h
    · rename_i hl
      split at h
      · rename_i rt1 hc
        have hc2 : create_flow (count_packet rt l3.l4_len)
            ((keyed_flow flow0 lib).hashval % rt.workflow.max_active_flows)
            (keyed_flow flow0 lib) lib = (rt1, none) := hc
        have ho := (create_flow_outcome (count_packet rt l3.l4_len)
          ((keyed_flow flow0 lib).hashval % rt.workflow.max_active_flows) (keyed_flow flow0 lib)
          lib).2
        rw [hc2] at ho
        rcases ho with ⟨-, ha, -⟩ | ⟨hsome, -⟩
        · refine ⟨ha, ?_⟩
          have hj := create_flow_json_none (count_packet rt l3.l4_len)
            ((keyed_flow flow0 lib).hashval % rt.workflow.max_active_flows)
            (keyed_flow flow0 lib) lib
          rw [hc2] at hj
          exact hj rfl
        · simp at hsome
      · simp at h
    · simp at h

/-- The record handed to the per-packet update is the record of the node at which
a descent with the key of the probe stops: the update is written to that node. -/
theorem resolve_flow_found (rt : nDPId_reader_thread) (l3 : l3_result)
    (flow0 : nDPId_flow_info) (lib : ndpi_results) (x : flow_resolution)
    (h : resolve_flow rt l3 flow0 lib = some x) :
    ndpi_tfind ndpi_workflow_node_cmp x.key
      (x.reader_thread.workflow.ndpi_flows_active x.hashed_index) = some x.flow_to_process ∧
    (x.created = true → lib.tsearch_malloc = true ∧
      x.reader_thread.workflow.ndpi_flows_active x.hashed_index =
        (ndpi_tsearch ndpi_workflow_node_cmp true x.flow_to_process
          (rt.workflow.ndpi_flows_active x.hashed_index)).1 ∧
      ∀ i, i ≠ x.hashed_index →
        x.reader_thread.workflow.ndpi_flows_active i = rt.workflow.ndpi_flows_active i) := by
  obtain ⟨-, hi, -, -, ⟨hc, hrt, d, hl⟩ | ⟨hc, hk, hftp, hl, hcr⟩⟩ :=
    resolve_flow_spec rt l3 flow0 lib x h
  · rw [hrt, hi]
    refine ⟨flow_lookup_tfind _ _ _ _ _ hl, fun hc2 => ?_⟩
    rw [hc] at hc2
    simp at hc2
  · obtain ⟨-, o2⟩ := create_flow_outcome (count_packet rt l3.l4_len)
      ((keyed_flow flow0 lib).hashval % rt.workflow.max_active_flows) (keyed_flow flow0 lib) lib
    have hA0 : (count_packet rt l3.l4_len).workflow.ndpi_flows_active =
        rt.workflow.ndpi_flows_active := rfl
    have hF0 : (count_packet rt l3.l4_len).flow_id = rt.flow_id := rfl
    rw [hA0, hF0, hcr] at o2
    rcases o2 with ⟨hnone, -⟩ | ⟨-, -, hins, hslot⟩
    · simp at hnone
    · have hkey : same_tuple { keyed_flow flow0 lib with flow_id := rt.flow_id }
          (keyed_flow flow0 lib) := ⟨rfl, rfl, rfl, rfl, rfl, rfl, rfl, rfl, rfl⟩
      obtain ⟨hm1, -⟩ := flow_lookup_none _ _ hl
      have hmiss : ndpi_tfind ndpi_workflow_node_cmp
          { keyed_flow flow0 lib with flow_id := rt.flow_id }
          (rt.workflow.ndpi_flows_active
            ((keyed_flow flow0 lib).hashval % rt.workflow.max_active_flows)) = none := by
        rw [ndpi_tfind_congr _ _ (keyed_flow flow0 lib) _
          (fun x _ => node_cmp_congr_left hkey x)]
        exact hm1
      have hb : lib.tsearch_malloc = true := by
        cases hbb : lib.tsearch_malloc with
        | true => rfl
        | false =>
          rw [hbb] at hins
          exact absurd (ndpi_tsearch_false_miss _ _ _ hmiss) hins
      rw [hb] at hslot
      have hpf := (create_flow_path_frame (count_packet rt l3.l4_len)
        ((keyed_flow flow0 lib).hashval % rt.workflow.max_active_flows) (keyed_flow flow0 lib)
        lib).2.2.2.2
      rw [hcr] at hpf
      rw [hi, hk, hftp]
      refine ⟨?_, fun _ => ⟨hb, hslot, hpf⟩⟩
      rw [hslot]
      apply ndpi_tfind_tsearch_hit
      · exact fun x _ => (node_cmp_congr_left hkey x).symm
      · exact hmiss
      · rw [node_cmp_congr_right hkey]
        exact node_cmp_self _

theorem ndpi_process_packet_resolved (rt : nDPId_reader_thread) (header : pcap_pkthdr)
    (packet : packet_view) (lib : ndpi_results) (x : flow_resolution)
    (h : resolve_packet rt header packet lib = some x) :
    ndpi_process_packet rt header packet lib =
      process_flow x.reader_thread x.hashed_index x.key x.flow_to_process x.flow
        (packet_time_ms header) x.l4_len lib := by
  unfold resolve_packet at h
  rw [ndpi_process_packet_eq_clock]
  split at h
  · simp at h
  · rename_i l3 flow hp
    exact dispatch_flow_resolved _ l3 flow _ lib x h

theorem ndpi_process_packet_unresolved (rt : nDPId_reader_thread) (header : pcap_pkthdr)
    (packet : packet_view) (lib : ndpi_results)
    (h : resolve_packet rt header packet lib = none) :
    (ndpi_process_packet rt header packet lib).workflow.ndpi_flows_active =
        (check_for_idle_flows (clock_packet rt header)).workflow.ndpi_flows_active ∧
      (ndpi_process_packet rt header packet lib).json_events =
        (check_for_idle_flows (clock_packet rt header)).json_events := by
  unfold resolve_packet at h
  rw [ndpi_process_packet_eq_clock]
  split at h
  · rename_i hp
    exact ⟨rfl, rfl⟩
  · rename_i l3 flow hp
    exact resolve_flow_none _ l3 flow _ lib h

theorem ndpi_node_store_mem (compar : nDPId_flow_info → nDPId_flow_info → Int)
    (key ftp r : nDPId_flow_info) (t : ndpi_node) (h : ndpi_tfind compar key t = some ftp) :
    r ∈ (ndpi_node.store compar key (fun _ => r) t).keys := by
  induction t with
  | null => simp [ndpi_tfind] at h
  | node k l rr ihl ihr =>
    unfold ndpi_tfind at h
    unfold ndpi_node.store
    split_ifs at h ⊢ with h1 h2
    · simp [ndpi_node.keys]
    · simp only [ndpi_node.keys, List.mem_cons, List.mem_append]
      exact Or.inr (Or.inl (ihl h))
    · simp only [ndpi_node.keys, List.mem_cons, List.mem_append]
      exact Or.inr (Or.inr (ihr h))

/-- The per-packet update on the worker, relative to the state at line 1068: the
events of the update are appended to the log, `detected_flow_protocols` is
advanced, and the updated record is stored in the slot. -/
theorem process_flow_spec (rt : nDPId_reader_thread) (idx : Nat)
    (key ftp flow : nDPId_flow_info) (t len : Nat) (lib : ndpi_results)
    (hf : ndpi_tfind ndpi_workflow_node_cmp key (rt.workflow.ndpi_flows_active idx) = some ftp) :
    (process_flow rt idx key ftp flow t len lib).json_events =
      rt.json_events ++
        (flow_packet_update ftp flow t len lib).2.1.map
          (fun e => jsonize_flow rt.workflow e.2 e.1) ∧
    (process_flow rt idx key ftp flow t len lib).workflow.detected_flow_protocols =
      (rt.workflow.detected_flow_protocols + (flow_packet_update ftp flow t len lib).2.2) %
        U64 ∧
    (flow_packet_update ftp flow t len lib).1 ∈
      ((process_flow rt idx key ftp flow t len lib).workflow.ndpi_flows_active idx).keys := by
  refine ⟨?_, process_flow_detected rt idx key ftp flow t len lib, ?_⟩
  · have := emit_events_json_events (flow_packet_update ftp flow t len lib).2.1 rt
    simp only [process_flow]
    exact this
  · rw [(process_flow_counters rt idx key ftp flow t len lib).2.2.2.2]
    exact ndpi_node_store_mem _ _ _ _ _ hf

/-! ### Give-up milestone on the worker -/

theorem create_flow_json_events (rt : nDPId_reader_thread) (idx : Nat) (flow : nDPId_flow_info)
    (lib : ndpi_results) :
    ∃ new, (create_flow rt idx flow lib).1.json_events = rt.json_events ++ new ∧
      ∀ e ∈ new, e.event = .FLOW_NEW := by
  unfold create_flow
  split_ifs
  · exact ⟨[], by simp, by simp⟩
  · exact ⟨[], by simp, by simp⟩
  · exact ⟨[], by simp, by simp⟩
  · exact ⟨[], by simp, by simp⟩
  · exact ⟨[], by simp, by simp⟩
  · simp only []
    split
    · exact ⟨[], by simp, by simp⟩
    · refine ⟨[jsonize_flow _ _ .FLOW_NEW], rfl, ?_⟩
      intro e he
      rw [List.mem_singleton] at he
      rw [he]
      rfl

/-- The events a packet adds to the log before line 1068 are the `FLOW_IDLE` events
of the sweep and the `FLOW_NEW` event of a record it creates. -/
theorem resolve_packet_events (rt : nDPId_reader_thread) (header : pcap_pkthdr)
    (packet : packet_view) (lib : ndpi_results) (x : flow_resolution)
    (hs : rt.workflow.ndpi_flows_idle = [])
    (h : resolve_packet rt header packet lib = some x) :
    ∃ pre, x.reader_thread.json_events = rt.json_events ++ pre ∧
      ∀ e ∈ pre, e.event = .FLOW_IDLE ∨ e.event = .FLOW_NEW := by
  have hs0 : (clock_packet rt header).workflow.ndpi_flows_idle = [] := hs
  obtain ⟨-, -, -, sw, hsw, hall⟩ := check_for_idle_flows_spec (clock_packet rt header) hs0
  have hsw2 : (check_for_idle_flows (clock_packet rt header)).json_events =
      rt.json_events ++ sw := hsw
  unfold resolve_packet at h
  split at h
  · simp at h
  · rename_i l3 flow hp
    obtain ⟨-, -, -, -, ⟨-, hrt, -⟩ | ⟨-, -, -, -, hcr⟩⟩ := resolve_flow_spec _ l3 flow lib x h
    · refine ⟨sw, ?_, fun e he => Or.inl (hall e he).1⟩
      rw [hrt]
      exact hsw2
    · obtain ⟨new, hn, hnew⟩ := create_flow_json_events
        (count_packet (check_for_idle_flows (clock_packet rt header)) l3.l4_len)
        ((keyed_flow flow lib).hashval %
          (check_for_idle_flows (clock_packet rt header)).workflow.max_active_flows)
        (keyed_flow flow lib) lib
      rw [hcr] at hn
      have hn2 : x.reader_thread.json_events =
          (check_for_idle_flows (clock_packet rt header)).json_events ++ new := hn
      refine ⟨sw ++ new, ?_, ?_⟩
      · rw [hn2, hsw2, List.append_assoc]
      · intro e he
        rcases List.mem_append.mp he with h1 | h1
        · exact Or.inl (hall e h1).1
        · exact Or.inr (hnew e h1)

theorem resolve_packet_dpi_independent (rt : nDPId_reader_thread) (header : pcap_pkthdr)
    (packet : packet_view) (lib : ndpi_results) (g pp : ndpi_proto) (w n : Nat) (b : Bool) :
    resolve_packet rt header packet
      { lib with giveup := g, protocol_was_guessed := w, process_packet := pp,
                 num_processed_pkts_after := n, is_protocol_detected := b } =
    resolve_packet rt header packet lib := rfl

/-- The per-packet update at the two values of `num_processed_pkts` that line 1096
and line 1098 test, for a packet that gets past the FIN test of lines 1079-1087. -/
theorem flow_packet_update_milestone (f flow : nDPId_flow_info) (t len : Nat)
    (lib : ndpi_results) (hgate : ¬ (flow.flow_fin_ack_seen ≠ 0 ∧ f.flow_fin_ack_seen = 0)) :
    (f.num_processed_pkts = 0xFE → f.detection_completed = 0 →
      (flow_packet_update f flow t len lib).2.1.filter (fun e => is_giveup_event e.1) =
        [(if lib.protocol_was_guessed ≠ 0 then .FLOW_GUESSED else .FLOW_NOT_DETECTED,
          { flow_update_lengths (flow_update_counters f flow t len) len with
            guessed_protocol := lib.giveup })] ∧
      (flow_packet_update f flow t len lib).1.guessed_protocol = lib.giveup) ∧
    (f.num_processed_pkts = 0xFF →
      (flow_packet_update f flow t len lib).2.1 = [] ∧
      (flow_packet_update f flow t len lib).2.2 = 0 ∧
      (flow_packet_update f flow t len lib).1.num_processed_pkts = 0xFF ∧
      (flow_packet_update f flow t len lib).1.detected_l7_protocol = f.detected_l7_protocol ∧
      (flow_packet_update f flow t len lib).1.guessed_protocol = f.guessed_protocol ∧
      (flow_packet_update f flow t len lib).1.detection_completed = f.detection_completed ∧
      ∀ lib2, flow_packet_update f flow t len lib2 = flow_packet_update f flow t len lib) := by
  have hg : ¬ (flow.flow_fin_ack_seen ≠ 0 ∧
      (flow_update_counters f flow t len).flow_fin_ack_seen = 0) := hgate
  have hn : (flow_update_lengths (flow_update_counters f flow t len) len).num_processed_pkts =
      f.num_processed_pkts := rfl
  have hd : (flow_update_lengths (flow_update_counters f flow t len) len).detection_completed =
      f.detection_completed := rfl
  constructor
  · intro h1 h2
    have hFF : ¬ (flow_update_lengths (flow_update_counters f flow t len) len).num_processed_pkts
        = 0xFF := by
      rw [hn, h1]
      decide
    have hFE : (flow_update_lengths (flow_update_counters f flow t len) len).num_processed_pkts
        = 0xFE := by
      rw [hn, h1]
    obtain ⟨d1, d2⟩ := flow_dpi_process_no_giveup_event (flow_last_chance (flow_update_lengths
      (flow_update_counters f flow t len) len) lib).1 lib
    unfold flow_packet_update
    rw [if_neg hg, if_neg hFF, if_pos hFE]
    simp only [List.filter_append, d1, d2, List.append_nil]
    unfold flow_last_chance
    rw [if_neg (not_not.mpr (hd.trans h2))]
    by_cases hguess : lib.protocol_was_guessed ≠ 0
    · rw [if_pos hguess, if_pos hguess]
      exact ⟨rfl, rfl⟩
    · rw [if_neg hguess, if_neg hguess]
      exact ⟨rfl, rfl⟩
  · intro h1
    have hFF : (flow_update_lengths (flow_update_counters f flow t len) len).num_processed_pkts
        = 0xFF := by
      rw [hn, h1]
    have hu : ∀ l, flow_packet_update f flow t len l =
        (flow_update_lengths (flow_update_counters f flow t len) len, [], 0) := by
      intro l
      unfold flow_packet_update
      rw [if_neg hg, if_pos hFF]
    rw [hu lib]
    exact ⟨rfl, rfl, h1, rfl, rfl, rfl, fun lib2 => hu lib2⟩

theorem process_flow_dpi_independent (rt : nDPId_reader_thread) (idx : Nat)
    (key ftp flow : nDPId_flow_info) (t len : Nat) (lib lib2 : ndpi_results)
    (h : flow_packet_update ftp flow t len lib2 = flow_packet_update ftp flow t len lib) :
    process_flow rt idx key ftp flow t len lib2 = process_flow rt idx key ftp flow t len lib := by
  unfold process_flow
  rw [h]

/-- C23, for a worker that has processed any packets `pkts` from its initial state
and now processes a packet that gets to line 1068 with the record
`x.flow_to_process` and past the FIN test of lines 1079-1087.  The events the
packet has added to the log before line 1068 are `FLOW_IDLE` events of the sweep
or the `FLOW_NEW` event of the record, none of them GUESSED or NOT_DETECTED.
If the record's `num_processed_pkts` is `0xFE` and its `detection_completed` is
0, the events the worker appends to the log from line 1068 on contain exactly
one event from GUESSED and NOT_DETECTED: GUESSED when `protocol_was_guessed` is
not 0, NOT_DETECTED otherwise; it carries the record's `flow_id` and is
serialised from the record with `guessed_protocol` set to the give-up result,
and the record stored in the tree afterwards has that `guessed_protocol`.  If
`num_processed_pkts` is `0xFF`, the worker appends no event from line 1068 on,
the DPI fields of the stored record are as before, and the worker state after
the packet is the same whatever the give-up and the process-packet primitive
would answer. -/
theorem C23_worker_emits_one_giveup_event_at_milestone (datalink : Nat) (array_index : Int)
    (pkts : List (pcap_pkthdr × packet_view × ndpi_results)) (header : pcap_pkthdr)
    (packet : packet_view) (lib : ndpi_results) (x : flow_resolution)
    (hres : resolve_packet (run_pcap_loop (init_reader_thread datalink array_index) pkts)
      header packet lib = some x)
    (hgate : ¬ (x.flow.flow_fin_ack_seen ≠ 0 ∧ x.flow_to_process.flow_fin_ack_seen = 0)) :
    (∃ pre,
      x.reader_thread.json_events =
        (run_pcap_loop (init_reader_thread datalink array_index) pkts).json_events ++ pre ∧
      ∀ e ∈ pre, is_giveup_event e.event = false) ∧
    (x.flow_to_process.num_processed_pkts = 0xFE → x.flow_to_process.detection_completed = 0 →
      ∃ es e,
        (ndpi_process_packet (run_pcap_loop (init_reader_thread datalink array_index) pkts)
          header packet lib).json_events = x.reader_thread.json_events ++ es ∧
        es.filter (fun e => is_giveup_event e.event) = [e] ∧
        e.event = (if lib.protocol_was_guessed ≠ 0 then .FLOW_GUESSED else .FLOW_NOT_DETECTED) ∧
        e.flow_id = x.flow_to_process.flow_id ∧
        e.flow.guessed_protocol = lib.giveup ∧
        ∃ stored ∈ ((ndpi_process_packet
            (run_pcap_loop (init_reader_thread datalink array_index) pkts)
            header packet lib).workflow.ndpi_flows_active x.hashed_index).keys,
          stored.flow_id = x.flow_to_process.flow_id ∧ stored.guessed_protocol = lib.giveup) ∧
    (x.flow_to_process.num_processed_pkts = 0xFF →
      (ndpi_process_packet (run_pcap_loop (init_reader_thread datalink array_index) pkts)
        header packet lib).json_events = x.reader_thread.json_events ∧
      (∃ stored ∈ ((ndpi_process_packet
            (run_pcap_loop (init_reader_thread datalink array_index) pkts)
            header packet lib).workflow.ndpi_flows_active x.hashed_index).keys,
          stored.flow_id = x.flow_to_process.flow_id ∧
          stored.num_processed_pkts = 0xFF ∧
          stored.detected_l7_protocol = x.flow_to_process.detected_l7_protocol ∧
          stored.guessed_protocol = x.flow_to_process.guessed_protocol ∧
          stored.detection_completed = x.flow_to_process.detection_completed) ∧
      ∀ (g pp : ndpi_proto) (w n : Nat) (b : Bool),
        ndpi_process_packet (run_pcap_loop (init_reader_thread datalink array_index) pkts)
          header packet
          { lib with giveup := g, protocol_was_guessed := w, process_packet := pp,
                     num_processed_pkts_after := n, is_protocol_detected := b } =
        ndpi_process_packet (run_pcap_loop (init_reader_thread datalink array_index) pkts)
          header packet lib) := by
  obtain ⟨hs, -⟩ := run_pcap_loop_staged_empty pkts (init_reader_thread datalink array_index) rfl
  obtain ⟨pre, hpre, hall⟩ := resolve_packet_events _ header packet lib x hs hres
  have hfound : ndpi_tfind ndpi_workflow_node_cmp x.key
      (x.reader_thread.workflow.ndpi_flows_active x.hashed_index) = some x.flow_to_process := by
    unfold resolve_packet at hres
    split at hres
    · simp at hres
    · rename_i l3 flow hp
      exact (resolve_flow_found _ l3 flow lib x hres).1
  obtain ⟨pj, pd, pm⟩ := process_flow_spec x.reader_thread x.hashed_index x.key
    x.flow_to_process x.flow (packet_time_ms header) x.l4_len lib hfound
  have hid := (flow_packet_update_spec x.flow_to_process x.flow (packet_time_ms header)
    x.l4_len lib).1.1
  obtain ⟨m1, m2⟩ := flow_packet_update_milestone x.flow_to_process x.flow
    (packet_time_ms header) x.l4_len lib hgate
  rw [ndpi_process_packet_resolved _ header packet lib x hres]
  refine ⟨⟨pre, hpre, fun e he => ?_⟩, fun h1 h2 => ?_, fun h1 => ?_⟩
  · rcases hall e he with h | h
    · rw [h]; rfl
    · rw [h]; rfl
  · obtain ⟨f1, f2⟩ := m1 h1 h2
    refine ⟨_, jsonize_flow x.reader_thread.workflow
      { flow_update_lengths (flow_update_counters x.flow_to_process x.flow
          (packet_time_ms header) x.l4_len) x.l4_len with guessed_protocol := lib.giveup }
      (if lib.protocol_was_guessed ≠ 0 then .FLOW_GUESSED else .FLOW_NOT_DETECTED),
      pj, ?_, rfl, rfl, rfl, _, pm, hid, f2⟩
    rw [List.filter_map]
    have : ((fun e : json_event => is_giveup_event e.event) ∘
        fun e : flow_event × nDPId_flow_info => jsonize_flow x.reader_thread.workflow e.2 e.1) =
        fun e => is_giveup_event e.1 := rfl
    rw [this, f1]
    rfl
  · obtain ⟨f1, f2, f3, f4, f5, f6, f7⟩ := m2 h1
    refine ⟨?_, ⟨_, pm, hid, f3, f4, f5, f6⟩, fun g pp w n b => ?_⟩
    · rw [pj, f1]
      simp
    · rw [ndpi_process_packet_resolved _ header packet _ x
        ((resolve_packet_dpi_independent _ header packet lib g pp w n b).trans hres)]
      exact process_flow_dpi_independent _ _ _ _ _ _ _ _ _ (f7 _)

/-- Witness for C23: worker 3 has processed one packet of the flow `2:10 -> 12:20`
that left the flow's DPI packet counter at `0xFE`; for the next packet of the
flow the give-up primitive reports the guess `(0, 5, 0)`.  The packet resolves to
the record of slot 61, the one give-up event appended to the log is GUESSED with
that guess, and the record stored afterwards keeps it. -/
theorem C23_worker_milestone_witness :
    resolve_packet (sample_counted_run 0xFE) (sample_header 2 82) (sample_ip4 17 2 12 10 20)
      (sample_lib_giveup ⟨0, 5, 0⟩ 1) = some (sample_counted_resolution 0xFE) ∧
    ∃ es e,
      (ndpi_process_packet (sample_counted_run 0xFE) (sample_header 2 82)
        (sample_ip4 17 2 12 10 20) (sample_lib_giveup ⟨0, 5, 0⟩ 1)).json_events =
        (sample_counted_resolution 0xFE).reader_thread.json_events ++ es ∧
      es.filter (fun e => is_giveup_event e.event) = [e] ∧
      e.event = .FLOW_GUESSED ∧ e.flow_id = 0 ∧ e.flow.guessed_protocol = ⟨0, 5, 0⟩ ∧
      ∃ stored ∈ ((ndpi_process_packet (sample_counted_run 0xFE) (sample_header 2 82)
          (sample_ip4 17 2 12 10 20)
          (sample_lib_giveup ⟨0, 5, 0⟩ 1)).workflow.ndpi_flows_active 61).keys,
        stored.flow_id = 0 ∧ stored.guessed_protocol = ⟨0, 5, 0⟩ :=
  ⟨rfl,
    (C23_worker_emits_one_giveup_event_at_milestone DLT_EN10MB 3
      [(sample_header 1 82, sample_ip4 17 2 12 10 20, sample_lib_counted 0xFE)]
      (sample_header 2 82) (sample_ip4 17 2 12 10 20) (sample_lib_giveup ⟨0, 5, 0⟩ 1)
      (sample_counted_resolution 0xFE) rfl (by decide)).2.1 rfl rfl⟩

/-! ### Detected protocol in reachable states -/

theorem process_layer3_undetected (type ip_size : Nat) (packet : packet_view)
    (lib : ndpi_results) (l3 : l3_result)
    (h : process_layer3 type ip_size packet lib = some l3) :
    l3.flow.detection_completed = 0 ∧ l3.flow.num_processed_pkts = 0 := by
  unfold process_layer3 at h
  split_ifs at h
  · split at h
    · simp at h
    · simp only [Option.some.injEq] at h
      rw [← h]
      exact ⟨rfl, rfl⟩
  · split at h
    · simp at h
    · simp only [Option.some.injEq] at h
      rw [← h]
      exact ⟨rfl, rfl⟩

theorem process_layer4_undetected (header : pcap_pkthdr) (packet : packet_view)
    (l3 : l3_result) (flow : nDPId_flow_info) (h : process_layer4 header packet l3 = some flow)
    (hf : l3.flow.detection_completed = 0 ∧ l3.flow.num_processed_pkts = 0) :
    flow.detection_completed = 0 ∧ flow.num_processed_pkts = 0 := by
  unfold process_layer4 at h
  split_ifs at h <;> simp only [Option.some.injEq] at h <;> rw [← h] <;> exact hf

/-- The local `flow` of a parsed packet has `detection_completed = 0` and
`num_processed_pkts = 0`, and so has a record created from it. -/
theorem parse_packet_undetected (datalink : Nat) (header : pcap_pkthdr) (packet : packet_view)
    (lib : ndpi_results) (l3 : l3_result) (flow : nDPId_flow_info)
    (h : parse_packet datalink header packet lib = some (l3, flow)) :
    flow.detection_completed = 0 ∧ flow.num_processed_pkts = 0 := by
  unfold parse_packet at h
  split at h
  · simp at h
  · split at h
    · simp at h
    · rename_i l3a h3
      split at h
      · simp at h
      · rename_i flow1 h4
        simp only [Option.some.injEq, Prod.mk.injEq] at h
        rw [← h.2]
        exact process_layer4_undetected _ _ _ _ h4 (process_layer3_undetected _ _ _ _ _ h3)

theorem flow_packet_update_detected_known_gated (r flow : nDPId_flow_info) (t len : Nat)
    (lib : ndpi_results) (hinv : detected_known r)
    (h : r.detection_completed = 1 →
      ¬ (flow.flow_fin_ack_seen ≠ 0 ∧ r.flow_fin_ack_seen = 0) →
      r.num_processed_pkts ≠ 0xFF →
      lib.process_packet.master_protocol ≠ NDPI_PROTOCOL_UNKNOWN ∨
        lib.process_packet.app_protocol ≠ NDPI_PROTOCOL_UNKNOWN) :
    detected_known (flow_packet_update r flow t len lib).1 := by
  unfold flow_packet_update
  split_ifs with h1 h2 h3
  · exact hinv
  · exact hinv
  · apply flow_dpi_process_detected_known
    rw [(flow_last_chance_detection _ lib).1]
    exact fun hdc => h hdc h1 h2
  · exact flow_dpi_process_detected_known _ lib (fun hdc => h hdc h1 h2)

/-- A record created for the packet has `detection_completed = 0`; a record found
by the lookup is a record of the trees. -/
theorem resolve_packet_records (rt : nDPId_reader_thread) (header : pcap_pkthdr)
    (packet : packet_view) (lib : ndpi_results) (x : flow_resolution)
    (h : resolve_packet rt header packet lib = some x) :
    (x.flow_to_process.detection_completed = 0 ∨
      x.flow_to_process ∈ ((check_for_idle_flows (clock_packet rt
        header)).workflow.ndpi_flows_active x.hashed_index).keys) ∧
    ∀ i, ∀ r ∈ (x.reader_thread.workflow.ndpi_flows_active i).keys,
      r ∈ ((check_for_idle_flows (clock_packet rt header)).workflow.ndpi_flows_active i).keys ∨
        r = x.flow_to_process := by
  unfold resolve_packet at h
  split at h
  · simp at h
  · rename_i l3 flow hp
    obtain ⟨-, hi, -, -, ⟨-, hrt, d, hl⟩ | ⟨-, -, hftp, -, hcr⟩⟩ :=
      resolve_flow_spec _ l3 flow lib x h
    · refine ⟨Or.inr ?_, fun i r hr => Or.inl ?_⟩
      · rw [hi]
        exact flow_lookup_mem _ _ _ _ _ hl
      · rw [hrt] at hr
        exact hr
    · refine ⟨Or.inl ?_, fun i r hr => ?_⟩
      · rw [hftp]
        exact (parse_packet_undetected _ _ _ _ _ _ hp).1
      · have hf := (create_flow_frame
          (count_packet (check_for_idle_flows (clock_packet rt header)) l3.l4_len)
          ((keyed_flow flow lib).hashval %
            (check_for_idle_flows (clock_packet rt header)).workflow.max_active_flows)
          (keyed_flow flow lib) lib).2.1 i r (by rw [hcr]; exact hr)
        rcases hf with h1 | h1
        · exact Or.inl h1
        · right
          rw [h1, hftp]
          rfl

theorem ndpi_process_packet_detected_known (rt : nDPId_reader_thread)
    (p : pcap_pkthdr × packet_view × ndpi_results) (hinv : records_detected_known rt)
    (hdpi : dpi_keeps_completed rt p) :
    records_detected_known (ndpi_process_packet rt p.1 p.2.1 p.2.2) := by
  have hsw : records_detected_known (check_for_idle_flows (clock_packet rt p.1)) :=
    fun i r hr => hinv i r ((check_for_idle_flows_frame (clock_packet rt p.1)).2.1 i r hr)
  cases hres : resolve_packet rt p.1 p.2.1 p.2.2 with
  | none =>
    intro i r hr
    rw [(ndpi_process_packet_unresolved rt p.1 p.2.1 p.2.2 hres).1] at hr
    exact hsw i r hr
  | some x =>
    obtain ⟨hx1, hx2⟩ := resolve_packet_records rt p.1 p.2.1 p.2.2 x hres
    have hk : detected_known x.flow_to_process := by
      rcases hx1 with h0 | hm
      · intro h1
        rw [h0] at h1
        simp at h1
      · exact hsw _ _ hm
    intro i r hr
    rw [ndpi_process_packet_resolved rt p.1 p.2.1 p.2.2 x hres] at hr
    rcases (process_flow_frame x.reader_thread x.hashed_index x.key x.flow_to_process x.flow
      (packet_time_ms p.1) x.l4_len p.2.2).2.1 i r hr with h1 | h1
    · rcases hx2 i r h1 with h2 | h2
      · exact hsw i r h2
      · rw [h2]
        exact hk
    · rw [h1]
      exact flow_packet_update_detected_known_gated _ _ _ _ _ hk (hdpi x hres)

theorem run_pcap_loop_detected_known (pkts : List (pcap_pkthdr × packet_view × ndpi_results))
    (rt : nDPId_reader_thread) (hinv : records_detected_known rt)
    (hdpi : along_run dpi_keeps_completed rt pkts) :
    records_detected_known (run_pcap_loop rt pkts) := by
  induction pkts generalizing rt with
  | nil => exact hinv
  | cons p rest ih =>
    simp only [run_pcap_loop]
    exact ih _ (ndpi_process_packet_detected_known rt p hinv hdpi.1) hdpi.2

/-- C17 (amended): for a worker that has processed any packets `pkts` from its
initial state, every flow record in its trees with `detection_completed = 1` has
a `detected_l7_protocol` with `master_protocol ≠ UNKNOWN` or
`app_protocol ≠ UNKNOWN`, provided that for every packet of the run that got to
the DPI call of line 1141 with a record whose `detection_completed` was already
1, the process-packet primitive returned a result with such a field. -/
theorem C17_detected_protocol_known_in_reachable_states (datalink : Nat) (array_index : Int)
    (pkts : List (pcap_pkthdr × packet_view × ndpi_results))
    (hdpi : along_run dpi_keeps_completed (init_reader_thread datalink array_index) pkts)
    (i : Nat) (r : nDPId_flow_info)
    (hr : r ∈ ((run_pcap_loop (init_reader_thread datalink array_index)
      pkts).workflow.ndpi_flows_active i).keys) :
    r.detection_completed = 1 →
      r.detected_l7_protocol.master_protocol ≠ NDPI_PROTOCOL_UNKNOWN ∨
        r.detected_l7_protocol.app_protocol ≠ NDPI_PROTOCOL_UNKNOWN := by
  have hinit : records_detected_known (init_reader_thread datalink array_index) := by
    intro j x hx
    simp [init_reader_thread, init_workflow, ndpi_node.keys] at hx
  exact run_pcap_loop_detected_known pkts _ hinit hdpi i r hr

/-- Witness for C17 (amended): worker 3 processes two packets of one UDP/IPv4
flow; for the first the DPI engine returns `(7, 0)` as detected, for the second,
which meets the record with `detection_completed = 1`, it returns `(7, 5)`.  The
record of slot 61 has `detection_completed = 1` and `detected_l7_protocol =
(7, 5)`. -/
theorem C17_detected_protocol_known_reachable_witness :
    along_run dpi_keeps_completed (init_reader_thread DLT_EN10MB 3)
      [(sample_header 1 82, sample_ip4 17 2 12 10 20, sample_lib_dpi 34 40 17 ⟨7, 0, 0⟩ true),
       (sample_header 2 82, sample_ip4 17 2 12 10 20,
         sample_lib_dpi 34 40 17 ⟨7, 5, 0⟩ true)] ∧
    ((run_pcap_loop (init_reader_thread DLT_EN10MB 3)
      [(sample_header 1 82, sample_ip4 17 2 12 10 20, sample_lib_dpi 34 40 17 ⟨7, 0, 0⟩ true),
       (sample_header 2 82, sample_ip4 17 2 12 10 20,
         sample_lib_dpi 34 40 17 ⟨7, 5, 0⟩ true)]).workflow.ndpi_flows_active 61).keys =
      [sample_record_detected] ∧
    sample_record_detected.detection_completed = 1 ∧
    (sample_record_detected.detected_l7_protocol.master_protocol ≠ NDPI_PROTOCOL_UNKNOWN ∨
      sample_record_detected.detected_l7_protocol.app_protocol ≠ NDPI_PROTOCOL_UNKNOWN) :=
  ⟨⟨fun _ _ _ _ _ => Or.inl (by decide), fun _ _ _ _ _ => Or.inl (by decide), trivial⟩,
    by decide, rfl,
    C17_detected_protocol_known_in_reachable_states DLT_EN10MB 3
      [(sample_header 1 82, sample_ip4 17 2 12 10 20, sample_lib_dpi 34 40 17 ⟨7, 0, 0⟩ true),
       (sample_header 2 82, sample_ip4 17 2 12 10 20, sample_lib_dpi 34 40 17 ⟨7, 5, 0⟩ true)]
      ⟨fun _ _ _ _ _ => Or.inl (by decide), fun _ _ _ _ _ => Or.inl (by decide), trivial⟩
      61 sample_record_detected (by decide) rfl⟩

/-! ### The shared `flow_id` counter -/

theorem traced_erase_keys (t : traced_node) : t.erase.keys = t.entries.map Prod.fst := by
  induction t with
  | null => rfl
  | node k h l r ihl ihr =>
    simp only [traced_node.erase, ndpi_node.keys, traced_node.entries, List.map_cons,
      List.map_append, ihl, ihr]

theorem traced_erase_tsearch (compar : nDPId_flow_info → nDPId_flow_info → Int) (b : Bool)
    (key : nDPId_flow_info) (t : traced_node) :
    (traced_tsearch compar b key t).erase = (ndpi_tsearch compar b key t.erase).1 := by
  induction t with
  | null =>
    cases b <;> rfl
  | node k h l r ihl ihr =>
    unfold traced_tsearch
    simp only [traced_node.erase]
    unfold ndpi_tsearch
    split_ifs
    · rfl
    · simp only [traced_node.erase, ihl]
    · simp only [traced_node.erase, ihr]

theorem traced_erase_store (compar : nDPId_flow_info → nDPId_flow_info → Int)
    (key r : nDPId_flow_info) (len : Nat) (t : traced_node) :
    (traced_node.store compar key r len t).erase =
      ndpi_node.store compar key (fun _ => r) t.erase := by
  induction t with
  | null => rfl
  | node k h l rr ihl ihr =>
    unfold traced_node.store
    simp only [traced_node.erase]
    unfold ndpi_node.store
    split_ifs
    · rfl
    · simp only [traced_node.erase, ihl]
    · simp only [traced_node.erase, ihr]

theorem traced_erase_leftmost (t : traced_node) :
    t.erase.leftmost = t.leftmost.map Prod.fst := by
  induction t with
  | null => rfl
  | node k h l r ihl _ =>
    cases l with
    | null => rfl
    | node lk lh ll lr =>
      simp only [traced_node.erase, ndpi_node.leftmost, traced_node.leftmost] at ihl ⊢
      exact ihl

theorem traced_erase_drop_leftmost (t : traced_node) :
    t.drop_leftmost.erase = t.erase.drop_leftmost := by
  induction t with
  | null => rfl
  | node k h l r ihl _ =>
    cases l with
    | null => rfl
    | node lk lh ll lr =>
      simp only [traced_node.erase, ndpi_node.drop_leftmost, traced_node.drop_leftmost] at ihl ⊢
      rw [ihl]

theorem traced_erase_unlink (t : traced_node) : t.unlink.erase = t.erase.unlink := by
  cases t with
  | null => rfl
  | node k h l r =>
    cases l with
    | null => rfl
    | node lk lh ll lr =>
      cases r with
      | null => rfl
      | node rk rh rl rr =>
        have h1 := traced_erase_leftmost (.node rk rh rl rr)
        have h2 := traced_erase_drop_leftmost (.node rk rh rl rr)
        simp only [traced_node.erase] at h1 h2
        simp only [traced_node.unlink, traced_node.erase, ndpi_node.unlink, h1]
        cases hq : traced_node.leftmost (.node rk rh rl rr) with
        | none => rfl
        | some q =>
          simp only [Option.map_some', traced_node.erase, h2]

theorem traced_erase_tdelete (compar : nDPId_flow_info → nDPId_flow_info → Int)
    (key : nDPId_flow_info) (t : traced_node) :
    (traced_tdelete compar key t).erase = ndpi_tdelete compar key t.erase := by
  induction t with
  | null => rfl
  | node k h l r ihl ihr =>
    unfold traced_tdelete
    simp only [traced_node.erase]
    unfold ndpi_tdelete
    split_ifs
    · exact traced_erase_unlink (.node k h l r)
    · simp only [traced_node.erase, ihl]
    · simp only [traced_node.erase, ihr]

theorem traced_tsearch_entries (compar : nDPId_flow_info → nDPId_flow_info → Int) (b : Bool)
    (key : nDPId_flow_info) (t : traced_node) :
    ∀ e ∈ (traced_tsearch compar b key t).entries, e = (key, []) ∨ e ∈ t.entries := by
  induction t with
  | null =>
    intro e he
    cases b
    · simp [traced_tsearch, traced_node.entries] at he
    · simp [traced_tsearch, traced_node.entries] at he
      exact Or.inl he
  | node k h l r ihl ihr =>
    intro e he
    unfold traced_tsearch at he
    split_ifs at he
    · exact Or.inr he
    · simp only [traced_node.entries, List.mem_cons, List.mem_append] at he ⊢
      rcases he with h1 | h1 | h1
      · exact Or.inr (Or.inl h1)
      · rcases ihl e h1 with h2 | h2
        · exact Or.inl h2
        · exact Or.inr (Or.inr (Or.inl h2))
      · exact Or.inr (Or.inr (Or.inr h1))
    · simp only [traced_node.entries, List.mem_cons, List.mem_append] at he ⊢
      rcases he with h1 | h1 | h1
      · exact Or.inr (Or.inl h1)
      · exact Or.inr (Or.inr (Or.inl h1))
      · rcases ihr e h1 with h2 | h2
        · exact Or.inl h2
        · exact Or.inr (Or.inr (Or.inr h2))

theorem traced_store_entries (compar : nDPId_flow_info → nDPId_flow_info → Int)
    (key ftp r : nDPId_flow_info) (len : Nat) (t : traced_node)
    (hf : ndpi_tfind compar key t.erase = some ftp) :
    ∀ e ∈ (traced_node.store compar key r len t).entries,
      e ∈ t.entries ∨ ∃ h, (ftp, h) ∈ t.entries ∧ e = (r, h ++ [len]) := by
  induction t with
  | null => simp [traced_node.erase, ndpi_tfind] at hf
  | node k h l rr ihl ihr =>
    intro e he
    simp only [traced_node.erase] at hf
    unfold ndpi_tfind at hf
    unfold traced_node.store at he
    split_ifs at hf he with h1 h2
    · simp only [Option.some.injEq] at hf
      simp only [traced_node.entries, List.mem_cons, List.mem_append] at he ⊢
      rcases he with h3 | h3
      · exact Or.inr ⟨h, Or.inl (by rw [hf]), h3⟩
      · exact Or.inl (Or.inr h3)
    · simp only [traced_node.entries, List.mem_cons, List.mem_append] at he ⊢
      rcases he with h3 | h3 | h3
      · exact Or.inl (Or.inl h3)
      · rcases ihl hf e h3 with h4 | ⟨h', h4, h5⟩
        · exact Or.inl (Or.inr (Or.inl h4))
        · exact Or.inr ⟨h', Or.inr (Or.inl h4), h5⟩
      · exact Or.inl (Or.inr (Or.inr h3))
    · simp only [traced_node.entries, List.mem_cons, List.mem_append] at he ⊢
      rcases he with h3 | h3 | h3
      · exact Or.inl (Or.inl h3)
      · exact Or.inl (Or.inr (Or.inl h3))
      · rcases ihr hf e h3 with h4 | ⟨h', h4, h5⟩
        · exact Or.inl (Or.inr (Or.inr h4))
        · exact Or.inr ⟨h', Or.inr (Or.inr h4), h5⟩

theorem traced_leftmost_entries (t : traced_node) (q : nDPId_flow_info × List Nat)
    (h : t.leftmost = some q) : q ∈ t.entries := by
  induction t with
  | null => simp [traced_node.leftmost] at h
  | node k hh l r ihl _ =>
    cases l with
    | null =>
      simp only [traced_node.leftmost, Option.some.injEq] at h
      simp [traced_node.entries, h]
    | node lk lh ll lr =>
      simp only [traced_node.leftmost] at h
      have := ihl h
      simp only [traced_node.entries, List.mem_cons, List.mem_append] at this ⊢
      exact Or.inr (Or.inl this)

theorem traced_drop_leftmost_entries (t : traced_node) :
    ∀ e ∈ t.drop_leftmost.entries, e ∈ t.entries := by
  induction t with
  | null => intro e he; exact he
  | node k hh l r ihl _ =>
    cases l with
    | null =>
      intro e he
      simp only [traced_node.drop_leftmost] at he
      simp only [traced_node.entries, List.mem_cons, List.mem_append]
      exact Or.inr (Or.inr he)
    | node lk lh ll lr =>
      intro e he
      simp only [traced_node.drop_leftmost] at he
      simp only [traced_node.entries, List.mem_cons, List.mem_append] at he
      rcases he with h1 | h1 | h1
      · simp only [traced_node.entries, List.mem_cons, List.mem_append]
        exact Or.inl h1
      · have := ihl e h1
        simp only [traced_node.entries, List.mem_cons, List.mem_append] at this ⊢
        exact Or.inr (Or.inl this)
      · simp only [traced_node.entries, List.mem_cons, List.mem_append]
        exact Or.inr (Or.inr h1)

theorem traced_unlink_entries (t : traced_node) : ∀ e ∈ t.unlink.entries, e ∈ t.entries := by
  cases t with
  | null => intro e he; exact he
  | node k h l r =>
    cases l with
    | null =>
      intro e he
      simp only [traced_node.unlink] at he
      simp only [traced_node.entries, List.mem_cons, List.mem_append]
      exact Or.inr (Or.inr he)
    | node lk lh ll lr =>
      cases r with
      | null =>
        intro e he
        simp only [traced_node.unlink] at he
        simp only [traced_node.entries, List.mem_cons, List.mem_append] at he ⊢
        exact Or.inr (Or.inl (by simpa [traced_node.entries] using he))
      | node rk rh rl rr =>
        intro e he
        simp only [traced_node.unlink] at he
        cases hq : traced_node.leftmost (.node rk rh rl rr) with
        | none =>
          rw [hq] at he
          simp only [traced_node.entries, List.mem_cons, List.mem_append] at he ⊢
          exact Or.inr (Or.inl (by simpa [traced_node.entries] using he))
        | some q =>
          rw [hq] at he
          have hq1 := traced_leftmost_entries _ q hq
          simp only [traced_node.entries, List.mem_cons, List.mem_append] at he
          rcases he with h1 | h1 | h1
          · have : e ∈ (traced_node.node rk rh rl rr).entries := by
              rw [h1]
              exact hq1
            simp only [traced_node.entries, List.mem_cons, List.mem_append] at this ⊢
            exact Or.inr (Or.inr this)
          · simp only [traced_node.entries, List.mem_cons, List.mem_append]
            exact Or.inr (Or.inl (by simpa [traced_node.entries] using h1))
          · have := traced_drop_leftmost_entries (.node rk rh rl rr) e h1
            simp only [traced_node.entries, List.mem_cons, List.mem_append] at this ⊢
            exact Or.inr (Or.inr this)

theorem traced_tdelete_entries (compar : nDPId_flow_info → nDPId_flow_info → Int)
    (key : nDPId_flow_info) (t : traced_node) :
    ∀ e ∈ (traced_tdelete compar key t).entries, e ∈ t.entries := by
  induction t with
  | null => intro e he; exact he
  | node k h l r ihl ihr =>
    intro e he
    unfold traced_tdelete at he
    split_ifs at he
    · exact traced_unlink_entries _ e he
    · simp only [traced_node.entries, List.mem_cons, List.mem_append] at he ⊢
      rcases he with h1 | h1 | h1
      · exact Or.inl h1
      · exact Or.inr (Or.inl (ihl e h1))
      · exact Or.inr (Or.inr h1)
    · simp only [traced_node.entries, List.mem_cons, List.mem_append] at he ⊢
      rcases he with h1 | h1 | h1
      · exact Or.inl h1
      · exact Or.inr (Or.inl h1)
      · exact Or.inr (Or.inr (ihr e h1))

/-! ### Sweep on the traced trees -/

theorem traced_drain_spec (idx : Nat) (staged : List nDPId_flow_info)
    (rt : nDPId_reader_thread) (g : Nat → traced_node)
    (h : ∀ i, (g i).erase = rt.workflow.ndpi_flows_active i) :
    (∀ i, (traced_drain idx staged g i).erase =
      (drain_idle_flows idx staged rt).workflow.ndpi_flows_active i) ∧
    ∀ i, ∀ e ∈ (traced_drain idx staged g i).entries, e ∈ (g i).entries := by
  induction staged generalizing rt g with
  | nil => exact ⟨h, fun i e he => he⟩
  | cons f rest ih =>
    simp only [drain_idle_flows, traced_drain]
    obtain ⟨i1, i2⟩ := ih
      { jsonize_flow_event rt f .FLOW_IDLE with
        workflow :=
          { (jsonize_flow_event rt f .FLOW_IDLE).workflow with
            ndpi_flows_idle := rest,
            ndpi_flows_active :=
              set_root (jsonize_flow_event rt f .FLOW_IDLE).workflow.ndpi_flows_active idx
                (ndpi_tdelete ndpi_workflow_node_cmp f
                  ((jsonize_flow_event rt f .FLOW_IDLE).workflow.ndpi_flows_active idx)),
            cur_active_flows :=
              ((jsonize_flow_event rt f .FLOW_IDLE).workflow.cur_active_flows + U64 - 1) % U64 } }
      (traced_set_root g idx (traced_tdelete ndpi_workflow_node_cmp f (g idx)))
      (by
        intro i
        show (traced_set_root g idx (traced_tdelete ndpi_workflow_node_cmp f (g idx)) i).erase =
          set_root rt.workflow.ndpi_flows_active idx
            (ndpi_tdelete ndpi_workflow_node_cmp f (rt.workflow.ndpi_flows_active idx)) i
        unfold traced_set_root set_root
        by_cases hi : i = idx
        · rw [if_pos hi, if_pos hi, traced_erase_tdelete, h idx]
        · rw [if_neg hi, if_neg hi, h i])
    refine ⟨i1, fun i e he => ?_⟩
    have h1 := i2 i e he
    unfold traced_set_root at h1
    by_cases hi : i = idx
    · rw [if_pos hi] at h1
      rw [hi]
      exact traced_tdelete_entries _ _ _ e h1
    · rw [if_neg hi] at h1
      exact h1

theorem traced_scan_slot_spec (s : nDPId_reader_thread × (Nat → traced_node)) (idx : Nat)
    (h : ∀ i, (s.2 i).erase = s.1.workflow.ndpi_flows_active i) :
    (traced_scan_slot s idx).1 = idle_scan_slot s.1 idx ∧
    (∀ i, ((traced_scan_slot s idx).2 i).erase =
      (traced_scan_slot s idx).1.workflow.ndpi_flows_active i) ∧
    ∀ i, ∀ e ∈ ((traced_scan_slot s idx).2 i).entries, e ∈ (s.2 i).entries := by
  have hw := (ndpi_twalk_fold_frame (ndpi_twalk (s.1.workflow.ndpi_flows_active idx))
    s.1.workflow).2
  obtain ⟨d1, d2⟩ := traced_drain_spec idx
    ((ndpi_twalk (s.1.workflow.ndpi_flows_active idx)).foldl ndpi_idle_scan_walker
      s.1.workflow).ndpi_flows_idle
    { s.1 with
      workflow :=
        (ndpi_twalk (s.1.workflow.ndpi_flows_active idx)).foldl ndpi_idle_scan_walker
          s.1.workflow }
    s.2
    (by
      intro i
      show (s.2 i).erase = ((ndpi_twalk (s.1.workflow.ndpi_flows_active idx)).foldl
        ndpi_idle_scan_walker s.1.workflow).ndpi_flows_active i
      rw [hw]
      exact h i)
  exact ⟨rfl, d1, d2⟩

theorem traced_scan_fold_spec (idxs : List Nat) (s : nDPId_reader_thread × (Nat → traced_node))
    (h : ∀ i, (s.2 i).erase = s.1.workflow.ndpi_flows_active i) :
    (idxs.foldl traced_scan_slot s).1 = idxs.foldl idle_scan_slot s.1 ∧
    (∀ i, ((idxs.foldl traced_scan_slot s).2 i).erase =
      (idxs.foldl traced_scan_slot s).1.workflow.ndpi_flows_active i) ∧
    ∀ i, ∀ e ∈ ((idxs.foldl traced_scan_slot s).2 i).entries, e ∈ (s.2 i).entries := by
  induction idxs generalizing s with
  | nil => exact ⟨rfl, h, fun i e he => he⟩
  | cons a rest ih =>
    simp only [List.foldl_cons]
    obtain ⟨s1, s2, s3⟩ := traced_scan_slot_spec s a h
    obtain ⟨i1, i2, i3⟩ := ih (traced_scan_slot s a) s2
    refine ⟨?_, i2, fun i e he => s3 i e (i3 i e he)⟩
    rw [i1, s1]

theorem traced_check_for_idle_flows_spec (rt : nDPId_reader_thread) (g : Nat → traced_node)
    (h : ∀ i, (g i).erase = rt.workflow.ndpi_flows_active i) :
    (∀ i, (traced_check_for_idle_flows rt g i).erase =
      (check_for_idle_flows rt).workflow.ndpi_flows_active i) ∧
    ∀ i, ∀ e ∈ (traced_check_for_idle_flows rt g i).entries, e ∈ (g i).entries := by
  unfold traced_check_for_idle_flows check_for_idle_flows
  split_ifs with hc
  · obtain ⟨i1, i2, i3⟩ := traced_scan_fold_spec (List.range rt.workflow.max_active_flows)
      (rt, g) h
    refine ⟨fun i => ?_, i3⟩
    rw [i2 i, i1]
  · exact ⟨h, fun i e he => he⟩

/-! ### Packets on the traced trees -/

/-- What the resolution of a packet leaves in the trees, relative to the state
after the sweep: a record that was found is a record of the slot and the trees
are untouched; a record that was created is a new leaf of the slot with both
counters 0. -/
theorem resolve_packet_spec (rt : nDPId_reader_thread) (header : pcap_pkthdr)
    (packet : packet_view) (lib : ndpi_results) (x : flow_resolution)
    (h : resolve_packet rt header packet lib = some x) :
    ndpi_tfind ndpi_workflow_node_cmp x.key
      (x.reader_thread.workflow.ndpi_flows_active x.hashed_index) = some x.flow_to_process ∧
    (x.created = false →
      x.reader_thread.workflow.ndpi_flows_active =
        (check_for_idle_flows (clock_packet rt header)).workflow.ndpi_flows_active) ∧
    (x.created = true →
      lib.tsearch_malloc = true ∧
      x.reader_thread.workflow.ndpi_flows_active x.hashed_index =
        (ndpi_tsearch ndpi_workflow_node_cmp true x.flow_to_process
          ((check_for_idle_flows (clock_packet rt header)).workflow.ndpi_flows_active
            x.hashed_index)).1 ∧
      (∀ i, i ≠ x.hashed_index →
        x.reader_thread.workflow.ndpi_flows_active i =
          (check_for_idle_flows (clock_packet rt header)).workflow.ndpi_flows_active i) ∧
      x.flow_to_process.total_l4_data_len = 0 ∧ x.flow_to_process.packets_processed = 0) := by
  unfold resolve_packet at h
  split at h
  · simp at h
  · rename_i l3 flow hp
    obtain ⟨f1, f2⟩ := resolve_flow_found _ l3 flow lib x h
    obtain ⟨-, -, -, -, ⟨hc, hrt, -⟩ | ⟨hc, -, hftp, -, -⟩⟩ := resolve_flow_spec _ l3 flow lib x h
    · refine ⟨f1, fun _ => ?_, fun hc2 => ?_⟩
      · rw [hrt]
        rfl
      · rw [hc] at hc2
        simp at hc2
    · refine ⟨f1, fun hc2 => ?_, fun hc2 => ?_⟩
      · rw [hc] at hc2
        simp at hc2
      · obtain ⟨g1, g2, g3⟩ := f2 hc2
        obtain ⟨-, -, q3, q4⟩ := parse_packet_fresh _ _ _ _ _ _ hp
        refine ⟨g1, g2, g3, ?_, ?_⟩
        · rw [hftp]
          exact q4
        · rw [hftp]
          exact q3

theorem counters_match_update (ftp flow : nDPId_flow_info) (t len : Nat) (lib : ndpi_results)
    (h : List Nat) (hm : counters_match (ftp, h)) :
    counters_match ((flow_packet_update ftp flow t len lib).1, h ++ [len]) := by
  obtain ⟨h1, h2⟩ := flow_packet_update_counters ftp flow t len lib
  obtain ⟨m1, m2⟩ := hm
  have m1' : ftp.total_l4_data_len = h.sum % U64 := m1
  have m2' : ftp.packets_processed = h.length % U64 := m2
  constructor
  · show (flow_packet_update ftp flow t len lib).1.total_l4_data_len = (h ++ [len]).sum % U64
    rw [h2, m1', Nat.mod_add_mod, List.sum_append, List.sum_singleton]
  · show (flow_packet_update ftp flow t len lib).1.packets_processed =
      (h ++ [len]).length % U64
    rw [h1, m2', Nat.mod_add_mod, List.length_append, List.length_singleton]

/-- One packet keeps the traced trees in step with the worker. -/
theorem traced_process_packet_spec (rt : nDPId_reader_thread) (g : Nat → traced_node)
    (header : pcap_pkthdr) (packet : packet_view) (lib : ndpi_results) (h : traces_of rt g) :
    traces_of (ndpi_process_packet rt header packet lib)
      (traced_process_packet rt g header packet lib) := by
  have h0 : ∀ i, (g i).erase = (clock_packet rt header).workflow.ndpi_flows_active i := h.1
  obtain ⟨s1, s2⟩ := traced_check_for_idle_flows_spec (clock_packet rt header) g h0
  have s3 : ∀ i, ∀ e ∈ (traced_check_for_idle_flows (clock_packet rt header) g i).entries,
      counters_match e := fun i e he => h.2 i e (s2 i e he)
  unfold traced_process_packet
  cases hres : resolve_packet rt header packet lib with
  | none =>
    simp only []
    refine ⟨fun i => ?_, s3⟩
    rw [(ndpi_process_packet_unresolved rt header packet lib hres).1]
    exact s1 i
  | some x =>
    simp only []
    obtain ⟨r1, r2, r3⟩ := resolve_packet_spec rt header packet lib x hres
    have hG1 : ∃ G1 : Nat → traced_node,
        (if x.created = true then
          traced_set_root (traced_check_for_idle_flows (clock_packet rt header) g)
            x.hashed_index
            (traced_tsearch ndpi_workflow_node_cmp lib.tsearch_malloc x.flow_to_process
              (traced_check_for_idle_flows (clock_packet rt header) g x.hashed_index))
        else traced_check_for_idle_flows (clock_packet rt header) g) = G1 ∧
        (∀ i, (G1 i).erase = x.reader_thread.workflow.ndpi_flows_active i) ∧
        ∀ i, ∀ e ∈ (G1 i).entries, counters_match e := by
      refine ⟨_, rfl, ?_, ?_⟩
      · intro i
        cases hc : x.created with
        | false =>
          simp only [Bool.false_eq_true, if_false]
          rw [r2 hc]
          exact s1 i
        | true =>
          simp only [if_true]
          obtain ⟨t1, t2, t3, -, -⟩ := r3 hc
          unfold traced_set_root
          by_cases hi : i = x.hashed_index
          · rw [if_pos hi, traced_erase_tsearch, s1, t1, hi, t2]
          · rw [if_neg hi, t3 i hi]
            exact s1 i
      · intro i e he
        cases hc : x.created with
        | false =>
          rw [hc] at he
          simp only [Bool.false_eq_true, if_false] at he
          exact s3 i e he
        | true =>
          rw [hc] at he
          simp only [if_true] at he
          obtain ⟨-, -, -, t4, t5⟩ := r3 hc
          unfold traced_set_root at he
          by_cases hi : i = x.hashed_index
          · rw [if_pos hi] at he
            rcases traced_tsearch_entries _ _ _ _ e he with h1 | h1
            · rw [h1]
              constructor
              · show x.flow_to_process.total_l4_data_len = ([] : List Nat).sum % U64
                rw [t4]
                rfl
              · show x.flow_to_process.packets_processed = ([] : List Nat).length % U64
                rw [t5]
                rfl
            · exact s3 _ e h1
          · rw [if_neg hi] at he
            exact s3 i e he
    obtain ⟨G1, hG, e1, e2⟩ := hG1
    rw [hG]
    rw [ndpi_process_packet_resolved rt header packet lib x hres]
    have pc := (process_flow_counters x.reader_thread x.hashed_index x.key x.flow_to_process
      x.flow (packet_time_ms header) x.l4_len lib).2.2.2.2
    have pf := (process_flow_path_frame x.reader_thread x.hashed_index x.key x.flow_to_process
      x.flow (packet_time_ms header) x.l4_len lib).2.2.2.2
    constructor
    · intro i
      unfold traced_set_root
      by_cases hi : i = x.hashed_index
      · rw [if_pos hi, traced_erase_store, e1, hi, pc]
      · rw [if_neg hi, pf i hi]
        exact e1 i
    · intro i e he
      unfold traced_set_root at he
      by_cases hi : i = x.hashed_index
      · rw [if_pos hi] at he
        have hf : ndpi_tfind ndpi_workflow_node_cmp x.key (G1 x.hashed_index).erase =
            some x.flow_to_process := by
          rw [e1]
          exact r1
        rcases traced_store_entries _ _ _ _ _ _ hf e he with h1 | ⟨hh, h1, h2⟩
        · exact e2 _ e h1
        · rw [h2]
          exact counters_match_update _ _ _ _ _ _ (e2 _ _ h1)
      · rw [if_neg hi] at he
        exact e2 i e he

theorem traced_run_spec (pkts : List (pcap_pkthdr × packet_view × ndpi_results))
    (rt : nDPId_reader_thread) (g : Nat → traced_node) (h : traces_of rt g) :
    traces_of (run_pcap_loop rt pkts) (traced_run rt g pkts) := by
  induction pkts generalizing rt g with
  | nil => exact h
  | cons p rest ih =>
    simp only [run_pcap_loop, traced_run]
    exact ih _ _ (traced_process_packet_spec rt g p.1 p.2.1 p.2.2 h)

/-! ### Per-flow counters in reachable states -/

theorem resolve_flow_hit (rt : nDPId_reader_thread) (l3 : l3_result)
    (flow0 : nDPId_flow_info) (lib : ndpi_results) (key ftp : nDPId_flow_info) (d : Nat)
    (hshard : thread_index_final l3.thread_index flow0.src_port flow0.dst_port
      rt.reader_thread_count = rt.array_index)
    (hl : flow_lookup (keyed_flow flow0 lib)
      (rt.workflow.ndpi_flows_active
        ((keyed_flow flow0 lib).hashval % rt.workflow.max_active_flows)) = some (key, ftp, d)) :
    resolve_flow rt l3 flow0 lib =
      some
        { reader_thread := count_packet rt l3.l4_len,
          hashed_index := (keyed_flow flow0 lib).hashval % rt.workflow.max_active_flows,
          key := key, flow_to_process := ftp, flow := keyed_flow flow0 lib,
          l4_len := l3.l4_len, created := false } := by
  unfold resolve_flow
  rw [if_neg (not_not.mpr hshard)]
  simp only []
  split
  · rename_i hn
    have hn2 : flow_lookup (keyed_flow flow0 lib)
      (rt.workflow.ndpi_flows_active
        ((keyed_flow flow0 lib).hashval % rt.workflow.max_active_flows)) = none := hn
    rw [hl] at hn2
    simp at hn2
  · rename_i key2 ftp2 d2 hs
    have hs2 : flow_lookup (keyed_flow flow0 lib)
      (rt.workflow.ndpi_flows_active
        ((keyed_flow flow0 lib).hashval % rt.workflow.max_active_flows)) =
        some (key2, ftp2, d2) := hs
    rw [hl] at hs2
    simp only [Option.some.injEq, Prod.mk.injEq] at hs2
    obtain ⟨rfl, rfl, -⟩ := hs2
    rfl

theorem resolve_packet_no_sweep (rt : nDPId_reader_thread) (header : pcap_pkthdr)
    (packet : packet_view) (lib : ndpi_results) (l3 : l3_result) (flow : nDPId_flow_info)
    (hc : ¬ (rt.workflow.last_idle_scan_time + IDLE_SCAN_PERIOD) % U64 < packet_time_ms header)
    (hp : parse_packet rt.workflow.pcap_datalink header packet lib = some (l3, flow)) :
    resolve_packet rt header packet lib = resolve_flow (clock_packet rt header) l3 flow lib ∧
    ∀ g, traced_check_for_idle_flows (clock_packet rt header) g = g := by
  have hc0 : ¬ ((clock_packet rt header).workflow.last_idle_scan_time + IDLE_SCAN_PERIOD) % U64 <
      (clock_packet rt header).workflow.last_time := hc
  have h0 : check_for_idle_flows (clock_packet rt header) = clock_packet rt header := by
    unfold check_for_idle_flows
    rw [if_neg hc0]
  have hp0 : parse_packet (clock_packet rt header).workflow.pcap_datalink header packet lib =
      some (l3, flow) := hp
  constructor
  · unfold resolve_packet
    rw [h0, hp0]
  · intro g
    unfold traced_check_for_idle_flows
    rw [if_neg hc0]

theorem repeat_packet_facts :
    packet_time_ms repeat_packet.1 = 0 ∧
    parse_packet DLT_EN10MB repeat_packet.1 repeat_packet.2.1 repeat_packet.2.2 =
      some (sample_l3 2 12, sample_flow4 2 12 10 20) ∧
    keyed_flow (sample_flow4 2 12 10 20) repeat_packet.2.2 = sample_key4 2 12 10 20 := by
  decide

theorem repeat_update_counters (a b : Nat) :
    (flow_packet_update
      { sample_key4 2 12 10 20 with
        packets_processed := a, total_l4_data_len := b, max_l4_data_len := 40,
        num_processed_pkts := 1 }
      (sample_key4 2 12 10 20) 0 40 (sample_lib 34 40 17)).1 =
      { sample_key4 2 12 10 20 with
        packets_processed := (a + 1) % U64, total_l4_data_len := (b + 40) % U64,
        max_l4_data_len := 40, num_processed_pkts := 1 } := rfl

theorem repeat_update (n : Nat) :
    (flow_packet_update (repeat_record n) (sample_key4 2 12 10 20) 0 40
      (sample_lib 34 40 17)).1 = repeat_record (n + 1) := by
  have h := repeat_update_counters (n % U64) ((40 * n) % U64)
  have h2 : repeat_record (n + 1) =
      { sample_key4 2 12 10 20 with
        packets_processed := (n % U64 + 1) % U64, total_l4_data_len := ((40 * n) % U64 + 40) % U64,
        max_l4_data_len := 40, num_processed_pkts := 1 } := by
    unfold repeat_record
    rw [Nat.mod_add_mod, Nat.mod_add_mod, Nat.mul_succ]
  rw [h2]
  exact h

theorem repeat_lookup (n : Nat) :
    flow_lookup (sample_key4 2 12 10 20) (.node (repeat_record n) .null .null) =
      some (sample_key4 2 12 10 20, repeat_record n, 0) := by
  have hk : same_tuple (repeat_record n) (sample_key4 2 12 10 20) :=
    ⟨rfl, rfl, rfl, rfl, rfl, rfl, rfl, rfl, rfl⟩
  have hc : ndpi_workflow_node_cmp (sample_key4 2 12 10 20) (repeat_record n) = 0 := by
    rw [node_cmp_congr_right hk]
    exact node_cmp_self _
  unfold flow_lookup
  simp only [ndpi_tfind, hc, if_true]

/-- One more packet `repeat_packet`: no sweep, the lookup finds the record, its
counters advance and `40` is appended to its trace. -/
theorem repeat_step (n : Nat) (rt : nDPId_reader_thread) (g : Nat → traced_node)
    (h : repeat_state n rt g) :
    repeat_state (n + 1)
      (ndpi_process_packet rt repeat_packet.1 repeat_packet.2.1 repeat_packet.2.2)
      (traced_process_packet rt g repeat_packet.1 repeat_packet.2.1 repeat_packet.2.2) := by
  obtain ⟨h1, h2, h3, h5, h7, h8, h9⟩ := h
  obtain ⟨htime, hparse, hk⟩ := repeat_packet_facts
  have hc : ¬ (rt.workflow.last_idle_scan_time + IDLE_SCAN_PERIOD) % U64 <
      packet_time_ms repeat_packet.1 := by
    rw [h2, htime]
    decide
  obtain ⟨hr, hg⟩ := resolve_packet_no_sweep rt repeat_packet.1 repeat_packet.2.1
    repeat_packet.2.2 (sample_l3 2 12) (sample_flow4 2 12 10 20) hc (by rw [h1]; exact hparse)
  have hidx : (keyed_flow (sample_flow4 2 12 10 20) repeat_packet.2.2).hashval %
      (clock_packet rt repeat_packet.1).workflow.max_active_flows = 61 := by
    rw [hk]
    show (sample_key4 2 12 10 20).hashval % rt.workflow.max_active_flows = 61
    rw [h5]
    exact wrap_hashed
  have hshard : thread_index_final (sample_l3 2 12).thread_index
      (sample_flow4 2 12 10 20).src_port (sample_flow4 2 12 10 20).dst_port
      (clock_packet rt repeat_packet.1).reader_thread_count =
      (clock_packet rt repeat_packet.1).array_index := by
    show thread_index_final (sample_l3 2 12).thread_index 10 20 rt.reader_thread_count =
      rt.array_index
    rw [h8, h7]
    exact wrap_shard
  have hl : flow_lookup (keyed_flow (sample_flow4 2 12 10 20) repeat_packet.2.2)
      ((clock_packet rt repeat_packet.1).workflow.ndpi_flows_active
        ((keyed_flow (sample_flow4 2 12 10 20) repeat_packet.2.2).hashval %
          (clock_packet rt repeat_packet.1).workflow.max_active_flows)) =
      some (sample_key4 2 12 10 20, repeat_record n, 0) := by
    rw [hidx, hk]
    show flow_lookup (sample_key4 2 12 10 20) (rt.workflow.ndpi_flows_active 61) = _
    rw [h3]
    exact repeat_lookup n
  have hres := resolve_flow_hit (clock_packet rt repeat_packet.1) (sample_l3 2 12)
    (sample_flow4 2 12 10 20) repeat_packet.2.2 _ _ _ hshard hl
  rw [hidx, hk] at hres
  have hres2 := hr.trans hres
  have hcmp : ndpi_workflow_node_cmp (sample_key4 2 12 10 20) (repeat_record n) = 0 := by
    have hk2 : same_tuple (repeat_record n) (sample_key4 2 12 10 20) :=
      ⟨rfl, rfl, rfl, rfl, rfl, rfl, rfl, rfl, rfl⟩
    rw [node_cmp_congr_right hk2]
    exact node_cmp_self _
  have hupd : (flow_packet_update (repeat_record n) (sample_key4 2 12 10 20)
      (packet_time_ms repeat_packet.1) (sample_l3 2 12).l4_len repeat_packet.2.2).1 =
      repeat_record (n + 1) := by
    rw [htime]
    exact repeat_update n
  have hproc := ndpi_process_packet_resolved rt repeat_packet.1 repeat_packet.2.1
    repeat_packet.2.2 _ hres2
  simp only [] at hproc
  obtain ⟨⟨f1, f2, -, f4, f5⟩, -, f7, -, -⟩ := process_flow_path_frame
    (count_packet (clock_packet rt repeat_packet.1) (sample_l3 2 12).l4_len) 61
    (sample_key4 2 12 10 20) (repeat_record n) (sample_key4 2 12 10 20)
    (packet_time_ms repeat_packet.1) (sample_l3 2 12).l4_len repeat_packet.2.2
  have pc := (process_flow_counters
    (count_packet (clock_packet rt repeat_packet.1) (sample_l3 2 12).l4_len) 61
    (sample_key4 2 12 10 20) (repeat_record n) (sample_key4 2 12 10 20)
    (packet_time_ms repeat_packet.1) (sample_l3 2 12).l4_len repeat_packet.2.2).2.2.2.2
  rw [hupd] at pc
  have hslot : (count_packet (clock_packet rt repeat_packet.1)
      (sample_l3 2 12).l4_len).workflow.ndpi_flows_active 61 =
      .node (repeat_record n) .null .null := h3
  rw [hslot] at pc
  have pc2 : ndpi_node.store ndpi_workflow_node_cmp (sample_key4 2 12 10 20)
      (fun _ => repeat_record (n + 1)) (.node (repeat_record n) .null .null) =
      .node (repeat_record (n + 1)) .null .null := by
    simp only [ndpi_node.store, hcmp, if_true]
  rw [pc2] at pc
  rw [hproc]
  refine ⟨f1.trans h1, f7.trans h2, pc, f2.trans h5, f4.trans h7, f5.trans h8, ?_⟩
  unfold traced_process_packet
  rw [hres2]
  simp only [Bool.false_eq_true, if_false]
  rw [hg g, hupd]
  unfold traced_set_root
  rw [if_pos rfl, h9]
  simp only [traced_node.store, hcmp, if_true]
  rw [List.replicate_succ']
  rfl

theorem repeat_run_state (m n : Nat) (rt : nDPId_reader_thread) (g : Nat → traced_node)
    (h : repeat_state n rt g) :
    repeat_state (n + m) (run_pcap_loop rt (List.replicate m repeat_packet))
      (traced_run rt g (List.replicate m repeat_packet)) := by
  induction m generalizing n rt g with
  | zero => exact h
  | succ m ih =>
    rw [List.replicate_succ]
    simp only [run_pcap_loop, traced_run]
    have := ih (n + 1) _ _ (repeat_step n rt g h)
    rw [Nat.add_assoc, Nat.add_comm 1 m] at this
    exact this

theorem repeat_first_state :
    repeat_state 1
      (ndpi_process_packet (init_reader_thread DLT_EN10MB 3) repeat_packet.1 repeat_packet.2.1
        repeat_packet.2.2)
      (traced_process_packet (init_reader_thread DLT_EN10MB 3) (fun _ => .null) repeat_packet.1
        repeat_packet.2.1 repeat_packet.2.2) := by
  refine ⟨by decide, by decide, by decide, by decide, by decide, by decide, by decide⟩

theorem run_pcap_loop_cons (rt : nDPId_reader_thread)
    (p : pcap_pkthdr × packet_view × ndpi_results)
    (rest : List (pcap_pkthdr × packet_view × ndpi_results)) :
    run_pcap_loop rt (p :: rest) = run_pcap_loop (ndpi_process_packet rt p.1 p.2.1 p.2.2) rest :=
  rfl

theorem traced_run_cons (rt : nDPId_reader_thread) (g : Nat → traced_node)
    (p : pcap_pkthdr × packet_view × ndpi_results)
    (rest : List (pcap_pkthdr × packet_view × ndpi_results)) :
    traced_run rt g (p :: rest) =
      traced_run (ndpi_process_packet rt p.1 p.2.1 p.2.2)
        (traced_process_packet rt g p.1 p.2.1 p.2.2) rest :=
  rfl

theorem replicate_pred_cons {α : Type} (n : Nat) (a : α) (h : 0 < n) :
    List.replicate n a = a :: List.replicate (n - 1) a := by
  cases n with
  | zero => omega
  | succ k => rfl

/-- C16 fails as stated: worker 3 receives `2^64` packets of the UDP/IPv4 flow
`2:10 -> 12:20`, each with 40 payload bytes and stamped 0 s (no sweep runs).  The
first creates the record of slot 61 and all `2^64` packets resolve to it: its
trace has `2^64` entries, and its `packets_processed` is 0. -/
theorem C16_packets_processed_wraps_in_worker :
    (run_pcap_loop (init_reader_thread DLT_EN10MB 3)
        (List.replicate U64 repeat_packet)).workflow.ndpi_flows_active 61 =
      .node (repeat_record U64) .null .null ∧
    traced_run (init_reader_thread DLT_EN10MB 3) (fun _ => .null)
        (List.replicate U64 repeat_packet) 61 =
      .node (repeat_record U64) (List.replicate U64 40) .null .null ∧
    (List.replicate U64 40).length = 2 ^ 64 ∧
    (repeat_record U64).packets_processed = 0 := by
  have hU : 0 < U64 := by decide
  have hrun := repeat_run_state (U64 - 1) 1 _ _ repeat_first_state
  have h1 : 1 + (U64 - 1) = U64 := by decide
  rw [h1] at hrun
  obtain ⟨-, -, r3, -, -, -, r9⟩ := hrun
  rw [replicate_pred_cons U64 repeat_packet hU, run_pcap_loop_cons, traced_run_cons]
  refine ⟨r3, r9, ?_, ?_⟩
  · rw [List.length_replicate]
    rfl
  · exact Nat.mod_self U64

/-- C16 (amended): for a worker that has processed any packets `pkts` from its
initial state, `traced_run` gives every record of its trees the L4 payload
lengths of the packets that resolved to the record since its creation: the
worker's tree of slot `i` is the traced tree without the traces.  For every flow
record `r` in slot `i`, with its trace `lens`: `total_l4_data_len` is the sum of
`lens` modulo `2 ^ 64` and `packets_processed` is the number of entries of
`lens` modulo `2 ^ 64`. -/
theorem C16_counters_match_resolved_packets_mod_2_pow_64 (datalink : Nat) (array_index : Int)
    (pkts : List (pcap_pkthdr × packet_view × ndpi_results)) (i : Nat) (r : nDPId_flow_info)
    (hr : r ∈ ((run_pcap_loop (init_reader_thread datalink array_index)
      pkts).workflow.ndpi_flows_active i).keys) :
    (traced_run (init_reader_thread datalink array_index) (fun _ => .null) pkts i).erase =
      (run_pcap_loop (init_reader_thread datalink array_index) pkts).workflow.ndpi_flows_active
        i ∧
    ∃ lens,
      (r, lens) ∈
        (traced_run (init_reader_thread datalink array_index) (fun _ => .null) pkts i).entries ∧
      r.total_l4_data_len = lens.sum % U64 ∧ r.packets_processed = lens.length % U64 := by
  have hinit : traces_of (init_reader_thread datalink array_index) (fun _ => .null) :=
    ⟨fun _ => rfl, fun _ e he => by simp [traced_node.entries] at he⟩
  obtain ⟨t1, t2⟩ := traced_run_spec pkts _ _ hinit
  refine ⟨t1 i, ?_⟩
  rw [← t1 i, traced_erase_keys, List.mem_map] at hr
  obtain ⟨e, he, hfst⟩ := hr
  refine ⟨e.2, ?_, ?_⟩
  · rw [← hfst]
    exact he
  · rw [← hfst]
    exact t2 i e he

/-- Witness for C16 (amended): worker 3 processes two packets of one UDP/IPv4
flow with 10 and 20 payload bytes; the record of slot 61 has the trace
`[10, 20]`, `total_l4_data_len = 30` and `packets_processed = 2`. -/
theorem C16_counters_match_witness :
    (traced_run (init_reader_thread DLT_EN10MB 3) (fun _ => .null) sample_two_lengths
      61).entries = [(sample_record_lengths, [10, 20])] ∧
    (traced_run (init_reader_thread DLT_EN10MB 3) (fun _ => .null) sample_two_lengths 61).erase =
      (run_pcap_loop (init_reader_thread DLT_EN10MB 3)
        sample_two_lengths).workflow.ndpi_flows_active 61 ∧
    ∃ lens,
      (sample_record_lengths, lens) ∈
        (traced_run (init_reader_thread DLT_EN10MB 3) (fun _ => .null) sample_two_lengths
          61).entries ∧
      sample_record_lengths.total_l4_data_len = lens.sum % U64 ∧
      sample_record_lengths.packets_processed = lens.length % U64 :=
  ⟨by decide,
    C16_counters_match_resolved_packets_mod_2_pow_64 DLT_EN10MB 3 sample_two_lengths 61
      sample_record_lengths (by decide)⟩

end NDPId
